import Mathlib

/-!
# OpenLI collector: exporter pipeline and sequencing state

A shallow embedding of `src/collector/collector_export.c`.  Hash tables
(uthash) are finite maps, modelled as functions into `Option`; the table of
intercepts is kept in two parts, the entries whose key memory is live and the
entries whose key memory has been freed.  The doubly linked list of export
destinations is a `List`.  Everything outside of the
file that the exporter calls into (the ETSI encoder, `sendmsg`,
`connect_socket`) is an oracle supplied by an `Env`; the exporter keeps
counters of the oracle calls made so far, so that an `Env` can describe any
deterministic environment.  Fields marked "ghost" record what was observed
(encoder calls, bytes written to sockets) and never influence control flow.
-/

namespace OpenLI

/-! ## Machine integers -/

/-- Value of a C `int` holding the 32-bit two's complement pattern of `z`. -/
def wrap_int32 (z : Int) : Int := (z + 2147483648) % 4294967296 - 2147483648

/-- Subtraction of two `uint32_t` values. -/
def u32_sub (a b : Nat) : Nat := (a % 4294967296 + 4294967296 - b % 4294967296) % 4294967296

/-- The two bytes that `htons` followed by `memcpy` of a `uint16_t` writes. -/
def htons_bytes (n : Nat) : List Nat := [(n / 256) % 256, n % 256]

/-! ## Export messages and `forward_fd`'s scatter/gather view -/

/-- The libwandder encoded result: buffer and length. -/
structure wandder_encoded_result where
  encoded : List Nat
  len : Nat
deriving DecidableEq, Repr

/-- The record handed over by the encoder (`openli_exportmsg_t`). A `NULL`
pointer is `none`. -/
structure openli_exportmsg where
  msgbody : wandder_encoded_result
  ipcontents : List Nat
  ipclen : Nat
  header : Option (List Nat)
  hdrlen : Nat
  liid : Option (List Nat)
  liidlen : Nat
  destid : Nat
deriving DecidableEq, Repr

/-- `uint32_t enclen = msg->msgbody->len - msg->ipclen;` -/
def forward_fd_enclen (msg : openli_exportmsg) : Nat := u32_sub msg.msgbody.len msg.ipclen

/-- The `iov` array assembled by `forward_fd`, entry by entry. -/
def forward_fd_iov (msg : openli_exportmsg) : List (List Nat) :=
  (match msg.header with
   | some h => [h.take msg.hdrlen]
   | none => []) ++
  (match msg.liid with
   | some l => [htons_bytes msg.liidlen ++ l.take msg.liidlen]
   | none => []) ++
  [msg.msgbody.encoded.take (forward_fd_enclen msg)] ++
  (if msg.ipclen > 0 then [msg.ipcontents.take msg.ipclen] else [])

/-- The `int total` accumulated by `forward_fd` next to the `iov` array. -/
def forward_fd_total (msg : openli_exportmsg) : Int :=
  let total : Int := 0
  let total := match msg.header with
    | some _ => wrap_int32 (total + msg.hdrlen)
    | none => total
  let total := match msg.liid with
    | some _ => wrap_int32 (total + (msg.liidlen + 2 : Nat))
    | none => total
  let total := wrap_int32 (total + forward_fd_enclen msg)
  if msg.ipclen > 0 then wrap_int32 (total + msg.ipclen) else total

/-- The byte string `sendmsg` is offered. -/
def forward_fd_bytes (msg : openli_exportmsg) : List Nat := (forward_fd_iov msg).flatten

/-! ## Export buffer -/

/-- A byte together with the enqueue index of the record it belongs to
(the index is ghost). -/
structure TByte where
  tag : Nat
  val : Nat
deriving DecidableEq, Repr

/-- Modelled from the spec: `export_buffer_t` of `export_buffer.h`, which is
not among the sources. An ordered queue holding fully encoded records, the
record at `head` first, and `partialfront`, the count of bytes of the record
at `head` that were already sent on the current connection. -/
structure export_buffer where
  records : List (List TByte)
  partialfront : Nat
deriving DecidableEq, Repr

/-- Modelled from the spec: the bytes of the queue from `head` to `tail`, the
queued records one behind the other. -/
def export_buffer.bytes (buf : export_buffer) : List TByte := buf.records.flatten

/-- Modelled from the spec: `init_export_buffer` of `export_buffer.c`; a new
buffer holds nothing. -/
def init_export_buffer : export_buffer := { records := [], partialfront := 0 }

/-- Modelled from the spec: `get_buffered_amount` of `export_buffer.c`;
`buffered_bytes()` reports the queue length. -/
def get_buffered_amount (buf : export_buffer) : Nat := buf.bytes.length

/-- Modelled from the spec: `append_message_to_buffer` of `export_buffer.c`;
`append(record, already_sent)` appends the encoded bytes (in the wire layout
of the record) as one record at `tail` and records `already_sent` as the count
pre-transmitted on a prior partial send, which concerns the record at `head`:
it is recorded when the appended record becomes the head of the queue. -/
def append_message_to_buffer (buf : export_buffer) (tag : Nat) (msg : openli_exportmsg)
    (beensent : Nat) : export_buffer :=
  { records := buf.records ++ [(forward_fd_bytes msg).map (fun b => { tag := tag, val := b })],
    partialfront := if buf.bytes.length = 0 then beensent else buf.partialfront }

/-- What a non-blocking send attempt on a socket results in. -/
inductive SendOutcome where
  | sent (n : Nat)
  | eagain
  | error
deriving DecidableEq, Repr

/-- Modelled from the spec: the freeing of drained records in `transmit`.
`sent` counts the bytes that went out so far, from the first byte of the
record at `head`; every record that went out completely is freed, and what is
left of `sent` is the count of bytes already sent of the record that is at
`head` afterwards (the new `partialfront`). -/
def free_drained_records : List (List TByte) → Nat → List (List TByte) × Nat
  | [], _ => ([], 0)
  | r :: rs, sent =>
    if r.length ≤ sent then free_drained_records rs (sent - r.length) else (r :: rs, sent)

/-- Modelled from the spec: `transmit_buffered_records` of `export_buffer.c`;
`transmit(fd, max_batch)` writes up to `max_batch` bytes from
`head + partialfront`, advancing `partialfront` on partial writes and freeing
drained records, so that `head` is always the first byte of a record. The
result is the buffer, the return value (`-1` on a socket error, as tested by
the callers) and the bytes that went out (ghost). -/
def transmit_buffered_records (buf : export_buffer) (o : SendOutcome) (bytelimit : Nat) :
    export_buffer × Int × List TByte :=
  let offered := (buf.bytes.drop buf.partialfront).take bytelimit
  match o with
  | SendOutcome.error => (buf, -1, [])
  | SendOutcome.eagain => (buf, 0, [])
  | SendOutcome.sent n =>
    let ret := min n offered.length
    let r := free_drained_records buf.records (buf.partialfront + ret)
    ({ records := r.1, partialfront := r.2 }, (ret : Int), offered.take ret)

def BUF_BATCH_SIZE : Nat := 10 * 1024 * 1024

/-! ## Mediator registry -/

/-- The mediator announcement (`openli_mediator_t`). -/
structure openli_mediator where
  mediatorid : Nat
  ipstr : Option String
  portstr : Option String
deriving DecidableEq, Repr

/-- An export destination (`export_dest_t`). `wire` is ghost: the bytes
written on each connection this entry has had, most recent connection first. -/
structure export_dest where
  failmsg : Nat
  fd : Int
  details : openli_mediator
  awaitingconfirm : Bool
  halted : Bool
  buffer : export_buffer
  wire : List (List TByte)
deriving DecidableEq, Repr

/-- Ghost: record bytes written on the current connection. -/
def wire_write (w : List (List TByte)) (bs : List TByte) : List (List TByte) :=
  match w with
  | [] => [bs]
  | cur :: old => (cur ++ bs) :: old

/-- The function `forward_fd`: a scatter/gather `sendmsg` of one record. -/
def forward_fd (dest : export_dest) (tag : Nat) (msg : openli_exportmsg) (o : SendOutcome) :
    export_dest × Int :=
  let offered := forward_fd_bytes msg
  let total := forward_fd_total msg
  match o with
  | SendOutcome.error =>
    ({ dest with buffer := append_message_to_buffer dest.buffer tag msg 0 }, -1)
  | SendOutcome.eagain =>
    ({ dest with buffer := append_message_to_buffer dest.buffer tag msg 0 }, 0)
  | SendOutcome.sent n =>
    let ret := min n offered.length
    let written := (offered.take ret).map (fun b => ({ tag := tag, val := b } : TByte))
    let dest := { dest with wire := wire_write dest.wire written }
    if (ret : Int) < total then
      ({ dest with buffer := append_message_to_buffer dest.buffer tag msg (ret % 4294967296) }, 0)
    else
      (dest, 0)

/-- The function `forward_message`; `o1` is the outcome of the send inside
`transmit_buffered_records` and `o2` that of the `sendmsg` in `forward_fd`,
each used only if that call is made. -/
def forward_message (dest : export_dest) (tag : Nat) (msg : openli_exportmsg)
    (o1 o2 : SendOutcome) : export_dest × Int :=
  if dest.fd = -1 then
    ({ dest with buffer := append_message_to_buffer dest.buffer tag msg 0 }, 0)
  else if get_buffered_amount dest.buffer = 0 then
    forward_fd dest tag msg o2
  else
    let r := transmit_buffered_records dest.buffer o1 BUF_BATCH_SIZE
    let dest := { dest with buffer := r.1, wire := wire_write dest.wire r.2.2 }
    if r.2.1 = -1 then
      (dest, -1)
    else if get_buffered_amount dest.buffer = 0 then
      forward_fd dest tag msg o2
    else
      ({ dest with buffer := append_message_to_buffer dest.buffer tag msg 0 }, 0)

/-- The function `add_unknown_destination`: the entry it pushes to the back. -/
def add_unknown_destination (medid : Nat) : export_dest :=
  { failmsg := 0, fd := -1,
    details := { mediatorid := medid, ipstr := none, portstr := none },
    awaitingconfirm := false, halted := false,
    buffer := init_export_buffer, wire := [] }

/-- The function `remove_destination`: every entry with the mediator's id has
its socket closed and is halted. -/
def remove_destination_dests (dests : List export_dest) (med : openli_mediator) :
    List export_dest :=
  dests.map (fun dest =>
    if dest.details.mediatorid ≠ med.mediatorid then dest
    else { dest with fd := -1, halted := true })

/-- The list walk of `add_new_destination`: `none` when the walk falls off the
end of the list (an entirely new mediator id). -/
def add_new_destination_walk (med : openli_mediator) : List export_dest → Option (List export_dest)
  | [] => none
  | dest :: rest =>
    if dest.details.ipstr = none ∧ dest.details.mediatorid = med.mediatorid then
      some ({ dest with failmsg := 0, fd := -1, details := med } :: rest)
    else if dest.details.mediatorid = med.mediatorid then
      let dest :=
        if dest.details.ipstr ≠ med.ipstr ∨ dest.details.portstr ≠ med.portstr then
          { dest with details := med, fd := -1 }
        else dest
      some ({ dest with awaitingconfirm := false, halted := false } :: rest)
    else
      (add_new_destination_walk med rest).map (fun ds => dest :: ds)

/-- The registry after `add_new_destination`. -/
def add_new_destination_dests (dests : List export_dest) (med : openli_mediator) :
    List export_dest :=
  match add_new_destination_walk med dests with
  | some ds => ds
  | none =>
    dests ++ [{ failmsg := 0, fd := -1, awaitingconfirm := false, halted := false,
                details := med, buffer := init_export_buffer, wire := [] }]

/-- The function `purge_unconfirmed_mediators`. -/
def purge_unconfirmed_mediators_dests (dests : List export_dest) : List export_dest :=
  dests.map (fun dest =>
    if dest.awaitingconfirm then { dest with fd := -1, halted := true } else dest)

/-- The function `connect_single_target`; `sockfd` is what `connect_socket`
returns if it is called. -/
def connect_single_target (dest : export_dest) (sockfd : Int) : export_dest × Int :=
  if dest.details.ipstr = none then (dest, -1)
  else if sockfd = -1 then (dest, -1)
  else if sockfd = 0 then ({ dest with failmsg := 1 }, -1)
  else ({ dest with failmsg := 0, buffer := { dest.buffer with partialfront := 0 } }, sockfd)

/-- One iteration of the loop of `connect_export_targets`: the entry, and what
is added to `success` and to `failed_conns`. A new connection starts a new
(ghost) wire log. -/
def connect_export_target (d : export_dest) (sockfd : Int) (o : SendOutcome) :
    export_dest × Nat × Nat :=
  if d.halted then (d, 0, 0)
  else if d.fd ≠ -1 then (d, 1, 0)
  else
    let r := connect_single_target d sockfd
    let d : export_dest := { r.1 with fd := r.2 }
    if d.fd ≠ -1 then
      let d : export_dest := { d with wire := [] :: d.wire }
      if get_buffered_amount d.buffer > 0 then
        let t := transmit_buffered_records d.buffer o BUF_BATCH_SIZE
        let d : export_dest := { d with buffer := t.1, wire := wire_write d.wire t.2.2 }
        if t.2.1 = -1 then ({ d with fd := -1 }, 0, 1) else (d, 1, 0)
      else (d, 1, 0)
    else (d, 0, 1)

/-- The loop of `connect_export_targets` over the list; the `i`-th entry is
given the `i`-th connect result and send outcome. -/
def connect_export_targets_walk (conn : Nat → Int) (send : Nat → SendOutcome) :
    Nat → List export_dest → List export_dest × Nat × Nat
  | _, [] => ([], 0, 0)
  | i, d :: rest =>
    let r := connect_export_target d (conn i) (send i)
    let rs := connect_export_targets_walk conn send (i + 1) rest
    (r.1 :: rs.1, r.2.1 + rs.2.1, r.2.2 + rs.2.2)

/-- The list walk of `export_encoded_record`: `none` when no entry has the
record's `destid`. -/
def export_encoded_record_walk (tag : Nat) (tosend : openli_exportmsg) (o1 o2 : SendOutcome) :
    List export_dest → Option (List export_dest × Int)
  | [] => none
  | dest :: rest =>
    if dest.details.mediatorid = tosend.destid then
      let r := forward_message dest tag tosend o1 o2
      if r.2 = -1 then some ({ r.1 with fd := -1 } :: rest, -1)
      else some (r.1 :: rest, 1)
    else
      (export_encoded_record_walk tag tosend o1 o2 rest).map (fun p => (dest :: p.1, p.2))

/-- The registry part of `export_encoded_record`. -/
def export_encoded_record_dests (dests : List export_dest) (tag : Nat)
    (tosend : openli_exportmsg) (o1 o2 : SendOutcome) : List export_dest × Int :=
  match export_encoded_record_walk tag tosend o1 o2 dests with
  | some r => r
  | none =>
    let r := forward_message (add_unknown_destination tosend.destid) tag tosend o1 o2
    if r.2 = -1 then (dests ++ [r.1], -1) else (dests ++ [r.1], 1)

/-! ## Intercept state table -/

/-- The intercept announcement (`exporter_intercept_msg_t`). -/
structure exporter_intercept_msg where
  liid : String
  authcc : String
  delivcc : String
deriving DecidableEq, Repr

/-- Modelled from the spec: `cin_seqno_t` of `collector_export.h`, which is
not among the sources; `cin`, and the monotone counters `iri_seqno` and
`cc_seqno`. -/
structure cin_seqno where
  cin : Nat
  iri_seqno : Nat
  cc_seqno : Nat
deriving DecidableEq, Repr

/-- The per-LIID state (`exporter_intercept_state_t`); `cinsequencing` is the
uthash table keyed by CIN. The key of the entry in `exp->intercepts` is not
held here: it is a pointer to the `liid` of the announcement that created the
entry (`HASH_ADD_KEYPTR` on `msg->liid`). -/
structure exporter_intercept_state where
  details : exporter_intercept_msg
  cinsequencing : Nat → Option cin_seqno

inductive openli_export_type where
  | OPENLI_EXPORT_IPMMCC
  | OPENLI_EXPORT_IPCC
  | OPENLI_EXPORT_IPMMIRI
  | OPENLI_EXPORT_IPIRI
deriving DecidableEq, Repr

open openli_export_type

/-- An encoding job (`openli_export_recv_t`); `liid` and `cin` are what
`extract_liid_from_job` and `extract_cin_from_job` read from the union, and
`payload` stands for the rest of it. -/
structure openli_export_recv where
  type : openli_export_type
  destid : Nat
  liid : String
  cin : Nat
  payload : List Nat
deriving DecidableEq, Repr

/-- The arguments of one call of an `encode_*` function. -/
structure enc_call where
  job : openli_export_recv
  details : exporter_intercept_msg
  seqno : Nat
  ind : Nat
deriving DecidableEq, Repr

/-- The environment of the exporter: the encoder (its return value and the
record it fills in), `sendmsg`/`send`, `connect_socket` and `timerfd_create`,
each as a function of the number of calls made before. -/
structure Env where
  enc : Nat → enc_call → Int × openli_exportmsg
  send : Nat → SendOutcome
  connect : Nat → Int
  timerfd_create : Nat → Int

/-- The exporter (`collector_export_t`). The uthash table `exp->intercepts`
is held in two parts: `intercepts` has the entries whose key memory is live,
that is, whose `details` still is the announcement that created the entry, and
`freed_intercepts` has the entries whose key memory was freed, which happens
when `exporter_new_intercept` frees that announcement to replace it; for the
LIID of such an entry `HASH_FIND` compares against freed memory. (A lookup of
another LIID reads the freed key only if both the 32-bit hash value and the
length agree; that collision is left out.) Ghost: the oracle counters `nenc`,
`nsend`, `nconn`, `ntimer`, the records `forwarded` to `export_encoded_record`
so far (a record's position in this list is its tag on the wire) and the
`trace` of encoder calls with their return values. -/
structure collector_export where
  dests : List export_dest
  intercepts : String → Option exporter_intercept_state
  freed_intercepts : String → Option exporter_intercept_state
  failed_conns : Nat
  flagged : Bool
  flagtimerfd : Int
  count : Nat
  nenc : Nat
  nsend : Nat
  nconn : Nat
  ntimer : Nat
  forwarded : List openli_exportmsg
  trace : List (enc_call × Int)

/-- The function `init_exporter`. -/
def init_exporter : collector_export :=
  { dests := [], intercepts := fun _ => none, freed_intercepts := fun _ => none,
    failed_conns := 0, flagged := false,
    flagtimerfd := -1, count := 0, nenc := 0, nsend := 0, nconn := 0, ntimer := 0,
    forwarded := [], trace := [] }

/-- The function `connect_export_targets`. -/
def connect_export_targets (env : Env) (exp : collector_export) : collector_export × Nat :=
  let r := connect_export_targets_walk (fun i => env.connect (exp.nconn + i))
    (fun i => env.send (exp.nsend + i)) 0 exp.dests
  ({ exp with dests := r.1, failed_conns := r.2.2,
              nconn := exp.nconn + exp.dests.length,
              nsend := exp.nsend + exp.dests.length }, r.2.1)

/-- The function `remove_destination`. -/
def remove_destination (exp : collector_export) (med : openli_mediator) : collector_export :=
  { exp with dests := remove_destination_dests exp.dests med }

/-- The function `add_new_destination`. -/
def add_new_destination (env : Env) (exp : collector_export) (med : openli_mediator) :
    collector_export × Int :=
  let exp := { exp with dests := add_new_destination_dests exp.dests med }
  if !exp.flagged then (exp, 1)
  else if exp.flagtimerfd = -1 then
    let fd := env.timerfd_create exp.ntimer
    let exp := { exp with flagtimerfd := fd, ntimer := exp.ntimer + 1 }
    if fd = -1 then (exp, -1) else (exp, 1)
  else (exp, 1)

/-- The function `purge_unconfirmed_mediators`. -/
def purge_unconfirmed_mediators (exp : collector_export) : collector_export :=
  { exp with dests := purge_unconfirmed_mediators_dests exp.dests }

/-- The function `export_encoded_record`. -/
def export_encoded_record (env : Env) (exp : collector_export) (tosend : openli_exportmsg) :
    collector_export × Int :=
  let r := export_encoded_record_dests exp.dests exp.forwarded.length tosend
    (env.send exp.nsend) (env.send (exp.nsend + 1))
  ({ exp with dests := r.1, forwarded := exp.forwarded ++ [tosend],
              nsend := exp.nsend + 2 }, r.2)

/-- The function `exporter_new_intercept`; the result is `none` when
`HASH_FIND` compares against a freed key, after which the behaviour of the
program is undefined. For an LIID that is in the table, `free_intercept_msg`
frees the stored announcement, whose `liid` is the key of the entry, and the
new announcement is stored: the entry keeps its CIN table and has a freed key
from then on. For a new LIID the entry is added with `msg->liid` as its key. -/
def exporter_new_intercept (exp : collector_export) (msg : exporter_intercept_msg) :
    Option collector_export :=
  match exp.intercepts msg.liid with
  | some intstate =>
    some { exp with
      intercepts := Function.update exp.intercepts msg.liid none,
      freed_intercepts :=
        Function.update exp.freed_intercepts msg.liid (some { intstate with details := msg }) }
  | none =>
    match exp.freed_intercepts msg.liid with
    | some _ => none
    | none =>
      let fresh : exporter_intercept_state := { details := msg, cinsequencing := fun _ => none }
      some { exp with intercepts := Function.update exp.intercepts msg.liid (some fresh) }

/-- The function `exporter_end_intercept`; the result is `none` when
`HASH_FIND` compares against a freed key. -/
def exporter_end_intercept (exp : collector_export) (msg : exporter_intercept_msg) :
    Option (collector_export × Int) :=
  match exp.intercepts msg.liid with
  | some _ => some ({ exp with intercepts := Function.update exp.intercepts msg.liid none }, 1)
  | none =>
    match exp.freed_intercepts msg.liid with
    | some _ => none
    | none => some (exp, -1)

/-- A write through the `cinseq` pointer: the counter record that the table
of intercept `liid` holds under the key `cin` becomes `c`. -/
def store_cinseq (tbl : String → Option exporter_intercept_state) (liid : String)
    (cin : Nat) (c : cin_seqno) : String → Option exporter_intercept_state :=
  match tbl liid with
  | some intstate =>
    let written : exporter_intercept_state :=
      { intstate with cinsequencing := Function.update intstate.cinsequencing cin (some c) }
    Function.update tbl liid (some written)
  | none => tbl

/-- Whether the job consumes `cc_seqno` (otherwise `iri_seqno`). -/
def is_cc_job (t : openli_export_type) : Bool :=
  match t with
  | OPENLI_EXPORT_IPMMCC => true
  | OPENLI_EXPORT_IPCC => true
  | OPENLI_EXPORT_IPMMIRI => false
  | OPENLI_EXPORT_IPIRI => false

/-- The result of the `switch (recvd->type)` statement in the loop of
`run_encoding_job`: the exporter, the counter record behind `cinseq`, `ind`,
`ret` and the record `tosend` filled in by the encoder. -/
structure encode_result where
  exp : collector_export
  cinseq : cin_seqno
  ind : Nat
  ret : Int
  tosend : openli_exportmsg

/-- The `switch (recvd->type)` statement in the loop of `run_encoding_job`:
one encoder call and the counter updates that follow it. -/
def run_encoding_switch (env : Env) (recvd : openli_export_recv)
    (details : exporter_intercept_msg) (exp : collector_export) (cinseq : cin_seqno)
    (ind : Nat) : encode_result :=
  let call : enc_call :=
    { job := recvd, details := details,
      seqno := if is_cc_job recvd.type then cinseq.cc_seqno else cinseq.iri_seqno,
      ind := ind }
  let r := env.enc exp.nenc call
  let ret := r.1
  let cinseq1 : cin_seqno :=
    match recvd.type with
    | OPENLI_EXPORT_IPMMCC => { cinseq with cc_seqno := cinseq.cc_seqno + 1 }
    | OPENLI_EXPORT_IPCC => { cinseq with cc_seqno := cinseq.cc_seqno + 1 }
    | OPENLI_EXPORT_IPMMIRI =>
      if ret ≥ 0 then { cinseq with iri_seqno := cinseq.iri_seqno + 1 } else cinseq
    | OPENLI_EXPORT_IPIRI =>
      if ret ≥ 0 then { cinseq with iri_seqno := cinseq.iri_seqno + 1 } else cinseq
  let ind1 :=
    match recvd.type with
    | OPENLI_EXPORT_IPIRI => if ret ≥ 0 then ind + 1 else ind
    | _ => ind
  { exp := { exp with nenc := exp.nenc + 1, trace := exp.trace ++ [(call, ret)],
                      intercepts := store_cinseq exp.intercepts recvd.liid recvd.cin cinseq1 },
    cinseq := cinseq1, ind := ind1, ret := ret, tosend := r.2 }

/-- The `while (ret != 0)` loop of `run_encoding_job`. `cinseq` is the
counter record the C pointer refers to, `ind` the iteration index; the result
is `none` when the loop is still running after `fuel` iterations. -/
def run_encoding_loop (env : Env) (recvd : openli_export_recv) (details : exporter_intercept_msg) :
    Nat → collector_export → cin_seqno → Nat → collector_export × Option Int
  | 0, exp, _, _ => (exp, none)
  | fuel + 1, exp, cinseq, ind =>
    let e := run_encoding_switch env recvd details exp cinseq ind
    if e.ret < 0 then (e.exp, some e.ret)
    else
      let x := export_encoded_record env e.exp { e.tosend with destid := recvd.destid }
      if x.2 < 0 then (x.1, some (-1))
      else if e.ret = 0 then (x.1, some 0)
      else run_encoding_loop env recvd details fuel x.1 e.cinseq e.ind

/-- The function `run_encoding_job`. There is no return value (`none`) when
the loop is still running after `fuel` iterations, or when `HASH_FIND`
compares against a freed key, after which the behaviour of the program is
undefined. -/
def run_encoding_job (env : Env) (fuel : Nat) (exp : collector_export)
    (recvd : openli_export_recv) : collector_export × Option Int :=
  match exp.intercepts recvd.liid with
  | none =>
    match exp.freed_intercepts recvd.liid with
    | some _ => (exp, none)
    | none => (exp, some 0)
  | some intstate =>
    match intstate.cinsequencing recvd.cin with
    | some cinseq => run_encoding_loop env recvd intstate.details fuel exp cinseq 0
    | none =>
      let cinseq : cin_seqno := { cin := recvd.cin, iri_seqno := 0, cc_seqno := 0 }
      let exp := { exp with intercepts := store_cinseq exp.intercepts recvd.liid recvd.cin cinseq }
      run_encoding_loop env recvd intstate.details fuel exp cinseq 0

/-- The messages on the exporter queue, by the type byte that leads them. A
`JOB` is a job of any of the four kinds; `FLAG_MEDIATORS` is one of the types
that `read_exported_message` has no case for. -/
inductive export_message where
  | MEDIATOR (med : openli_mediator)
  | DROP_SINGLE_MEDIATOR (med : openli_mediator)
  | INTERCEPT_DETAILS (cept : exporter_intercept_msg)
  | INTERCEPT_OVER (cept : exporter_intercept_msg)
  | JOB (recvd : openli_export_recv)
  | FLAG_MEDIATORS
deriving DecidableEq, Repr

/-- What wakes the loop of `exporter_thread_main` up: a queued message, the
timer after which `connect_export_targets` runs, or the flag timeout. -/
inductive exporter_event where
  | MESSAGE (m : export_message)
  | CONNECT_TIMER
  | FLAG_TIMEOUT
deriving DecidableEq, Repr

/-- The `switch (msgtype)` of `read_exported_message` (the one that is
compiled; the second one of the file is inside `#if 0`), for a message whose
frames were all read. Only `OPENLI_EXPORT_IPIRI` and `OPENLI_EXPORT_IPCC` jobs
go to `run_encoding_job`; the frames of every other job and of a message of
any other type are read and dropped in `default:`, with `ret` left at 0. -/
def read_exported_message (env : Env) (fuel : Nat) (exp : collector_export)
    (m : export_message) : collector_export × Option Int :=
  match m with
  | export_message.MEDIATOR med =>
    let r := add_new_destination env exp med
    (r.1, some r.2)
  | export_message.DROP_SINGLE_MEDIATOR med => (remove_destination exp med, some 1)
  | export_message.INTERCEPT_DETAILS cept =>
    match exporter_new_intercept exp cept with
    | some exp1 => (exp1, some 1)
    | none => (exp, none)
  | export_message.INTERCEPT_OVER cept =>
    match exporter_end_intercept exp cept with
    | some r => (r.1, some r.2)
    | none => (exp, none)
  | export_message.JOB recvd =>
    match recvd.type with
    | OPENLI_EXPORT_IPIRI => run_encoding_job env fuel exp recvd
    | OPENLI_EXPORT_IPCC => run_encoding_job env fuel { exp with count := exp.count + 1 } recvd
    | OPENLI_EXPORT_IPMMCC => (exp, some 0)
    | OPENLI_EXPORT_IPMMIRI => (exp, some 0)
  | export_message.FLAG_MEDIATORS => (exp, some 0)

/-- One event of the exporter loop. The flag timer is polled only when
`flagtimerfd` is not -1. -/
def exporter_step (env : Env) (fuel : Nat) (exp : collector_export) (e : exporter_event) :
    collector_export × Option Int :=
  match e with
  | exporter_event.MESSAGE m => read_exported_message env fuel exp m
  | exporter_event.CONNECT_TIMER => ((connect_export_targets env exp).1, some 1)
  | exporter_event.FLAG_TIMEOUT =>
    if exp.flagtimerfd ≠ -1 then
      ({ purge_unconfirmed_mediators exp with flagged := false, flagtimerfd := -1 }, some 1)
    else (exp, some 1)

/-- A run of the exporter over a sequence of events; it goes no further than
a message whose handling has no return value: an encoding job whose loop does
not end within `fuel` iterations, or a `HASH_FIND` on a freed key. -/
def exporter_run (env : Env) (fuel : Nat) : collector_export → List exporter_event →
    collector_export
  | exp, [] => exp
  | exp, e :: es =>
    match exporter_step env fuel exp e with
    | (exp1, some _) => exporter_run env fuel exp1 es
    | (exp1, none) => exp1

/-! ## Concrete inputs -/

/-- An encoded body of 2 GiB. -/
def body_2gib : List Nat := List.replicate 2147483648 0

/-- A record whose encoded body is 2 GiB long. -/
def msg_2gib : openli_exportmsg :=
  { msgbody := { encoded := body_2gib, len := 2147483648 },
    ipcontents := [], ipclen := 0, header := some [1], hdrlen := 1,
    liid := some [90], liidlen := 1, destid := 1 }

/-- A small IPCC record: a 3-byte header, the LIID `XY`, a 4-byte encoded
body whose last 2 bytes stand for the IP content held separately. -/
def msg_small : openli_exportmsg :=
  { msgbody := { encoded := [48, 49, 0, 0], len := 4 },
    ipcontents := [69, 0], ipclen := 2, header := some [1, 2, 3], hdrlen := 3,
    liid := some [88, 89], liidlen := 2, destid := 1 }

/-- The arguments of the `i`-th encoder call made for an IPIRI job that
starts at sequence number `s` and iteration index `ind`. -/
def iri_call (recvd : openli_export_recv) (details : exporter_intercept_msg) (s ind i : Nat) :
    enc_call :=
  { job := recvd, details := details, seqno := s + i, ind := ind + i }

/-- The counter record `run_encoding_job` works on for `cin`: the one in the
table, or the fresh one it creates. -/
def cinseq_of (intstate : exporter_intercept_state) (cin : Nat) : cin_seqno :=
  match intstate.cinsequencing cin with
  | some cinseq => cinseq
  | none => { cin := cin, iri_seqno := 0, cc_seqno := 0 }

/-- An environment whose sockets take every byte, whose connects succeed, and
whose IPIRI encoder has three parameter blocks to emit: it returns 1 on the
iterations 0 and 1 and 0 (done) on iteration 2; the other encoders return 0.
The encoded body carries the sequence number. -/
def env_three_blocks : Env :=
  { enc := fun _ c =>
      (if c.job.type = OPENLI_EXPORT_IPIRI ∧ c.ind < 2 then 1 else 0,
       { msgbody := { encoded := [c.seqno], len := 1 }, ipcontents := [], ipclen := 0,
         header := some [7], hdrlen := 1, liid := some [88], liidlen := 1, destid := 0 }),
    send := fun _ => SendOutcome.sent 65536,
    connect := fun _ => 5,
    timerfd_create := fun _ => 3 }

/-- The exporter after the first announcement of an intercept: the table has
the entry of `msg.liid`, its key live, and nothing else. -/
def exp_announced (msg : exporter_intercept_msg) : collector_export :=
  { init_exporter with
    intercepts := Function.update init_exporter.intercepts msg.liid
      (some { details := msg, cinsequencing := fun _ => none }) }

/-- The exporter after `INTERCEPT_DETAILS(liid="X", authcc="NZ", delivcc="NZ")`. -/
def exp_x : collector_export := exp_announced { liid := "X", authcc := "NZ", delivcc := "NZ" }

/-- An IPIRI job for `(X, 7)` towards mediator 1. -/
def job_iri_x7 : openli_export_recv :=
  { type := OPENLI_EXPORT_IPIRI, destid := 1, liid := "X", cin := 7, payload := [117] }

/-- An IPCC job for `(X, 7)` towards mediator 1. -/
def job_cc_x7 : openli_export_recv :=
  { type := OPENLI_EXPORT_IPCC, destid := 1, liid := "X", cin := 7, payload := [80] }

/-- An environment whose encoder fails on every call. -/
def env_enc_fails : Env :=
  { env_three_blocks with enc := fun _ c => (-1, (env_three_blocks.enc 0 c).2) }

/-! ## Sequence numbers seen by the encoder -/

/-- The sequence numbers, in call order, that the encoder calls of a trace
were given for the CC records (`cc = true`) or the IRI records
(`cc = false`) of `(liid, cin)`. -/
def seqnos_of (tr : List (enc_call × Int)) (liid : String) (cin : Nat) (cc : Bool) : List Nat :=
  (tr.filter (fun p =>
    decide (p.1.job.liid = liid ∧ p.1.job.cin = cin ∧ is_cc_job p.1.job.type = cc))).map
    (fun p => p.1.seqno)

/-- Scenario S1 after the `INTERCEPT_DETAILS` for `X`: the mediator
announcement and connection, a CC, an IRI and another CC for `(X, 7)`. -/
def events_s1 : List exporter_event :=
  [exporter_event.MESSAGE (export_message.MEDIATOR
      { mediatorid := 1, ipstr := some "127.0.0.1", portstr := some "9000" }),
   exporter_event.CONNECT_TIMER,
   exporter_event.MESSAGE (export_message.JOB job_cc_x7),
   exporter_event.MESSAGE (export_message.JOB job_iri_x7),
   exporter_event.MESSAGE (export_message.INTERCEPT_DETAILS
      { liid := "X", authcc := "AU", delivcc := "NZ" }),
   exporter_event.MESSAGE (export_message.JOB job_cc_x7)]

/-- An IPCC job for `(Z, 1)` towards mediator 1. -/
def job_cc_z1 : openli_export_recv :=
  { type := OPENLI_EXPORT_IPCC, destid := 1, liid := "Z", cin := 1, payload := [80] }

/-- Scenario S6 up to the re-announcement: `INTERCEPT_DETAILS(liid="Z",
authcc="US")` and 3 CCs for `(Z, 1)`. -/
def exp_z3 : collector_export :=
  exporter_run env_three_blocks 5
    (exp_announced { liid := "Z", authcc := "US", delivcc := "US" })
    [exporter_event.MESSAGE (export_message.JOB job_cc_z1),
     exporter_event.MESSAGE (export_message.JOB job_cc_z1),
     exporter_event.MESSAGE (export_message.JOB job_cc_z1)]

/-- An IPCC job for `(X, 7)` towards mediator 42, which nobody has announced. -/
def job_cc_x7_to42 : openli_export_recv :=
  { type := OPENLI_EXPORT_IPCC, destid := 42, liid := "X", cin := 7, payload := [80] }

/-- The announcement of mediator 42. -/
def med_42 : openli_mediator :=
  { mediatorid := 42, ipstr := some "192.0.2.1", portstr := some "9042" }

/-- The announcement of mediator 1. -/
def med_1 : openli_mediator :=
  { mediatorid := 1, ipstr := some "127.0.0.1", portstr := some "9000" }

/-- The exporter with mediator 1 announced and connected. -/
def exp_med1 : collector_export :=
  exporter_run env_three_blocks 5 init_exporter
    [exporter_event.MESSAGE (export_message.MEDIATOR med_1), exporter_event.CONNECT_TIMER]

/-- The re-announcement of `Z` with another `authcc`. -/
def cept_z_gb : exporter_intercept_msg := { liid := "Z", authcc := "GB", delivcc := "US" }

/-! ## What reaches a mediator socket -/

/-- The bytes a socket takes when it is offered `offered`. -/
def sent_bytes (o : SendOutcome) (offered : List TByte) : List TByte :=
  match o with
  | SendOutcome.sent n => offered.take n
  | SendOutcome.eagain => []
  | SendOutcome.error => []

/-- The bytes of a record as they are queued and written, tagged with the
record's enqueue index. -/
def tagged_bytes (tag : Nat) (msg : openli_exportmsg) : List TByte :=
  (forward_fd_bytes msg).map (fun b => { tag := tag, val := b })

/-- Every record queued in the buffer of an entry is a whole record: the
bytes, in wire layout, of a record that was handed to `export_encoded_record`,
tagged with its position among the `forwarded` records. -/
def whole_records (forwarded : List openli_exportmsg) (d : export_dest) : Prop :=
  ∀ r ∈ d.buffer.records, ∃ k msg, forwarded[k]? = some msg ∧ r = tagged_bytes k msg

/-- The buffers of the registry hold whole records. -/
def registry_whole (exp : collector_export) : Prop :=
  ∀ d ∈ exp.dests, whole_records exp.forwarded d

/-- An environment like `env_three_blocks` whose mediator socket takes only 2
bytes of the third send (a partial send in the middle of a record) and fails
on the fourth. -/
def env_midrecord : Env :=
  { env_three_blocks with
    send := fun i =>
      if i = 2 then SendOutcome.sent 2
      else if i = 3 then SendOutcome.error
      else SendOutcome.sent 65536 }

/-- Scenario S2: mediator 1 is announced and connected, a CC record for
`(X, 7)` is sent only in part, and the attempt to drain the buffer for the
next record fails, which closes the socket in the middle of the first record. -/
def exp_midrecord : collector_export :=
  exporter_run env_midrecord 5 exp_x
    [exporter_event.MESSAGE (export_message.MEDIATOR
        { mediatorid := 1, ipstr := some "127.0.0.1", portstr := some "9000" }),
     exporter_event.CONNECT_TIMER,
     exporter_event.MESSAGE (export_message.JOB job_cc_x7),
     exporter_event.MESSAGE (export_message.JOB job_cc_x7)]

/-- The bytes of a list are in enqueue order: no byte of a record precedes a
byte of a record that was enqueued before it. -/
def tags_sorted (l : List TByte) : Prop := l.Pairwise (fun a b => a.tag ≤ b.tag)

/-- The ordering invariant of an entry whose records were enqueued with tags
below `bound`: every connection log and the buffer are in enqueue order, and
nothing written on the current connection was enqueued after a byte that is
still to be sent from the buffer. -/
def dest_inv (bound : Nat) (d : export_dest) : Prop :=
  (∀ log ∈ d.wire, tags_sorted log) ∧
  tags_sorted d.buffer.bytes ∧
  (∀ log ∈ d.wire, ∀ b ∈ log, b.tag < bound) ∧
  (∀ b ∈ d.buffer.bytes, b.tag < bound) ∧
  (∀ b ∈ d.wire.headD [], ∀ b1 ∈ d.buffer.bytes.drop d.buffer.partialfront, b.tag ≤ b1.tag)

/-- The ordering invariant of the registry. -/
def registry_inv (exp : collector_export) : Prop :=
  ∀ d ∈ exp.dests, dest_inv exp.forwarded.length d

/-- Scenario S2 continued: after the socket was closed in the middle of the
first record, the mediator is reconnected and one more CC record is sent. -/
def exp_reconnected : collector_export :=
  exporter_run env_midrecord 5 exp_midrecord
    [exporter_event.CONNECT_TIMER,
     exporter_event.MESSAGE (export_message.JOB job_cc_x7)]

/-- The registry after the records `recs` were handed to
`export_encoded_record` one after the other. -/
def export_all (env : Env) (exp : collector_export) (recs : List openli_exportmsg) :
    collector_export :=
  recs.foldl (fun e r => (export_encoded_record env e r).1) exp

/-- The bytes of the records `recs` in enqueue order, the first record having
the tag `k`. -/
def tagged_all : Nat → List openli_exportmsg → List TByte
  | _, [] => []
  | k, r :: rs => tagged_bytes k r ++ tagged_all (k + 1) rs

/-- The records `recs` as they are queued, in enqueue order, the first record
having the tag `k`. -/
def tagged_records : Nat → List openli_exportmsg → List (List TByte)
  | _, [] => []
  | k, r :: rs => tagged_bytes k r :: tagged_records (k + 1) rs

/-- An encoded body of 65535 bytes. -/
def body_64k : List Nat := List.replicate 65535 0

/-- A CC record for mediator 42 with a 1-byte header, a 1-byte LIID and an
encoded body of 65535 bytes: 65539 bytes on the wire. -/
def rec_64k : openli_exportmsg :=
  { msgbody := { encoded := body_64k, len := 65535 },
    ipcontents := [], ipclen := 0, header := some [1], hdrlen := 1,
    liid := some [90], liidlen := 1, destid := 42 }

/-- An environment whose connects succeed and whose sockets take up to 2^40
bytes of every send. -/
def env_accept_all : Env :=
  { env_three_blocks with send := fun _ => SendOutcome.sent 1099511627776 }

/-- Two small records for mediator 42. -/
def recs_small_42 : List openli_exportmsg :=
  [{ msg_small with destid := 42 }, { msg_small with destid := 42, header := some [9, 9, 9] }]

/-! # The IMAP session tracker

A shallow embedding of `src/collector/emailprotocols/imap.c`. Buffers are
lists of bytes holding exactly the used part (`contbufused` and `commbufused`
are the lengths); the byte behind the used part is the NUL that the C code
writes there, so the C string at an offset of a buffer is `cstr` of the rest
of the list. Offsets and octet counters are natural numbers. The base64
codec (libb64) is outside of the repository and is a parameter. -/

/-- The bytes of a string literal. -/
def str (s : String) : List Nat := s.toList.map Char.toNat

/-- The C string that starts at the beginning of `l`: the bytes before the
first NUL. -/
def cstr (l : List Nat) : List Nat := l.takeWhile (fun c => c != 0)

/-- The offset of the first occurrence of `needle` in `hay` (`memmem`). -/
def find_sub (needle : List Nat) : List Nat → Option Nat
  | [] => if needle = [] then some 0 else none
  | c :: rest =>
    if needle.isPrefixOf (c :: rest) then some 0
    else (find_sub needle rest).map (fun i => i + 1)

/-- The function `strstr` on the C string at the beginning of `hay`. -/
def strstr (hay needle : List Nat) : Option Nat := find_sub needle (cstr hay)

/-- The function `strchr` for a non-NUL character. -/
def strchr (hay : List Nat) (c : Nat) : Option Nat := find_sub [c] (cstr hay)

/-- The function `tolower` on ASCII. -/
def to_lower (c : Nat) : Nat := if 65 ≤ c ∧ c ≤ 90 then c + 32 else c

/-- Whether `strcasecmp` returns 0. -/
def strcasecmp_eq (a b : List Nat) : Bool := a.map to_lower == b.map to_lower

/-- The function `strcasestr` on the C string at the beginning of `hay`. -/
def strcasestr (hay needle : List Nat) : Option Nat :=
  find_sub (needle.map to_lower) ((cstr hay).map to_lower)

/-- One call of `strtok_r` on the string `s` with the save pointer at `pos`:
the start and the end of the token and the new save pointer, or `none` when
only delimiters are left. -/
def strtok_r (s : List Nat) (pos : Nat) (delims : List Nat) : Option (Nat × Nat × Nat) :=
  let start := pos + ((s.drop pos).takeWhile (fun c => delims.contains c)).length
  if start ≥ s.length then none
  else
    let stop := start + ((s.drop start).takeWhile (fun c => !delims.contains c)).length
    some (start, stop, if stop < s.length then stop + 1 else stop)

/-- The part of libb64 that the tracker uses: the output of
`base64_encode_block` followed by that of `base64_encode_blockend`, and the
output of `base64_decode_block`. -/
structure base64_lib where
  encode : List Nat → List Nat
  decode : List Nat → List Nat

/-- What is outside of `imap.c`: the base64 library, and the value that
`read_imap_while_auth_state`, which has no `return` statement, hands back. -/
structure imap_env where
  b64 : base64_lib
  auth_state_ret : Int

inductive imap_command_type where
  | OPENLI_IMAP_COMMAND_NONE
  | OPENLI_IMAP_COMMAND_SERVREADY
  | OPENLI_IMAP_COMMAND_REPLY
  | OPENLI_IMAP_COMMAND_REPLY_ONGOING
  | OPENLI_IMAP_COMMAND_BYE
  | OPENLI_IMAP_COMMAND_GENERIC
  | OPENLI_IMAP_COMMAND_PREAUTH
  | OPENLI_IMAP_COMMAND_AUTH
  | OPENLI_IMAP_COMMAND_LOGOUT
  | OPENLI_IMAP_COMMAND_IDLE
  | OPENLI_IMAP_COMMAND_ID
deriving DecidableEq, Repr

inductive imap_auth_type where
  | OPENLI_IMAP_AUTH_NONE
  | OPENLI_IMAP_AUTH_PLAIN
  | OPENLI_IMAP_AUTH_GSSAPI
  | OPENLI_IMAP_AUTH_OTHER
deriving DecidableEq, Repr

/-- The states of an IMAP session that `imap.c` refers to (declared in
`email_worker.h`). -/
inductive imap_state where
  | OPENLI_IMAP_STATE_INIT
  | OPENLI_IMAP_STATE_SERVER_READY
  | OPENLI_IMAP_STATE_PRE_AUTH
  | OPENLI_IMAP_STATE_AUTH_STARTED
  | OPENLI_IMAP_STATE_AUTHENTICATING
  | OPENLI_IMAP_STATE_AUTHENTICATED
  | OPENLI_IMAP_STATE_IDLING
  | OPENLI_IMAP_STATE_LOGOUT
  | OPENLI_IMAP_STATE_SESSION_OVER
deriving DecidableEq, Repr

open imap_command_type imap_auth_type imap_state

structure imap_cc_index where
  cc_start : Nat
  cc_end : Nat
  dir : Nat
deriving DecidableEq, Repr

/-- A saved command (`imap_command_t`); `commbuffer` holds the
`commbufused` used bytes and `ccs` the `cc_used` index records. -/
structure imap_command where
  commbuffer : List Nat
  imap_command : Option (List Nat)
  tag : Option (List Nat)
  imap_reply : Option (List Nat)
  ccs : List imap_cc_index
  reply_start : Nat
  reply_end : Nat
deriving DecidableEq, Repr

/-- The per-flow state (`imap_session_t`); `contbuffer` holds the
`contbufused` used bytes. -/
structure imap_session where
  contbuffer : List Nat
  contbufread : Nat
  commands : List imap_command
  auth_tag : Option (List Nat)
  mailbox : Option (List Nat)
  reply_start : Nat
  next_comm_start : Nat
  next_command_type : imap_command_type
  next_comm_tag : Option (List Nat)
  next_command_name : Option (List Nat)
  idle_command_index : Int
  auth_command_index : Int
  auth_read_from : Nat
  auth_type : imap_auth_type
deriving DecidableEq, Repr

/-- The fields of `emailsession_t` that `imap.c` reads or writes, the
participants added by `add_email_participant` and the endpoints set by
`replace_email_session_serveraddr` and `replace_email_session_clientaddr`. -/
structure emailsession where
  currstate : imap_state
  client_octets : Nat
  server_octets : Nat
  participants : List (List Nat)
  serveraddr : Option (List Nat × List Nat)
  clientaddr : Option (List Nat × List Nat)
  proto_state : Option imap_session
deriving DecidableEq, Repr

/-- The function `init_imap_command`. -/
def init_imap_command : imap_command :=
  { commbuffer := [], imap_command := none, tag := none, imap_reply := none, ccs := [],
    reply_start := 0, reply_end := 0 }

/-- The function `add_cc_to_imap_command`. -/
def add_cc_to_imap_command (comm : imap_command) (start_ind end_ind dir : Nat) : imap_command :=
  { comm with ccs := comm.ccs ++ [{ cc_start := start_ind, cc_end := end_ind, dir := dir }] }

/-- The function `update_saved_auth_command`; `replace` and `origtoken` are C
strings. -/
def update_saved_auth_command (sess : imap_session) (replace origtoken : List Nat) :
    imap_session × Int :=
  if sess.auth_command_index = -1 then (sess, -1)
  else
    match sess.commands[sess.auth_command_index.toNat]? with
    | none => (sess, -1)
    | some comm =>
      if comm.tag ≠ sess.auth_tag then (sess, -1)
      else if comm.imap_command ≠ some (str "AUTHENTICATE") then (sess, -1)
      else
        match strstr comm.commbuffer origtoken with
        | none => (sess, -1)
        | some pos =>
          let commbuffer := comm.commbuffer.take pos ++ cstr replace
          match comm.ccs.getLast? with
          | none => (sess, -1)
          | some last =>
            let comm1 : imap_command :=
              { comm with commbuffer := commbuffer, reply_start := commbuffer.length,
                          ccs := comm.ccs.dropLast ++ [{ last with cc_end := commbuffer.length }] }
            ({ sess with commands := sess.commands.set sess.auth_command_index.toNat comm1 }, 1)

/-- The slot search at the start of `save_imap_command`: the index of the
first command without a name. -/
def first_free_command : List imap_command → Option Nat
  | [] => none
  | c :: rest =>
    if c.imap_command = none then some 0 else (first_free_command rest).map (fun i => i + 1)

/-- The function `save_imap_command`: the session and the index of the slot. -/
def save_imap_command (sess : imap_session) : imap_session × Int :=
  let found := first_free_command sess.commands
  let commands :=
    match found with
    | some _ => sess.commands
    | none => sess.commands ++ List.replicate 5 init_imap_command
  let index :=
    match found with
    | some i => i
    | none => sess.commands.length
  match commands[index]? with
  | none => (sess, -1)
  | some comm =>
    let comm_start := comm.commbuffer.length
    let copied := (sess.contbuffer.drop sess.next_comm_start).take
      (sess.contbufread - sess.next_comm_start)
    let comm := { comm with commbuffer := comm.commbuffer ++ copied }
    let comm := add_cc_to_imap_command comm comm_start comm.commbuffer.length 1
    let comm : imap_command :=
      { comm with reply_start := comm.commbuffer.length, reply_end := 0,
                  imap_command := sess.next_command_name, tag := sess.next_comm_tag }
    ({ sess with commands := commands.set index comm, next_comm_tag := none,
                 next_command_name := none }, (index : Int))

/-- The loop of `mask_plainauth_creds` that turns the first two spaces of
`input` into NULs; `spaces` counts those done. -/
def mask_spaces : Nat → List Nat → List Nat
  | _, [] => []
  | spaces, c :: rest =>
    if spaces ≥ 2 then c :: rest
    else if c = 0 then c :: rest
    else if c = 32 then 0 :: mask_spaces (spaces + 1) rest
    else c :: mask_spaces spaces rest

/-- The function `mask_plainauth_creds`: the buffer `reencoded` up to its
terminating NUL. -/
def mask_plainauth_creds (env : imap_env) (mailbox : List Nat) : List Nat :=
  let input := (mailbox ++ str " XXX XXX").take 2047
  let input := mask_spaces 0 input
  env.b64.encode input ++ [13, 10]

/-- The function `get_auth_type`; `authmsg` is a C string. -/
def get_auth_type (authmsg : List Nat) (imapsess : imap_session) : imap_session × Int :=
  match find_sub [13, 10] authmsg with
  | none => (imapsess, 0)
  | some lineend =>
    match strtok_r authmsg 0 [32] with
    | none => (imapsess, -1)
    | some (_, _, save1) =>
      match strtok_r authmsg save1 [32] with
      | none => (imapsess, -1)
      | some (_, _, save2) =>
        match strtok_r authmsg save2 [32, 13, 10] with
        | none => (imapsess, -1)
        | some (authtype, authtype_end, _) =>
          if strcasecmp_eq ((authmsg.drop authtype).take (authtype_end - authtype)) (str "PLAIN")
          then
            ({ imapsess with
               auth_type := OPENLI_IMAP_AUTH_PLAIN,
               auth_read_from := imapsess.auth_read_from + (5 + authtype) +
                 (if lineend = authtype + 5 then 2 else 1) }, 1)
          else (imapsess, -1)

/-- The function `decode_plain_auth_content`; `authmsg` is a C string. -/
def decode_plain_auth_content (env : imap_env) (authmsg : List Nat) (imapsess : imap_session)
    (sess : emailsession) : emailsession × imap_session × Int :=
  if authmsg.head? = some 43 then
    ({ sess with server_octets := sess.server_octets + authmsg.length },
     { imapsess with auth_read_from := imapsess.auth_read_from + authmsg.length }, 0)
  else
    let decoded := env.b64.decode authmsg
    let mailbox := cstr decoded
    let imapsess := { imapsess with mailbox := some mailbox }
    let sess := { sess with participants := sess.participants ++ [mailbox] }
    let reencoded := mask_plainauth_creds env mailbox
    let r := update_saved_auth_command imapsess reencoded authmsg
    if r.2 < 0 then (sess, r.1, r.2)
    else
      ({ sess with client_octets := sess.client_octets + (cstr reencoded).length,
                   currstate := OPENLI_IMAP_STATE_AUTHENTICATED },
       { r.1 with next_command_type := OPENLI_IMAP_COMMAND_NONE, next_comm_start := 0,
                  reply_start := 0 }, 1)

/-- The `while (1)` loop of `decode_authentication_command`; it is entered at
most twice, because `get_auth_type` returns a positive value only after it
has set `auth_type`. -/
def decode_authentication_loop (env : imap_env) :
    Nat → emailsession → imap_session → emailsession × imap_session × Int
  | 0, sess, imapsess => (sess, imapsess, 0)
  | fuel + 1, sess, imapsess =>
    let msglen := imapsess.contbufread - imapsess.auth_read_from
    let authmsg := cstr ((imapsess.contbuffer.drop imapsess.auth_read_from).take msglen)
    if imapsess.auth_type = OPENLI_IMAP_AUTH_NONE then
      let r := get_auth_type authmsg imapsess
      let sess :=
        if r.2 > 0 then
          { sess with client_octets := sess.client_octets +
              (msglen - (r.1.contbufread - r.1.auth_read_from)) }
        else sess
      if r.2 ≤ 0 then (sess, r.1, 0)
      else decode_authentication_loop env fuel sess r.1
    else if imapsess.auth_type = OPENLI_IMAP_AUTH_PLAIN then
      decode_plain_auth_content env authmsg imapsess sess
    else (sess, imapsess, -1)

/-- The function `decode_authentication_command`. -/
def decode_authentication_command (env : imap_env) (sess : emailsession)
    (imapsess : imap_session) : emailsession × imap_session × Int :=
  decode_authentication_loop env 2 sess imapsess

/-- The search loop of `save_imap_reply`: it stops at the first command
without a tag (nothing found) or with the tag `next_comm_tag`. -/
def find_command_by_tag (tag : Option (List Nat)) : List imap_command → Option Nat
  | [] => none
  | c :: rest =>
    if c.tag = none then none
    else if c.tag = tag then some 0
    else (find_command_by_tag tag rest).map (fun i => i + 1)

/-- The function `save_imap_reply`; the last component is `*origcommand`. -/
def save_imap_reply (sess : imap_session) : imap_session × Int × Option (List Nat) :=
  match find_command_by_tag sess.next_comm_tag sess.commands with
  | none => ({ sess with next_comm_tag := none, next_command_name := none }, 0, none)
  | some i =>
    match sess.commands[i]? with
    | none => ({ sess with next_comm_tag := none, next_command_name := none }, 0, none)
    | some comm =>
      let comm_start := comm.commbuffer.length
      let copied := (sess.contbuffer.drop sess.reply_start).take
        (sess.contbufread - sess.reply_start)
      let comm := { comm with commbuffer := comm.commbuffer ++ copied }
      let comm := add_cc_to_imap_command comm comm_start comm.commbuffer.length 0
      let comm : imap_command :=
        { comm with reply_end := comm.commbuffer.length, imap_reply := sess.next_command_name }
      ({ sess with commands := sess.commands.set i comm, next_comm_tag := none,
                   next_command_name := none }, 1, comm.imap_command)

/-- The function `reset_imap_saved_command`. -/
def reset_imap_saved_command (comm : imap_command) : imap_command :=
  { comm with commbuffer := [], reply_start := 0, reply_end := 0, ccs := [], tag := none,
              imap_command := none, imap_reply := none }

/-- The function `append_content_to_imap_buffer`; the reallocation is taken
to succeed. -/
def append_content_to_imap_buffer (imapsess : imap_session) (content : List Nat) :
    imap_session :=
  { imapsess with contbuffer := imapsess.contbuffer ++ content }

/-- The macro `ADVANCE_ID_PTR` on the C string `s` with `ptr` at offset `p`:
the new offset, or `none` when the macro leaves the loop. -/
def advance_id_ptr (s : List Nat) (p : Nat) : Option Nat :=
  match find_sub [34] (s.drop p) with
  | none => none
  | some k =>
    let q := p + k + 1
    if s.getD q 0 = 13 ∨ s.getD q 0 = 0 then none else some q

/-- The four values collected by `parse_id_command`. -/
structure id_fields where
  server_ip : Option (List Nat)
  server_port : Option (List Nat)
  client_ip : Option (List Nat)
  client_port : Option (List Nat)
deriving DecidableEq, Repr

/-- The chain of `strcmp` tests at the end of the loop body of
`parse_id_command`. -/
def store_id_field (f : id_fields) (field_str val_str : List Nat) : id_fields :=
  if field_str = str "x-originating-ip" then { f with client_ip := some val_str }
  else if field_str = str "x-originating-port" then { f with client_port := some val_str }
  else if field_str = str "x-connected-ip" then { f with server_ip := some val_str }
  else if field_str = str "x-connected-port" then { f with server_port := some val_str }
  else f

/-- The `while (1)` loop of `parse_id_command` on the C string `s` with `ptr`
at offset `p`; every round moves `ptr` forward, so `s.length` rounds are
enough. The result is the collected values and whether one of `field_start`,
`field_end`, `val_start`, `val_end` is set when the loop is left. -/
def parse_id_loop (s : List Nat) : Nat → Nat → id_fields → id_fields × Bool
  | 0, _, f => (f, false)
  | fuel + 1, p, f =>
    if s.getD p 0 = 41 ∨ s.getD p 0 = 13 ∨ s.getD p 0 = 0 then (f, false)
    else
      match advance_id_ptr s p with
      | none => (f, false)
      | some field_start =>
        match advance_id_ptr s field_start with
        | none => (f, true)
        | some q =>
          let field_end := q - 1
          if (s.drop q).take 4 = str " NIL" then
            let field_str := (s.drop field_start).take (field_end - field_start)
            let val_str := (s.drop (q + 1)).take 3
            parse_id_loop s fuel (q + 4) (store_id_field f field_str val_str)
          else
            match advance_id_ptr s q with
            | none => (f, true)
            | some val_start =>
              match advance_id_ptr s val_start with
              | none => (f, true)
              | some r =>
                let val_end := r - 1
                let field_str := (s.drop field_start).take (field_end - field_start)
                let val_str := (s.drop val_start).take (val_end - val_start)
                parse_id_loop s fuel r (store_id_field f field_str val_str)

/-- The function `parse_id_command`. -/
def parse_id_command (sess : emailsession) (imapsess : imap_session) : emailsession × Int :=
  let comm_str := cstr (imapsess.contbuffer.drop imapsess.next_comm_start)
  match find_sub [40] comm_str with
  | none => (sess, 0)
  | some k =>
    let r := parse_id_loop comm_str comm_str.length (k + 1) ⟨none, none, none, none⟩
    let ret : Int := if r.2 then 0 else 1
    let sess :=
      match r.1.server_ip, r.1.server_port with
      | some ip, some port => { sess with serveraddr := some (ip, port) }
      | _, _ => sess
    let sess :=
      match r.1.client_ip, r.1.client_port with
      | some ip, some port => { sess with clientaddr := some (ip, port) }
      | _, _ => sess
    (sess, ret)

/-- The function `find_next_crlf`. -/
def find_next_crlf (sess : imap_session) (start_index : Nat) : imap_session × Int :=
  match find_sub [13, 10] (sess.contbuffer.drop start_index) with
  | some k => ({ sess with contbufread := start_index + k + 2 }, 1)
  | none => (sess, 0)

/-- The function `find_command_end`. -/
def find_command_end (env : imap_env) (sess : emailsession) (imapsess : imap_session) :
    emailsession × imap_session × Int :=
  let r := find_next_crlf imapsess imapsess.next_comm_start
  if r.2 = 0 then (sess, r.1, 0)
  else
    let s := save_imap_command r.1
    let imapsess := s.1
    let ind := s.2
    if ind < 0 then (sess, imapsess, ind)
    else if imapsess.next_command_type = OPENLI_IMAP_COMMAND_AUTH then
      decode_authentication_command env
        { sess with currstate := OPENLI_IMAP_STATE_AUTHENTICATING }
        { imapsess with auth_command_index := ind }
    else
      let sess :=
        { sess with client_octets := sess.client_octets +
            (imapsess.contbufread - imapsess.next_comm_start) }
      let sess :=
        if imapsess.next_command_type = OPENLI_IMAP_COMMAND_ID then
          (parse_id_command sess imapsess).1
        else sess
      let sess :=
        if imapsess.next_command_type = OPENLI_IMAP_COMMAND_LOGOUT then
          { sess with currstate := OPENLI_IMAP_STATE_LOGOUT }
        else if imapsess.next_command_type = OPENLI_IMAP_COMMAND_IDLE then
          { sess with currstate := OPENLI_IMAP_STATE_IDLING }
        else sess
      let imapsess :=
        if imapsess.next_command_type = OPENLI_IMAP_COMMAND_IDLE then
          { imapsess with idle_command_index := ind }
        else imapsess
      (sess, { imapsess with next_command_type := OPENLI_IMAP_COMMAND_NONE,
                             next_comm_start := 0, reply_start := 0 }, 1)

/-- The function `find_reply_end`. -/
def find_reply_end (sess : emailsession) (imapsess : imap_session) :
    emailsession × imap_session × Int :=
  let r := find_next_crlf imapsess imapsess.next_comm_start
  if r.2 = 0 then (sess, r.1, 0)
  else
    let imapsess := r.1
    let sess :=
      { sess with server_octets := sess.server_octets +
          (imapsess.contbufread - imapsess.next_comm_start) }
    let s := save_imap_reply imapsess
    if s.2.1 < 0 then (sess, s.1, s.2.1)
    else
      let imapsess :=
        { s.1 with next_command_type := OPENLI_IMAP_COMMAND_NONE, next_comm_start := 0,
                   reply_start := 0 }
      match s.2.2 with
      | none => (sess, imapsess, s.2.1)
      | some origcommand =>
        if strcasecmp_eq origcommand (str "LOGOUT") then
          ({ sess with currstate := OPENLI_IMAP_STATE_SESSION_OVER }, imapsess, 0)
        else if strcasecmp_eq origcommand (str "AUTHENTICATE") then
          ({ sess with currstate := OPENLI_IMAP_STATE_AUTHENTICATED }, imapsess, s.2.1)
        else (sess, imapsess, s.2.1)

/-- The function `find_partial_reply_end`. -/
def find_partial_reply_end (sess : emailsession) (imapsess : imap_session) :
    emailsession × imap_session × Int :=
  let r := find_next_crlf imapsess imapsess.next_comm_start
  if r.2 = 0 then (sess, r.1, 0)
  else
    let imapsess := r.1
    ({ sess with server_octets := sess.server_octets +
         (imapsess.contbufread - imapsess.next_comm_start) },
     { imapsess with next_command_type := OPENLI_IMAP_COMMAND_NONE, next_comm_start := 0 }, 1)

/-- The function `find_server_ready_end`. -/
def find_server_ready_end (imapsess : imap_session) : imap_session × Int :=
  let r := find_next_crlf imapsess imapsess.next_comm_start
  if r.2 = 0 then (r.1, 0) else (r.1, 1)

/-- The function `find_server_ready`. -/
def find_server_ready (imapsess : imap_session) : imap_session × Int :=
  if imapsess.contbuffer.length - imapsess.contbufread < 5 then (imapsess, 0)
  else
    match strcasestr (imapsess.contbuffer.drop imapsess.contbufread) (str "* OK ") with
    | some k =>
      ({ imapsess with next_comm_start := imapsess.contbufread + k,
                       next_command_type := OPENLI_IMAP_COMMAND_SERVREADY }, 1)
    | none => (imapsess, 0)

/-- The function `read_imap_while_auth_state`: its body is comments only, so
it changes nothing, and what it returns is not determined by the source. -/
def read_imap_while_auth_state (env : imap_env) (sess : emailsession)
    (imapsess : imap_session) : emailsession × imap_session × Int :=
  (sess, imapsess, env.auth_state_ret)

/-- The function `read_imap_while_idle_state`. `idle_server_length` is a C
`int`, the distance from `reply_start` to the byte behind the CRLF in front
of `DONE`; it is negative when the `+ ` of the server lies behind that CRLF.
The code then calls `memcpy` with a negative length or (from -6 to -1) writes
CC records that run backwards and adds a negative amount to the octet
counter: the model gives no result there (`none`), nor where the assertion on
`idle_command_index` fails or the index is outside of the command array. -/
def read_imap_while_idle_state (sess : emailsession) (imapsess : imap_session) :
    Option (emailsession × imap_session × Int) :=
  if imapsess.idle_command_index < 0 then none
  else
    match imapsess.commands[imapsess.idle_command_index.toNat]? with
    | none => none
    | some comm =>
      let msgstart := imapsess.contbuffer.drop imapsess.contbufread
      let start :=
        if imapsess.reply_start = 0 then
          (strstr msgstart (str "+ ")).map (fun k => imapsess.contbufread + k)
        else some imapsess.reply_start
      match start with
      | none => some (sess, imapsess, 0)
      | some reply_start =>
        let imapsess := { imapsess with reply_start := reply_start }
        match strstr msgstart [13, 10, 68, 79, 78, 69, 13, 10] with
        | none => some (sess, imapsess, 0)
        | some k =>
          let found := imapsess.contbufread + k
          if ((found : Int) + 2) - (reply_start : Int) < 0 then none
          else
            let idle_server_length := (found + 2) - reply_start
            let comm_start := comm.commbuffer.length
            let copied := (imapsess.contbuffer.drop reply_start).take (idle_server_length + 6)
            let comm := { comm with commbuffer := comm.commbuffer ++ copied }
            let comm := add_cc_to_imap_command comm comm_start (comm_start + idle_server_length) 0
            let comm := add_cc_to_imap_command comm (comm_start + idle_server_length)
              (comm_start + idle_server_length + 6) 1
            some ({ sess with server_octets := sess.server_octets + idle_server_length,
                              client_octets := sess.client_octets + 6,
                              currstate := OPENLI_IMAP_STATE_AUTHENTICATED },
              { imapsess with contbufread := found + 8, reply_start := 0,
                              commands := imapsess.commands.set imapsess.idle_command_index.toNat comm },
              1)

/-- The function `find_next_imap_message`. -/
def find_next_imap_message (env : imap_env) (sess : emailsession) (imapsess : imap_session) :
    Option (emailsession × imap_session × Int) :=
  if sess.currstate = OPENLI_IMAP_STATE_AUTHENTICATING then
    some (read_imap_while_auth_state env sess imapsess)
  else if sess.currstate = OPENLI_IMAP_STATE_IDLING then
    read_imap_while_idle_state sess imapsess
  else some (
    let msgstart := cstr (imapsess.contbuffer.drop imapsess.contbufread)
    match find_sub [32] msgstart with
    | none => (sess, imapsess, 0)
    | some spacefound =>
      let tag := msgstart.take spacefound
      let after := msgstart.drop (spacefound + 1)
      let spacefound2 := (find_sub [32] after).map (fun k => spacefound + 1 + k)
      let crlffound := (find_sub [13, 10] after).map (fun k => spacefound + 1 + k)
      let bound : Option Nat :=
        match spacefound2, crlffound with
        | none, none => none
        | none, some c => some c
        | some s, none => some s
        | some s, some c => if c < s then some c else some s
      match bound with
      | none => (sess, imapsess, 0)
      | some spacefound2 =>
        let comm_resp := (msgstart.drop (spacefound + 1)).take (spacefound2 - spacefound - 1)
        let here := imapsess.contbufread
        let finish (sess : emailsession) (imapsess : imap_session)
            (name : Option (List Nat)) : emailsession × imap_session × Int :=
          (sess, { imapsess with next_comm_tag := some tag, next_command_name := name,
                                 next_comm_start := here }, 1)
        if tag = str "*" then
          if strcasecmp_eq comm_resp (str "BYE") ∧
              sess.currstate ≠ OPENLI_IMAP_STATE_LOGOUT then
            ({ sess with currstate := OPENLI_IMAP_STATE_SESSION_OVER }, imapsess, 0)
          else if strcasecmp_eq comm_resp (str "PREAUTH") then
            finish sess imapsess (some comm_resp)
          else
            finish sess
              { imapsess with
                next_command_type := OPENLI_IMAP_COMMAND_REPLY_ONGOING,
                reply_start := if imapsess.reply_start = 0 then here else imapsess.reply_start }
              none
        else if strcasecmp_eq comm_resp (str "OK") ∨ strcasecmp_eq comm_resp (str "NO") ∨
            strcasecmp_eq comm_resp (str "BAD") then
          finish sess
            { imapsess with
              next_command_type := OPENLI_IMAP_COMMAND_REPLY,
              reply_start := if imapsess.reply_start = 0 then here else imapsess.reply_start }
            (some comm_resp)
        else if strcasecmp_eq comm_resp (str "ID") then
          finish sess { imapsess with next_command_type := OPENLI_IMAP_COMMAND_ID }
            (some comm_resp)
        else if strcasecmp_eq comm_resp (str "IDLE") then
          finish sess { imapsess with next_command_type := OPENLI_IMAP_COMMAND_IDLE }
            (some comm_resp)
        else if strcasecmp_eq comm_resp (str "LOGOUT") then
          finish sess { imapsess with next_command_type := OPENLI_IMAP_COMMAND_LOGOUT }
            (some comm_resp)
        else if strcasecmp_eq comm_resp (str "AUTHENTICATE") then
          finish { sess with currstate := OPENLI_IMAP_STATE_AUTH_STARTED }
            { imapsess with next_command_type := OPENLI_IMAP_COMMAND_AUTH,
                            auth_tag := some tag, auth_read_from := here }
            (some comm_resp)
        else
          finish sess { imapsess with next_command_type := OPENLI_IMAP_COMMAND_GENERIC }
            (some comm_resp))

/-- The function `process_next_imap_state`. -/
def process_next_imap_state (env : imap_env) (sess : emailsession) (imapsess : imap_session) :
    Option (emailsession × imap_session × Int) :=
  let ready :=
    if sess.currstate = OPENLI_IMAP_STATE_INIT then find_server_ready imapsess
    else (imapsess, 0)
  let imapsess := ready.1
  let sess :=
    if sess.currstate = OPENLI_IMAP_STATE_INIT ∧ ready.2 = 1 then
      { sess with currstate := OPENLI_IMAP_STATE_SERVER_READY }
    else sess
  if sess.currstate = OPENLI_IMAP_STATE_SERVER_READY then
    let r := find_server_ready_end imapsess
    if r.2 = 1 then
      some ({ sess with currstate := OPENLI_IMAP_STATE_PRE_AUTH,
                        server_octets := sess.server_octets +
                          (r.1.contbufread - r.1.next_comm_start) },
        { r.1 with next_comm_start := 0, next_command_type := OPENLI_IMAP_COMMAND_NONE }, r.2)
    else some (sess, r.1, r.2)
  else if imapsess.next_command_type = OPENLI_IMAP_COMMAND_NONE then
    find_next_imap_message env sess imapsess
  else if imapsess.next_command_type = OPENLI_IMAP_COMMAND_REPLY then
    some (find_reply_end sess imapsess)
  else if imapsess.next_command_type = OPENLI_IMAP_COMMAND_REPLY_ONGOING then
    some (find_partial_reply_end sess imapsess)
  else
    some (find_command_end env sess imapsess)

/-- The state that `update_imap_session_by_ingestion` allocates for a session
without one. -/
def new_imap_session : imap_session :=
  { contbuffer := [], contbufread := 0, commands := List.replicate 5 init_imap_command,
    auth_tag := none, mailbox := none, reply_start := 0, next_comm_start := 0,
    next_command_type := OPENLI_IMAP_COMMAND_NONE, next_comm_tag := none,
    next_command_name := none, idle_command_index := -1, auth_command_index := -1,
    auth_read_from := 0, auth_type := OPENLI_IMAP_AUTH_NONE }

/-- The `while (1)` loop of `update_imap_session_by_ingestion`, which runs
`process_next_imap_state` until it returns a value that is not positive;
`none` when the fuel runs out first or a step has no result. -/
def imap_ingestion_loop (env : imap_env) :
    Nat → emailsession → imap_session → Option (emailsession × imap_session)
  | 0, _, _ => none
  | fuel + 1, sess, imapsess =>
    match process_next_imap_state env sess imapsess with
    | none => none
    | some r =>
      if r.2.2 ≤ 0 then some (r.1, r.2.1)
      else imap_ingestion_loop env fuel r.1 r.2.1

/-- The function `update_imap_session_by_ingestion` on the captured bytes
`content`: the session and the return value, or `none` when the loop does
not end within the fuel or a step has no result. -/
def update_imap_session_by_ingestion (env : imap_env) (fuel : Nat) (sess : emailsession)
    (content : List Nat) : Option (emailsession × Int) :=
  let imapsess :=
    match sess.proto_state with
    | none => new_imap_session
    | some s => s
  let imapsess := append_content_to_imap_buffer imapsess content
  match imap_ingestion_loop env fuel sess imapsess with
  | none => none
  | some (sess, imapsess) =>
    let sess := { sess with proto_state := some imapsess }
    if sess.currstate = OPENLI_IMAP_STATE_SESSION_OVER then some (sess, 1) else some (sess, 0)

/-- The base64 alphabet of libb64 (`base64_encode_value`). -/
def base64_encode_value (v : Nat) : Nat :=
  if v < 26 then 65 + v
  else if v < 52 then 97 + (v - 26)
  else if v < 62 then 48 + (v - 52)
  else if v = 62 then 43
  else if v = 63 then 47
  else 61

/-- The table of libb64 (`base64_decode_value`): the value of a character of
the alphabet, `none` for every other character (the decoder skips those, the
padding included). -/
def base64_decode_value (c : Nat) : Option Nat :=
  if 65 ≤ c ∧ c ≤ 90 then some (c - 65)
  else if 97 ≤ c ∧ c ≤ 122 then some (c - 97 + 26)
  else if 48 ≤ c ∧ c ≤ 57 then some (c - 48 + 52)
  else if c = 43 then some 62
  else if c = 47 then some 63
  else none

/-- The output of `base64_encode_block` followed by `base64_encode_blockend`
in libb64 1.2: a newline after every 18 groups of four characters and one
after the padding; `stepcount` counts the groups of the current line. -/
def libb64_encode : Nat → List Nat → List Nat
  | _, [] => [10]
  | _, [a] =>
    [base64_encode_value (a / 4), base64_encode_value (a % 4 * 16), 61, 61, 10]
  | _, [a, b] =>
    [base64_encode_value (a / 4), base64_encode_value (a % 4 * 16 + b / 16),
     base64_encode_value (b % 16 * 4), 61, 10]
  | stepcount, a :: b :: c :: rest =>
    [base64_encode_value (a / 4), base64_encode_value (a % 4 * 16 + b / 16),
     base64_encode_value (b % 16 * 4 + c / 64), base64_encode_value (c % 64)] ++
    (if stepcount + 1 = 18 then 10 :: libb64_encode 0 rest
     else libb64_encode (stepcount + 1) rest)

/-- The bytes that `base64_decode_block` writes for a list of 6-bit values
and counts in its return value. -/
def libb64_decode_values : List Nat → List Nat
  | a :: b :: c :: d :: rest =>
    [a * 4 + b / 16, b % 16 * 16 + c / 4, c % 4 * 64 + d] ++ libb64_decode_values rest
  | [a, b, c] => [a * 4 + b / 16, b % 16 * 16 + c / 4]
  | [a, b] => [a * 4 + b / 16]
  | _ => []

/-- The function `base64_decode_block` of libb64 on the whole input. -/
def libb64_decode (code : List Nat) : List Nat :=
  libb64_decode_values (code.filterMap base64_decode_value)

/-- The codec of libb64 1.2. -/
def libb64 : base64_lib := { encode := libb64_encode 0, decode := libb64_decode }

/-- An environment with libb64 as the codec. -/
def env_libb64 : imap_env := { b64 := libb64, auth_state_ret := 0 }

/-- A session that has not seen any content. -/
def fresh_session : emailsession :=
  { currstate := OPENLI_IMAP_STATE_INIT, client_octets := 0, server_octets := 0,
    participants := [], serveraddr := none, clientaddr := none, proto_state := none }

/-- Feeds the captures to the tracker one after the other, each with three
rounds of fuel per byte. -/
def ingest_all (env : imap_env) : emailsession → List (List Nat) → Option emailsession
  | sess, [] => some sess
  | sess, c :: rest =>
    match update_imap_session_by_ingestion env (3 * c.length + 3) sess c with
    | none => none
    | some r => ingest_all env r.1 rest

/-- The bytes of a saved command that its CC index records cover. -/
def cc_bytes (comm : imap_command) : List Nat :=
  comm.ccs.flatMap (fun cc => (comm.commbuffer.drop cc.cc_start).take (cc.cc_end - cc.cc_start))

/-- A session in the PRE_AUTH state that has consumed the server greeting. -/
def session_pre_auth : emailsession :=
  { currstate := OPENLI_IMAP_STATE_PRE_AUTH, client_octets := 0, server_octets := 17,
    participants := [], serveraddr := none, clientaddr := none,
    proto_state := some { new_imap_session with
      contbuffer := str "* OK imap ready\r\n", contbufread := 17 } }

/-- The PLAIN token of the empty authzid, the authcid `alice` and the password
`secret`. -/
def token_alice : List Nat := str "AGFsaWNlAHNlY3JldA=="

/-- The PLAIN token of an authzid that is the single byte 248, the authcid
`alice` and the password `secret`; its first character is `+`. -/
def token_plus : List Nat := str "+ABhbGljZQBzZWNyZXQ="

/-- The saved command in slot `i` of the session that an ingestion returns. -/
def saved_command (r : Option (emailsession × Int)) (i : Nat) : Option imap_command :=
  match r with
  | none => none
  | some x =>
    match x.1.proto_state with
    | none => none
    | some imapsess => imapsess.commands[i]?

/-- The line `<tag> AUTHENTICATE PLAIN <token>\r\n`. -/
def auth_plain_line (tag tok : List Nat) : List Nat :=
  tag ++ str " AUTHENTICATE PLAIN " ++ tok ++ [13, 10]

/-- The token that the codec of `env` gives for `authzid\0XXX\0XXX`. -/
def redacted_token (env : imap_env) (authzid : List Nat) : List Nat :=
  env.b64.encode (authzid ++ 0 :: str "XXX" ++ 0 :: str "XXX")

/-! ## The exporter thread -/

/-- Mediator 42 is dropped before it was ever announced: a job creates the
unannounced entry for mediator 42, `DROP_SINGLE_MEDIATOR` halts it, and then
the mediator is announced. -/
def events_drop_announce_42 : List exporter_event :=
  [exporter_event.MESSAGE (export_message.JOB job_cc_x7_to42),
   exporter_event.MESSAGE (export_message.DROP_SINGLE_MEDIATOR med_42),
   exporter_event.MESSAGE (export_message.MEDIATOR med_42)]

/-- What `read_exported_message` finds at the head of the inbound queue: a
message whose frames can all be read, a receive (`zmq_recv` or `zmq_msg_recv`)
that fails with an error other than EAGAIN, or the type byte
`OPENLI_EXPORT_IPCC` followed by a frame that `ipccjob__unpack` does not
accept. An empty queue is EAGAIN. -/
inductive queue_item where
  | MESSAGE (m : export_message)
  | RECV_ERROR
  | IPCC_UNPACK_FAILURE
deriving DecidableEq, Repr

/-- The function `read_exported_message` on the inbound queue: the exporter,
the rest of the queue and the return value. A failed receive makes it return
-1, and so does `read_ipcc_job` when the job cannot be unpacked (`exp->count`
is not incremented then). -/
def read_queued_message (env : Env) (fuel : Nat) (exp : collector_export) :
    List queue_item → collector_export × List queue_item × Option Int
  | [] => (exp, [], some 0)
  | queue_item.RECV_ERROR :: queue => (exp, queue, some (-1))
  | queue_item.IPCC_UNPACK_FAILURE :: queue => (exp, queue, some (-1))
  | queue_item.MESSAGE m :: queue =>
    let r := read_exported_message env fuel exp m
    (r.1, queue, r.2)

/-- The loop `do { ret = read_exported_message(exp); processed ++; }
while (ret > 0 && processed < 1000)` of `exporter_thread_main`, with room for
`n` more rounds after the first. -/
def read_message_batch (env : Env) (fuel : Nat) :
    Nat → collector_export → List queue_item → collector_export × List queue_item × Option Int
  | 0, exp, queue => read_queued_message env fuel exp queue
  | n + 1, exp, queue =>
    let r := read_queued_message env fuel exp queue
    match r.2.2 with
    | some ret => if ret > 0 then read_message_batch env fuel n r.1 r.2.1 else r
    | none => r

/-- The `revents` of the three poll items when `zmq_poll` returns: the inbound
queue, the one-second timer and the flag timer. -/
structure poll_events where
  queue : Bool
  timer : Bool
  flagtimer : Bool
deriving DecidableEq, Repr

/-- The `while (timerexpired == 0)` loop of `exporter_thread_main`; each
element of the list is one return of `zmq_poll`, and the result is `none`
when the thread is still waiting in `zmq_poll` at the end of the list (or the
handling of a message has no return value). -/
def exporter_thread_loop (env : Env) (fuel : Nat) (itemcount : Nat) :
    collector_export → List queue_item → List poll_events →
      collector_export × List queue_item × Option Int
  | exp, queue, [] => (exp, queue, none)
  | exp, queue, p :: polls =>
    let r := if p.queue then read_message_batch env fuel 999 exp queue else (exp, queue, some 0)
    match r.2.2 with
    | none => (r.1, r.2.1, none)
    | some ret =>
      if ret = -1 then (r.1, r.2.1, some (-1))
      else
        let exp : collector_export :=
          if itemcount > 2 ∧ p.flagtimer then
            { purge_unconfirmed_mediators r.1 with flagged := false, flagtimerfd := -1 }
          else r.1
        if p.timer then (exp, r.2.1, some 1)
        else exporter_thread_loop env fuel itemcount exp r.2.1 polls

/-- The function `exporter_thread_main`. `zmq` is `none` when the inbound
socket exists already and otherwise what `connect_zmq_socket` returns. -/
def exporter_thread_main (env : Env) (fuel : Nat) (exp : collector_export) (zmq : Option Int)
    (queue : List queue_item) (polls : List poll_events) :
    collector_export × List queue_item × Option Int :=
  if (match zmq with | some rc => decide (rc < 0) | none => false) then (exp, queue, some (-1))
  else
    let timerfd := env.timerfd_create exp.ntimer
    let exp := { exp with ntimer := exp.ntimer + 1 }
    if timerfd = -1 then (exp, queue, some (-1))
    else
      let exp := (connect_export_targets env exp).1
      let itemcount := if exp.flagtimerfd ≠ -1 then 3 else 2
      exporter_thread_loop env fuel itemcount exp queue polls

/-- An IPCC job for an LIID that was never announced. -/
def job_cc_unknown : openli_export_recv :=
  { type := OPENLI_EXPORT_IPCC, destid := 1, liid := "Q", cin := 7, payload := [80] }

/-- An environment in which every send fails with an error other than EAGAIN. -/
def env_send_fails : Env := { env_three_blocks with send := fun _ => SendOutcome.error }

/-- The two words that `find_next_imap_message` cuts from the C string at the
read cursor: `tag`, up to the first space, and `comm_resp`, up to the next
space or CRLF, whichever is first. `none` where the function returns 0 for
want of a space or of an end of the second word. -/
def imap_message_words (msgstart : List Nat) : Option (List Nat × List Nat) :=
  match find_sub [32] msgstart with
  | none => none
  | some spacefound =>
    let after := msgstart.drop (spacefound + 1)
    match find_sub [32] after, find_sub [13, 10] after with
    | none, none => none
    | none, some c => some (msgstart.take spacefound, after.take c)
    | some s, none => some (msgstart.take spacefound, after.take s)
    | some s, some c =>
      if c < s then some (msgstart.take spacefound, after.take c)
      else some (msgstart.take spacefound, after.take s)

/-- The part of `find_next_imap_message` that follows the cutting of `tag`
and `comm_resp`. -/
def classify_imap_message (sess : emailsession) (imapsess : imap_session)
    (tag comm_resp : List Nat) : emailsession × imap_session × Int :=
  let here := imapsess.contbufread
  let finish (sess : emailsession) (imapsess : imap_session)
      (name : Option (List Nat)) : emailsession × imap_session × Int :=
    (sess, { imapsess with next_comm_tag := some tag, next_command_name := name,
                           next_comm_start := here }, 1)
  if tag = str "*" then
    if strcasecmp_eq comm_resp (str "BYE") ∧
        sess.currstate ≠ OPENLI_IMAP_STATE_LOGOUT then
      ({ sess with currstate := OPENLI_IMAP_STATE_SESSION_OVER }, imapsess, 0)
    else if strcasecmp_eq comm_resp (str "PREAUTH") then
      finish sess imapsess (some comm_resp)
    else
      finish sess
        { imapsess with
          next_command_type := OPENLI_IMAP_COMMAND_REPLY_ONGOING,
          reply_start := if imapsess.reply_start = 0 then here else imapsess.reply_start }
        none
  else if strcasecmp_eq comm_resp (str "OK") ∨ strcasecmp_eq comm_resp (str "NO") ∨
      strcasecmp_eq comm_resp (str "BAD") then
    finish sess
      { imapsess with
        next_command_type := OPENLI_IMAP_COMMAND_REPLY,
        reply_start := if imapsess.reply_start = 0 then here else imapsess.reply_start }
      (some comm_resp)
  else if strcasecmp_eq comm_resp (str "ID") then
    finish sess { imapsess with next_command_type := OPENLI_IMAP_COMMAND_ID }
      (some comm_resp)
  else if strcasecmp_eq comm_resp (str "IDLE") then
    finish sess { imapsess with next_command_type := OPENLI_IMAP_COMMAND_IDLE }
      (some comm_resp)
  else if strcasecmp_eq comm_resp (str "LOGOUT") then
    finish sess { imapsess with next_command_type := OPENLI_IMAP_COMMAND_LOGOUT }
      (some comm_resp)
  else if strcasecmp_eq comm_resp (str "AUTHENTICATE") then
    finish { sess with currstate := OPENLI_IMAP_STATE_AUTH_STARTED }
      { imapsess with next_command_type := OPENLI_IMAP_COMMAND_AUTH,
                      auth_tag := some tag, auth_read_from := here }
      (some comm_resp)
  else
    finish sess { imapsess with next_command_type := OPENLI_IMAP_COMMAND_GENERIC }
      (some comm_resp)

/-- Feeds the captures to the tracker one after the other, each with the
same fuel; `none` when one of the ingestions does not end within it. -/
def ingest_captures (env : imap_env) (fuel : Nat) :
    emailsession → List (List Nat) → Option emailsession
  | sess, [] => some sess
  | sess, c :: rest =>
    match update_imap_session_by_ingestion env fuel sess c with
    | none => none
    | some r => ingest_captures env fuel r.1 rest

/-- Whether the bytes start with an untagged BYE line: `* BYE` followed by a
space or by CRLF. -/
def starts_with_bye (l : List Nat) : Bool :=
  List.isPrefixOf [42, 32, 66, 89, 69, 32] l || List.isPrefixOf [42, 32, 66, 89, 69, 13, 10] l

/-- The session `sess` with the tracker state `imapsess`, whose content
buffer has grown by `extra`. -/
def with_content (sess : emailsession) (imapsess : imap_session) (extra : List Nat) :
    emailsession :=
  { sess with proto_state := some { imapsess with contbuffer := imapsess.contbuffer ++ extra } }

/-- A session that an untagged BYE has ended: the BYE line is still unread. -/
def session_over_by_bye : emailsession :=
  { session_pre_auth with
    currstate := OPENLI_IMAP_STATE_SESSION_OVER,
    proto_state := some { new_imap_session with
      contbuffer := str "* OK imap ready\r\n* BYE shutdown\r\n", contbufread := 17 } }

/-- The captures of a PLAIN authentication: the greeting `* OK <text>\r\n`, the
line `<tag> AUTHENTICATE PLAIN <tok>\r\n` and the reply `<tag> OK\r\n`. -/
def plain_exchange (text tag tok : List Nat) : List (List Nat) :=
  [str "* OK " ++ text ++ [13, 10], auth_plain_line tag tok, tag ++ str " OK\r\n"]

/-- The state of a session that a run of captures returns. -/
def final_state (r : Option emailsession) : Option imap_state :=
  r.map (fun s => s.currstate)

/-- The mailbox of the tracker state of a session that a run of captures
returns. -/
def final_mailbox (r : Option emailsession) : Option (List Nat) :=
  match r with
  | none => none
  | some s =>
    match s.proto_state with
    | none => none
    | some imapsess => imapsess.mailbox

/-- The saved command in slot `i` of a session that a run of captures
returns. -/
def final_command (r : Option emailsession) (i : Nat) : Option imap_command :=
  match r with
  | none => none
  | some s =>
    match s.proto_state with
    | none => none
    | some imapsess => imapsess.commands[i]?

/-- The byte accounting of a session and its tracker state is exact: the two
octet counters add up to the read cursor; a pending message, the greeting
included, starts at the read cursor; and while IDLING no message is pending
and the reply to the IDLE, once found, starts at the read cursor. -/
def accounted (sess : emailsession) (imapsess : imap_session) : Prop :=
  sess.client_octets + sess.server_octets = imapsess.contbufread ∧
  (imapsess.next_command_type ≠ OPENLI_IMAP_COMMAND_NONE →
    imapsess.next_comm_start = imapsess.contbufread) ∧
  (sess.currstate = OPENLI_IMAP_STATE_SERVER_READY →
    imapsess.next_comm_start = imapsess.contbufread) ∧
  (sess.currstate = OPENLI_IMAP_STATE_IDLING →
    imapsess.next_command_type = OPENLI_IMAP_COMMAND_NONE ∧
    (imapsess.reply_start ≠ 0 → imapsess.reply_start = imapsess.contbufread))

instance (sess : emailsession) (imapsess : imap_session) : Decidable (accounted sess imapsess) := by
  unfold accounted
  infer_instance

/-- The octet counters of a session add up to the read cursor of its tracker
state (to 0 when it has none). -/
def octets_match_cursor (sess : emailsession) : Prop :=
  sess.client_octets + sess.server_octets =
    match sess.proto_state with
    | none => 0
    | some imapsess => imapsess.contbufread

instance (sess : emailsession) : Decidable (octets_match_cursor sess) := by
  unfold octets_match_cursor
  infer_instance

/-- Whether the next call of `process_next_imap_state` is one that counts the
bytes it consumes as they are: no AUTHENTICATE command is pending (its octets
are those of the rewritten command), a greeting `* OK ` in the unread bytes of
an INIT session is at their start, and so is the `+ ` that a session which is
IDLING looks for. -/
def counts_verbatim (sess : emailsession) (imapsess : imap_session) : Bool :=
  decide (imapsess.next_command_type ≠ OPENLI_IMAP_COMMAND_AUTH ∧
    (sess.currstate = OPENLI_IMAP_STATE_INIT →
      (strcasestr (imapsess.contbuffer.drop imapsess.contbufread) (str "* OK ")).getD 0 = 0) ∧
    (sess.currstate = OPENLI_IMAP_STATE_IDLING → imapsess.reply_start = 0 →
      (strstr (imapsess.contbuffer.drop imapsess.contbufread) (str "+ ")).getD 0 = 0))

/-- Whether every call of `process_next_imap_state` in the loop of
`update_imap_session_by_ingestion` is one that `counts_verbatim`. -/
def imap_ingestion_verbatim (env : imap_env) : Nat → emailsession → imap_session → Bool
  | 0, _, _ => true
  | fuel + 1, sess, imapsess =>
    counts_verbatim sess imapsess &&
      (match process_next_imap_state env sess imapsess with
       | none => true
       | some r => if r.2.2 ≤ 0 then true else imap_ingestion_verbatim env fuel r.1 r.2.1)

/-- Whether every call of `process_next_imap_state` during the ingestion of
the captures is one that `counts_verbatim`. -/
def ingest_verbatim (env : imap_env) (fuel : Nat) : emailsession → List (List Nat) → Bool
  | _, [] => true
  | sess, c :: rest =>
    imap_ingestion_verbatim env fuel sess
        (append_content_to_imap_buffer
          (match sess.proto_state with
           | none => new_imap_session
           | some s => s) c) &&
      (match update_imap_session_by_ingestion env fuel sess c with
       | none => true
       | some r => ingest_verbatim env fuel r.1 rest)

/-- The read cursor of the tracker state of a session that a run of captures
returns. -/
def final_cursor (r : Option emailsession) : Option Nat :=
  match r with
  | none => none
  | some s => s.proto_state.map (fun imapsess => imapsess.contbufread)

/-- The two octet counters of a session that a run of captures returns. -/
def final_octets (r : Option emailsession) : Option (Nat × Nat) :=
  r.map (fun s => (s.client_octets, s.server_octets))

/-- A session with a SELECT command and its two-line reply, followed by an
IDLE exchange with one update. -/
def captures_select_idle : List (List Nat) :=
  [str "* OK imap ready\r\n", str "a1 SELECT inbox\r\n", str "* 1 EXISTS\r\na1 OK done\r\n",
   str "a2 IDLE\r\n", str "+ idling\r\n* 2 EXISTS\r\n", str "DONE\r\n", str "a2 OK\r\n"]

/-- The session `sess` with the pointer `proto_state` set to `p`. -/
def with_proto_state (sess : emailsession) (p : Option imap_session) : emailsession :=
  { sess with proto_state := p }

/-- The tracker state of `session_pre_auth`: the greeting is consumed and no
message is pending. -/
def tracker_pre_auth : imap_session :=
  { new_imap_session with contbuffer := str "* OK imap ready\r\n", contbufread := 17 }

/-- The bytes of an IDLE exchange: the command `<tag> IDLE\r\n`, the server
bytes `reply` (the continuation `+ ...\r\n` and the updates that follow it),
the client's `DONE\r\n` and the tagged reply `<tag> OK<txt>\r\n`. -/
def idle_exchange (tag reply txt : List Nat) : List Nat :=
  (tag ++ str " IDLE" ++ [13, 10]) ++ reply ++ str "DONE\r\n" ++
    (tag ++ str " OK" ++ txt ++ [13, 10])

/-- The saved IDLE command after its command line was read into the free slot
`c0`. -/
def idle_command_saved (c0 : imap_command) (tag : List Nat) : imap_command :=
  ⟨c0.commbuffer ++ (tag ++ str " IDLE" ++ [13, 10]), some (str "IDLE"), some tag,
   c0.imap_reply,
   c0.ccs ++ [⟨c0.commbuffer.length, (c0.commbuffer ++ (tag ++ str " IDLE" ++ [13, 10])).length, 1⟩],
   (c0.commbuffer ++ (tag ++ str " IDLE" ++ [13, 10])).length, 0⟩

/-- The saved IDLE command after `DONE\r\n` was seen: the server bytes and the
`DONE\r\n` are appended, with one CC record each. -/
def idle_command_done (c0 : imap_command) (tag reply : List Nat) : imap_command :=
  { idle_command_saved c0 tag with
    commbuffer := (idle_command_saved c0 tag).commbuffer ++ (reply ++ str "DONE\r\n"),
    ccs := (idle_command_saved c0 tag).ccs ++
      [⟨(idle_command_saved c0 tag).commbuffer.length,
        (idle_command_saved c0 tag).commbuffer.length + reply.length, 0⟩,
       ⟨(idle_command_saved c0 tag).commbuffer.length + reply.length,
        (idle_command_saved c0 tag).commbuffer.length + reply.length + 6, 1⟩] }

/-- The saved IDLE command after the tagged reply was read. -/
def idle_command_replied (c0 : imap_command) (tag reply txt : List Nat) : imap_command :=
  ⟨(idle_command_done c0 tag reply).commbuffer ++ (tag ++ str " OK" ++ txt ++ [13, 10]),
   some (str "IDLE"), some tag, some (str "OK"),
   (idle_command_done c0 tag reply).ccs ++
     [⟨(idle_command_done c0 tag reply).commbuffer.length,
       ((idle_command_done c0 tag reply).commbuffer ++
         (tag ++ str " OK" ++ txt ++ [13, 10])).length, 0⟩],
   (idle_command_done c0 tag reply).reply_start,
   ((idle_command_done c0 tag reply).commbuffer ++ (tag ++ str " OK" ++ txt ++ [13, 10])).length⟩

/-- The tracker states that an IDLE exchange goes through, with `e` the bytes
of the exchange received so far: 0 nothing recognised, 1 the IDLE command
classified, 2 the command saved and the session IDLING, 3 the `+ ` of the
server seen, 4 the `DONE\r\n` handled, 5 the tagged reply classified, 6 the
reply saved. -/
def idle_tracker (imapsess : imap_session) (i : Nat) (c0 : imap_command)
    (tag reply txt e : List Nat) : Nat → imap_session
  | 0 => { imapsess with contbuffer := imapsess.contbuffer ++ e }
  | 1 =>
    { imapsess with contbuffer := imapsess.contbuffer ++ e,
                    next_command_type := OPENLI_IMAP_COMMAND_IDLE,
                    next_comm_tag := some tag, next_command_name := some (str "IDLE"),
                    next_comm_start := imapsess.contbufread }
  | 2 =>
    { imapsess with contbuffer := imapsess.contbuffer ++ e,
                    contbufread := imapsess.contbufread + (tag ++ str " IDLE").length + 2,
                    commands := imapsess.commands.set i (idle_command_saved c0 tag),
                    next_comm_tag := none, next_command_name := none,
                    idle_command_index := (i : Int),
                    next_command_type := OPENLI_IMAP_COMMAND_NONE, next_comm_start := 0,
                    reply_start := 0 }
  | 3 =>
    { imapsess with contbuffer := imapsess.contbuffer ++ e,
                    contbufread := imapsess.contbufread + (tag ++ str " IDLE").length + 2,
                    commands := imapsess.commands.set i (idle_command_saved c0 tag),
                    next_comm_tag := none, next_command_name := none,
                    idle_command_index := (i : Int),
                    next_command_type := OPENLI_IMAP_COMMAND_NONE, next_comm_start := 0,
                    reply_start := imapsess.contbufread + (tag ++ str " IDLE").length + 2 }
  | 4 =>
    { imapsess with contbuffer := imapsess.contbuffer ++ e,
                    contbufread := imapsess.contbufread + (tag ++ str " IDLE").length + 2 +
                      reply.length + 6,
                    commands := imapsess.commands.set i (idle_command_done c0 tag reply),
                    next_comm_tag := none, next_command_name := none,
                    idle_command_index := (i : Int),
                    next_command_type := OPENLI_IMAP_COMMAND_NONE, next_comm_start := 0,
                    reply_start := 0 }
  | 5 =>
    { imapsess with contbuffer := imapsess.contbuffer ++ e,
                    contbufread := imapsess.contbufread + (tag ++ str " IDLE").length + 2 +
                      reply.length + 6,
                    commands := imapsess.commands.set i (idle_command_done c0 tag reply),
                    next_comm_tag := some tag, next_command_name := some (str "OK"),
                    idle_command_index := (i : Int),
                    next_command_type := OPENLI_IMAP_COMMAND_REPLY,
                    next_comm_start := imapsess.contbufread + (tag ++ str " IDLE").length + 2 +
                      reply.length + 6,
                    reply_start := imapsess.contbufread + (tag ++ str " IDLE").length + 2 +
                      reply.length + 6 }
  | _ =>
    { imapsess with contbuffer := imapsess.contbuffer ++ e,
                    contbufread := imapsess.contbufread + (tag ++ str " IDLE").length + 2 +
                      reply.length + 6 + (tag ++ str " OK" ++ txt).length + 2,
                    commands := imapsess.commands.set i (idle_command_replied c0 tag reply txt),
                    next_comm_tag := none, next_command_name := none,
                    idle_command_index := (i : Int),
                    next_command_type := OPENLI_IMAP_COMMAND_NONE, next_comm_start := 0,
                    reply_start := 0 }

/-- The session that goes with `idle_tracker`. -/
def idle_session (sess : emailsession) (tag reply txt : List Nat) : Nat → emailsession
  | 0 => sess
  | 1 => sess
  | 2 =>
    { sess with client_octets := sess.client_octets + ((tag ++ str " IDLE").length + 2),
                currstate := OPENLI_IMAP_STATE_IDLING }
  | 3 =>
    { sess with client_octets := sess.client_octets + ((tag ++ str " IDLE").length + 2),
                currstate := OPENLI_IMAP_STATE_IDLING }
  | 4 =>
    { sess with client_octets := sess.client_octets + ((tag ++ str " IDLE").length + 2) + 6,
                server_octets := sess.server_octets + reply.length,
                currstate := OPENLI_IMAP_STATE_AUTHENTICATED }
  | 5 =>
    { sess with client_octets := sess.client_octets + ((tag ++ str " IDLE").length + 2) + 6,
                server_octets := sess.server_octets + reply.length,
                currstate := OPENLI_IMAP_STATE_AUTHENTICATED }
  | _ =>
    { sess with client_octets := sess.client_octets + ((tag ++ str " IDLE").length + 2) + 6,
                server_octets := sess.server_octets + reply.length +
                  ((tag ++ str " OK" ++ txt).length + 2),
                currstate := OPENLI_IMAP_STATE_AUTHENTICATED }

/-- The state in which the tracker waits when `m` bytes of the exchange have
arrived. -/
def idle_phase (tag reply txt : List Nat) (m : Nat) : Nat :=
  if m < tag.length + 7 then 0
  else if m < tag.length + 7 + 2 then 2
  else if m < tag.length + 7 + reply.length + 6 then 3
  else if m < tag.length + 7 + reply.length + 6 + (tag.length + (if txt = [] then 5 else 4)) then 4
  else if m < tag.length + 7 + reply.length + 6 + (tag.length + 3 + txt.length + 2) then 5
  else 6

/-- The conditions under which the tracker is followed through an IDLE
exchange: the session is AUTHENTICATED with everything read and no message
pending, slot `i` is the first free one and the tags of the commands before it
are other tags, the tag is not `*` and has no NUL, space or CR, the server bytes
have no NUL, start with `+ ` and end at the only place where `\r\nDONE\r\n`
occurs once `DONE\r\n` is appended, and the text after `OK` is empty or starts
with a space and has no NUL or CR. -/
structure idle_conditions (sess : emailsession) (imapsess : imap_session) (i : Nat)
    (c0 : imap_command) (tag reply txt : List Nat) : Prop where
  hstate : sess.currstate = OPENLI_IMAP_STATE_AUTHENTICATED
  hnone : imapsess.next_command_type = OPENLI_IMAP_COMMAND_NONE
  hread : imapsess.contbufread = imapsess.contbuffer.length
  hfree : first_free_command imapsess.commands = some i
  hslot : imapsess.commands[i]? = some c0
  hbefore : ∀ j, j < i → ∃ c, imapsess.commands[j]? = some c ∧ c.tag ≠ none ∧ c.tag ≠ some tag
  hstar : tag ≠ str "*"
  htag : ∀ c ∈ tag, c ≠ 0 ∧ c ≠ 32 ∧ c ≠ 13
  hreply : ∀ c ∈ reply, c ≠ 0
  hplus : reply.take 2 = str "+ "
  hdone : find_sub (str "\r\nDONE\r\n") (reply ++ str "DONE\r\n") = some (reply.length - 2)
  htxt : ∀ c ∈ txt, c ≠ 0 ∧ c ≠ 13
  htxt0 : txt = [] ∨ txt.head? = some 32

/-- A session that is AUTHENTICATED: the greeting is consumed, no command is
saved and no message is pending. -/
def session_authenticated : emailsession :=
  { session_pre_auth with currstate := OPENLI_IMAP_STATE_AUTHENTICATED }

/-- The server bytes of an IDLE exchange with one update. -/
def idle_reply_update : List Nat := str "+ idling\r\n* 2 EXISTS\r\n"

/-- The bytes of the IDLE exchange with tag `a1`, the server bytes
`idle_reply_update` and the reply `a1 OK done\r\n`, cut inside the command
line, inside the continuation, inside `DONE` and inside the tagged reply. -/
def captures_idle_split : List (List Nat) :=
  [str "a1 ID", str "LE\r\n+", str " idling\r\n* 2 EXISTS\r\nDO", str "NE\r\na1 OK",
   str " done\r\n"]

/-! ## Intercept announcements read from the subscription socket -/

/-- Modelled from the spec: `exporter_intercept_msg_t` of `collector_export.h`,
which is not among the sources, with the length fields that
`read_new_intercept_message` fills in; `calloc` leaves the strings NULL and
the lengths zero. -/
structure intercept_msg_frames where
  liid : Option (List Nat)
  liid_len : Nat
  authcc : Option (List Nat)
  authcc_len : Nat
  delivcc : Option (List Nat)
  delivcc_len : Nat
deriving DecidableEq, Repr

/-- What one `zmq_msg_recv` with `ZMQ_DONTWAIT` gives: a frame with its
`ZMQ_RCVMORE` flag, or a failure other than `EAGAIN`. An exhausted list of
frames stands for `EAGAIN`. -/
inductive zmq_frame where
  | part (data : List Nat) (more : Bool)
  | failure
deriving DecidableEq, Repr

/-- The C `strlen` of a string pointer of the model. -/
def strlen (s : Option (List Nat)) : Nat := (s.getD []).length

/-- The `switch (next)` of `read_new_intercept_message`; `none` is the
`assert(0)` of the default case. -/
def store_intercept_frame (next : Nat) (cept : intercept_msg_frames) (ptr : List Nat) :
    Option intercept_msg_frames :=
  match next with
  | 0 =>
    let c1 := { cept with liid := some (cstr ptr) }
    some { c1 with liid_len := strlen c1.liid }
  | 1 =>
    let c1 := { cept with authcc := some (cstr ptr) }
    some { c1 with authcc_len := strlen c1.liid }
  | 2 =>
    let c1 := { cept with delivcc := some (cstr ptr) }
    some { c1 with delivcc_len := strlen c1.liid }
  | _ => none

/-- The `do ... while (more)` loop of `read_new_intercept_message`. -/
def read_new_intercept_message_loop (next : Nat) (cept : intercept_msg_frames) :
    List zmq_frame → Option (intercept_msg_frames × Int)
  | [] => some (cept, 0)
  | zmq_frame.failure :: _ => some (cept, -1)
  | zmq_frame.part ptr more :: rest =>
    match store_intercept_frame next cept ptr with
    | none => none
    | some c1 =>
      if more then read_new_intercept_message_loop (next + 1) c1 rest
      else some (c1, 1)

/-- The function `read_new_intercept_message` on the frames that the
subscription socket delivers: the message built and the return value. -/
def read_new_intercept_message (frames : List zmq_frame) :
    Option (intercept_msg_frames × Int) :=
  read_new_intercept_message_loop 0
    { liid := none, liid_len := 0, authcc := none, authcc_len := 0,
      delivcc := none, delivcc_len := 0 } frames

/-- The three frames of an announcement for LIID `LIID0001` with the
authorisation country code `NZ` and the delivery country code `DE`, each a
NUL-terminated string. -/
def frames_liid0001 : List zmq_frame :=
  [zmq_frame.part (str "LIID0001" ++ [0]) true,
   zmq_frame.part (str "NZ" ++ [0]) true,
   zmq_frame.part (str "DE" ++ [0]) false]

/-- The greeting of a server that has authenticated the connection by
other means (RFC 3501, 7.1.4). -/
def preauth_greeting : List Nat := str "* PREAUTH IMAP4rev1 server logged in as Smith\r\n"

/-- The tracker state of a new session that holds the PREAUTH greeting. -/
def preauth_received : imap_session :=
  { new_imap_session with contbuffer := preauth_greeting }

/-- The tracker state after `find_next_imap_message` has cut the two words of
the PREAUTH greeting: the tag and the name are recorded, the message type is
still NONE and nothing has been consumed. -/
def preauth_pending : imap_session :=
  { preauth_received with next_comm_tag := some (str "*"),
                          next_command_name := some (str "PREAUTH"), next_comm_start := 0 }

/-- The client command `a1 ID NIL`, which announces no parameters. -/
def id_nil_line : List Nat := str "a1 ID NIL\r\n"

/-- A later client command whose arguments hold a parenthesised list of
quoted strings. -/
def list_after_id : List Nat :=
  str "a2 LIST \"\" (\"x-originating-ip\" \"198.51.100.7\" \"x-originating-port\" \"4444\")\r\n"

/-- The tracker state of `session_pre_auth` when the command `a1 ID NIL` and
the bytes `extra` behind it have been appended to the content buffer. -/
def id_nil_received (extra : List Nat) : imap_session :=
  { new_imap_session with
    contbuffer := str "* OK imap ready\r\n" ++ id_nil_line ++ extra, contbufread := 17 }

/-- The tracker state of `session_pre_auth` after `find_next_imap_message`
has classified the command `a1 ID NIL`, the content buffer holding the bytes
`extra` behind the command line. -/
def id_nil_pending (extra : List Nat) : imap_session :=
  { new_imap_session with
    contbuffer := str "* OK imap ready\r\n" ++ id_nil_line ++ extra, contbufread := 17,
    next_comm_start := 17, next_command_type := OPENLI_IMAP_COMMAND_ID,
    next_comm_tag := some (str "a1"), next_command_name := some (str "ID") }

/-- A connected entry for mediator 1 whose buffer holds one earlier record
(enqueue index 0), nothing of which was sent yet. -/
def dest_backlog : export_dest :=
  { add_unknown_destination 1 with
    fd := 5, details := { mediatorid := 1, ipstr := some "192.0.2.1", portstr := some "9001" },
    buffer := append_message_to_buffer init_export_buffer 0 msg_small 0, wire := [[]] }

/-- A second small record for mediator 1. -/
def msg_second : openli_exportmsg := { msg_small with header := some [9, 9, 9] }

/-- The operations on the mediator registry. -/
inductive registry_op where
  | ADD_NEW_DESTINATION (med : openli_mediator)
  | REMOVE_DESTINATION (med : openli_mediator)
  | PURGE_UNCONFIRMED_MEDIATORS
  | CONNECT_EXPORT_TARGETS
  | EXPORT_ENCODED_RECORD (tosend : openli_exportmsg)
deriving DecidableEq, Repr

/-- The exporter after one operation on the registry. -/
def registry_apply (env : Env) (exp : collector_export) : registry_op → collector_export
  | registry_op.ADD_NEW_DESTINATION med => (add_new_destination env exp med).1
  | registry_op.REMOVE_DESTINATION med => remove_destination exp med
  | registry_op.PURGE_UNCONFIRMED_MEDIATORS => purge_unconfirmed_mediators exp
  | registry_op.CONNECT_EXPORT_TARGETS => (connect_export_targets env exp).1
  | registry_op.EXPORT_ENCODED_RECORD tosend => (export_encoded_record env exp tosend).1

/-- The exporter after a sequence of operations on the registry. -/
def registry_run (env : Env) (exp : collector_export) (ops : List registry_op) :
    collector_export :=
  ops.foldl (registry_apply env) exp

/-- The mediator ids of the entries of the registry, in list order. -/
def registry_ids (dests : List export_dest) : List Nat :=
  dests.map (fun d => d.details.mediatorid)

/-! ## The collector configuration (`configparser.c`) -/

/-- A node of a libyaml document: a scalar with its bytes (the C string
`data.scalar.value` is `cstr` of them), a sequence with its items or a
mapping with its key/value pairs. -/
inductive yaml_node where
  | YAML_SCALAR_NODE (value : List Nat)
  | YAML_SEQUENCE_NODE (items : List yaml_node)
  | YAML_MAPPING_NODE (pairs : List (yaml_node × yaml_node))

open yaml_node

/-- What `yaml_parser` finds under the name `configfile`: a file that cannot
be opened, one that libyaml cannot load, a document without a root node, or
a document with a root node. -/
inductive config_file where
  | unreadable
  | malformed
  | empty
  | document (root : yaml_node)

/-- What is outside of `configparser.c`: the `strtoul` of the C library, in
base 10, as a function of the C string. -/
structure config_env where
  strtoul : List Nat → Nat

/-- Modelled from the spec: `colinput_t` of `collector.h`, which is not among
the sources; the fields that `parse_input_config` sets, a NULL pointer being
`none`. -/
structure colinput where
  uri : Option (List Nat)
  threadcount : Nat
  trace : Option Nat
  pktcbs : Option Nat
deriving DecidableEq, Repr

/-- Modelled from the spec: `collector_global_t` of `collector.h`, which is
not among the sources; the fields that `configparser.c` sets. `inputs` holds
the `inputcount` used entries, `syncsendqs` and `syncepollevs` are the number
of zeroed slots allocated, and the counters are natural numbers. -/
structure collector_global where
  inputs : List colinput
  inputalloced : Nat
  totalthreads : Nat
  queuealloced : Nat
  registered_syncqs : Nat
  syncsendqs : Option Nat
  syncepollevs : Option Nat
  intpointid : Option (List Nat)
  intpointid_len : Nat
  operatorid : Option (List Nat)
  operatorid_len : Nat
  networkelemid : Option (List Nat)
  networkelemid_len : Nat
  syncthreadid : Nat
  exportthreadid : Nat
  sync_epollfd : Int
  export_epollfd : Int
  export_epoll_evs : Option Nat
  provisionerip : Option (List Nat)
  provisionerport : Option (List Nat)
deriving DecidableEq, Repr

/-- The test `key->type == YAML_SCALAR_NODE && strcmp(key->data.scalar.value,
name) == 0`. -/
def yaml_scalar_is (key : yaml_node) (name : String) : Bool :=
  match key with
  | YAML_SCALAR_NODE value => cstr value == str name
  | _ => false

/-- The C string of a scalar node, `none` for a node of another type. -/
def yaml_scalar_value (node : yaml_node) : Option (List Nat) :=
  match node with
  | YAML_SCALAR_NODE value => some (cstr value)
  | _ => none

/-- The test `value->type == YAML_SEQUENCE_NODE`. -/
def yaml_is_sequence (node : yaml_node) : Bool :=
  match node with
  | YAML_SEQUENCE_NODE _ => true
  | _ => false

/-- The inner loop of `parse_input_config` over the pairs of one input. -/
def parse_input_pairs (env : config_env) (inp : colinput) :
    List (yaml_node × yaml_node) → colinput
  | [] => inp
  | (key, value) :: rest =>
    let inp :=
      match yaml_scalar_value value with
      | some v =>
        if yaml_scalar_is key "uri" ∧ inp.uri = none then { inp with uri := some v } else inp
      | none => inp
    let inp :=
      match yaml_scalar_value value with
      | some v =>
        if yaml_scalar_is key "threads" then { inp with threadcount := env.strtoul v } else inp
      | none => inp
    parse_input_pairs env inp rest

/-- The outer loop of `parse_input_config` over the items of the sequence.
The source reads `data.mapping.pairs` of every item without a look at the
type of the node; for an item that is not a mapping the behaviour is not
determined by the source, and the result is `none`. -/
def parse_input_items (env : config_env) :
    collector_global → List yaml_node → Option collector_global
  | glob, [] => some glob
  | glob, node :: rest =>
    let glob :=
      if glob.inputs.length = glob.inputalloced then
        if glob.inputalloced = 0 then { glob with inputalloced := 10 }
        else { glob with inputalloced := glob.inputalloced + 10 }
      else glob
    match node with
    | YAML_MAPPING_NODE pairs =>
      let inp := parse_input_pairs env
        { uri := none, threadcount := 1, trace := none, pktcbs := none } pairs
      parse_input_items env
        { glob with inputs := glob.inputs ++ [inp],
                    totalthreads := glob.totalthreads + inp.threadcount } rest
    | _ => none

/-- The function `parse_input_config` on a sequence node: the structure and
the return value, which is always 0. -/
def parse_input_config (env : config_env) (glob : collector_global) (inputs : yaml_node) :
    Option (collector_global × Int) :=
  match inputs with
  | YAML_SEQUENCE_NODE items =>
    match parse_input_items env glob items with
    | none => none
    | some glob =>
      some ({ glob with syncsendqs := some glob.totalthreads,
                        syncepollevs := some glob.totalthreads,
                        queuealloced := glob.totalthreads, registered_syncqs := 0 }, 0)
  | _ => none

/-- The block of `global_parser` for the key `operatorid`: the structure
after it, or `none` where the block calls `clear_global_config` and returns
-1. -/
def parse_operatorid (glob : collector_global) (key value : yaml_node) :
    Option collector_global :=
  match yaml_scalar_value value with
  | none => some glob
  | some v =>
    if yaml_scalar_is key "operatorid" then
      let glob := { glob with operatorid := some v, operatorid_len := v.length }
      if glob.operatorid_len > 16 then none else some glob
    else some glob

/-- The block of `global_parser` for the key `networkelementid`. -/
def parse_networkelementid (glob : collector_global) (key value : yaml_node) :
    Option collector_global :=
  match yaml_scalar_value value with
  | none => some glob
  | some v =>
    if yaml_scalar_is key "networkelementid" then
      let glob := { glob with networkelemid := some v, networkelemid_len := v.length }
      if glob.networkelemid_len > 16 then none else some glob
    else some glob

/-- The block of `global_parser` for the key `interceptpointid`. -/
def parse_interceptpointid (glob : collector_global) (key value : yaml_node) :
    Option collector_global :=
  match yaml_scalar_value value with
  | none => some glob
  | some v =>
    if yaml_scalar_is key "interceptpointid" then
      let glob := { glob with intpointid := some v, intpointid_len := v.length }
      if glob.intpointid_len > 8 then none else some glob
    else some glob

/-- The two blocks of `global_parser` for the keys `provisionerport` and
`provisionerip`. -/
def parse_provisioner (glob : collector_global) (key value : yaml_node) : collector_global :=
  match yaml_scalar_value value with
  | none => glob
  | some v =>
    let glob :=
      if yaml_scalar_is key "provisionerport" then { glob with provisionerport := some v }
      else glob
    if yaml_scalar_is key "provisionerip" then { glob with provisionerip := some v } else glob

/-- The function `global_parser`, block by block: the structure after the
call, `none` when `clear_global_config` has released it, and the return
value. The outer `none` is the undetermined behaviour of
`parse_input_config`. -/
def global_parser_callback (env : config_env) (glob : collector_global) (key value : yaml_node) :
    Option (Option collector_global × Int) :=
  let inputs : Option (collector_global × Int) :=
    if yaml_scalar_is key "inputs" ∧ yaml_is_sequence value then
      parse_input_config env glob value
    else some (glob, 0)
  match inputs with
  | none => none
  | some (glob, r) =>
    if r = -1 then some (none, -1)
    else
      match parse_operatorid glob key value with
      | none => some (none, -1)
      | some glob =>
        match parse_networkelementid glob key value with
        | none => some (none, -1)
        | some glob =>
          match parse_interceptpointid glob key value with
          | none => some (none, -1)
          | some glob => some (some (parse_provisioner glob key value), 0)

/-- The loop of `yaml_parser` over the pairs of the root mapping; `ret` is
the value of the variable `ret` so far. A callback that releases its argument
and does not return -1 leaves a dangling pointer for the next call: `none`,
as for a callback whose behaviour is not determined. -/
def yaml_parser_pairs {σ : Type} (parse_mapping : σ → yaml_node → yaml_node →
    Option (Option σ × Int)) : σ → Int → List (yaml_node × yaml_node) → Option (Option σ × Int)
  | arg, ret, [] => some (some arg, ret)
  | arg, _, (key, value) :: rest =>
    match parse_mapping arg key value with
    | none => none
    | some (a, r) =>
      if r = -1 then some (a, -1)
      else
        match a with
        | some arg1 => yaml_parser_pairs parse_mapping arg1 0 rest
        | none => none

/-- The function `yaml_parser`: the argument structure after the call and the
return value. -/
def yaml_parser_file {σ : Type} (configfile : config_file) (arg : σ)
    (parse_mapping : σ → yaml_node → yaml_node → Option (Option σ × Int)) :
    Option (Option σ × Int) :=
  match configfile with
  | config_file.unreadable => some (some arg, -1)
  | config_file.malformed => some (some arg, -1)
  | config_file.empty => some (some arg, -1)
  | config_file.document root =>
    match root with
    | YAML_MAPPING_NODE pairs => yaml_parser_pairs parse_mapping arg (-1) pairs
    | _ => some (some arg, -1)

/-- The structure that `parse_global_config` hands to `yaml_parser`. -/
def new_collector_global : collector_global :=
  { inputs := [], inputalloced := 0, totalthreads := 0, queuealloced := 0,
    registered_syncqs := 0, syncsendqs := none, syncepollevs := none,
    intpointid := none, intpointid_len := 0, operatorid := none, operatorid_len := 0,
    networkelemid := none, networkelemid_len := 0, syncthreadid := 0, exportthreadid := 0,
    sync_epollfd := -1, export_epollfd := -1, export_epoll_evs := none,
    provisionerip := none, provisionerport := none }

/-- The function `parse_global_config`: `some none` is the NULL pointer,
`some (some glob)` a configuration. When no network element id was given the
source sets `glob` to NULL and then reads `glob->operatorid`; that, like the
undetermined behaviour of the parser, is `none`. -/
def parse_global_config (env : config_env) (configfile : config_file) :
    Option (Option collector_global) :=
  match yaml_parser_file configfile new_collector_global (global_parser_callback env) with
  | none => none
  | some (g, ret) =>
    if ret = -1 then some none
    else
      match g with
      | none => none
      | some glob =>
        let glob : Option collector_global :=
          if glob.networkelemid = none then none else some glob
        match glob with
        | none => none
        | some glob => if glob.operatorid = none then some none else some (some glob)

/-- A `strtoul` for strings of decimal digits. -/
def strtoul_digits (s : List Nat) : Nat :=
  (s.takeWhile (fun c => 48 ≤ c ∧ c ≤ 57)).foldl (fun n c => 10 * n + (c - 48)) 0

/-- An environment with `strtoul_digits`. -/
def env_config : config_env := { strtoul := strtoul_digits }

/-- A collector configuration whose operator id is 17 bytes long. -/
def config_long_operatorid : config_file :=
  config_file.document (YAML_MAPPING_NODE
    [(YAML_SCALAR_NODE (str "inputs"),
      YAML_SEQUENCE_NODE [YAML_MAPPING_NODE
        [(YAML_SCALAR_NODE (str "uri"), YAML_SCALAR_NODE (str "ring:eth1")),
         (YAML_SCALAR_NODE (str "threads"), YAML_SCALAR_NODE (str "2"))]]),
     (YAML_SCALAR_NODE (str "networkelementid"), YAML_SCALAR_NODE (str "wand-ne-1")),
     (YAML_SCALAR_NODE (str "operatorid"), YAML_SCALAR_NODE (str "WAND-operator-017")),
     (YAML_SCALAR_NODE (str "interceptpointid"), YAML_SCALAR_NODE (str "col01"))])

/-! ## SIP URIs (`sipparsing.c`) -/

/-- The function `strip_sip_uri` on the C string in the buffer `uristr`: the
C string that the returned pointer refers to after the function has written
its NUL, or `none` for NULL. Every `strchr` searches the C string, which the
truncation at ';' shortens before the search for '?'. -/
def strip_sip_uri (uristr : List Nat) : Option (List Nat) :=
  let s := cstr uristr
  match find_sub [58] s with
  | none => none
  | some firstcol =>
    match find_sub [58] (s.drop (firstcol + 1)) with
    | some chop => some (s.take (firstcol + 1 + chop))
    | none =>
      let s :=
        match find_sub [59] (s.drop (firstcol + 1)) with
        | some chop => s.take (firstcol + 1 + chop)
        | none => s
      let s :=
        match find_sub [63] (s.drop (firstcol + 1)) with
        | some chop => s.take (firstcol + 1 + chop)
        | none => s
      some s

/-- The function `get_sip_from_uri`; `uristr` is the string that
`osip_uri_to_str_canonical` gives for the From header, `none` when there is
no such header or the conversion fails. -/
def get_sip_from_uri (uristr : Option (List Nat)) : Option (List Nat) :=
  match uristr with
  | none => none
  | some s => strip_sip_uri s

/-- The list `l` up to the first occurrence of the byte `c`. -/
def chop_at (c : Nat) (l : List Nat) : List Nat :=
  match find_sub [c] l with
  | some k => l.take k
  | none => l

/-- One parameter of an ID command: the quoted key, a space and the quoted
value. -/
def id_pair (p : List Nat × List Nat) : List Nat :=
  34 :: (p.1 ++ 34 :: 32 :: 34 :: (p.2 ++ [34]))

/-- The parameters of an ID command behind the first one, each with the
space that separates it from the one before. -/
def id_pairs_tail : List (List Nat × List Nat) → List Nat
  | [] => []
  | p :: rest => 32 :: (id_pair p ++ id_pairs_tail rest)

/-- The parameter list of an ID command: the parameters separated by single
spaces. -/
def id_pairs : List (List Nat × List Nat) → List Nat
  | [] => []
  | p :: rest => id_pair p ++ id_pairs_tail rest

/-- The client command `<tag> ID ("k1" "v1" "k2" "v2" ...)` with its CRLF. -/
def id_command_line (tag : List Nat) (pairs : List (List Nat × List Nat)) : List Nat :=
  tag ++ (str " ID (" ++ (id_pairs pairs ++ str ")\r\n"))

/-- The value that a parameter list gives for `key`: that of the last
parameter with this key. -/
def id_value (key : List Nat) (pairs : List (List Nat × List Nat)) : Option (List Nat) :=
  pairs.foldl (fun acc p => if p.1 = key then some p.2 else acc) none

/-- The endpoint of a session after an ID command with the parameters
`pairs`: the values of `ipkey` and `portkey` when the list holds both keys,
and the endpoint `old` that the session had otherwise. -/
def id_endpoint (ipkey portkey : String) (pairs : List (List Nat × List Nat))
    (old : Option (List Nat × List Nat)) : Option (List Nat × List Nat) :=
  match id_value (str ipkey) pairs, id_value (str portkey) pairs with
  | some ip, some port => some (ip, port)
  | _, _ => old

/-- The bytes that may stand in a key or a value of an ID parameter, which
`parse_id_command` copies into buffers of 2048 bytes: no quote, no CR, no NUL,
and fewer than 2048 of them. -/
def id_string_ok (s : List Nat) : Prop :=
  (∀ c ∈ s, c ≠ 34 ∧ c ≠ 13 ∧ c ≠ 0) ∧ s.length < 2048

instance (s : List Nat) : Decidable (id_string_ok s) := by
  unfold id_string_ok
  infer_instance

/-- The parameters of an ID command that a proxy sends: a name, the port and
the address of the client behind the proxy, and the address, but not the
port, of the server. -/
def id_params_proxy : List (List Nat × List Nat) :=
  [(str "name", str "proxy"), (str "x-originating-port", str "4444"),
   (str "x-connected-ip", str "192.0.2.10"), (str "x-originating-ip", str "198.51.100.7")]

/-- The tracker state of `session_pre_auth` after `find_next_imap_message`
has classified the ID command `a1` with the parameters `id_params_proxy`. -/
def id_params_pending : imap_session :=
  { new_imap_session with
    contbuffer := str "* OK imap ready\r\n" ++ id_command_line (str "a1") id_params_proxy,
    contbufread := 17, next_comm_start := 17, next_command_type := OPENLI_IMAP_COMMAND_ID,
    next_comm_tag := some (str "a1"), next_command_name := some (str "ID") }

/-- A line without its CRLF: a tag, a space, a word and the rest of the
line. -/
def line_body (tag word txt : List Nat) : List Nat := tag ++ 32 :: (word ++ txt)

/-- An untagged line of the server with its CRLF: `*`, a space, a word and
the rest of the line. -/
def untagged_line (l : List Nat × List Nat) : List Nat :=
  line_body (str "*") l.1 l.2 ++ [13, 10]

/-- The untagged lines `ls`, one after the other. -/
def untagged_lines : List (List Nat × List Nat) → List Nat
  | [] => []
  | l :: rest => untagged_line l ++ untagged_lines rest

/-- A tagged line of the server with its CRLF. -/
def tagged_line (tag word txt : List Nat) : List Nat := line_body tag word txt ++ [13, 10]

/-- The bytes of a tag or of the word behind it: no NUL, no space, no CR. -/
def line_word_ok (w : List Nat) : Prop := ∀ c ∈ w, c ≠ 0 ∧ c ≠ 32 ∧ c ≠ 13

instance (w : List Nat) : Decidable (line_word_ok w) := by
  unfold line_word_ok
  infer_instance

/-- The rest of a line behind its second word: empty or led by a space, and
without NUL or CR. -/
def line_text_ok (txt : List Nat) : Prop :=
  (txt = [] ∨ txt.head? = some 32) ∧ ∀ c ∈ txt, c ≠ 0 ∧ c ≠ 13

instance (txt : List Nat) : Decidable (line_text_ok txt) := by
  unfold line_text_ok
  infer_instance

/-- An untagged line that belongs to the reply to a command: its word is not
PREAUTH, and it is BYE only in the LOGOUT state. -/
def untagged_line_ok (state : imap_state) (l : List Nat × List Nat) : Prop :=
  line_word_ok l.1 ∧ line_text_ok l.2 ∧ strcasecmp_eq l.1 (str "PREAUTH") = false ∧
  (strcasecmp_eq l.1 (str "BYE") = true → state = OPENLI_IMAP_STATE_LOGOUT)

instance (state : imap_state) (l : List Nat × List Nat) :
    Decidable (untagged_line_ok state l) := by
  unfold untagged_line_ok
  infer_instance

/-- The tracker state after the greeting and the command `a1 SELECT inbox`,
which is saved in the first slot. -/
def select_sent : imap_session :=
  { new_imap_session with
    contbuffer := str "* OK imap ready\r\na1 SELECT inbox\r\n", contbufread := 34,
    commands :=
      [⟨str "a1 SELECT inbox\r\n", some (str "SELECT"), some (str "a1"), none, [⟨0, 17, 1⟩],
        17, 0⟩, init_imap_command, init_imap_command, init_imap_command, init_imap_command] }

/-- The session after the greeting and the command `a1 SELECT inbox`. -/
def session_select_sent : emailsession :=
  { session_pre_auth with client_octets := 17, proto_state := some select_sent }

/-- The reply to `a1 SELECT inbox`: two untagged lines and the tagged OK. -/
def select_reply : List Nat :=
  untagged_lines [(str "3", str " EXISTS"), (str "0", str " RECENT")] ++
    tagged_line (str "a1") (str "OK") (str " SELECT completed")

/-- An untagged BYE line followed by the tagged OK for `a1`. -/
def bye_then_ok : List Nat :=
  untagged_lines [(str "BYE", str " shutting down")] ++
    tagged_line (str "a1") (str "OK") (str " done")

/-! # Theorems -/

/-! ## The wire layout of `forward_fd` -/

theorem u32_sub_of_le (a b : Nat) (ha : a < 4294967296) (hb : b ≤ a) : u32_sub a b = a - b := by
  unfold u32_sub
  omega

theorem wrap_int32_of_fits (n : Nat) (h : n < 2147483648) : wrap_int32 (n : Int) = (n : Int) := by
  unfold wrap_int32
  omega

theorem body_2gib_length : body_2gib.length = 2147483648 := by
  simp only [body_2gib, List.length_replicate]

/-- C7, as stated, fails: for a record with a 1-byte header, a 1-byte LIID and
an encoded body of 2^31 bytes, the `int total` of `forward_fd` is
-2147483644 and not 1 + 2 + 1 + 2^31. -/
theorem forward_fd_total_2gib :
    msg_2gib.header = some [1] ∧ [1].length = msg_2gib.hdrlen ∧
    msg_2gib.liid = some [90] ∧ [90].length = msg_2gib.liidlen ∧ msg_2gib.liidlen ≤ 65535 ∧
    msg_2gib.msgbody.encoded.length = msg_2gib.msgbody.len ∧
    msg_2gib.msgbody.len < 4294967296 ∧
    msg_2gib.ipcontents.length = msg_2gib.ipclen ∧ msg_2gib.ipclen ≤ msg_2gib.msgbody.len ∧
    forward_fd_total msg_2gib = -2147483644 ∧
    forward_fd_total msg_2gib ≠
      ((msg_2gib.hdrlen + 2 + msg_2gib.liidlen + msg_2gib.msgbody.len : Nat) : Int) := by
  have ht : forward_fd_total msg_2gib = -2147483644 := by
    simp only [forward_fd_total, msg_2gib, forward_fd_enclen, u32_sub, wrap_int32]
    norm_num
  refine ⟨rfl, rfl, rfl, rfl, ?_, body_2gib_length, ?_, rfl, ?_, ht, ?_⟩
  · simp only [msg_2gib]; norm_num
  · simp only [msg_2gib]; norm_num
  · simp only [msg_2gib]; norm_num
  · rw [ht]
    simp only [msg_2gib]
    norm_num

/-- C7 (amended): for a record with header `h` of `hdrlen` bytes, LIID `l` of
`liidlen ≤ 65535` bytes, an encoded body of `msgbody.len` bytes (a
`uint32_t`) and `ipclen ≤ msgbody.len` bytes of IP content, the byte string
`forward_fd` offers to the socket is `h`, the big-endian 16-bit `liidlen`,
`l`, the first `msgbody.len - ipclen` bytes of the body and the IP content;
it is `hdrlen + 2 + liidlen + msgbody.len` bytes long, and `total` equals
that number whenever the number is below 2^31. -/
theorem forward_fd_layout (msg : openli_exportmsg) (h l : List Nat)
    (hh : msg.header = some h) (hhl : h.length = msg.hdrlen)
    (hl : msg.liid = some l) (hll : l.length = msg.liidlen) (hli : msg.liidlen ≤ 65535)
    (hb : msg.msgbody.encoded.length = msg.msgbody.len)
    (hlen : msg.msgbody.len < 4294967296)
    (hip : msg.ipcontents.length = msg.ipclen) (hle : msg.ipclen ≤ msg.msgbody.len) :
    forward_fd_bytes msg =
        h ++ [msg.liidlen / 256, msg.liidlen % 256] ++ l ++
          msg.msgbody.encoded.take (msg.msgbody.len - msg.ipclen) ++ msg.ipcontents ∧
      (forward_fd_bytes msg).length = msg.hdrlen + 2 + msg.liidlen + msg.msgbody.len ∧
      (msg.hdrlen + 2 + msg.liidlen + msg.msgbody.len < 2147483648 →
        forward_fd_total msg = ((msg.hdrlen + 2 + msg.liidlen + msg.msgbody.len : Nat) : Int)) := by
  have henc : forward_fd_enclen msg = msg.msgbody.len - msg.ipclen :=
    u32_sub_of_le _ _ hlen hle
  have hbytes : forward_fd_bytes msg =
        h ++ [msg.liidlen / 256, msg.liidlen % 256] ++ l ++
          msg.msgbody.encoded.take (msg.msgbody.len - msg.ipclen) ++ msg.ipcontents := by
    have h1 : h.take msg.hdrlen = h := List.take_of_length_le (by omega)
    have h2 : l.take msg.liidlen = l := List.take_of_length_le (by omega)
    have h3 : msg.liidlen / 256 % 256 = msg.liidlen / 256 := by omega
    unfold forward_fd_bytes forward_fd_iov
    rw [hh, hl, henc]
    by_cases hz : msg.ipclen > 0
    · have h4 : msg.ipcontents.take msg.ipclen = msg.ipcontents :=
        List.take_of_length_le (by omega)
      simp [hz, htons_bytes, h1, h2, h3, h4]
    · have h5 : msg.ipcontents = [] := List.length_eq_zero.mp (by omega)
      simp [hz, htons_bytes, h1, h2, h3, h5]
  refine ⟨hbytes, ?_, ?_⟩
  · rw [hbytes]
    simp [List.length_take, hb, hhl, hll, hip]
    omega
  · intro hfit
    unfold forward_fd_total
    rw [hh, hl, henc]
    by_cases hz : msg.ipclen > 0
    · simp only [hz, if_true, zero_add]
      rw [wrap_int32_of_fits _ (by omega), ← Nat.cast_add, wrap_int32_of_fits _ (by omega),
        ← Nat.cast_add, wrap_int32_of_fits _ (by omega), ← Nat.cast_add,
        wrap_int32_of_fits _ (by omega)]
      congr 1
      omega
    · simp only [hz, if_false, zero_add]
      rw [wrap_int32_of_fits _ (by omega), ← Nat.cast_add, wrap_int32_of_fits _ (by omega),
        ← Nat.cast_add, wrap_int32_of_fits _ (by omega)]
      congr 1
      omega

theorem forward_fd_layout_witness :
    forward_fd_bytes msg_small = [1, 2, 3] ++ [0, 2] ++ [88, 89] ++ [48, 49] ++ [69, 0] ∧
      (forward_fd_bytes msg_small).length = 11 ∧
      forward_fd_total msg_small = 11 := by
  have w := forward_fd_layout msg_small [1, 2, 3] [88, 89] rfl rfl rfl rfl (by decide) rfl
    (by decide) rfl (by decide)
  exact ⟨w.1, w.2.1, w.2.2 (by decide)⟩

/-! ## `run_encoding_job` -/

theorem transmit_ret_ne_neg_one (buf : export_buffer) (o : SendOutcome) (lim : Nat)
    (ho : o ≠ SendOutcome.error) : (transmit_buffered_records buf o lim).2.1 ≠ -1 := by
  unfold transmit_buffered_records
  cases o with
  | error => exact absurd rfl ho
  | eagain => simp
  | sent n =>
    simp only
    omega

theorem forward_fd_ret (dest : export_dest) (tag : Nat) (msg : openli_exportmsg)
    (o : SendOutcome) (ho : o ≠ SendOutcome.error) : (forward_fd dest tag msg o).2 = 0 := by
  unfold forward_fd
  cases o with
  | error => exact absurd rfl ho
  | eagain => rfl
  | sent n =>
    simp only
    split <;> rfl

theorem forward_message_ret (dest : export_dest) (tag : Nat) (msg : openli_exportmsg)
    (o1 o2 : SendOutcome) (h1 : o1 ≠ SendOutcome.error) (h2 : o2 ≠ SendOutcome.error) :
    (forward_message dest tag msg o1 o2).2 = 0 := by
  unfold forward_message
  split
  · rfl
  · split
    · exact forward_fd_ret _ _ _ _ h2
    · simp only [transmit_ret_ne_neg_one _ _ _ h1, if_false]
      split
      · exact forward_fd_ret _ _ _ _ h2
      · rfl

theorem export_encoded_record_walk_ret (tag : Nat) (msg : openli_exportmsg)
    (o1 o2 : SendOutcome) (h1 : o1 ≠ SendOutcome.error) (h2 : o2 ≠ SendOutcome.error)
    (dests : List export_dest) (r : List export_dest × Int)
    (h : export_encoded_record_walk tag msg o1 o2 dests = some r) : r.2 = 1 := by
  induction dests generalizing r with
  | nil => simp [export_encoded_record_walk] at h
  | cons d rest ih =>
    unfold export_encoded_record_walk at h
    split at h
    · simp only [forward_message_ret _ _ _ _ _ h1 h2] at h
      simp at h
      rw [← h]
    · cases hw : export_encoded_record_walk tag msg o1 o2 rest with
      | none => simp [hw] at h
      | some p =>
        simp [hw] at h
        rw [← h]
        exact ih p hw

theorem export_encoded_record_dests_ret (dests : List export_dest) (tag : Nat)
    (msg : openli_exportmsg) (o1 o2 : SendOutcome) (h1 : o1 ≠ SendOutcome.error)
    (h2 : o2 ≠ SendOutcome.error) : (export_encoded_record_dests dests tag msg o1 o2).2 = 1 := by
  unfold export_encoded_record_dests
  cases hw : export_encoded_record_walk tag msg o1 o2 dests with
  | some r => exact export_encoded_record_walk_ret _ _ _ _ h1 h2 _ _ hw
  | none =>
    simp only [forward_message_ret _ _ _ _ _ h1 h2]
    simp

theorem export_encoded_record_ret (env : Env) (exp : collector_export) (msg : openli_exportmsg)
    (hs : ∀ i, env.send i ≠ SendOutcome.error) : (export_encoded_record env exp msg).2 = 1 :=
  export_encoded_record_dests_ret _ _ _ _ _ (hs _) (hs _)

@[simp] theorem export_encoded_record_intercepts (env : Env) (exp : collector_export)
    (msg : openli_exportmsg) : (export_encoded_record env exp msg).1.intercepts = exp.intercepts :=
  rfl

@[simp] theorem export_encoded_record_trace (env : Env) (exp : collector_export)
    (msg : openli_exportmsg) : (export_encoded_record env exp msg).1.trace = exp.trace :=
  rfl

@[simp] theorem export_encoded_record_nenc (env : Env) (exp : collector_export)
    (msg : openli_exportmsg) : (export_encoded_record env exp msg).1.nenc = exp.nenc :=
  rfl

@[simp] theorem export_encoded_record_forwarded (env : Env) (exp : collector_export)
    (msg : openli_exportmsg) :
    (export_encoded_record env exp msg).1.forwarded = exp.forwarded ++ [msg] :=
  rfl

theorem store_cinseq_store (tbl : String → Option exporter_intercept_state) (liid : String)
    (cin : Nat) (c1 c2 : cin_seqno) :
    store_cinseq (store_cinseq tbl liid cin c1) liid cin c2 = store_cinseq tbl liid cin c2 := by
  unfold store_cinseq
  cases ht : tbl liid with
  | none => simp [ht]
  | some st => simp

theorem store_cinseq_apply (tbl : String → Option exporter_intercept_state) (liid : String)
    (cin : Nat) (c : cin_seqno) (st : exporter_intercept_state) (h : tbl liid = some st) :
    store_cinseq tbl liid cin c liid =
      some { st with cinsequencing := Function.update st.cinsequencing cin (some c) } := by
  unfold store_cinseq
  simp [h]

theorem iri_call_succ (recvd : openli_export_recv) (details : exporter_intercept_msg)
    (s ind i : Nat) :
    iri_call recvd details (s + 1) (ind + 1) i = iri_call recvd details s ind (i + 1) := by
  unfold iri_call
  congr 1 <;> omega

@[simp] theorem run_encoding_switch_nenc (env : Env) (recvd : openli_export_recv)
    (details : exporter_intercept_msg) (exp : collector_export) (cinseq : cin_seqno) (ind : Nat) :
    (run_encoding_switch env recvd details exp cinseq ind).exp.nenc = exp.nenc + 1 := rfl

@[simp] theorem run_encoding_switch_forwarded (env : Env) (recvd : openli_export_recv)
    (details : exporter_intercept_msg) (exp : collector_export) (cinseq : cin_seqno) (ind : Nat) :
    (run_encoding_switch env recvd details exp cinseq ind).exp.forwarded = exp.forwarded := rfl

@[simp] theorem run_encoding_switch_dests (env : Env) (recvd : openli_export_recv)
    (details : exporter_intercept_msg) (exp : collector_export) (cinseq : cin_seqno) (ind : Nat) :
    (run_encoding_switch env recvd details exp cinseq ind).exp.dests = exp.dests := rfl

theorem run_encoding_switch_intercepts (env : Env) (recvd : openli_export_recv)
    (details : exporter_intercept_msg) (exp : collector_export) (cinseq : cin_seqno) (ind : Nat) :
    (run_encoding_switch env recvd details exp cinseq ind).exp.intercepts =
      store_cinseq exp.intercepts recvd.liid recvd.cin
        (run_encoding_switch env recvd details exp cinseq ind).cinseq := rfl

theorem run_encoding_switch_ipiri (env : Env) (recvd : openli_export_recv)
    (ht : recvd.type = OPENLI_EXPORT_IPIRI)
    (details : exporter_intercept_msg) (exp : collector_export) (cinseq : cin_seqno) (ind : Nat) :
    (run_encoding_switch env recvd details exp cinseq ind).ret =
        (env.enc exp.nenc (iri_call recvd details cinseq.iri_seqno ind 0)).1 ∧
      (run_encoding_switch env recvd details exp cinseq ind).tosend =
        (env.enc exp.nenc (iri_call recvd details cinseq.iri_seqno ind 0)).2 ∧
      (run_encoding_switch env recvd details exp cinseq ind).exp.trace =
        exp.trace ++ [(iri_call recvd details cinseq.iri_seqno ind 0,
          (env.enc exp.nenc (iri_call recvd details cinseq.iri_seqno ind 0)).1)] ∧
      (0 ≤ (env.enc exp.nenc (iri_call recvd details cinseq.iri_seqno ind 0)).1 →
        (run_encoding_switch env recvd details exp cinseq ind).cinseq =
            { cinseq with iri_seqno := cinseq.iri_seqno + 1 } ∧
          (run_encoding_switch env recvd details exp cinseq ind).ind = ind + 1) ∧
      ((env.enc exp.nenc (iri_call recvd details cinseq.iri_seqno ind 0)).1 < 0 →
        (run_encoding_switch env recvd details exp cinseq ind).cinseq = cinseq ∧
          (run_encoding_switch env recvd details exp cinseq ind).ind = ind) := by
  have hc : iri_call recvd details cinseq.iri_seqno ind 0 =
      { job := recvd, details := details, seqno := cinseq.iri_seqno, ind := ind } := rfl
  rw [hc]
  unfold run_encoding_switch
  simp only [ht, is_cc_job]
  refine ⟨rfl, rfl, rfl, ?_, ?_⟩
  · intro h
    simp [h]
  · intro h
    have h2 : ¬ (0 ≤ (env.enc exp.nenc
        { job := recvd, details := details, seqno := cinseq.iri_seqno, ind := ind }).1) := by
      omega
    simp [h2]

theorem run_encoding_loop_ipiri (env : Env) (hs : ∀ i, env.send i ≠ SendOutcome.error)
    (recvd : openli_export_recv) (ht : recvd.type = OPENLI_EXPORT_IPIRI)
    (details : exporter_intercept_msg) :
    ∀ (k fuel : Nat) (exp : collector_export) (cinseq : cin_seqno) (ind : Nat) (v : Int),
      k < fuel →
      (∀ i, i < k →
        0 < (env.enc (exp.nenc + i) (iri_call recvd details cinseq.iri_seqno ind i)).1) →
      (env.enc (exp.nenc + k) (iri_call recvd details cinseq.iri_seqno ind k)).1 = v →
      v ≤ 0 →
      (run_encoding_loop env recvd details fuel exp cinseq ind).2 = some v ∧
      (run_encoding_loop env recvd details fuel exp cinseq ind).1.trace =
        exp.trace ++ (List.range (k + 1)).map (fun i =>
          (iri_call recvd details cinseq.iri_seqno ind i,
            (env.enc (exp.nenc + i) (iri_call recvd details cinseq.iri_seqno ind i)).1)) ∧
      (run_encoding_loop env recvd details fuel exp cinseq ind).1.nenc = exp.nenc + (k + 1) ∧
      (run_encoding_loop env recvd details fuel exp cinseq ind).1.forwarded =
        exp.forwarded ++ (List.range (if v = 0 then k + 1 else k)).map (fun i =>
          { (env.enc (exp.nenc + i) (iri_call recvd details cinseq.iri_seqno ind i)).2 with
            destid := recvd.destid }) ∧
      (run_encoding_loop env recvd details fuel exp cinseq ind).1.intercepts =
        store_cinseq exp.intercepts recvd.liid recvd.cin
          { cinseq with iri_seqno := cinseq.iri_seqno + (if v = 0 then k + 1 else k) } := by
  intro k
  induction k with
  | zero =>
    intro fuel exp cinseq ind v hf _ hv hle
    obtain ⟨f, rfl⟩ : ∃ f, fuel = f + 1 := ⟨fuel - 1, by omega⟩
    obtain ⟨e1, e2, e3, e4, e5⟩ := run_encoding_switch_ipiri env recvd ht details exp cinseq ind
    rw [Nat.add_zero] at hv
    rw [hv] at e1 e3 e4 e5
    have hr1 : List.range 1 = [0] := rfl
    rw [run_encoding_loop]
    by_cases hz : v = 0
    · subst hz
      obtain ⟨e6, _⟩ := e4 (le_refl 0)
      have h10 : ¬ ((1 : Int) < 0) := by decide
      simp only [e1, lt_irrefl, if_false, export_encoded_record_ret _ _ _ hs, if_true, h10,
        export_encoded_record_trace, export_encoded_record_nenc, export_encoded_record_forwarded,
        export_encoded_record_intercepts, run_encoding_switch_nenc,
        run_encoding_switch_forwarded, e2, e3]
      rw [run_encoding_switch_intercepts, e6]
      simp [hr1, hv]
    · have hneg : v < 0 := by omega
      obtain ⟨e6, _⟩ := e5 hneg
      simp only [e1, hneg, if_true, run_encoding_switch_nenc,
        run_encoding_switch_forwarded, e3, hz, if_false]
      rw [run_encoding_switch_intercepts, e6]
      simp [hr1, hv]
  | succ k ih =>
    intro fuel exp cinseq ind v hf hpos hv hle
    obtain ⟨f, rfl⟩ : ∃ f, fuel = f + 1 := ⟨fuel - 1, by omega⟩
    obtain ⟨e1, e2, e3, e4, _⟩ := run_encoding_switch_ipiri env recvd ht details exp cinseq ind
    have h0 := hpos 0 (by omega)
    rw [Nat.add_zero] at h0
    obtain ⟨e6, e7⟩ := e4 (le_of_lt h0)
    have h0a : ¬ ((run_encoding_switch env recvd details exp cinseq ind).ret < 0) := by
      rw [e1]; omega
    have h0c : ¬ ((run_encoding_switch env recvd details exp cinseq ind).ret = 0) := by
      rw [e1]; omega
    have hx : ∀ (e : collector_export) (m : openli_exportmsg),
        ¬ ((export_encoded_record env e m).2 < 0) := by
      intro e m
      rw [export_encoded_record_ret _ _ _ hs]
      decide
    have hidx : ∀ i, exp.nenc + 1 + i = exp.nenc + (i + 1) := by intro i; omega
    rw [run_encoding_loop]
    simp only [h0a, h0c, hx, if_false, e2, e6, e7]
    have ih1 := ih f
      (export_encoded_record env (run_encoding_switch env recvd details exp cinseq ind).exp
        { (run_encoding_switch env recvd details exp cinseq ind).tosend with
          destid := recvd.destid }).1
      (run_encoding_switch env recvd details exp cinseq ind).cinseq
      (run_encoding_switch env recvd details exp cinseq ind).ind v (by omega)
      (by
        intro i hi
        simp only [export_encoded_record_nenc, run_encoding_switch_nenc, e6, e7, iri_call_succ,
          hidx]
        exact hpos (i + 1) (by omega))
      (by
        simp only [export_encoded_record_nenc, run_encoding_switch_nenc, e6, e7, iri_call_succ,
          hidx]
        exact hv)
      hle
    simp only [export_encoded_record_nenc, export_encoded_record_trace,
      export_encoded_record_forwarded, export_encoded_record_intercepts,
      run_encoding_switch_nenc, run_encoding_switch_forwarded,
      e2, e3, e6, e7, iri_call_succ, hidx] at ih1
    rw [run_encoding_switch_intercepts, e6] at ih1
    obtain ⟨i1, i2, i3, i4, i5⟩ := ih1
    refine ⟨i1, ?_, ?_, ?_, ?_⟩
    · rw [i2, List.range_succ_eq_map (k + 1), List.map_cons, List.map_map, List.append_assoc]
      rfl
    · omega
    · rw [i4]
      by_cases hz : v = 0
      · simp only [hz, if_true]
        rw [List.range_succ_eq_map (k + 1), List.map_cons, List.map_map, List.append_assoc]
        rfl
      · simp only [hz, if_false]
        rw [List.range_succ_eq_map k, List.map_cons, List.map_map, List.append_assoc]
        rfl
    · rw [i5, store_cinseq_store]
      have harith : cinseq.iri_seqno + 1 + (if v = 0 then k + 1 else k) =
            cinseq.iri_seqno + (if v = 0 then k + 1 + 1 else k + 1) := by
        split <;> omega
      rw [harith]

theorem run_encoding_job_found (env : Env) (fuel : Nat) (exp : collector_export)
    (recvd : openli_export_recv) (intstate : exporter_intercept_state) (cinseq : cin_seqno)
    (hi : exp.intercepts recvd.liid = some intstate)
    (hc : intstate.cinsequencing recvd.cin = some cinseq) :
    run_encoding_job env fuel exp recvd =
      run_encoding_loop env recvd intstate.details fuel exp cinseq 0 := by
  unfold run_encoding_job
  simp only [hi, hc]

theorem run_encoding_job_fresh (env : Env) (fuel : Nat) (exp : collector_export)
    (recvd : openli_export_recv) (intstate : exporter_intercept_state)
    (hi : exp.intercepts recvd.liid = some intstate)
    (hc : intstate.cinsequencing recvd.cin = none) :
    run_encoding_job env fuel exp recvd =
      run_encoding_loop env recvd intstate.details fuel
        { exp with intercepts := store_cinseq exp.intercepts recvd.liid recvd.cin ⟨recvd.cin, 0, 0⟩ }
        ⟨recvd.cin, 0, 0⟩ 0 := by
  unfold run_encoding_job
  simp only [hi, hc]

theorem store_cinseq_same (tbl : String → Option exporter_intercept_state) (liid : String)
    (cin : Nat) (c : cin_seqno) (st : exporter_intercept_state) (h : tbl liid = some st)
    (hc : st.cinsequencing cin = some c) : store_cinseq tbl liid cin c = tbl := by
  unfold store_cinseq
  simp only [h]
  have h1 : Function.update st.cinsequencing cin (some c) = st.cinsequencing := by
    rw [← hc]
    exact Function.update_eq_self _ _
  rw [h1, ← h]
  exact Function.update_eq_self _ _

theorem run_encoding_job_eq (env : Env) (fuel : Nat) (exp : collector_export)
    (recvd : openli_export_recv) (intstate : exporter_intercept_state)
    (hi : exp.intercepts recvd.liid = some intstate) :
    run_encoding_job env fuel exp recvd =
      run_encoding_loop env recvd intstate.details fuel
        { exp with intercepts := store_cinseq exp.intercepts recvd.liid recvd.cin (cinseq_of intstate recvd.cin) }
        (cinseq_of intstate recvd.cin) 0 := by
  cases hc : intstate.cinsequencing recvd.cin with
  | some cinseq =>
    have hcs : cinseq_of intstate recvd.cin = cinseq := by simp [cinseq_of, hc]
    rw [run_encoding_job_found env fuel exp recvd intstate cinseq hi hc, hcs,
      store_cinseq_same _ _ _ _ _ hi hc]
  | none =>
    have hcs : cinseq_of intstate recvd.cin = ⟨recvd.cin, 0, 0⟩ := by simp [cinseq_of, hc]
    rw [run_encoding_job_fresh env fuel exp recvd intstate hi hc, hcs]

/-- C9: for an IPIRI job on `(L, cin)` whose counter has `iri_seqno = s`, when
no send fails and the encoder returns a positive value on the first `k`
iterations and then `v ≤ 0`, `run_encoding_job` (given `fuel > k` for its
loop) returns `v`, has called the encoder exactly `k + 1` times, the `i`-th
call with the sequence number `s + i` and the index `i` (`iri_call`), and
leaves `cc_seqno` as it was. If `v = 0` it has forwarded exactly the `k + 1`
records, each with the job's `destid`, and `iri_seqno` is `s + k + 1`; if
`v < 0` no record was forwarded for the last iteration (exactly `k` were) and
`iri_seqno` is `s + k`. -/
theorem run_encoding_job_ipiri (env : Env) (hs : ∀ i, env.send i ≠ SendOutcome.error)
    (fuel k : Nat) (exp : collector_export) (recvd : openli_export_recv)
    (intstate : exporter_intercept_state) (v : Int)
    (ht : recvd.type = OPENLI_EXPORT_IPIRI)
    (hi : exp.intercepts recvd.liid = some intstate)
    (hf : k < fuel)
    (hpos : ∀ i, i < k → 0 < (env.enc (exp.nenc + i)
      (iri_call recvd intstate.details (cinseq_of intstate recvd.cin).iri_seqno 0 i)).1)
    (hv : (env.enc (exp.nenc + k)
      (iri_call recvd intstate.details (cinseq_of intstate recvd.cin).iri_seqno 0 k)).1 = v)
    (hle : v ≤ 0) :
    (run_encoding_job env fuel exp recvd).2 = some v ∧
    (run_encoding_job env fuel exp recvd).1.trace =
      exp.trace ++ (List.range (k + 1)).map (fun i =>
        (iri_call recvd intstate.details (cinseq_of intstate recvd.cin).iri_seqno 0 i,
          (env.enc (exp.nenc + i)
            (iri_call recvd intstate.details (cinseq_of intstate recvd.cin).iri_seqno 0 i)).1)) ∧
    (run_encoding_job env fuel exp recvd).1.nenc = exp.nenc + (k + 1) ∧
    (run_encoding_job env fuel exp recvd).1.forwarded =
      exp.forwarded ++ (List.range (if v = 0 then k + 1 else k)).map (fun i =>
        { (env.enc (exp.nenc + i)
            (iri_call recvd intstate.details (cinseq_of intstate recvd.cin).iri_seqno 0 i)).2 with
          destid := recvd.destid }) ∧
    (run_encoding_job env fuel exp recvd).1.intercepts recvd.liid =
      some
        { details := intstate.details,
          cinsequencing := Function.update intstate.cinsequencing recvd.cin
                             (some
                               { cin := (cinseq_of intstate recvd.cin).cin,
                                 iri_seqno := (cinseq_of intstate recvd.cin).iri_seqno +
                                                (if v = 0 then k + 1 else k),
                                 cc_seqno := (cinseq_of intstate recvd.cin).cc_seqno }) } := by
  rw [run_encoding_job_eq env fuel exp recvd intstate hi]
  obtain ⟨r1, r2, r3, r4, r5⟩ :=
    run_encoding_loop_ipiri env hs recvd ht intstate.details k fuel
      { exp with intercepts := store_cinseq exp.intercepts recvd.liid recvd.cin (cinseq_of intstate recvd.cin) }
      (cinseq_of intstate recvd.cin) 0 v hf hpos hv hle
  refine ⟨r1, r2, r3, r4, ?_⟩
  rw [r5, store_cinseq_store, store_cinseq_apply _ _ _ _ _ hi]

theorem run_encoding_job_ipiri_witness :
    (run_encoding_job env_three_blocks 5 exp_x job_iri_x7).2 = some 0 ∧
    (run_encoding_job env_three_blocks 5 exp_x job_iri_x7).1.trace.map
        (fun p => (p.1.seqno, p.1.ind, p.2)) = [(0, 0, 1), (1, 1, 1), (2, 2, 0)] ∧
    (run_encoding_job env_three_blocks 5 exp_x job_iri_x7).1.nenc = 3 ∧
    (run_encoding_job env_three_blocks 5 exp_x job_iri_x7).1.forwarded.map
        (fun m => (m.destid, m.msgbody.encoded)) = [(1, [0]), (1, [1]), (1, [2])] := by
  have w := run_encoding_job_ipiri env_three_blocks (fun _ => by simp [env_three_blocks]) 5 2
    exp_x job_iri_x7
    { details := { liid := "X", authcc := "NZ", delivcc := "NZ" }, cinsequencing := fun _ => none }
    0 rfl rfl (by decide) (by intro i hi; simp [env_three_blocks, iri_call, job_iri_x7]; omega) rfl
    (le_refl 0)
  refine ⟨w.1, ?_, w.2.2.1, ?_⟩
  · rw [w.2.1]
    rfl
  · rw [w.2.2.2.1]
    rfl

/-- C8 fails on the code: an IPCC job for `(X, 7)` whose encoder call returns
-1 makes `run_encoding_job` return -1 with nothing forwarded, and yet leaves
`cc_seqno = 1` where it was 0 before the call; the IPIRI job in the same
situation leaves `iri_seqno = 0`. -/
theorem run_encoding_job_cc_failure :
    (run_encoding_job env_enc_fails 5 exp_x job_cc_x7).2 = some (-1) ∧
    (run_encoding_job env_enc_fails 5 exp_x job_cc_x7).1.forwarded = [] ∧
    ((run_encoding_job env_enc_fails 5 exp_x job_cc_x7).1.intercepts "X").bind
        (fun st => st.cinsequencing 7) = some { cin := 7, iri_seqno := 0, cc_seqno := 1 } ∧
    (run_encoding_job env_enc_fails 5 exp_x job_iri_x7).2 = some (-1) ∧
    ((run_encoding_job env_enc_fails 5 exp_x job_iri_x7).1.intercepts "X").bind
        (fun st => st.cinsequencing 7) = some { cin := 7, iri_seqno := 0, cc_seqno := 0 } := by
  refine ⟨rfl, rfl, rfl, rfl, rfl⟩

/-! ## Sequence numbers across a re-announcement -/

/-- C1 fails on the code: `X` is announced, and a CC job and an IRI job for
`(X, 7)` are encoded with the sequence numbers 0 (CC) and 0, 1, 2 (IRI). The
repeated `INTERCEPT_DETAILS` for `X` then frees the announcement that holds
the key of the table entry: the entry keeps its counters (`cc_seqno = 1`,
`iri_seqno = 3`) but has a freed key. For the CC job for `(X, 7)` that follows,
`HASH_FIND` compares against the freed key, so that nothing is determined
about it: the run has no second CC record with the sequence number 1, which
the same events without the re-announcement produce. -/
theorem reannounced_intercept_stops_numbering :
    seqnos_of (exporter_run env_three_blocks 5 exp_x (events_s1.take 4)).trace "X" 7 true =
      [0] ∧
    seqnos_of (exporter_run env_three_blocks 5 exp_x (events_s1.take 4)).trace "X" 7 false =
      [0, 1, 2] ∧
    ((exporter_run env_three_blocks 5 exp_x (events_s1.take 5)).intercepts "X").isSome =
      false ∧
    ((exporter_run env_three_blocks 5 exp_x (events_s1.take 5)).freed_intercepts "X").map
        (fun st => (st.details.authcc, st.cinsequencing 7)) =
      some ("AU", some { cin := 7, iri_seqno := 3, cc_seqno := 1 }) ∧
    (exporter_step env_three_blocks 5 (exporter_run env_three_blocks 5 exp_x (events_s1.take 5))
      (exporter_event.MESSAGE (export_message.JOB job_cc_x7))).2 = none ∧
    seqnos_of (exporter_run env_three_blocks 5 exp_x events_s1).trace "X" 7 true = [0] ∧
    seqnos_of (exporter_run env_three_blocks 5 exp_x
      (events_s1.take 4 ++ events_s1.drop 5)).trace "X" 7 true = [0, 1] := by
  refine ⟨?_, ?_, ?_, ?_, ?_, ?_, ?_⟩ <;> rfl

/-! ## Re-announcement of an intercept -/

/-- C2 fails on the code: after `INTERCEPT_DETAILS(liid="Z", authcc="US")` and
3 CCs for `(Z, 1)`, encoded with the sequence numbers 0, 1, 2, the
re-announcement of `Z` with `authcc="GB"` stores the new announcement on the
entry and leaves its CIN table as it is (`cc_seqno = 3`), as the comment in
`exporter_new_intercept` has it; but it frees the old announcement, whose
`liid` is the key of the entry in `exp->intercepts`. The next CC job for
`(Z, 1)` looks `Z` up against the freed key: no encoder call with the sequence
number 3 and the new `authcc` is determined by the code, and a further
`INTERCEPT_DETAILS` for `Z` meets the freed key as well. -/
theorem exporter_new_intercept_frees_key :
    (exp_z3.intercepts "Z").map (fun st => (st.details.authcc, st.cinsequencing 1)) =
      some ("US", some { cin := 1, iri_seqno := 0, cc_seqno := 3 }) ∧
    exp_z3.trace.map (fun p => (p.1.seqno, p.1.details.authcc)) =
      [(0, "US"), (1, "US"), (2, "US")] ∧
    (exporter_new_intercept exp_z3 cept_z_gb).map
        (fun e => ((e.intercepts "Z").isSome,
          (e.freed_intercepts "Z").map (fun st => (st.details.authcc, st.cinsequencing 1)))) =
      some (false, some ("GB", some { cin := 1, iri_seqno := 0, cc_seqno := 3 })) ∧
    (exporter_new_intercept exp_z3 cept_z_gb).map
        (fun e => ((run_encoding_job env_three_blocks 5 e job_cc_z1).2,
          (run_encoding_job env_three_blocks 5 e job_cc_z1).1.trace.map
            (fun p => (p.1.seqno, p.1.details.authcc)))) =
      some (none, [(0, "US"), (1, "US"), (2, "US")]) ∧
    ((exporter_new_intercept exp_z3 cept_z_gb).bind
        (fun e => exporter_new_intercept e cept_z_gb)).isSome = false := by
  refine ⟨?_, ?_, ?_, ?_, ?_⟩ <;> rfl

/-! ## Purge of unconfirmed mediators -/

/-- C10 fails on the code: the registry holds the entry of mediator 1,
announced and connected. The message `FLAG_MEDIATORS` (`flag_all`) is read and
dropped by `read_exported_message`, which has no case for it: no entry gets
`awaitingconfirm`, `exp->flagged` stays 0 and no flag timer is created. With
no mediator announced afterwards (`S` is empty), `purge_unconfirmed_mediators`
halts nothing, and `exporter_thread_main` does not even poll the flag timer:
mediator 1, which is in the original registry and not in `S`, is not halted
and keeps its socket. -/
theorem flag_mediators_message_dropped :
    exp_med1.dests.map (fun d => (d.details.mediatorid, d.awaitingconfirm, d.halted, d.fd)) =
      [(1, false, false, 5)] ∧
    (read_exported_message env_three_blocks 5 exp_med1 export_message.FLAG_MEDIATORS).2 =
      some 0 ∧
    (read_exported_message env_three_blocks 5 exp_med1 export_message.FLAG_MEDIATORS).1.dests.map
        (fun d => (d.details.mediatorid, d.awaitingconfirm, d.halted, d.fd)) =
      [(1, false, false, 5)] ∧
    ((read_exported_message env_three_blocks 5 exp_med1 export_message.FLAG_MEDIATORS).1.flagged,
      (read_exported_message env_three_blocks 5 exp_med1
        export_message.FLAG_MEDIATORS).1.flagtimerfd) = (false, -1) ∧
    (purge_unconfirmed_mediators
        (read_exported_message env_three_blocks 5 exp_med1
          export_message.FLAG_MEDIATORS).1).dests.map
        (fun d => (d.details.mediatorid, d.awaitingconfirm, d.halted, d.fd)) =
      [(1, false, false, 5)] ∧
    (exporter_thread_main env_three_blocks 5 exp_med1 none
        [queue_item.MESSAGE export_message.FLAG_MEDIATORS]
        [{ queue := true, timer := false, flagtimer := true },
         { queue := false, timer := false, flagtimer := true },
         { queue := false, timer := true, flagtimer := false }]).2 = ([], some 1) ∧
    (exporter_thread_main env_three_blocks 5 exp_med1 none
        [queue_item.MESSAGE export_message.FLAG_MEDIATORS]
        [{ queue := true, timer := false, flagtimer := true },
         { queue := false, timer := false, flagtimer := true },
         { queue := false, timer := true, flagtimer := false }]).1.dests.map
        (fun d => (d.details.mediatorid, d.awaitingconfirm, d.halted, d.fd)) =
      [(1, false, false, 5)] := by
  refine ⟨?_, ?_, ?_, ?_, ?_, ?_, ?_⟩ <;> rfl

/-! ## Transmission from the export buffer -/

theorem free_drained_records_suffix (recs : List (List TByte)) :
    ∀ (sent : Nat), (free_drained_records recs sent).1 <:+ recs := by
  induction recs with
  | nil =>
    intro sent
    exact List.suffix_refl _
  | cons r rs ih =>
    intro sent
    rw [free_drained_records]
    split
    · exact (ih _).trans (List.suffix_cons _ _)
    · exact List.suffix_refl _

/-- What is left to send after `free_drained_records` is the queue without
the bytes that went out. -/
theorem free_drained_records_rest (recs : List (List TByte)) :
    ∀ (sent : Nat),
      (free_drained_records recs sent).1.flatten.drop (free_drained_records recs sent).2 =
        recs.flatten.drop sent := by
  induction recs with
  | nil =>
    intro sent
    simp [free_drained_records]
  | cons r rs ih =>
    intro sent
    rw [free_drained_records]
    split
    · rename_i h
      rw [ih, List.flatten_cons, List.drop_append_eq_append_drop,
        List.drop_of_length_le h, List.nil_append]
    · rfl

theorem free_drained_records_bytes (recs : List (List TByte)) :
    ∀ (sent : Nat), ∃ k, (free_drained_records recs sent).1.flatten = recs.flatten.drop k := by
  induction recs with
  | nil =>
    intro sent
    exact ⟨0, by simp [free_drained_records]⟩
  | cons r rs ih =>
    intro sent
    rw [free_drained_records]
    split
    · obtain ⟨k, hk⟩ := ih (sent - r.length)
      refine ⟨r.length + k, ?_⟩
      rw [hk, List.flatten_cons, List.drop_append]
    · exact ⟨0, rfl⟩

/-- When every queued byte went out, every record is freed. -/
theorem free_drained_records_all (recs : List (List TByte)) :
    free_drained_records recs recs.flatten.length = ([], 0) := by
  induction recs with
  | nil => rfl
  | cons r rs ih =>
    rw [free_drained_records, List.flatten_cons, List.length_append]
    simp only [Nat.le_add_right, if_true, Nat.add_sub_cancel_left]
    exact ih

/-- While the record at `head` did not go out completely, it stays at `head`
with the count of its bytes that went out. -/
theorem free_drained_records_head (r : List TByte) (rs : List (List TByte)) (sent : Nat)
    (h : sent < r.length) : free_drained_records (r :: rs) sent = (r :: rs, sent) := by
  rw [free_drained_records]
  simp only [Nat.not_le.mpr h, if_false]

/-- Once the record at `head` went out completely, it is freed. -/
theorem free_drained_records_drained (r : List TByte) (rs : List (List TByte)) (sent : Nat)
    (h : r.length ≤ sent) :
    free_drained_records (r :: rs) sent = free_drained_records rs (sent - r.length) := by
  rw [free_drained_records]
  simp only [h, if_true]

theorem transmit_written (buf : export_buffer) (o : SendOutcome) (lim : Nat) :
    (transmit_buffered_records buf o lim).2.2 =
      sent_bytes o ((buf.bytes.drop buf.partialfront).take lim) := by
  unfold transmit_buffered_records sent_bytes
  cases o with
  | error => rfl
  | eagain => rfl
  | sent n =>
    simp only
    rcases le_total n ((buf.bytes.drop buf.partialfront).take lim).length with h | h
    · rw [min_eq_left h]
    · rw [min_eq_right h, List.take_of_length_le (le_refl _), List.take_of_length_le h]

theorem transmit_remaining (buf : export_buffer) (o : SendOutcome) (lim : Nat) :
    (transmit_buffered_records buf o lim).1.bytes.drop
        (transmit_buffered_records buf o lim).1.partialfront =
      (buf.bytes.drop buf.partialfront).drop
        (transmit_buffered_records buf o lim).2.2.length := by
  unfold transmit_buffered_records
  cases o with
  | error => simp
  | eagain => simp
  | sent n =>
    simp only [export_buffer.bytes]
    generalize List.take lim (List.drop buf.partialfront buf.records.flatten) = off
    rw [free_drained_records_rest, List.drop_drop, List.length_take]
    congr 1
    omega

theorem transmit_bytes_suffix (buf : export_buffer) (o : SendOutcome) (lim : Nat) :
    ∃ k, (transmit_buffered_records buf o lim).1.bytes = buf.bytes.drop k := by
  unfold transmit_buffered_records
  cases o with
  | error => exact ⟨0, rfl⟩
  | eagain => exact ⟨0, rfl⟩
  | sent n => exact free_drained_records_bytes _ _

theorem transmit_records_suffix (buf : export_buffer) (o : SendOutcome) (lim : Nat) :
    (transmit_buffered_records buf o lim).1.records <:+ buf.records := by
  unfold transmit_buffered_records
  cases o with
  | error => exact List.suffix_refl _
  | eagain => exact List.suffix_refl _
  | sent n => exact free_drained_records_suffix _ _

theorem connect_export_targets_walk_get (conn : Nat → Int) (send : Nat → SendOutcome) :
    ∀ (ds : List export_dest) (k i : Nat),
      (connect_export_targets_walk conn send k ds).1[i]? =
        (ds[i]?).map (fun d => (connect_export_target d (conn (k + i)) (send (k + i))).1) := by
  intro ds
  induction ds with
  | nil =>
    intro k i
    simp [connect_export_targets_walk]
  | cons d rest ih =>
    intro k i
    cases i with
    | zero => simp [connect_export_targets_walk]
    | succ j =>
      simp only [connect_export_targets_walk, List.getElem?_cons_succ]
      rw [ih (k + 1) j]
      have : k + 1 + j = k + (j + 1) := by omega
      rw [this]

theorem connect_single_target_ok (d : export_dest) (sockfd : Int)
    (h : (connect_single_target d sockfd).2 ≠ -1) :
    (connect_single_target d sockfd).1 =
        { d with failmsg := 0, buffer := { d.buffer with partialfront := 0 } } ∧
      (connect_single_target d sockfd).2 = sockfd ∧ d.details.ipstr ≠ none := by
  unfold connect_single_target at h ⊢
  split_ifs at h ⊢ with h1 h2 h3
  · exact absurd rfl h
  · exact absurd rfl h
  · exact absurd rfl h
  · exact ⟨rfl, rfl, h1⟩

theorem append_message_to_buffer_bytes (buf : export_buffer) (tag : Nat)
    (msg : openli_exportmsg) (k : Nat) :
    (append_message_to_buffer buf tag msg k).bytes = buf.bytes ++ tagged_bytes tag msg := by
  unfold append_message_to_buffer export_buffer.bytes tagged_bytes
  simp

/-! ## Records reach a socket in enqueue order -/

theorem tags_sorted_sublist {l1 l2 : List TByte} (h : l1.Sublist l2) (hs : tags_sorted l2) :
    tags_sorted l1 :=
  List.Pairwise.sublist h hs

theorem tags_sorted_append {l1 l2 : List TByte} :
    tags_sorted (l1 ++ l2) ↔
      tags_sorted l1 ∧ tags_sorted l2 ∧ ∀ a ∈ l1, ∀ b ∈ l2, a.tag ≤ b.tag :=
  List.pairwise_append

theorem tagged_bytes_tag (tag : Nat) (msg : openli_exportmsg) :
    ∀ b ∈ tagged_bytes tag msg, b.tag = tag := by
  intro b hb
  unfold tagged_bytes at hb
  obtain ⟨v, _, rfl⟩ := List.mem_map.mp hb
  rfl

theorem tags_sorted_const (l : List TByte) (t : Nat) (h : ∀ b ∈ l, b.tag = t) :
    tags_sorted l := by
  unfold tags_sorted
  rw [List.pairwise_iff_forall_sublist]
  intro a b hab
  have ha : a ∈ l := hab.subset (by simp)
  have hb : b ∈ l := hab.subset (by simp)
  rw [h a ha, h b hb]

theorem tags_sorted_take_drop (l : List TByte) (hs : tags_sorted l) (k : Nat) :
    ∀ a ∈ l.take k, ∀ b ∈ l.drop k, a.tag ≤ b.tag := by
  have h := hs
  rw [← List.take_append_drop k l] at h
  exact (tags_sorted_append.mp h).2.2

theorem sent_bytes_eq_take (o : SendOutcome) (offered : List TByte) :
    ∃ k, sent_bytes o offered = offered.take k := by
  cases o with
  | sent n => exact ⟨n, rfl⟩
  | eagain => exact ⟨0, by simp [sent_bytes]⟩
  | error => exact ⟨0, by simp [sent_bytes]⟩

theorem dest_inv_mono (b1 b2 : Nat) (h : b1 ≤ b2) (d : export_dest) (hd : dest_inv b1 d) :
    dest_inv b2 d := by
  obtain ⟨h1, h2, h3, h4, h5⟩ := hd
  exact ⟨h1, h2, fun log hl b hb => lt_of_lt_of_le (h3 log hl b hb) h,
    fun b hb => lt_of_lt_of_le (h4 b hb) h, h5⟩

theorem dest_inv_congr (bound : Nat) (d d1 : export_dest) (hw : d1.wire = d.wire)
    (hb : d1.buffer = d.buffer) (hd : dest_inv bound d) : dest_inv bound d1 := by
  unfold dest_inv at hd ⊢
  rw [hw, hb]
  exact hd

/-- Appending a record with the next tag keeps the invariant. -/
theorem dest_inv_append (bound : Nat) (d : export_dest) (msg : openli_exportmsg) (k : Nat)
    (hd : dest_inv bound d) :
    dest_inv (bound + 1)
      { d with buffer := append_message_to_buffer d.buffer bound msg k } := by
  obtain ⟨h1, h2, h3, h4, h5⟩ := hd
  have hnew : ∀ b ∈ tagged_bytes bound msg, b.tag = bound := tagged_bytes_tag bound msg
  refine ⟨h1, ?_, fun log hl b hb => Nat.lt_succ_of_lt (h3 log hl b hb), ?_, ?_⟩
  · show tags_sorted (append_message_to_buffer d.buffer bound msg k).bytes
    rw [append_message_to_buffer_bytes, tags_sorted_append]
    refine ⟨h2, tags_sorted_const _ bound hnew, ?_⟩
    intro a ha b hb
    rw [hnew b hb]
    exact le_of_lt (h4 a ha)
  · intro b hb
    have hb1 : b ∈ d.buffer.bytes ++ tagged_bytes bound msg := by
      rw [← append_message_to_buffer_bytes d.buffer bound msg k]
      exact hb
    rcases List.mem_append.mp hb1 with hb2 | hb2
    · exact Nat.lt_succ_of_lt (h4 b hb2)
    · rw [hnew b hb2]
      exact Nat.lt_succ_self _
  · intro b hb b1 hb1
    have hb2 : b1 ∈ (d.buffer.bytes ++ tagged_bytes bound msg).drop
        (if d.buffer.bytes.length = 0 then k else d.buffer.partialfront) := by
      rw [← append_message_to_buffer_bytes d.buffer bound msg k]
      exact hb1
    have hlog : b.tag < bound := by
      cases hw : d.wire with
      | nil => simp [hw] at hb
      | cons cur old =>
        simp only [hw, List.headD_cons] at hb
        exact h3 cur (by simp [hw]) b hb
    by_cases hz : d.buffer.bytes.length = 0
    · have hmem := List.mem_of_mem_drop hb2
      rcases List.mem_append.mp hmem with hb3 | hb3
      · have hnil : d.buffer.bytes = [] := List.length_eq_zero.mp hz
        rw [hnil] at hb3
        simp at hb3
      · rw [hnew b1 hb3]
        exact le_of_lt hlog
    · simp only [hz, if_false] at hb2
      rw [List.drop_append_eq_append_drop] at hb2
      rcases List.mem_append.mp hb2 with hb3 | hb3
      · exact h5 b hb b1 hb3
      · rw [hnew b1 (List.mem_of_mem_drop hb3)]
        exact le_of_lt hlog

theorem take_length_take (l : List TByte) (m : Nat) : l.take (l.take m).length = l.take m := by
  rw [List.length_take]
  rcases le_total m l.length with h | h
  · rw [min_eq_left h]
  · rw [min_eq_right h, List.take_of_length_le (le_refl _), List.take_of_length_le h]

theorem mem_headD_wire_write (w : List (List TByte)) (bs : List TByte) (b : TByte)
    (h : b ∈ (wire_write w bs).headD []) : b ∈ w.headD [] ∨ b ∈ bs := by
  cases w with
  | nil => exact Or.inr (by simpa [wire_write] using h)
  | cons cur old =>
    simp only [wire_write, List.headD_cons] at h
    exact List.mem_append.mp h

/-- Writing `w` on the current connection and leaving `buf` in the buffer keeps
the invariant, if `w` and `buf` are in order, after what was written before
and, for `w`, before what remains to send. -/
theorem dest_inv_write (bound : Nat) (d : export_dest) (w : List TByte) (buf : export_buffer)
    (hd : dest_inv bound d)
    (hws : tags_sorted w) (hwb : ∀ b ∈ w, b.tag < bound)
    (hcross : ∀ a ∈ d.wire.headD [], ∀ b ∈ w, a.tag ≤ b.tag)
    (hbs : tags_sorted buf.bytes) (hbb : ∀ b ∈ buf.bytes, b.tag < bound)
    (h5a : ∀ a ∈ d.wire.headD [], ∀ b1 ∈ buf.bytes.drop buf.partialfront, a.tag ≤ b1.tag)
    (h5b : ∀ a ∈ w, ∀ b1 ∈ buf.bytes.drop buf.partialfront, a.tag ≤ b1.tag) :
    dest_inv bound { d with buffer := buf, wire := wire_write d.wire w } := by
  obtain ⟨h1, _, h3, _, _⟩ := hd
  refine ⟨?_, hbs, ?_, hbb, ?_⟩
  · intro log hl
    have hl1 : log ∈ wire_write d.wire w := hl
    cases hw : d.wire with
    | nil =>
      simp only [hw, wire_write, List.mem_singleton] at hl1
      rw [hl1]
      exact hws
    | cons cur old =>
      simp only [hw, wire_write, List.mem_cons] at hl1
      rcases hl1 with hl2 | hl2
      · rw [hl2, tags_sorted_append]
        refine ⟨h1 cur (by simp [hw]), hws, ?_⟩
        intro a ha b hb
        exact hcross a (by simpa [hw] using ha) b hb
      · exact h1 log (by simp [hw, hl2])
  · intro log hl b hb
    have hl1 : log ∈ wire_write d.wire w := hl
    cases hw : d.wire with
    | nil =>
      simp only [hw, wire_write, List.mem_singleton] at hl1
      rw [hl1] at hb
      exact hwb b hb
    | cons cur old =>
      simp only [hw, wire_write, List.mem_cons] at hl1
      rcases hl1 with hl2 | hl2
      · rw [hl2] at hb
        rcases List.mem_append.mp hb with hb1 | hb1
        · exact h3 cur (by simp [hw]) b hb1
        · exact hwb b hb1
      · exact h3 log (by simp [hw, hl2]) b hb
  · intro b hb b1 hb1
    rcases mem_headD_wire_write d.wire w b hb with hb2 | hb2
    · exact h5a b hb2 b1 hb1
    · exact h5b b hb2 b1 hb1

/-- A drain attempt of the buffer keeps the invariant. -/
theorem dest_inv_transmit (bound : Nat) (d : export_dest) (o : SendOutcome) (lim : Nat)
    (hd : dest_inv bound d) :
    dest_inv bound
      { d with buffer := (transmit_buffered_records d.buffer o lim).1,
               wire := wire_write d.wire (transmit_buffered_records d.buffer o lim).2.2 } := by
  have hd0 := hd
  obtain ⟨_, h2, _, h4, h5⟩ := hd
  obtain ⟨k, hk⟩ := sent_bytes_eq_take o ((d.buffer.bytes.drop d.buffer.partialfront).take lim)
  have hw : (transmit_buffered_records d.buffer o lim).2.2 =
      (d.buffer.bytes.drop d.buffer.partialfront).take (min k lim) := by
    rw [transmit_written, hk, List.take_take]
  have hrem := transmit_remaining d.buffer o lim
  obtain ⟨j, hj⟩ := transmit_bytes_suffix d.buffer o lim
  have hsr : tags_sorted (d.buffer.bytes.drop d.buffer.partialfront) :=
    tags_sorted_sublist (List.drop_sublist _ _) h2
  have hwsub : ∀ b ∈ (transmit_buffered_records d.buffer o lim).2.2,
      b ∈ d.buffer.bytes.drop d.buffer.partialfront := by
    intro b hb
    rw [hw] at hb
    exact List.mem_of_mem_take hb
  apply dest_inv_write bound d _ _ hd0
  · rw [hw]
    exact tags_sorted_sublist (List.take_sublist _ _) hsr
  · intro b hb
    exact h4 b (List.mem_of_mem_drop (hwsub b hb))
  · intro a ha b hb
    exact h5 a ha b (hwsub b hb)
  · rw [hj]
    exact tags_sorted_sublist (List.drop_sublist _ _) h2
  · intro b hb
    rw [hj] at hb
    exact h4 b (List.mem_of_mem_drop hb)
  · intro a ha b1 hb1
    rw [hrem] at hb1
    exact h5 a ha b1 (List.mem_of_mem_drop hb1)
  · intro a ha b1 hb1
    rw [hrem] at hb1
    rw [hw] at ha hb1
    have ha2 : a ∈ (d.buffer.bytes.drop d.buffer.partialfront).take
        ((d.buffer.bytes.drop d.buffer.partialfront).take (min k lim)).length := by
      rw [take_length_take]
      exact ha
    exact tags_sorted_take_drop _ hsr _ a ha2 b1 hb1

/-- A direct send of the record with the next tag, on an entry whose buffer
is empty, keeps the invariant. -/
theorem dest_inv_forward_fd (bound : Nat) (d : export_dest) (msg : openli_exportmsg)
    (o : SendOutcome) (hempty : d.buffer.bytes = []) (hd : dest_inv bound d) :
    dest_inv (bound + 1) (forward_fd d bound msg o).1 := by
  have hnew : ∀ b ∈ tagged_bytes bound msg, b.tag = bound := tagged_bytes_tag bound msg
  unfold forward_fd
  cases o with
  | error => exact dest_inv_append bound d msg 0 hd
  | eagain => exact dest_inv_append bound d msg 0 hd
  | sent n =>
    simp only
    have hd1 := dest_inv_mono bound (bound + 1) (Nat.le_succ _) d hd
    obtain ⟨_, _, h3, _, _⟩ := hd
    have hwr : (List.take (min n (forward_fd_bytes msg).length) (forward_fd_bytes msg)).map
        (fun b => ({ tag := bound, val := b } : TByte)) =
        (tagged_bytes bound msg).take (min n (forward_fd_bytes msg).length) := by
      unfold tagged_bytes
      rw [List.map_take]
    have hwtag : ∀ b ∈ (tagged_bytes bound msg).take (min n (forward_fd_bytes msg).length),
        b.tag = bound := fun b hb => hnew b (List.mem_of_mem_take hb)
    have hlog : ∀ a ∈ d.wire.headD [], a.tag < bound := by
      intro a ha
      cases hw : d.wire with
      | nil => simp [hw] at ha
      | cons cur old =>
        simp only [hw, List.headD_cons] at ha
        exact h3 cur (by simp [hw]) a ha
    rw [hwr]
    split
    · have key := dest_inv_write (bound + 1) d
        ((tagged_bytes bound msg).take (min n (forward_fd_bytes msg).length))
        (append_message_to_buffer d.buffer bound msg
          (min n (forward_fd_bytes msg).length % 4294967296)) hd1
        (tags_sorted_const _ bound hwtag)
        (fun b hb => by rw [hwtag b hb]; exact Nat.lt_succ_self _)
        (fun a ha b hb => by rw [hwtag b hb]; exact le_of_lt (hlog a ha))
        (by
          rw [append_message_to_buffer_bytes, hempty, List.nil_append]
          exact tags_sorted_const _ bound hnew)
        (by
          intro b hb
          rw [append_message_to_buffer_bytes, hempty, List.nil_append] at hb
          rw [hnew b hb]
          exact Nat.lt_succ_self _)
        (by
          intro a ha b1 hb1
          have hb2 := List.mem_of_mem_drop hb1
          rw [append_message_to_buffer_bytes, hempty, List.nil_append] at hb2
          rw [hnew b1 hb2]
          exact le_of_lt (hlog a ha))
        (by
          intro a ha b1 hb1
          have hb2 := List.mem_of_mem_drop hb1
          rw [append_message_to_buffer_bytes, hempty, List.nil_append] at hb2
          rw [hnew b1 hb2, hwtag a ha])
      exact key
    · have key := dest_inv_write (bound + 1) d
        ((tagged_bytes bound msg).take (min n (forward_fd_bytes msg).length)) d.buffer hd1
        (tags_sorted_const _ bound hwtag)
        (fun b hb => by rw [hwtag b hb]; exact Nat.lt_succ_self _)
        (fun a ha b hb => by rw [hwtag b hb]; exact le_of_lt (hlog a ha))
        (by rw [hempty]; exact List.Pairwise.nil)
        (by rw [hempty]; intro b hb; simp at hb)
        (by rw [hempty]; intro a _ b1 hb1; simp at hb1)
        (by rw [hempty]; intro a _ b1 hb1; simp at hb1)
      exact key

/-- The function `forward_message`, given the next tag, keeps the invariant. -/
theorem dest_inv_forward_message (bound : Nat) (d : export_dest) (msg : openli_exportmsg)
    (o1 o2 : SendOutcome) (hd : dest_inv bound d) :
    dest_inv (bound + 1) (forward_message d bound msg o1 o2).1 := by
  unfold forward_message
  split
  · exact dest_inv_append bound d msg 0 hd
  · split
    · rename_i h
      exact dest_inv_forward_fd bound d msg o2
        (List.length_eq_zero.mp (by simpa [get_buffered_amount] using h)) hd
    · have ht := dest_inv_transmit bound d o1 BUF_BATCH_SIZE hd
      simp only
      split
      · exact dest_inv_mono bound (bound + 1) (Nat.le_succ _) _ ht
      · split
        · rename_i h
          exact dest_inv_forward_fd bound _ msg o2
            (List.length_eq_zero.mp (by simpa [get_buffered_amount] using h)) ht
        · exact dest_inv_append bound _ msg 0 ht

theorem connect_single_target_cases (d : export_dest) (sockfd : Int) :
    (connect_single_target d sockfd).1.wire = d.wire ∧
      ((connect_single_target d sockfd).1.buffer = d.buffer ∨
        (connect_single_target d sockfd).1.buffer = { d.buffer with partialfront := 0 }) := by
  unfold connect_single_target
  split_ifs
  · exact ⟨rfl, Or.inl rfl⟩
  · exact ⟨rfl, Or.inl rfl⟩
  · exact ⟨rfl, Or.inl rfl⟩
  · exact ⟨rfl, Or.inr rfl⟩

theorem connect_single_target_fail (d : export_dest) (sockfd : Int)
    (h : ¬ ((connect_single_target d sockfd).2 ≠ -1)) :
    (connect_single_target d sockfd).1.buffer = d.buffer := by
  unfold connect_single_target at h ⊢
  split_ifs at h ⊢
  · rfl
  · rfl
  · rfl
  · rename_i h1 h2 h3
    exact absurd h2 (by simpa using h)

theorem dest_inv_new_connection (bound : Nat) (d : export_dest) (hd : dest_inv bound d) :
    dest_inv bound
      { d with buffer := { d.buffer with partialfront := 0 }, wire := [] :: d.wire } := by
  obtain ⟨h1, h2, h3, h4, _⟩ := hd
  refine ⟨?_, h2, ?_, h4, ?_⟩
  · intro log hl
    rcases List.mem_cons.mp hl with hl1 | hl1
    · rw [hl1]
      exact List.Pairwise.nil
    · exact h1 log hl1
  · intro log hl b hb
    rcases List.mem_cons.mp hl with hl1 | hl1
    · rw [hl1] at hb
      simp at hb
    · exact h3 log hl1 b hb
  · intro b hb
    simp at hb

/-- One iteration of `connect_export_targets` keeps the invariant. -/
theorem dest_inv_connect (bound : Nat) (d : export_dest) (sockfd : Int) (o : SendOutcome)
    (hd : dest_inv bound d) : dest_inv bound (connect_export_target d sockfd o).1 := by
  obtain ⟨cw, cb⟩ := connect_single_target_cases d sockfd
  unfold connect_export_target
  split
  · exact hd
  · split
    · exact hd
    · simp only
      split
      · have hnc : dest_inv bound
            { connect_single_target d sockfd |>.1 with
              fd := (connect_single_target d sockfd).2,
              wire := [] :: (connect_single_target d sockfd).1.wire } := by
          rcases cb with cb1 | cb1
          · have h0 := dest_inv_new_connection bound d hd
            obtain ⟨g1, g2, g3, g4, _⟩ := h0
            refine ⟨?_, ?_, ?_, ?_, ?_⟩
            · simpa [cw] using g1
            · simpa [cb1] using g2
            · simpa [cw] using g3
            · simpa [cb1] using g4
            · intro b hb
              simp at hb
          · exact dest_inv_congr bound _ _ (by simp [cw]) (by simp [cb1])
              (dest_inv_new_connection bound d hd)
        split
        · have ht := dest_inv_transmit bound _ o BUF_BATCH_SIZE hnc
          split
          · exact dest_inv_congr bound _ _ rfl rfl ht
          · exact ht
        · exact hnc
      · rename_i hfail
        have cb1 := connect_single_target_fail d sockfd hfail
        exact dest_inv_congr bound d _ (by simp [cw]) (by simp [cb1]) hd

theorem dest_inv_fresh (bound : Nat) (d : export_dest) (hw : d.wire = [])
    (hb : d.buffer.bytes = []) : dest_inv bound d := by
  unfold dest_inv
  rw [hw, hb]
  refine ⟨?_, List.Pairwise.nil, ?_, ?_, ?_⟩ <;> simp

theorem forall_mem_map_of (P : export_dest → Prop) (f : export_dest → export_dest)
    (ds : List export_dest) (h : ∀ d ∈ ds, P d) (hf : ∀ d, P d → P (f d)) :
    ∀ d ∈ ds.map f, P d := by
  intro d hd
  obtain ⟨d0, hd0, rfl⟩ := List.mem_map.mp hd
  exact hf d0 (h d0 hd0)

theorem dest_inv_remove_destination (bound : Nat) (ds : List export_dest) (med : openli_mediator)
    (h : ∀ d ∈ ds, dest_inv bound d) : ∀ d ∈ remove_destination_dests ds med, dest_inv bound d := by
  apply forall_mem_map_of _ _ ds h
  intro d hd
  split
  · exact hd
  · exact dest_inv_congr bound d _ rfl rfl hd

theorem dest_inv_purge (bound : Nat) (ds : List export_dest)
    (h : ∀ d ∈ ds, dest_inv bound d) :
    ∀ d ∈ purge_unconfirmed_mediators_dests ds, dest_inv bound d := by
  apply forall_mem_map_of _ _ ds h
  intro d hd
  split
  · exact dest_inv_congr bound d _ rfl rfl hd
  · exact hd

theorem dest_inv_add_walk (bound : Nat) (med : openli_mediator) :
    ∀ (ds ds1 : List export_dest), (∀ d ∈ ds, dest_inv bound d) →
      add_new_destination_walk med ds = some ds1 → ∀ d ∈ ds1, dest_inv bound d := by
  intro ds
  induction ds with
  | nil =>
    intro ds1 _ hw
    simp [add_new_destination_walk] at hw
  | cons d0 rest ih =>
    intro ds1 h hw
    have hd0 := h d0 (List.mem_cons_self _ _)
    have hrest : ∀ d ∈ rest, dest_inv bound d := fun d hd => h d (List.mem_cons_of_mem _ hd)
    unfold add_new_destination_walk at hw
    split at hw
    · rw [← Option.some.inj hw]
      intro d hd
      rcases List.mem_cons.mp hd with hd1 | hd1
      · rw [hd1]
        exact dest_inv_congr bound d0 _ rfl rfl hd0
      · exact hrest d hd1
    · split at hw
      · rw [← Option.some.inj hw]
        intro d hd
        rcases List.mem_cons.mp hd with hd1 | hd1
        · rw [hd1]
          split
          · exact dest_inv_congr bound d0 _ rfl rfl hd0
          · exact dest_inv_congr bound d0 _ rfl rfl hd0
        · exact hrest d hd1
      · cases hr : add_new_destination_walk med rest with
        | none => simp [hr] at hw
        | some ds2 =>
          simp only [hr, Option.map_some'] at hw
          rw [← Option.some.inj hw]
          intro d hd
          rcases List.mem_cons.mp hd with hd1 | hd1
          · rw [hd1]
            exact hd0
          · exact ih ds2 hrest hr d hd1

theorem dest_inv_add_new_destination (bound : Nat) (ds : List export_dest)
    (med : openli_mediator) (h : ∀ d ∈ ds, dest_inv bound d) :
    ∀ d ∈ add_new_destination_dests ds med, dest_inv bound d := by
  unfold add_new_destination_dests
  cases hw : add_new_destination_walk med ds with
  | some ds1 => exact dest_inv_add_walk bound med ds ds1 h hw
  | none =>
    intro d hd
    rcases List.mem_append.mp hd with hd1 | hd1
    · exact h d hd1
    · rw [List.mem_singleton.mp hd1]
      exact dest_inv_fresh bound _ rfl rfl

theorem dest_inv_connect_walk (bound : Nat) (conn : Nat → Int) (send : Nat → SendOutcome) :
    ∀ (ds : List export_dest) (k : Nat), (∀ d ∈ ds, dest_inv bound d) →
      ∀ d ∈ (connect_export_targets_walk conn send k ds).1, dest_inv bound d := by
  intro ds
  induction ds with
  | nil =>
    intro k _ d hd
    simp [connect_export_targets_walk] at hd
  | cons d0 rest ih =>
    intro k h d hd
    simp only [connect_export_targets_walk] at hd
    rcases List.mem_cons.mp hd with hd1 | hd1
    · rw [hd1]
      exact dest_inv_connect bound d0 _ _ (h d0 (List.mem_cons_self _ _))
    · exact ih (k + 1) (fun d hd => h d (List.mem_cons_of_mem _ hd)) d hd1

theorem dest_inv_export_walk (bound : Nat) (tosend : openli_exportmsg) (o1 o2 : SendOutcome) :
    ∀ (ds : List export_dest) (r : List export_dest × Int), (∀ d ∈ ds, dest_inv bound d) →
      export_encoded_record_walk bound tosend o1 o2 ds = some r →
      ∀ d ∈ r.1, dest_inv (bound + 1) d := by
  intro ds
  induction ds with
  | nil =>
    intro r _ hw
    simp [export_encoded_record_walk] at hw
  | cons d0 rest ih =>
    intro r h hw
    have hd0 := h d0 (List.mem_cons_self _ _)
    have hrest : ∀ d ∈ rest, dest_inv bound d := fun d hd => h d (List.mem_cons_of_mem _ hd)
    have hfm := dest_inv_forward_message bound d0 tosend o1 o2 hd0
    unfold export_encoded_record_walk at hw
    split at hw
    · simp only at hw
      split at hw
      · rw [← Option.some.inj hw]
        intro d hd
        rcases List.mem_cons.mp hd with hd1 | hd1
        · rw [hd1]
          exact dest_inv_congr (bound + 1) _ _ rfl rfl hfm
        · exact dest_inv_mono bound _ (Nat.le_succ _) d (hrest d hd1)
      · rw [← Option.some.inj hw]
        intro d hd
        rcases List.mem_cons.mp hd with hd1 | hd1
        · rw [hd1]
          exact hfm
        · exact dest_inv_mono bound _ (Nat.le_succ _) d (hrest d hd1)
    · cases hr : export_encoded_record_walk bound tosend o1 o2 rest with
      | none => simp [hr] at hw
      | some p =>
        simp only [hr, Option.map_some'] at hw
        rw [← Option.some.inj hw]
        intro d hd
        rcases List.mem_cons.mp hd with hd1 | hd1
        · rw [hd1]
          exact dest_inv_mono bound _ (Nat.le_succ _) d0 hd0
        · exact ih p hrest hr d hd1

theorem registry_inv_export (env : Env) (exp : collector_export) (tosend : openli_exportmsg)
    (h : registry_inv exp) : registry_inv (export_encoded_record env exp tosend).1 := by
  unfold registry_inv at h ⊢
  unfold export_encoded_record
  simp only [List.length_append, List.length_singleton]
  unfold export_encoded_record_dests
  cases hw : export_encoded_record_walk exp.forwarded.length tosend (env.send exp.nsend)
      (env.send (exp.nsend + 1)) exp.dests with
  | some r => exact dest_inv_export_walk _ tosend _ _ exp.dests r h hw
  | none =>
    have hfm := dest_inv_forward_message exp.forwarded.length
      (add_unknown_destination tosend.destid) tosend (env.send exp.nsend)
      (env.send (exp.nsend + 1)) (dest_inv_fresh _ _ rfl rfl)
    simp only
    split
    · intro d hd
      rcases List.mem_append.mp hd with hd1 | hd1
      · exact dest_inv_mono _ _ (Nat.le_succ _) d (h d hd1)
      · rw [List.mem_singleton.mp hd1]
        exact hfm
    · intro d hd
      rcases List.mem_append.mp hd with hd1 | hd1
      · exact dest_inv_mono _ _ (Nat.le_succ _) d (h d hd1)
      · rw [List.mem_singleton.mp hd1]
        exact hfm

theorem registry_inv_congr (exp exp1 : collector_export) (hd : exp1.dests = exp.dests)
    (hf : exp1.forwarded = exp.forwarded) (h : registry_inv exp) : registry_inv exp1 := by
  unfold registry_inv at h ⊢
  rw [hd, hf]
  exact h

theorem add_new_destination_dests_eq (env : Env) (exp : collector_export)
    (med : openli_mediator) :
    (add_new_destination env exp med).1.dests = add_new_destination_dests exp.dests med ∧
      (add_new_destination env exp med).1.forwarded = exp.forwarded := by
  unfold add_new_destination
  simp only
  split
  · exact ⟨rfl, rfl⟩
  · split
    · split <;> exact ⟨rfl, rfl⟩
    · exact ⟨rfl, rfl⟩

theorem registry_inv_loop (env : Env) (recvd : openli_export_recv)
    (details : exporter_intercept_msg) :
    ∀ (fuel : Nat) (exp : collector_export) (cinseq : cin_seqno) (ind : Nat),
      registry_inv exp →
      registry_inv (run_encoding_loop env recvd details fuel exp cinseq ind).1 := by
  intro fuel
  induction fuel with
  | zero =>
    intro exp cinseq ind h
    exact h
  | succ f ih =>
    intro exp cinseq ind h
    have h1 : registry_inv (run_encoding_switch env recvd details exp cinseq ind).exp :=
      registry_inv_congr exp _ rfl rfl h
    have h2 := registry_inv_export env _
      { (run_encoding_switch env recvd details exp cinseq ind).tosend with
        destid := recvd.destid } h1
    rw [run_encoding_loop]
    simp only
    split
    · exact h1
    · split
      · exact h2
      · split
        · exact h2
        · exact ih _ _ _ h2

theorem registry_inv_run_encoding_job (env : Env) (fuel : Nat) (exp : collector_export)
    (recvd : openli_export_recv) (h : registry_inv exp) :
    registry_inv (run_encoding_job env fuel exp recvd).1 := by
  cases hi : exp.intercepts recvd.liid with
  | none =>
    unfold run_encoding_job
    simp only [hi]
    split <;> exact h
  | some intstate =>
    rw [run_encoding_job_eq env fuel exp recvd intstate hi]
    exact registry_inv_loop env recvd intstate.details fuel _ _ 0
      (registry_inv_congr exp _ rfl rfl h)

/-- What `exporter_new_intercept` leaves as it is. -/
theorem exporter_new_intercept_frame (exp exp1 : collector_export)
    (cept : exporter_intercept_msg) (h : exporter_new_intercept exp cept = some exp1) :
    exp1.dests = exp.dests ∧ exp1.forwarded = exp.forwarded ∧ exp1.trace = exp.trace ∧
      exp1.nenc = exp.nenc ∧ exp1.flagged = exp.flagged ∧ exp1.flagtimerfd = exp.flagtimerfd := by
  unfold exporter_new_intercept at h
  split at h
  · rw [← Option.some.inj h]
    exact ⟨rfl, rfl, rfl, rfl, rfl, rfl⟩
  · split at h
    · exact absurd h (by simp)
    · rw [← Option.some.inj h]
      exact ⟨rfl, rfl, rfl, rfl, rfl, rfl⟩

/-- What `exporter_end_intercept` leaves as it is. -/
theorem exporter_end_intercept_frame (exp : collector_export) (r : collector_export × Int)
    (cept : exporter_intercept_msg) (h : exporter_end_intercept exp cept = some r) :
    r.1.dests = exp.dests ∧ r.1.forwarded = exp.forwarded ∧ r.1.trace = exp.trace ∧
      r.1.nenc = exp.nenc ∧ r.1.flagged = exp.flagged ∧ r.1.flagtimerfd = exp.flagtimerfd := by
  unfold exporter_end_intercept at h
  split at h
  · rw [← Option.some.inj h]
    exact ⟨rfl, rfl, rfl, rfl, rfl, rfl⟩
  · split at h
    · exact absurd h (by simp)
    · rw [← Option.some.inj h]
      exact ⟨rfl, rfl, rfl, rfl, rfl, rfl⟩

/-- The dests and the forwarded records after a message that is not a job for
`run_encoding_job` and not a mediator message. -/
theorem read_exported_message_frame (env : Env) (fuel : Nat) (exp : collector_export)
    (m : export_message)
    (hm : (∃ cept, m = export_message.INTERCEPT_DETAILS cept) ∨
      (∃ cept, m = export_message.INTERCEPT_OVER cept) ∨ m = export_message.FLAG_MEDIATORS ∨
      (∃ recvd, m = export_message.JOB recvd ∧ recvd.type ≠ OPENLI_EXPORT_IPIRI ∧
        recvd.type ≠ OPENLI_EXPORT_IPCC)) :
    (read_exported_message env fuel exp m).1.dests = exp.dests ∧
      (read_exported_message env fuel exp m).1.forwarded = exp.forwarded ∧
      (read_exported_message env fuel exp m).1.flagged = exp.flagged ∧
      (read_exported_message env fuel exp m).1.flagtimerfd = exp.flagtimerfd := by
  rcases hm with ⟨cept, rfl⟩ | ⟨cept, rfl⟩ | rfl | ⟨recvd, rfl, h1, h2⟩
  · simp only [read_exported_message]
    cases h : exporter_new_intercept exp cept with
    | none => exact ⟨rfl, rfl, rfl, rfl⟩
    | some exp1 =>
      obtain ⟨f1, f2, _, _, f5, f6⟩ := exporter_new_intercept_frame exp exp1 cept h
      exact ⟨f1, f2, f5, f6⟩
  · simp only [read_exported_message]
    cases h : exporter_end_intercept exp cept with
    | none => exact ⟨rfl, rfl, rfl, rfl⟩
    | some r =>
      obtain ⟨f1, f2, _, _, f5, f6⟩ := exporter_end_intercept_frame exp r cept h
      exact ⟨f1, f2, f5, f6⟩
  · exact ⟨rfl, rfl, rfl, rfl⟩
  · simp only [read_exported_message]
    cases ht : recvd.type with
    | OPENLI_EXPORT_IPMMCC => exact ⟨rfl, rfl, rfl, rfl⟩
    | OPENLI_EXPORT_IPCC => exact absurd ht h2
    | OPENLI_EXPORT_IPMMIRI => exact ⟨rfl, rfl, rfl, rfl⟩
    | OPENLI_EXPORT_IPIRI => exact absurd ht h1

/-- Every event of the exporter loop keeps the ordering invariant. -/
theorem registry_inv_step (env : Env) (fuel : Nat) (exp : collector_export)
    (e : exporter_event) (h : registry_inv exp) :
    registry_inv (exporter_step env fuel exp e).1 := by
  cases e with
  | CONNECT_TIMER =>
    intro d hd
    exact dest_inv_connect_walk _ _ _ exp.dests 0 h d hd
  | FLAG_TIMEOUT =>
    simp only [exporter_step]
    split
    · intro d hd
      exact dest_inv_purge _ exp.dests h d hd
    · exact h
  | MESSAGE m =>
    cases m with
    | MEDIATOR med =>
      obtain ⟨e1, e2⟩ := add_new_destination_dests_eq env exp med
      intro d hd
      have hd1 : d ∈ (add_new_destination env exp med).1.dests := hd
      rw [e1] at hd1
      show dest_inv (add_new_destination env exp med).1.forwarded.length d
      rw [e2]
      exact dest_inv_add_new_destination _ exp.dests med h d hd1
    | DROP_SINGLE_MEDIATOR med =>
      intro d hd
      exact dest_inv_remove_destination _ exp.dests med h d hd
    | INTERCEPT_DETAILS cept =>
      obtain ⟨f1, f2, _, _⟩ := read_exported_message_frame env fuel exp
        (export_message.INTERCEPT_DETAILS cept) (Or.inl ⟨cept, rfl⟩)
      exact registry_inv_congr exp _ f1 f2 h
    | INTERCEPT_OVER cept =>
      obtain ⟨f1, f2, _, _⟩ := read_exported_message_frame env fuel exp
        (export_message.INTERCEPT_OVER cept) (Or.inr (Or.inl ⟨cept, rfl⟩))
      exact registry_inv_congr exp _ f1 f2 h
    | FLAG_MEDIATORS => exact h
    | JOB recvd =>
      simp only [exporter_step, read_exported_message]
      cases recvd.type with
      | OPENLI_EXPORT_IPMMCC => exact h
      | OPENLI_EXPORT_IPMMIRI => exact h
      | OPENLI_EXPORT_IPIRI => exact registry_inv_run_encoding_job env fuel exp recvd h
      | OPENLI_EXPORT_IPCC =>
        exact registry_inv_run_encoding_job env fuel _ recvd (registry_inv_congr exp _ rfl rfl h)

theorem registry_inv_run (env : Env) (fuel : Nat) (evs : List exporter_event) :
    ∀ (exp : collector_export), registry_inv exp →
      registry_inv (exporter_run env fuel exp evs) := by
  induction evs with
  | nil =>
    intro exp h
    exact h
  | cons e es ih =>
    intro exp h
    have h1 := registry_inv_step env fuel exp e h
    rw [exporter_run]
    cases hs : exporter_step env fuel exp e with
    | mk exp1 r =>
      rw [hs] at h1
      cases r with
      | none => exact h1
      | some v => exact ih exp1 h1

theorem mem_wire_write (w : List (List TByte)) (bs : List TByte) (log : List TByte) (b : TByte)
    (hl : log ∈ wire_write w bs) (hb : b ∈ log) : (∃ l0 ∈ w, b ∈ l0) ∨ b ∈ bs := by
  cases w with
  | nil =>
    simp only [wire_write, List.mem_singleton] at hl
    rw [hl] at hb
    exact Or.inr hb
  | cons cur old =>
    simp only [wire_write, List.mem_cons] at hl
    rcases hl with hl1 | hl1
    · rw [hl1] at hb
      rcases List.mem_append.mp hb with hb1 | hb1
      · exact Or.inl ⟨cur, by simp, hb1⟩
      · exact Or.inr hb1
    · exact Or.inl ⟨log, by simp [hl1], hb⟩

theorem forward_fd_buffer_tags (d : export_dest) (tag : Nat) (msg : openli_exportmsg)
    (o : SendOutcome) (hempty : d.buffer.bytes = []) :
    ∀ b ∈ (forward_fd d tag msg o).1.buffer.bytes, b.tag = tag := by
  have hnew := tagged_bytes_tag tag msg
  have happ : ∀ k, ∀ b ∈ (append_message_to_buffer d.buffer tag msg k).bytes, b.tag = tag := by
    intro k b hb
    rw [append_message_to_buffer_bytes, hempty, List.nil_append] at hb
    exact hnew b hb
  unfold forward_fd
  cases o with
  | error => exact happ 0
  | eagain => exact happ 0
  | sent n =>
    simp only
    split
    · exact happ _
    · intro b hb
      have hb1 : b ∈ d.buffer.bytes := hb
      rw [hempty] at hb1
      simp at hb1

/-- C4: records are tagged with their position in the sequence of calls of
`export_encoded_record`, which hands them to `forward_message`. From a
registry that satisfies the ordering invariant (the empty one does), after any
sequence of events, with any encoder results, socket outcomes (full send,
partial send, `EAGAIN`, error) and connect results, the bytes written on every
connection of every mediator entry are in enqueue order: no byte of a record
precedes a byte of a record forwarded earlier. And whenever `forward_message`
has written a byte of the new record, no byte of an older record is left in
the entry's buffer: the direct send is attempted only on an empty buffer. -/
theorem wire_in_enqueue_order (env : Env) (fuel : Nat) (exp : collector_export)
    (evs : List exporter_event) (h0 : registry_inv exp) :
    (∀ (i j : Nat) (d : export_dest) (log : List TByte),
      (exporter_run env fuel exp evs).dests[i]? = some d → d.wire[j]? = some log →
        tags_sorted log) ∧
    (∀ (d : export_dest) (tag : Nat) (msg : openli_exportmsg) (o1 o2 : SendOutcome),
      dest_inv tag d →
      (∃ log ∈ (forward_message d tag msg o1 o2).1.wire, ∃ b ∈ log, b.tag = tag) →
      ∀ b ∈ (forward_message d tag msg o1 o2).1.buffer.bytes, b.tag = tag) := by
  constructor
  · intro i j d log hd hl
    have hinv := registry_inv_run env fuel evs exp h0
    exact (hinv d (List.getElem?_mem hd)).1 log (List.getElem?_mem hl)
  · intro d tag msg o1 o2 hd hw
    obtain ⟨_, _, h3, h4, _⟩ := hd
    obtain ⟨log, hl, b, hb, hbt⟩ := hw
    unfold forward_message at hl ⊢
    split at hl
    · exact absurd hbt (ne_of_lt (h3 log hl b hb))
    · rename_i hfd
      simp only [hfd, if_false]
      split at hl
      · rename_i hz
        simp only [hz, if_true]
        exact forward_fd_buffer_tags d tag msg o2
          (List.length_eq_zero.mp (by simpa [get_buffered_amount] using hz))
      · rename_i hz
        simp only [hz, if_false]
        have hwsub : ∀ b ∈ (transmit_buffered_records d.buffer o1 BUF_BATCH_SIZE).2.2,
            b.tag < tag := by
          intro b1 hb1
          rw [transmit_written] at hb1
          obtain ⟨k, hk⟩ := sent_bytes_eq_take o1
            ((d.buffer.bytes.drop d.buffer.partialfront).take BUF_BATCH_SIZE)
          rw [hk] at hb1
          exact h4 b1 (List.mem_of_mem_drop (List.mem_of_mem_take (List.mem_of_mem_take hb1)))
        have hold : ∀ log ∈ wire_write d.wire
            (transmit_buffered_records d.buffer o1 BUF_BATCH_SIZE).2.2, ∀ b ∈ log, b.tag < tag := by
          intro l1 hl1 b1 hb1
          rcases mem_wire_write _ _ l1 b1 hl1 hb1 with ⟨l0, hl0, hb0⟩ | hb0
          · exact h3 l0 hl0 b1 hb0
          · exact hwsub b1 hb0
        simp only at hl
        split at hl
        · exact absurd hbt (ne_of_lt (hold log hl b hb))
        · rename_i hret
          simp only [hret, if_false]
          split at hl
          · rename_i hz2
            simp only [hz2, if_true]
            exact forward_fd_buffer_tags _ tag msg o2
              (List.length_eq_zero.mp (by simpa [get_buffered_amount] using hz2))
          · exact absurd hbt (ne_of_lt (hold log hl b hb))

theorem wire_in_enqueue_order_witness :
    registry_inv exp_x ∧
    (exp_reconnected.dests.map (fun d => d.wire.map (fun l => l.map (fun b => b.tag)))) =
      [[[0, 0, 0, 0, 0, 2, 2, 2, 2, 2], [0, 0]]] ∧
    tags_sorted (Option.get
      ((Option.get (exp_reconnected.dests[0]?) (by rfl)).wire[0]?) (by rfl)) := by
  have h0 : registry_inv exp_x := by
    intro d hd
    simp [exp_x, exp_announced, init_exporter] at hd
  have w := wire_in_enqueue_order env_midrecord 5 exp_x
    [exporter_event.MESSAGE (export_message.MEDIATOR
        { mediatorid := 1, ipstr := some "127.0.0.1", portstr := some "9000" }),
     exporter_event.CONNECT_TIMER,
     exporter_event.MESSAGE (export_message.JOB job_cc_x7),
     exporter_event.MESSAGE (export_message.JOB job_cc_x7),
     exporter_event.CONNECT_TIMER,
     exporter_event.MESSAGE (export_message.JOB job_cc_x7)] h0
  refine ⟨h0, by rfl, ?_⟩
  exact w.1 0 0 _ _ (by rfl) (Option.some_get _).symm

/-! ## A new connection starts at the first byte of the head record -/

theorem whole_records_mono (fw extra : List openli_exportmsg) (d : export_dest)
    (h : whole_records fw d) : whole_records (fw ++ extra) d := by
  intro r hr
  obtain ⟨k, msg, hk, he⟩ := h r hr
  refine ⟨k, msg, ?_, he⟩
  have hlt : k < fw.length := by
    by_contra hge
    rw [List.getElem?_eq_none (by omega)] at hk
    exact absurd hk (by simp)
  rw [List.getElem?_append_left hlt]
  exact hk

theorem whole_records_suffix (fw : List openli_exportmsg) (d d1 : export_dest)
    (hs : d1.buffer.records <:+ d.buffer.records) (h : whole_records fw d) :
    whole_records fw d1 :=
  fun r hr => h r (hs.subset hr)

theorem whole_records_fresh (fw : List openli_exportmsg) (d : export_dest)
    (hb : d.buffer.records = []) : whole_records fw d := by
  intro r hr
  rw [hb] at hr
  simp at hr

/-- Appending the record with the next tag keeps the records whole. -/
theorem whole_records_append (fw : List openli_exportmsg) (d : export_dest)
    (msg : openli_exportmsg) (k : Nat) (h : whole_records fw d) :
    whole_records (fw ++ [msg])
      { d with buffer := append_message_to_buffer d.buffer fw.length msg k } := by
  intro r hr
  have hr1 : r ∈ d.buffer.records ++ [tagged_bytes fw.length msg] := hr
  rcases List.mem_append.mp hr1 with h1 | h1
  · exact whole_records_mono fw [msg] d h r h1
  · rw [List.mem_singleton.mp h1]
    exact ⟨fw.length, msg, by simp, rfl⟩

theorem whole_records_forward_fd (fw : List openli_exportmsg) (d : export_dest)
    (msg : openli_exportmsg) (o : SendOutcome) (h : whole_records fw d) :
    whole_records (fw ++ [msg]) (forward_fd d fw.length msg o).1 := by
  unfold forward_fd
  cases o with
  | error => exact whole_records_append fw d msg 0 h
  | eagain => exact whole_records_append fw d msg 0 h
  | sent n =>
    simp only
    split
    · exact whole_records_append fw { d with wire := _ } msg _
        (whole_records_suffix fw d _ (List.suffix_refl _) h)
    · exact whole_records_mono fw [msg] _ (whole_records_suffix fw d _ (List.suffix_refl _) h)

theorem whole_records_forward_message (fw : List openli_exportmsg) (d : export_dest)
    (msg : openli_exportmsg) (o1 o2 : SendOutcome) (h : whole_records fw d) :
    whole_records (fw ++ [msg]) (forward_message d fw.length msg o1 o2).1 := by
  have ht : whole_records fw
      { d with buffer := (transmit_buffered_records d.buffer o1 BUF_BATCH_SIZE).1,
               wire := wire_write d.wire
                 (transmit_buffered_records d.buffer o1 BUF_BATCH_SIZE).2.2 } :=
    whole_records_suffix fw d _ (transmit_records_suffix _ _ _) h
  unfold forward_message
  split
  · exact whole_records_append fw d msg 0 h
  · split
    · exact whole_records_forward_fd fw d msg o2 h
    · simp only
      split
      · exact whole_records_mono fw [msg] _ ht
      · split
        · exact whole_records_forward_fd fw _ msg o2 ht
        · exact whole_records_append fw _ msg 0 ht

theorem whole_records_export_walk (fw : List openli_exportmsg) (tosend : openli_exportmsg)
    (o1 o2 : SendOutcome) :
    ∀ (ds : List export_dest) (r : List export_dest × Int), (∀ d ∈ ds, whole_records fw d) →
      export_encoded_record_walk fw.length tosend o1 o2 ds = some r →
      ∀ d ∈ r.1, whole_records (fw ++ [tosend]) d := by
  intro ds
  induction ds with
  | nil =>
    intro r _ hw
    simp [export_encoded_record_walk] at hw
  | cons d0 rest ih =>
    intro r h hw
    have hd0 := h d0 (List.mem_cons_self _ _)
    have hrest : ∀ d ∈ rest, whole_records fw d := fun d hd => h d (List.mem_cons_of_mem _ hd)
    have hfm := whole_records_forward_message fw d0 tosend o1 o2 hd0
    unfold export_encoded_record_walk at hw
    split at hw
    · simp only at hw
      split at hw
      · rw [← Option.some.inj hw]
        intro d hd
        rcases List.mem_cons.mp hd with hd1 | hd1
        · rw [hd1]
          exact whole_records_suffix _ _ _ (List.suffix_refl _) hfm
        · exact whole_records_mono fw _ d (hrest d hd1)
      · rw [← Option.some.inj hw]
        intro d hd
        rcases List.mem_cons.mp hd with hd1 | hd1
        · rw [hd1]
          exact hfm
        · exact whole_records_mono fw _ d (hrest d hd1)
    · cases hr : export_encoded_record_walk fw.length tosend o1 o2 rest with
      | none => simp [hr] at hw
      | some p =>
        simp only [hr, Option.map_some'] at hw
        rw [← Option.some.inj hw]
        intro d hd
        rcases List.mem_cons.mp hd with hd1 | hd1
        · rw [hd1]
          exact whole_records_mono fw _ d0 hd0
        · exact ih p hrest hr d hd1

theorem registry_whole_export (env : Env) (exp : collector_export) (tosend : openli_exportmsg)
    (h : registry_whole exp) : registry_whole (export_encoded_record env exp tosend).1 := by
  unfold registry_whole at h ⊢
  unfold export_encoded_record
  simp only
  unfold export_encoded_record_dests
  cases hw : export_encoded_record_walk exp.forwarded.length tosend (env.send exp.nsend)
      (env.send (exp.nsend + 1)) exp.dests with
  | some r => exact whole_records_export_walk _ tosend _ _ exp.dests r h hw
  | none =>
    have hfm := whole_records_forward_message exp.forwarded
      (add_unknown_destination tosend.destid) tosend (env.send exp.nsend)
      (env.send (exp.nsend + 1)) (whole_records_fresh _ _ rfl)
    simp only
    split
    · intro d hd
      rcases List.mem_append.mp hd with hd1 | hd1
      · exact whole_records_mono _ _ d (h d hd1)
      · rw [List.mem_singleton.mp hd1]
        exact hfm
    · intro d hd
      rcases List.mem_append.mp hd with hd1 | hd1
      · exact whole_records_mono _ _ d (h d hd1)
      · rw [List.mem_singleton.mp hd1]
        exact hfm

theorem registry_whole_congr (exp exp1 : collector_export) (hd : exp1.dests = exp.dests)
    (hf : exp1.forwarded = exp.forwarded) (h : registry_whole exp) : registry_whole exp1 := by
  unfold registry_whole at h ⊢
  rw [hd, hf]
  exact h

theorem registry_whole_loop (env : Env) (recvd : openli_export_recv)
    (details : exporter_intercept_msg) :
    ∀ (fuel : Nat) (exp : collector_export) (cinseq : cin_seqno) (ind : Nat),
      registry_whole exp →
      registry_whole (run_encoding_loop env recvd details fuel exp cinseq ind).1 := by
  intro fuel
  induction fuel with
  | zero =>
    intro exp cinseq ind h
    exact h
  | succ f ih =>
    intro exp cinseq ind h
    have h1 : registry_whole (run_encoding_switch env recvd details exp cinseq ind).exp :=
      registry_whole_congr exp _ rfl rfl h
    have h2 := registry_whole_export env _
      { (run_encoding_switch env recvd details exp cinseq ind).tosend with
        destid := recvd.destid } h1
    rw [run_encoding_loop]
    simp only
    split
    · exact h1
    · split
      · exact h2
      · split
        · exact h2
        · exact ih _ _ _ h2

theorem registry_whole_run_encoding_job (env : Env) (fuel : Nat) (exp : collector_export)
    (recvd : openli_export_recv) (h : registry_whole exp) :
    registry_whole (run_encoding_job env fuel exp recvd).1 := by
  cases hi : exp.intercepts recvd.liid with
  | none =>
    unfold run_encoding_job
    simp only [hi]
    split <;> exact h
  | some intstate =>
    rw [run_encoding_job_eq env fuel exp recvd intstate hi]
    exact registry_whole_loop env recvd intstate.details fuel _ _ 0
      (registry_whole_congr exp _ rfl rfl h)

/-- One iteration of `connect_export_targets` frees whole records only. -/
theorem connect_export_target_records (d : export_dest) (sockfd : Int) (o : SendOutcome) :
    (connect_export_target d sockfd o).1.buffer.records <:+ d.buffer.records := by
  obtain ⟨_, cb⟩ := connect_single_target_cases d sockfd
  have hc : (connect_single_target d sockfd).1.buffer.records = d.buffer.records := by
    rcases cb with cb1 | cb1 <;> rw [cb1]
  unfold connect_export_target
  split
  · exact List.suffix_refl _
  · split
    · exact List.suffix_refl _
    · simp only
      split
      · split
        · have ht := transmit_records_suffix (connect_single_target d sockfd).1.buffer o
            BUF_BATCH_SIZE
          rw [hc] at ht
          split
          · exact ht
          · exact ht
        · rw [← hc]
      · rw [← hc]

theorem whole_records_connect_walk (fw : List openli_exportmsg) (conn : Nat → Int)
    (send : Nat → SendOutcome) :
    ∀ (ds : List export_dest) (k : Nat), (∀ d ∈ ds, whole_records fw d) →
      ∀ d ∈ (connect_export_targets_walk conn send k ds).1, whole_records fw d := by
  intro ds
  induction ds with
  | nil =>
    intro k _ d hd
    simp [connect_export_targets_walk] at hd
  | cons d0 rest ih =>
    intro k h d hd
    simp only [connect_export_targets_walk] at hd
    rcases List.mem_cons.mp hd with hd1 | hd1
    · rw [hd1]
      exact whole_records_suffix fw d0 _ (connect_export_target_records d0 _ _)
        (h d0 (List.mem_cons_self _ _))
    · exact ih (k + 1) (fun d hd => h d (List.mem_cons_of_mem _ hd)) d hd1

theorem whole_records_add_walk (fw : List openli_exportmsg) (med : openli_mediator) :
    ∀ (ds ds1 : List export_dest), (∀ d ∈ ds, whole_records fw d) →
      add_new_destination_walk med ds = some ds1 → ∀ d ∈ ds1, whole_records fw d := by
  intro ds
  induction ds with
  | nil =>
    intro ds1 _ hw
    simp [add_new_destination_walk] at hw
  | cons d0 rest ih =>
    intro ds1 h hw
    have hd0 := h d0 (List.mem_cons_self _ _)
    have hrest : ∀ d ∈ rest, whole_records fw d := fun d hd => h d (List.mem_cons_of_mem _ hd)
    unfold add_new_destination_walk at hw
    split at hw
    · rw [← Option.some.inj hw]
      intro d hd
      rcases List.mem_cons.mp hd with hd1 | hd1
      · rw [hd1]
        exact whole_records_suffix fw d0 _ (List.suffix_refl _) hd0
      · exact hrest d hd1
    · split at hw
      · rw [← Option.some.inj hw]
        intro d hd
        rcases List.mem_cons.mp hd with hd1 | hd1
        · rw [hd1]
          split
          · exact whole_records_suffix fw d0 _ (List.suffix_refl _) hd0
          · exact whole_records_suffix fw d0 _ (List.suffix_refl _) hd0
        · exact hrest d hd1
      · cases hr : add_new_destination_walk med rest with
        | none => simp [hr] at hw
        | some ds2 =>
          simp only [hr, Option.map_some'] at hw
          rw [← Option.some.inj hw]
          intro d hd
          rcases List.mem_cons.mp hd with hd1 | hd1
          · rw [hd1]
            exact hd0
          · exact ih ds2 hrest hr d hd1

theorem whole_records_add_new_destination (fw : List openli_exportmsg) (ds : List export_dest)
    (med : openli_mediator) (h : ∀ d ∈ ds, whole_records fw d) :
    ∀ d ∈ add_new_destination_dests ds med, whole_records fw d := by
  unfold add_new_destination_dests
  cases hw : add_new_destination_walk med ds with
  | some ds1 => exact whole_records_add_walk fw med ds ds1 h hw
  | none =>
    intro d hd
    rcases List.mem_append.mp hd with hd1 | hd1
    · exact h d hd1
    · rw [List.mem_singleton.mp hd1]
      exact whole_records_fresh fw _ rfl

/-- Every event of the exporter loop leaves whole records in the buffers. -/
theorem registry_whole_step (env : Env) (fuel : Nat) (exp : collector_export)
    (e : exporter_event) (h : registry_whole exp) :
    registry_whole (exporter_step env fuel exp e).1 := by
  cases e with
  | CONNECT_TIMER =>
    intro d hd
    exact whole_records_connect_walk _ _ _ exp.dests 0 h d hd
  | FLAG_TIMEOUT =>
    simp only [exporter_step]
    split
    · intro d hd
      refine forall_mem_map_of _ _ exp.dests h ?_ d hd
      intro d0 hd0
      split
      · exact whole_records_suffix _ d0 _ (List.suffix_refl _) hd0
      · exact hd0
    · exact h
  | MESSAGE m =>
    cases m with
    | MEDIATOR med =>
      obtain ⟨e1, e2⟩ := add_new_destination_dests_eq env exp med
      intro d hd
      have hd1 : d ∈ (add_new_destination env exp med).1.dests := hd
      rw [e1] at hd1
      show whole_records (add_new_destination env exp med).1.forwarded d
      rw [e2]
      exact whole_records_add_new_destination _ exp.dests med h d hd1
    | DROP_SINGLE_MEDIATOR med =>
      intro d hd
      refine forall_mem_map_of _ _ exp.dests h ?_ d hd
      intro d0 hd0
      split
      · exact hd0
      · exact whole_records_suffix _ d0 _ (List.suffix_refl _) hd0
    | INTERCEPT_DETAILS cept =>
      obtain ⟨f1, f2, _, _⟩ := read_exported_message_frame env fuel exp
        (export_message.INTERCEPT_DETAILS cept) (Or.inl ⟨cept, rfl⟩)
      exact registry_whole_congr exp _ f1 f2 h
    | INTERCEPT_OVER cept =>
      obtain ⟨f1, f2, _, _⟩ := read_exported_message_frame env fuel exp
        (export_message.INTERCEPT_OVER cept) (Or.inr (Or.inl ⟨cept, rfl⟩))
      exact registry_whole_congr exp _ f1 f2 h
    | FLAG_MEDIATORS => exact h
    | JOB recvd =>
      simp only [exporter_step, read_exported_message]
      cases recvd.type with
      | OPENLI_EXPORT_IPMMCC => exact h
      | OPENLI_EXPORT_IPMMIRI => exact h
      | OPENLI_EXPORT_IPIRI => exact registry_whole_run_encoding_job env fuel exp recvd h
      | OPENLI_EXPORT_IPCC =>
        exact registry_whole_run_encoding_job env fuel _ recvd
          (registry_whole_congr exp _ rfl rfl h)

theorem registry_whole_run (env : Env) (fuel : Nat) (evs : List exporter_event) :
    ∀ (exp : collector_export), registry_whole exp →
      registry_whole (exporter_run env fuel exp evs) := by
  induction evs with
  | nil =>
    intro exp h
    exact h
  | cons e es ih =>
    intro exp h
    have h1 := registry_whole_step env fuel exp e h
    rw [exporter_run]
    cases hs : exporter_step env fuel exp e with
    | mk exp1 r =>
      rw [hs] at h1
      cases r with
      | none => exact h1
      | some v => exact ih exp1 h1

/-- An entry that `connect_export_targets` gives a socket: the buffer is
handed over with `partialfront = 0`, and then drained once if it holds bytes. -/
theorem connect_export_target_gets_socket (d : export_dest) (sockfd : Int) (o : SendOutcome)
    (hfd : d.fd = -1) (hnew : (connect_export_target d sockfd o).1.fd ≠ -1) :
    (connect_single_target d sockfd).1.buffer = { d.buffer with partialfront := 0 } ∧
    (connect_export_target d sockfd o).1.wire =
      sent_bytes o (d.buffer.bytes.take BUF_BATCH_SIZE) :: d.wire ∧
    (connect_export_target d sockfd o).1.buffer =
      (if get_buffered_amount d.buffer > 0 then
        (transmit_buffered_records { d.buffer with partialfront := 0 } o BUF_BATCH_SIZE).1
       else { d.buffer with partialfront := 0 }) := by
  have hc : (connect_single_target d sockfd).2 ≠ -1 := by
    intro hc
    apply hnew
    unfold connect_export_target
    split
    · exact hfd
    · simp [hfd, hc]
  obtain ⟨c1, c2, _⟩ := connect_single_target_ok d sockfd hc
  have hw := transmit_written { d.buffer with partialfront := 0 } o BUF_BATCH_SIZE
  have hb : ({ d.buffer with partialfront := 0 } : export_buffer).bytes = d.buffer.bytes := rfl
  have hg : get_buffered_amount { d.buffer with partialfront := 0 } =
      get_buffered_amount d.buffer := rfl
  simp only [List.drop_zero, hb] at hw
  have hs : sockfd ≠ -1 := c2 ▸ hc
  refine ⟨by rw [c1], ?_, ?_⟩
  · unfold connect_export_target at hnew ⊢
    split at hnew
    · exact absurd hfd hnew
    · rename_i hh
      simp only [hh, hfd, c1, c2, hs, hg, ne_eq, not_true_eq_false, not_false_eq_true, if_true,
        if_false, Bool.false_eq_true] at hnew ⊢
      split_ifs at hnew ⊢ with h1 h2
      · exact absurd rfl hnew
      · simp only [wire_write, List.nil_append, hw]
      · have hnil : d.buffer.bytes = [] := by
          simp only [get_buffered_amount] at h1
          exact List.length_eq_zero.mp (by omega)
        cases o <;> simp [sent_bytes, hnil]
  · unfold connect_export_target at hnew ⊢
    split at hnew
    · exact absurd hfd hnew
    · rename_i hh
      simp only [hh, hfd, c1, c2, hs, hg, ne_eq, not_true_eq_false, not_false_eq_true, if_true,
        if_false, Bool.false_eq_true] at hnew ⊢
      split_ifs at hnew ⊢ with h1 h2
      · exact absurd rfl hnew
      · rfl
      · rfl

theorem take_take_record (r x : List TByte) (n lim : Nat) (h : r.length ≤ min n lim) :
    r <+: ((r ++ x).take lim).take n := by
  rw [List.take_take, List.take_append_eq_append_take, List.take_of_length_le h]
  exact List.prefix_append _ _

theorem take_take_head (r x : List TByte) (n lim : Nat) (h : min n lim < r.length) :
    ((r ++ x).take lim).take n = r.take (min n lim) := by
  rw [List.take_take, List.take_append_eq_append_take]
  have h0 : min n lim - r.length = 0 := by omega
  rw [h0, List.take_zero, List.append_nil]

/-- C6: whenever `connect_export_targets` gives the `i`-th entry a socket (its
`fd` was -1 and is not afterwards), in any state that the exporter reaches from
a registry whose buffers hold whole records (the empty registry is one), the
record `r` at the head of the entry's buffer is a whole record: the bytes of a
record that was forwarded, from its first byte to its last.
`connect_single_target` has handed the buffer over with `partialfront = 0` and
its records untouched before anything is transmitted, whatever `partialfront`
was when the old socket was closed; the bytes written on the new connection
are what the socket takes of the first `BUF_BATCH_SIZE` bytes of the buffer,
counted from the first byte of `r`. If the socket takes at least the length of
`r`, then `r` is on the new connection whole, as the first bytes of it, and
only records behind `r` are left in the buffer; if it takes `m` bytes, fewer
than `r` has, these are the first `m` bytes of `r`, and `r` stays whole at the
head of the buffer with `partialfront = m`; on `EAGAIN` nothing is written and
`r` stays at the head with `partialfront = 0`. -/
theorem connect_restarts_head_record (env : Env) (fuel : Nat) (exp0 : collector_export)
    (evs : List exporter_event) (i : Nat) (d d1 : export_dest) (r : List TByte)
    (rest : List (List TByte))
    (h0 : registry_whole exp0)
    (hd : (exporter_run env fuel exp0 evs).dests[i]? = some d)
    (hd1 : (connect_export_targets env (exporter_run env fuel exp0 evs)).1.dests[i]? = some d1)
    (hfd : d.fd = -1) (hnew : d1.fd ≠ -1)
    (hrec : d.buffer.records = r :: rest) :
    (∃ k msg, (exporter_run env fuel exp0 evs).forwarded[k]? = some msg ∧
      r = tagged_bytes k msg) ∧
    (connect_single_target d
        (env.connect ((exporter_run env fuel exp0 evs).nconn + i))).1.buffer =
      { records := r :: rest, partialfront := 0 } ∧
    d1.wire =
      sent_bytes (env.send ((exporter_run env fuel exp0 evs).nsend + i))
        ((r ++ rest.flatten).take BUF_BATCH_SIZE) :: d.wire ∧
    (∀ n, env.send ((exporter_run env fuel exp0 evs).nsend + i) = SendOutcome.sent n →
      r.length ≤ min n BUF_BATCH_SIZE →
        r <+: d1.wire.headD [] ∧ d1.buffer.records <:+ r :: rest ∧
          (r ≠ [] → d1.buffer.records <:+ rest)) ∧
    (∀ n, env.send ((exporter_run env fuel exp0 evs).nsend + i) = SendOutcome.sent n →
      min n BUF_BATCH_SIZE < r.length →
        d1.wire.headD [] = r.take (min n BUF_BATCH_SIZE) ∧
          d1.buffer = { records := r :: rest, partialfront := min n BUF_BATCH_SIZE }) ∧
    (env.send ((exporter_run env fuel exp0 evs).nsend + i) = SendOutcome.eagain →
      d1.wire.headD [] = [] ∧ d1.buffer = { records := r :: rest, partialfront := 0 }) := by
  have hwhole := registry_whole_run env fuel evs exp0 h0 d (List.getElem?_mem hd)
  have hget := connect_export_targets_walk_get
    (fun i => env.connect ((exporter_run env fuel exp0 evs).nconn + i))
    (fun i => env.send ((exporter_run env fuel exp0 evs).nsend + i))
    (exporter_run env fuel exp0 evs).dests 0 i
  have hd1a : (connect_export_targets_walk
      (fun i => env.connect ((exporter_run env fuel exp0 evs).nconn + i))
      (fun i => env.send ((exporter_run env fuel exp0 evs).nsend + i)) 0
      (exporter_run env fuel exp0 evs).dests).1[i]? = some d1 := hd1
  rw [hd1a, hd] at hget
  simp only [Option.map_some', Nat.zero_add] at hget
  have hd1b := Option.some.inj hget
  subst hd1b
  obtain ⟨g1, g2, g3⟩ := connect_export_target_gets_socket d _ _ hfd hnew
  have hbytes : d.buffer.bytes = r ++ rest.flatten := by
    simp only [export_buffer.bytes, hrec, List.flatten_cons]
  have hB : ({ d.buffer with partialfront := 0 } : export_buffer) =
      { records := r :: rest, partialfront := 0 } := by rw [← hrec]
  rw [hB] at g1 g3
  rw [hbytes] at g2
  have hamount : get_buffered_amount d.buffer = (r ++ rest.flatten).length := by
    rw [get_buffered_amount, hbytes]
  refine ⟨hwhole r (by rw [hrec]; exact List.mem_cons_self _ _), g1, g2, ?_, ?_, ?_⟩
  · intro n hn hle
    rw [g2, g3, hn]
    refine ⟨take_take_record r _ n BUF_BATCH_SIZE hle, ?_, ?_⟩
    · split
      · exact transmit_records_suffix _ _ _
      · exact List.suffix_refl _
    · intro hne
      have hpos : 0 < r.length := List.length_pos.mpr hne
      have hgt : get_buffered_amount d.buffer > 0 := by
        rw [hamount, List.length_append]
        omega
      simp only [hgt, if_true, transmit_buffered_records, export_buffer.bytes, List.flatten_cons,
        List.drop_zero, Nat.zero_add]
      rw [free_drained_records_drained]
      · exact free_drained_records_suffix _ _
      · rw [List.length_take, List.length_append]
        omega
  · intro n hn hlt
    rw [g2, g3, hn]
    refine ⟨take_take_head r _ n BUF_BATCH_SIZE hlt, ?_⟩
    have hgt : get_buffered_amount d.buffer > 0 := by
      rw [hamount, List.length_append]
      omega
    simp only [hgt, if_true, transmit_buffered_records, export_buffer.bytes, List.flatten_cons,
      List.drop_zero, Nat.zero_add]
    have hret : min n ((r ++ rest.flatten).take BUF_BATCH_SIZE).length =
        min n BUF_BATCH_SIZE := by
      rw [List.length_take, List.length_append]
      omega
    rw [hret, free_drained_records_head r rest _ hlt]
  · intro hn
    rw [g2, g3, hn]
    refine ⟨rfl, ?_⟩
    split
    · rfl
    · rfl

theorem connect_restarts_head_record_witness :
    (exp_midrecord.dests.map (fun d => (d.fd, d.buffer.partialfront,
        d.buffer.records.map (fun r => r.map (fun b => b.val)),
        d.wire.map (fun l => l.map (fun b => b.val))))) =
      [(-1, 2, [[7, 0, 1, 88, 0]], [[7, 0]])] ∧
    ((connect_export_targets env_midrecord exp_midrecord).1.dests.map
        (fun d => (d.fd, d.buffer.partialfront,
          d.buffer.records.map (fun r => r.map (fun b => b.val)),
          d.wire.map (fun l => l.map (fun b => b.val))))) =
      [(5, 0, [], [[7, 0, 1, 88, 0], [7, 0]])] ∧
    (∃ k msg, exp_midrecord.forwarded[k]? = some msg ∧
      [⟨0, 7⟩, ⟨0, 0⟩, ⟨0, 1⟩, ⟨0, 88⟩, ⟨0, 0⟩] = tagged_bytes k msg) ∧
    (connect_single_target (Option.get (exp_midrecord.dests[0]?) (by rfl))
        (env_midrecord.connect (exp_midrecord.nconn + 0))).1.buffer =
      { records := [[⟨0, 7⟩, ⟨0, 0⟩, ⟨0, 1⟩, ⟨0, 88⟩, ⟨0, 0⟩]], partialfront := 0 } ∧
    ([⟨0, 7⟩, ⟨0, 0⟩, ⟨0, 1⟩, ⟨0, 88⟩, ⟨0, 0⟩] : List TByte) <+:
      (Option.get ((connect_export_targets env_midrecord exp_midrecord).1.dests[0]?)
        (by rfl)).wire.headD [] := by
  have h0 : registry_whole exp_x := by
    intro d hd
    simp [exp_x, exp_announced, init_exporter] at hd
  have w := connect_restarts_head_record env_midrecord 5 exp_x
    [exporter_event.MESSAGE (export_message.MEDIATOR
        { mediatorid := 1, ipstr := some "127.0.0.1", portstr := some "9000" }),
     exporter_event.CONNECT_TIMER,
     exporter_event.MESSAGE (export_message.JOB job_cc_x7),
     exporter_event.MESSAGE (export_message.JOB job_cc_x7)] 0
    (Option.get (exp_midrecord.dests[0]?) (by rfl))
    (Option.get ((connect_export_targets env_midrecord exp_midrecord).1.dests[0]?) (by rfl))
    [⟨0, 7⟩, ⟨0, 0⟩, ⟨0, 1⟩, ⟨0, 88⟩, ⟨0, 0⟩] [] h0
    (Option.some_get _).symm (Option.some_get _).symm (by rfl) (by decide) (by rfl)
  exact ⟨by rfl, by rfl, w.1, w.2.1, (w.2.2.2.1 65536 (by rfl) (by decide)).1⟩

/-! ## Records for a mediator that was not announced yet -/

theorem export_walk_append (tag : Nat) (tosend : openli_exportmsg) (o1 o2 : SendOutcome) :
    ∀ (pre ds : List export_dest), (∀ p ∈ pre, p.details.mediatorid ≠ tosend.destid) →
      export_encoded_record_walk tag tosend o1 o2 (pre ++ ds) =
        (export_encoded_record_walk tag tosend o1 o2 ds).map (fun p => (pre ++ p.1, p.2)) := by
  intro pre
  induction pre with
  | nil =>
    intro ds _
    cases hw : export_encoded_record_walk tag tosend o1 o2 ds <;> simp [hw]
  | cons p0 rest ih =>
    intro ds h
    have h0 := h p0 (List.mem_cons_self _ _)
    rw [List.cons_append, export_encoded_record_walk]
    simp only [h0, if_false]
    rw [ih ds (fun p hp => h p (List.mem_cons_of_mem _ hp))]
    cases hw : export_encoded_record_walk tag tosend o1 o2 ds <;> simp

theorem forward_message_no_socket (d : export_dest) (tag : Nat) (msg : openli_exportmsg)
    (o1 o2 : SendOutcome) (h : d.fd = -1) :
    forward_message d tag msg o1 o2 =
      ({ d with buffer := append_message_to_buffer d.buffer tag msg 0 }, 0) := by
  unfold forward_message
  simp [h]

/-- A record for a mediator id that no entry has creates the unannounced
entry at the back of the registry, holding the record. -/
theorem export_creates_unannounced (dests : List export_dest) (tag : Nat)
    (tosend : openli_exportmsg) (o1 o2 : SendOutcome)
    (hno : ∀ p ∈ dests, p.details.mediatorid ≠ tosend.destid) :
    export_encoded_record_dests dests tag tosend o1 o2 =
      (dests ++ [{ add_unknown_destination tosend.destid with
                   buffer := { records := [tagged_bytes tag tosend], partialfront := 0 } }], 1) := by
  have hw := export_walk_append tag tosend o1 o2 dests [] hno
  rw [List.append_nil] at hw
  unfold export_encoded_record_dests
  rw [hw]
  simp only [export_encoded_record_walk, Option.map_none']
  rw [forward_message_no_socket _ _ _ _ _ rfl]
  rfl

/-- A record for an entry that has no socket is appended to its buffer. -/
theorem export_appends_without_socket (pre : List export_dest) (d : export_dest) (tag : Nat)
    (tosend : openli_exportmsg) (o1 o2 : SendOutcome)
    (hno : ∀ p ∈ pre, p.details.mediatorid ≠ tosend.destid)
    (hid : d.details.mediatorid = tosend.destid) (hfd : d.fd = -1) :
    export_encoded_record_dests (pre ++ [d]) tag tosend o1 o2 =
      (pre ++ [{ d with buffer := append_message_to_buffer d.buffer tag tosend 0 }], 1) := by
  have hw := export_walk_append tag tosend o1 o2 pre [d] hno
  unfold export_encoded_record_dests
  rw [hw]
  simp only [export_encoded_record_walk, hid, if_true]
  rw [forward_message_no_socket _ _ _ _ _ hfd]
  rfl

theorem append_records_zero (buf : export_buffer) (tag : Nat) (msg : openli_exportmsg)
    (hpf : buf.partialfront = 0) :
    append_message_to_buffer buf tag msg 0 =
      { records := buf.records ++ [tagged_bytes tag msg], partialfront := 0 } := by
  unfold append_message_to_buffer tagged_bytes
  simp [hpf]

theorem tagged_records_flatten :
    ∀ (recs : List openli_exportmsg) (k : Nat),
      (tagged_records k recs).flatten = tagged_all k recs := by
  intro recs
  induction recs with
  | nil =>
    intro k
    rfl
  | cons r rs ih =>
    intro k
    rw [tagged_records, tagged_all, List.flatten_cons, ih]

/-- While the entry of a mediator has no socket, the records forwarded to it
are queued in its buffer one behind the other. -/
theorem export_all_queues (env : Env) (m : Nat) :
    ∀ (recs : List openli_exportmsg) (exp : collector_export) (pre : List export_dest)
      (d : export_dest),
      exp.dests = pre ++ [d] → d.fd = -1 → d.details.mediatorid = m →
      d.buffer.partialfront = 0 →
      (∀ p ∈ pre, p.details.mediatorid ≠ m) → (∀ r ∈ recs, r.destid = m) →
      (export_all env exp recs).dests =
          pre ++ [{ d with buffer :=
                      { records := d.buffer.records ++ tagged_records exp.forwarded.length recs,
                        partialfront := 0 } }] ∧
        (export_all env exp recs).forwarded = exp.forwarded ++ recs := by
  intro recs
  induction recs with
  | nil =>
    intro exp pre d hd _ _ hpf _ _
    refine ⟨?_, by simp [export_all]⟩
    simp only [export_all, List.foldl_nil, tagged_records, List.append_nil, hd]
    congr 2
    cases d with
    | mk f1 f2 f3 f4 f5 buf f7 =>
      cases buf with
      | mk bs pf =>
        simp only at hpf
        rw [hpf]
  | cons r rs ih =>
    intro exp pre d hd hfd hid hpf hno hall
    have hr : r.destid = m := hall r (List.mem_cons_self _ _)
    have hstep : (export_encoded_record env exp r).1.dests =
        pre ++ [{ d with buffer :=
                    { records := d.buffer.records ++ [tagged_bytes exp.forwarded.length r],
                      partialfront := 0 } }] := by
      unfold export_encoded_record
      simp only
      rw [hd, export_appends_without_socket pre d _ r _ _ (by rw [hr]; exact hno)
        (by rw [hr]; exact hid) hfd, append_records_zero _ _ _ hpf]
    have hfw : (export_encoded_record env exp r).1.forwarded = exp.forwarded ++ [r] := rfl
    obtain ⟨i1, i2⟩ := ih (export_encoded_record env exp r).1 pre _ hstep hfd hid rfl hno
      (fun r1 hr1 => hall r1 (List.mem_cons_of_mem _ hr1))
    have hfold : export_all env exp (r :: rs) =
        export_all env (export_encoded_record env exp r).1 rs := rfl
    rw [hfold]
    refine ⟨?_, ?_⟩
    · rw [i1, hfw]
      simp [tagged_records, List.append_assoc]
    · rw [i2, hfw]
      simp

/-- The announcement of a mediator whose entry is unannounced fills in the
address on that entry and leaves its buffer as it is. -/
theorem announce_fills_unannounced (pre post : List export_dest) (d : export_dest)
    (med : openli_mediator) (hno : ∀ p ∈ pre, p.details.mediatorid ≠ med.mediatorid)
    (hid : d.details.mediatorid = med.mediatorid) (hip : d.details.ipstr = none) :
    add_new_destination_dests (pre ++ d :: post) med =
      pre ++ { d with failmsg := 0, fd := -1, details := med } :: post := by
  have hw : ∀ (pre : List export_dest), (∀ p ∈ pre, p.details.mediatorid ≠ med.mediatorid) →
      add_new_destination_walk med (pre ++ d :: post) =
        some (pre ++ { d with failmsg := 0, fd := -1, details := med } :: post) := by
    intro pre
    induction pre with
    | nil =>
      intro _
      simp [add_new_destination_walk, hid, hip]
    | cons p0 rest ih =>
      intro h
      have h0 := h p0 (List.mem_cons_self _ _)
      rw [List.cons_append, add_new_destination_walk]
      simp only [h0, and_false, if_false]
      rw [ih (fun p hp => h p (List.mem_cons_of_mem _ hp))]
      rfl
  unfold add_new_destination_dests
  rw [hw pre hno]

theorem drop_min_length (l : List TByte) (n : Nat) : l.drop (min n l.length) = l.drop n := by
  rcases le_total n l.length with h | h
  · rw [min_eq_left h]
  · rw [min_eq_right h, List.drop_of_length_le (le_refl _), List.drop_of_length_le h]

/-- The connection of an entry whose socket takes everything it is offered:
the first `BUF_BATCH_SIZE` bytes of the buffer are written on the new
connection, the records that went out completely are freed, and the rest
stays queued. -/
theorem connect_drains_batch (d : export_dest) (sockfd : Int) (n : Nat)
    (hfd : d.fd = -1) (hh : d.halted = false) (hip : d.details.ipstr ≠ none)
    (hs1 : sockfd ≠ -1) (hs0 : sockfd ≠ 0)
    (hn : min BUF_BATCH_SIZE d.buffer.bytes.length ≤ n) :
    (connect_export_target d sockfd (SendOutcome.sent n)).1 =
      { d with failmsg := 0, fd := sockfd,
               buffer := (connect_export_target d sockfd (SendOutcome.sent n)).1.buffer,
               wire := d.buffer.bytes.take BUF_BATCH_SIZE :: d.wire } ∧
    (connect_export_target d sockfd (SendOutcome.sent n)).1.buffer.bytes.drop
        (connect_export_target d sockfd (SendOutcome.sent n)).1.buffer.partialfront =
      d.buffer.bytes.drop BUF_BATCH_SIZE ∧
    (connect_export_target d sockfd (SendOutcome.sent n)).1.buffer.records <:+
      d.buffer.records ∧
    (d.buffer.bytes ≠ [] →
      (connect_export_target d sockfd (SendOutcome.sent n)).1.buffer =
        { records := (free_drained_records d.buffer.records
            (min BUF_BATCH_SIZE d.buffer.bytes.length)).1,
          partialfront := (free_drained_records d.buffer.records
            (min BUF_BATCH_SIZE d.buffer.bytes.length)).2 }) := by
  have hc : connect_single_target d sockfd =
      ({ d with failmsg := 0, buffer := { d.buffer with partialfront := 0 } }, sockfd) := by
    unfold connect_single_target
    simp [hip, hs1, hs0]
  have hlen : (List.take BUF_BATCH_SIZE d.buffer.bytes).length =
      min BUF_BATCH_SIZE d.buffer.bytes.length := List.length_take _ _
  have hb : ({ d.buffer with partialfront := 0 } : export_buffer).bytes = d.buffer.bytes := rfl
  have hg : get_buffered_amount { d.buffer with partialfront := 0 } =
      get_buffered_amount d.buffer := rfl
  have ht : transmit_buffered_records { d.buffer with partialfront := 0 }
      (SendOutcome.sent n) BUF_BATCH_SIZE =
      ({ records := (free_drained_records d.buffer.records
           (min BUF_BATCH_SIZE d.buffer.bytes.length)).1,
         partialfront := (free_drained_records d.buffer.records
           (min BUF_BATCH_SIZE d.buffer.bytes.length)).2 },
        ((min BUF_BATCH_SIZE d.buffer.bytes.length : Nat) : Int),
        d.buffer.bytes.take BUF_BATCH_SIZE) := by
    unfold transmit_buffered_records
    simp only [List.drop_zero, hb, hlen, Nat.zero_add]
    have hmin : min n (min BUF_BATCH_SIZE d.buffer.bytes.length) =
        min BUF_BATCH_SIZE d.buffer.bytes.length := min_eq_right hn
    rw [hmin, ← hlen, List.take_of_length_le (le_refl _)]
  have hne : ¬ (((min BUF_BATCH_SIZE d.buffer.bytes.length : Nat) : Int) = -1) := by omega
  by_cases hz : get_buffered_amount d.buffer > 0
  · have hres : (connect_export_target d sockfd (SendOutcome.sent n)).1 =
        { d with failmsg := 0, fd := sockfd,
                 buffer :=
                   { records := (free_drained_records d.buffer.records
                       (min BUF_BATCH_SIZE d.buffer.bytes.length)).1,
                     partialfront := (free_drained_records d.buffer.records
                       (min BUF_BATCH_SIZE d.buffer.bytes.length)).2 },
                 wire := d.buffer.bytes.take BUF_BATCH_SIZE :: d.wire } := by
      unfold connect_export_target
      simp only [hh, hfd, hc, hs1, hg, hz, ht, hne, ne_eq, not_true_eq_false, not_false_eq_true,
        if_true, if_false, Bool.false_eq_true, wire_write, List.nil_append]
    rw [hres]
    refine ⟨rfl, ?_, free_drained_records_suffix _ _, fun _ => rfl⟩
    show List.drop _ (List.flatten _) = _
    rw [free_drained_records_rest]
    exact drop_min_length _ _
  · have hnil : d.buffer.bytes = [] := by
      simp only [get_buffered_amount] at hz
      exact List.length_eq_zero.mp (by omega)
    have hres : (connect_export_target d sockfd (SendOutcome.sent n)).1 =
        { d with failmsg := 0, fd := sockfd,
                 buffer := { d.buffer with partialfront := 0 },
                 wire := d.buffer.bytes.take BUF_BATCH_SIZE :: d.wire } := by
      unfold connect_export_target
      simp only [hh, hfd, hc, hs1, hg, hz, ne_eq, not_true_eq_false, not_false_eq_true,
        if_true, if_false, Bool.false_eq_true, hnil, List.take_nil]
    rw [hres]
    refine ⟨rfl, ?_, List.suffix_refl _, fun h => absurd hnil h⟩
    show List.drop 0 d.buffer.bytes = _
    rw [hnil]
    rfl

theorem registry_inv_export_all (env : Env) (recs : List openli_exportmsg) :
    ∀ (exp : collector_export), registry_inv exp → registry_inv (export_all env exp recs) := by
  induction recs with
  | nil =>
    intro exp h
    exact h
  | cons r rs ih =>
    intro exp h
    exact ih _ (registry_inv_export env exp r h)

theorem export_all_first (env : Env) (exp : collector_export) (r : openli_exportmsg)
    (rs : List openli_exportmsg)
    (hno : ∀ p ∈ exp.dests, p.details.mediatorid ≠ r.destid)
    (hall : ∀ x ∈ rs, x.destid = r.destid) :
    (export_all env exp (r :: rs)).dests =
        exp.dests ++ [{ add_unknown_destination r.destid with
                         buffer := { records := tagged_records exp.forwarded.length (r :: rs),
                                     partialfront := 0 } }] ∧
      (export_all env exp (r :: rs)).forwarded = exp.forwarded ++ r :: rs := by
  have hstep : (export_encoded_record env exp r).1.dests =
      exp.dests ++ [{ add_unknown_destination r.destid with
                       buffer := { records := [tagged_bytes exp.forwarded.length r],
                                   partialfront := 0 } }] := by
    unfold export_encoded_record
    simp only
    rw [export_creates_unannounced exp.dests _ r _ _ hno]
  have hfw : (export_encoded_record env exp r).1.forwarded = exp.forwarded ++ [r] := rfl
  obtain ⟨i1, i2⟩ := export_all_queues env r.destid rs (export_encoded_record env exp r).1
    exp.dests _ hstep rfl rfl rfl hno hall
  have hfold : export_all env exp (r :: rs) =
      export_all env (export_encoded_record env exp r).1 rs := rfl
  rw [hfold, i1, i2, hfw]
  constructor
  · simp [tagged_records]
  · simp

/-- The unannounced entry with its queued records, after the announcement and
after the connection by a socket that takes everything it is offered. -/
theorem unannounced_pipeline (env : Env) (exp : collector_export) (r : openli_exportmsg)
    (rs : List openli_exportmsg) (med : openli_mediator) (sockfd : Int) (n : Nat)
    (hno : ∀ p ∈ exp.dests, p.details.mediatorid ≠ r.destid)
    (hall : ∀ x ∈ rs, x.destid = r.destid)
    (hm : med.mediatorid = r.destid) (hip : med.ipstr ≠ none)
    (hconn : env.connect ((add_new_destination env (export_all env exp (r :: rs)) med).1.nconn +
      exp.dests.length) = sockfd)
    (hs1 : sockfd ≠ -1) (hs0 : sockfd ≠ 0)
    (hsend : env.send ((add_new_destination env (export_all env exp (r :: rs)) med).1.nsend +
      exp.dests.length) = SendOutcome.sent n)
    (hn : min BUF_BATCH_SIZE (tagged_all exp.forwarded.length (r :: rs)).length ≤ n) :
    (add_new_destination env (export_all env exp (r :: rs)) med).1.dests =
        exp.dests ++ [{ add_unknown_destination r.destid with
                         details := med,
                         buffer := { records := tagged_records exp.forwarded.length (r :: rs),
                                     partialfront := 0 } }] ∧
      ∃ buf : export_buffer,
        (connect_export_targets env
            (add_new_destination env (export_all env exp (r :: rs)) med).1).1.dests[
              exp.dests.length]? =
          some { failmsg := 0, fd := sockfd, details := med, awaitingconfirm := false,
                 halted := false, buffer := buf,
                 wire := [(tagged_all exp.forwarded.length (r :: rs)).take BUF_BATCH_SIZE] } ∧
        buf.bytes.drop buf.partialfront =
          (tagged_all exp.forwarded.length (r :: rs)).drop BUF_BATCH_SIZE ∧
        buf.records <:+ tagged_records exp.forwarded.length (r :: rs) ∧
        (tagged_all exp.forwarded.length (r :: rs) ≠ [] →
          buf =
            { records := (free_drained_records (tagged_records exp.forwarded.length (r :: rs))
                (min BUF_BATCH_SIZE (tagged_all exp.forwarded.length (r :: rs)).length)).1,
              partialfront :=
                (free_drained_records (tagged_records exp.forwarded.length (r :: rs))
                  (min BUF_BATCH_SIZE
                    (tagged_all exp.forwarded.length (r :: rs)).length)).2 }) := by
  obtain ⟨e1, _⟩ := export_all_first env exp r rs hno hall
  obtain ⟨a1, _⟩ := add_new_destination_dests_eq env (export_all env exp (r :: rs)) med
  have h2 : (add_new_destination env (export_all env exp (r :: rs)) med).1.dests =
      exp.dests ++ [{ add_unknown_destination r.destid with
                       details := med,
                       buffer := { records := tagged_records exp.forwarded.length (r :: rs),
                                   partialfront := 0 } }] := by
    rw [a1, e1, announce_fills_unannounced exp.dests [] _ med (by rw [hm]; exact hno)
      (by rw [hm]; rfl) rfl]
    rfl
  refine ⟨h2, ?_⟩
  have hget := connect_export_targets_walk_get
    (fun i => env.connect ((add_new_destination env (export_all env exp (r :: rs)) med).1.nconn + i))
    (fun i => env.send ((add_new_destination env (export_all env exp (r :: rs)) med).1.nsend + i))
    (add_new_destination env (export_all env exp (r :: rs)) med).1.dests 0 exp.dests.length
  have hflat : (⟨tagged_records exp.forwarded.length (r :: rs), 0⟩ : export_buffer).bytes =
      tagged_all exp.forwarded.length (r :: rs) := tagged_records_flatten _ _
  obtain ⟨c1, c2, c3, c4⟩ := connect_drains_batch
    { add_unknown_destination r.destid with
      details := med,
      buffer := { records := tagged_records exp.forwarded.length (r :: rs),
                  partialfront := 0 } } sockfd n rfl rfl hip hs1 hs0 (by rw [hflat]; exact hn)
  rw [hflat] at c1 c2 c4
  refine ⟨_, ?_, c2, c3, c4⟩
  show (connect_export_targets_walk _ _ 0 _).1[exp.dests.length]? = _
  rw [hget, h2]
  simp only [List.getElem?_append_right (le_refl _), Nat.sub_self, List.getElem?_cons_zero,
    Option.map_some', Nat.zero_add, hconn, hsend]
  rw [c1]
  rfl

theorem tagged_all_length_replicate (r : openli_exportmsg) :
    ∀ (n k : Nat), (tagged_all k (List.replicate n r)).length = n * (forward_fd_bytes r).length := by
  intro n
  induction n with
  | zero =>
    intro k
    simp [tagged_all]
  | succ n ih =>
    intro k
    rw [List.replicate_succ, tagged_all, List.length_append, ih (k + 1)]
    unfold tagged_bytes
    rw [List.length_map]
    ring

theorem tagged_records_length (recs : List openli_exportmsg) :
    ∀ (k : Nat), (tagged_records k recs).length = recs.length := by
  induction recs with
  | nil =>
    intro k
    rfl
  | cons r rs ih =>
    intro k
    rw [tagged_records, List.length_cons, ih, List.length_cons]

theorem tagged_records_replicate_length (r : openli_exportmsg) :
    ∀ (n k : Nat), ∀ x ∈ tagged_records k (List.replicate n r),
      x.length = (forward_fd_bytes r).length := by
  intro n
  induction n with
  | zero =>
    intro k x hx
    simp [tagged_records] at hx
  | succ n ih =>
    intro k x hx
    rw [List.replicate_succ, tagged_records] at hx
    rcases List.mem_cons.mp hx with h | h
    · rw [h, tagged_bytes, List.length_map]
    · exact ih (k + 1) x h

/-- With records of one length `len` in the queue, `sent` bytes free the first
`sent / len` records and leave `sent % len` bytes of the next one sent. -/
theorem free_drained_records_uniform (len : Nat) (hlen : 0 < len) :
    ∀ (recs : List (List TByte)) (sent : Nat), (∀ x ∈ recs, x.length = len) →
      sent / len < recs.length →
      free_drained_records recs sent = (recs.drop (sent / len), sent % len) := by
  intro recs
  induction recs with
  | nil =>
    intro sent _ h
    simp at h
  | cons x xs ih =>
    intro sent hall h
    have hx : x.length = len := hall x (List.mem_cons_self _ _)
    rw [free_drained_records, hx]
    by_cases hle : len ≤ sent
    · simp only [hle, if_true]
      have hdiv : sent / len = (sent - len) / len + 1 := by
        rw [← Nat.sub_add_cancel hle, Nat.add_div_right _ hlen, Nat.add_sub_cancel]
      have hmod : sent % len = (sent - len) % len := by
        conv_lhs => rw [← Nat.sub_add_cancel hle]
        exact Nat.add_mod_right _ _
      rw [ih (sent - len) (fun y hy => hall y (List.mem_cons_of_mem _ hy))
        (by rw [hdiv, List.length_cons] at h; omega), hdiv, hmod, List.drop_succ_cons]
    · simp only [hle, if_false]
      have hlt : sent < len := Nat.lt_of_not_le hle
      rw [Nat.div_eq_of_lt hlt, Nat.mod_eq_of_lt hlt, List.drop_zero]

theorem body_64k_length : body_64k.length = 65535 := by
  simp only [body_64k, List.length_replicate]

theorem rec_64k_length : (forward_fd_bytes rec_64k).length = 65539 := by
  have h1 : forward_fd_enclen rec_64k = 65535 := by
    norm_num [forward_fd_enclen, rec_64k, u32_sub]
  have h2 : forward_fd_bytes rec_64k =
      [1].take 1 ++ (htons_bytes 1 ++ [90].take 1) ++ body_64k.take 65535 := by
    unfold forward_fd_bytes forward_fd_iov
    rw [h1]
    simp only [rec_64k, gt_iff_lt, lt_irrefl, if_false, List.append_nil, List.singleton_append,
      List.flatten_cons, List.flatten_nil, List.cons_append, List.nil_append, List.append_assoc]
  rw [h2]
  simp only [List.length_append, List.length_take, body_64k_length, htons_bytes,
    List.length_cons, List.length_nil]
  norm_num

/-- C5, as stated, fails: 200 CC records of 65539 bytes each (13107800 bytes)
are forwarded to mediator 42 before it is announced; it is then announced and
`connect_export_targets` connects it to a socket that takes every byte it is
offered. Only 10485760 bytes have reached the socket: 159 records went out
completely and are freed, 65059 bytes of the next record went out, and 41
records are still in the buffer, of which 2622040 bytes have not been sent. -/
theorem connect_leaves_records_buffered :
    (∀ p ∈ init_exporter.dests, p.details.mediatorid ≠ rec_64k.destid) ∧
    (∀ x ∈ List.replicate 199 rec_64k, x.destid = rec_64k.destid) ∧
    med_42.mediatorid = rec_64k.destid ∧
    ((connect_export_targets env_accept_all
        (add_new_destination env_accept_all
          (export_all env_accept_all init_exporter (rec_64k :: List.replicate 199 rec_64k))
          med_42).1).1.dests[0]?).map
      (fun d => (d.fd, d.buffer.records.length, d.buffer.partialfront,
        (d.buffer.bytes.drop d.buffer.partialfront).length, d.wire.map List.length)) =
        some (5, 41, 65059, 2622040, [10485760]) := by
  have hno : ∀ p ∈ init_exporter.dests, p.details.mediatorid ≠ rec_64k.destid := by
    intro p hp
    simp [init_exporter] at hp
  have hall : ∀ x ∈ List.replicate 199 rec_64k, x.destid = rec_64k.destid := by
    intro x hx
    rw [List.eq_of_mem_replicate hx]
  have hlen : (tagged_all init_exporter.forwarded.length
      (rec_64k :: List.replicate 199 rec_64k)).length = 13107800 := by
    have h := tagged_all_length_replicate rec_64k (199 + 1) init_exporter.forwarded.length
    rw [rec_64k_length, List.replicate_succ] at h
    exact h
  have hn : min BUF_BATCH_SIZE (tagged_all init_exporter.forwarded.length
      (rec_64k :: List.replicate 199 rec_64k)).length ≤ 1099511627776 :=
    le_trans (min_le_left _ _) (by norm_num [BUF_BATCH_SIZE])
  have hne : tagged_all init_exporter.forwarded.length
      (rec_64k :: List.replicate 199 rec_64k) ≠ [] := by
    intro h
    rw [h] at hlen
    exact absurd hlen (by decide)
  have hrl : (tagged_records init_exporter.forwarded.length
      (rec_64k :: List.replicate 199 rec_64k)).length = 200 := by
    rw [tagged_records_length, List.length_cons, List.length_replicate]
  have hfree : free_drained_records (tagged_records init_exporter.forwarded.length
      (rec_64k :: List.replicate 199 rec_64k))
      (min BUF_BATCH_SIZE (tagged_all init_exporter.forwarded.length
        (rec_64k :: List.replicate 199 rec_64k)).length) =
      ((tagged_records init_exporter.forwarded.length
        (rec_64k :: List.replicate 199 rec_64k)).drop 159, 65059) := by
    rw [hlen]
    have hmin : min BUF_BATCH_SIZE 13107800 = 10485760 := by norm_num [BUF_BATCH_SIZE]
    rw [hmin]
    have hu := free_drained_records_uniform 65539 (by norm_num)
      (tagged_records init_exporter.forwarded.length (rec_64k :: List.replicate 199 rec_64k))
      10485760
      (by
        intro x hx
        rw [← List.replicate_succ] at hx
        rw [tagged_records_replicate_length rec_64k _ _ x hx, rec_64k_length])
      (by rw [hrl]; norm_num)
    rw [hu]
  obtain ⟨_, buf, p1, p2, _, p4⟩ := unannounced_pipeline env_accept_all init_exporter rec_64k
    (List.replicate 199 rec_64k) med_42 5 1099511627776 hno hall rfl (by simp [med_42]) rfl
    (by decide) (by decide) rfl hn
  have hbuf := p4 hne
  rw [hfree] at hbuf
  have hrem : (buf.bytes.drop buf.partialfront).length = 2622040 := by
    rw [p2, List.length_drop, hlen]
    norm_num [BUF_BATCH_SIZE]
  have hrecs : buf.records.length = 41 := by
    rw [hbuf]
    simp only [List.length_drop, hrl]
  have hpf : buf.partialfront = 65059 := by rw [hbuf]
  have hrem2 : buf.bytes.length - 65059 = 2622040 := by
    rw [← hpf, ← List.length_drop]
    exact hrem
  refine ⟨hno, hall, rfl, ?_⟩
  simp only [init_exporter, List.length_nil] at p1 hlen
  simp only [init_exporter]
  rw [p1]
  simp only [Option.map_some', List.map_cons, List.map_nil, List.length_drop, hrecs, hpf, hrem2,
    List.length_take, hlen]
  norm_num [BUF_BATCH_SIZE]

/-- C5 (amended): from a registry in enqueue order with no entry for mediator
`m`, when the records `r :: rs`, all for `m`, are forwarded by
`export_encoded_record`, one new entry with that mediator id, no address and
no socket is created at the back of the registry and holds all of them in its
buffer, in enqueue order; `add_new_destination` for `m` fills in the address
on that same entry without changing its buffer; and once
`connect_export_targets` connects it to a socket that takes everything it is
offered, the first `BUF_BATCH_SIZE` bytes of the buffer have been written on
the socket, in enqueue order, and the rest is still to be sent from the
buffer, which has freed the records that went out completely and no others,
so that every buffered record has reached the socket when no more than
`BUF_BATCH_SIZE` bytes were buffered. Whatever happens afterwards, the
bytes on each connection stay in enqueue order, the records forwarded later
having later tags. -/
theorem unannounced_mediator_resumes (env : Env) (exp : collector_export)
    (r : openli_exportmsg) (rs : List openli_exportmsg) (med : openli_mediator) (sockfd : Int)
    (n : Nat)
    (hinv : registry_inv exp)
    (hno : ∀ p ∈ exp.dests, p.details.mediatorid ≠ r.destid)
    (hall : ∀ x ∈ rs, x.destid = r.destid)
    (hm : med.mediatorid = r.destid) (hip : med.ipstr ≠ none)
    (hconn : env.connect ((add_new_destination env (export_all env exp (r :: rs)) med).1.nconn +
      exp.dests.length) = sockfd)
    (hs1 : sockfd ≠ -1) (hs0 : sockfd ≠ 0)
    (hsend : env.send ((add_new_destination env (export_all env exp (r :: rs)) med).1.nsend +
      exp.dests.length) = SendOutcome.sent n)
    (hn : min BUF_BATCH_SIZE (tagged_all exp.forwarded.length (r :: rs)).length ≤ n) :
    (export_all env exp (r :: rs)).dests =
        exp.dests ++ [{ add_unknown_destination r.destid with
                         buffer := { records := tagged_records exp.forwarded.length (r :: rs),
                                     partialfront := 0 } }] ∧
    (tagged_records exp.forwarded.length (r :: rs)).flatten =
      tagged_all exp.forwarded.length (r :: rs) ∧
    (add_new_destination env (export_all env exp (r :: rs)) med).1.dests =
        exp.dests ++ [{ add_unknown_destination r.destid with
                         details := med,
                         buffer := { records := tagged_records exp.forwarded.length (r :: rs),
                                     partialfront := 0 } }] ∧
    (∃ buf : export_buffer,
      (connect_export_targets env
          (add_new_destination env (export_all env exp (r :: rs)) med).1).1.dests[
            exp.dests.length]? =
        some { failmsg := 0, fd := sockfd, details := med, awaitingconfirm := false,
               halted := false, buffer := buf,
               wire := [(tagged_all exp.forwarded.length (r :: rs)).take BUF_BATCH_SIZE] } ∧
      buf.bytes.drop buf.partialfront =
        (tagged_all exp.forwarded.length (r :: rs)).drop BUF_BATCH_SIZE ∧
      buf.records <:+ tagged_records exp.forwarded.length (r :: rs) ∧
      (tagged_all exp.forwarded.length (r :: rs) ≠ [] →
        buf =
          { records := (free_drained_records (tagged_records exp.forwarded.length (r :: rs))
              (min BUF_BATCH_SIZE (tagged_all exp.forwarded.length (r :: rs)).length)).1,
            partialfront :=
              (free_drained_records (tagged_records exp.forwarded.length (r :: rs))
                (min BUF_BATCH_SIZE
                  (tagged_all exp.forwarded.length (r :: rs)).length)).2 })) ∧
    ((tagged_all exp.forwarded.length (r :: rs)).length ≤ BUF_BATCH_SIZE →
      (tagged_all exp.forwarded.length (r :: rs)).drop BUF_BATCH_SIZE = [] ∧
      (tagged_all exp.forwarded.length (r :: rs)).take BUF_BATCH_SIZE =
        tagged_all exp.forwarded.length (r :: rs)) ∧
    (connect_export_targets env
        (add_new_destination env (export_all env exp (r :: rs)) med).1).1.forwarded =
      exp.forwarded ++ r :: rs ∧
    (∀ (fuel : Nat) (evs : List exporter_event) (i j : Nat) (d : export_dest)
      (log : List TByte),
      (exporter_run env fuel (connect_export_targets env
        (add_new_destination env (export_all env exp (r :: rs)) med).1).1 evs).dests[i]? =
          some d →
      d.wire[j]? = some log → tags_sorted log) := by
  obtain ⟨e1, e2⟩ := export_all_first env exp r rs hno hall
  obtain ⟨p1, p2⟩ := unannounced_pipeline env exp r rs med sockfd n hno hall hm hip hconn hs1 hs0
    hsend hn
  obtain ⟨_, a2⟩ := add_new_destination_dests_eq env (export_all env exp (r :: rs)) med
  have hinv3 : registry_inv (connect_export_targets env
      (add_new_destination env (export_all env exp (r :: rs)) med).1).1 :=
    registry_inv_step env 0 _ exporter_event.CONNECT_TIMER
      (registry_inv_step env 0 _ (exporter_event.MESSAGE (export_message.MEDIATOR med))
        (registry_inv_export_all env (r :: rs) exp hinv))
  refine ⟨e1, tagged_records_flatten _ _, p1, p2, ?_, ?_, ?_⟩
  · intro hle
    exact ⟨List.drop_of_length_le hle, List.take_of_length_le hle⟩
  · show (add_new_destination env (export_all env exp (r :: rs)) med).1.forwarded = _
    rw [a2, e2]
  · intro fuel evs i j d log hd hl
    have hrun := registry_inv_run env fuel evs _ hinv3
    exact (hrun d (List.getElem?_mem hd)).1 log (List.getElem?_mem hl)

theorem unannounced_mediator_resumes_witness :
    registry_inv init_exporter ∧
    ((connect_export_targets env_three_blocks
        (add_new_destination env_three_blocks
          (export_all env_three_blocks init_exporter recs_small_42) med_42).1).1.dests.map
      (fun d => (d.details.mediatorid, d.details.ipstr, d.fd, d.buffer.records,
        d.wire.map (fun l => l.map (fun b => (b.tag, b.val)))))) =
      [(42, some "192.0.2.1", 5, [],
        [[(0, 1), (0, 2), (0, 3), (0, 0), (0, 2), (0, 88), (0, 89), (0, 48), (0, 49), (0, 69),
          (0, 0), (1, 9), (1, 9), (1, 9), (1, 0), (1, 2), (1, 88), (1, 89), (1, 48), (1, 49),
          (1, 69), (1, 0)]])] ∧
    (connect_export_targets env_three_blocks
        (add_new_destination env_three_blocks
          (export_all env_three_blocks init_exporter recs_small_42) med_42).1).1.forwarded =
      recs_small_42 := by
  have h0 : registry_inv init_exporter := by
    intro d hd
    simp [init_exporter] at hd
  have w := unannounced_mediator_resumes env_three_blocks init_exporter
    { msg_small with destid := 42 } [{ msg_small with destid := 42, header := some [9, 9, 9] }]
    med_42 5 65536 h0 (by intro p hp; simp [init_exporter] at hp)
    (by intro x hx; rw [List.mem_singleton.mp hx]) rfl (by simp [med_42]) rfl (by decide)
    (by decide) rfl (by decide)
  exact ⟨h0, by rfl, w.2.2.2.2.2.1⟩

/-! ## The IMAP tracker: redaction of PLAIN credentials -/

theorem cstr_of_no_nul (l : List Nat) (h : ∀ c ∈ l, c ≠ 0) : cstr l = l := by
  unfold cstr
  rw [List.takeWhile_eq_self_iff]
  intro c hc
  simpa using h c hc

theorem takeWhile_append_stop (p : Nat → Bool) (pre rest : List Nat) (x : Nat)
    (hpre : ∀ c ∈ pre, p c = true) (hx : p x = false) :
    (pre ++ x :: rest).takeWhile p = pre := by
  induction pre with
  | nil => simp [List.takeWhile, hx]
  | cons a pre ih =>
    have ha : p a = true := hpre a (List.mem_cons_self _ _)
    simp only [List.cons_append, List.takeWhile_cons, ha, if_true]
    rw [ih (fun c hc => hpre c (List.mem_cons_of_mem _ hc))]

theorem find_sub_single (c : Nat) (pre rest : List Nat) (h : ∀ x ∈ pre, x ≠ c) :
    find_sub [c] (pre ++ c :: rest) = some pre.length := by
  induction pre with
  | nil => simp [find_sub, List.isPrefixOf]
  | cons a pre ih =>
    have ha : a ≠ c := h a (List.mem_cons_self _ _)
    have hc : ¬ (c = a) := fun e => ha e.symm
    simp [find_sub, List.isPrefixOf, hc, ih (fun x hx => h x (List.mem_cons_of_mem _ hx))]

theorem find_sub_crlf (pre rest : List Nat) (h : ∀ x ∈ pre, x ≠ 13) :
    find_sub [13, 10] (pre ++ 13 :: 10 :: rest) = some pre.length := by
  induction pre with
  | nil => simp [find_sub, List.isPrefixOf]
  | cons a pre ih =>
    have ha : a ≠ 13 := h a (List.mem_cons_self _ _)
    have hc : ¬ (13 = a) := fun e => ha e.symm
    simp [find_sub, List.isPrefixOf, hc, ih (fun x hx => h x (List.mem_cons_of_mem _ hx))]

theorem not_isPrefixOf_crlf (t p rest : List Nat) (a : Nat)
    (hp : ∀ x ∈ a :: p, x ≠ 13) (ht : ∀ x ∈ t, x ≠ 13) :
    (t ++ [13, 10]).isPrefixOf (a :: p ++ t ++ 13 :: 10 :: rest) = false := by
  rw [Bool.eq_false_iff]
  intro hpre
  rw [List.isPrefixOf_iff_prefix] at hpre
  obtain ⟨s, hs⟩ := hpre
  have h1 : (t ++ [13, 10] ++ s)[t.length]? = some 13 := by
    rw [List.append_assoc, List.getElem?_append_right (le_refl _)]
    simp
  rw [hs] at h1
  have hlt : t.length < (a :: p ++ t).length := by
    simp only [List.length_append, List.length_cons]
    omega
  rw [List.getElem?_append_left hlt] at h1
  have hmem := List.getElem?_mem h1
  rcases List.mem_append.mp hmem with h | h
  · exact hp 13 h rfl
  · exact ht 13 h rfl

theorem find_sub_token_line (t p rest : List Nat) (hp : ∀ x ∈ p, x ≠ 13)
    (ht : ∀ x ∈ t, x ≠ 13) :
    find_sub (t ++ [13, 10]) (p ++ t ++ 13 :: 10 :: rest) = some p.length := by
  induction p with
  | nil =>
    have hpre : (t ++ [13, 10]).isPrefixOf (t ++ 13 :: 10 :: rest) = true := by
      rw [List.isPrefixOf_iff_prefix]
      exact ⟨rest, by simp⟩
    cases t with
    | nil => simp [find_sub, List.isPrefixOf]
    | cons b t =>
      simp only [List.nil_append, List.cons_append] at hpre ⊢
      simp only [find_sub, hpre, if_true, List.length_nil]
  | cons a p ih =>
    have hno := not_isPrefixOf_crlf t p rest a hp ht
    simp only [List.cons_append] at hno ⊢
    simp only [find_sub, hno, Bool.false_eq_true, if_false, List.length_cons]
    rw [ih (fun x hx => hp x (List.mem_cons_of_mem _ hx))]
    rfl

theorem auth_plain_line_eq (tag tok : List Nat) :
    auth_plain_line tag tok =
      tag ++ 32 :: ([65, 85, 84, 72, 69, 78, 84, 73, 67, 65, 84, 69] ++
        32 :: ([80, 76, 65, 73, 78] ++ 32 :: (tok ++ [13, 10]))) := by
  have h : str " AUTHENTICATE PLAIN " =
      [32, 65, 85, 84, 72, 69, 78, 84, 73, 67, 65, 84, 69, 32, 80, 76, 65, 73, 78, 32] := by
    decide
  simp [auth_plain_line, h]

theorem auth_plain_line_no_nul (tag tok : List Nat) (htag : ∀ c ∈ tag, c ≠ 0)
    (htok : ∀ c ∈ tok, c ≠ 0) : ∀ c ∈ auth_plain_line tag tok, c ≠ 0 := by
  intro c hc
  rw [auth_plain_line_eq] at hc
  simp only [List.mem_append, List.mem_cons, List.mem_singleton, List.not_mem_nil,
    or_false] at hc
  rcases hc with h | h | h | h | h | h | h | h
  · exact htag c h
  · omega
  · rcases h with h | h | h | h | h | h | h | h | h | h | h | h <;> omega
  · omega
  · rcases h with h | h | h | h | h <;> omega
  · omega
  · exact htok c h
  · rcases h with h | h <;> omega

theorem find_next_imap_message_authenticate (env : imap_env) (sess : emailsession)
    (imapsess : imap_session) (tag tok : List Nat)
    (hstate : sess.currstate = OPENLI_IMAP_STATE_PRE_AUTH)
    (hdrop : imapsess.contbuffer.drop imapsess.contbufread = auth_plain_line tag tok)
    (htag : ∀ c ∈ tag, c ≠ 0 ∧ c ≠ 32 ∧ c ≠ 13) (hstar : tag ≠ str "*")
    (htok : ∀ c ∈ tok, c ≠ 0 ∧ c ≠ 32 ∧ c ≠ 13) :
    find_next_imap_message env sess imapsess =
      some ({ sess with currstate := OPENLI_IMAP_STATE_AUTH_STARTED },
       { imapsess with next_command_type := OPENLI_IMAP_COMMAND_AUTH, auth_tag := some tag,
                       auth_read_from := imapsess.contbufread, next_comm_tag := some tag,
                       next_command_name := some (str "AUTHENTICATE"),
                       next_comm_start := imapsess.contbufread }, 1) := by
  have hc : cstr (imapsess.contbuffer.drop imapsess.contbufread) = auth_plain_line tag tok := by
    rw [hdrop]
    exact cstr_of_no_nul _ (auth_plain_line_no_nul tag tok (fun c h => (htag c h).1)
      (fun c h => (htok c h).1))
  have hsp : find_sub [32] (auth_plain_line tag tok) = some tag.length := by
    rw [auth_plain_line_eq]
    exact find_sub_single 32 tag _ (fun c h => (htag c h).2.1)
  have hafter : (auth_plain_line tag tok).drop (tag.length + 1) =
      [65, 85, 84, 72, 69, 78, 84, 73, 67, 65, 84, 69] ++
        32 :: ([80, 76, 65, 73, 78] ++ 32 :: (tok ++ [13, 10])) := by
    rw [auth_plain_line_eq, List.drop_append]
    rfl
  have hsp2 : find_sub [32] ((auth_plain_line tag tok).drop (tag.length + 1)) = some 12 := by
    rw [hafter]
    exact find_sub_single 32 _ _ (by decide)
  have hcr : find_sub [13, 10] ((auth_plain_line tag tok).drop (tag.length + 1)) =
      some (19 + tok.length) := by
    rw [hafter]
    have h := find_sub_crlf
      ([65, 85, 84, 72, 69, 78, 84, 73, 67, 65, 84, 69, 32, 80, 76, 65, 73, 78, 32] ++ tok) []
      (by
        intro x hx
        rcases List.mem_append.mp hx with h | h
        · have hlit : ∀ y ∈ [65, 85, 84, 72, 69, 78, 84, 73, 67, 65, 84, 69, 32, 80, 76, 65,
              73, 78, 32], y ≠ 13 := by decide
          exact hlit x h
        · exact (htok x h).2.2)
    simp only [List.length_append, List.length_cons, List.length_nil] at h
    simpa using h
  have htake : (auth_plain_line tag tok).take tag.length = tag := by
    rw [auth_plain_line_eq, List.take_left]
  have hs1 : sess.currstate ≠ OPENLI_IMAP_STATE_AUTHENTICATING := by rw [hstate]; decide
  have hs2 : sess.currstate ≠ OPENLI_IMAP_STATE_IDLING := by rw [hstate]; decide
  have hlt : ¬ (tag.length + 1 + (19 + tok.length) < tag.length + 1 + 12) := by omega
  have hsub : tag.length + 1 + 12 - tag.length - 1 = 12 := by omega
  have htk : List.take 12 ([65, 85, 84, 72, 69, 78, 84, 73, 67, 65, 84, 69] ++
      32 :: ([80, 76, 65, 73, 78] ++ 32 :: (tok ++ [13, 10]))) =
      [65, 85, 84, 72, 69, 78, 84, 73, 67, 65, 84, 69] := by rfl
  have hname : str "AUTHENTICATE" = [65, 85, 84, 72, 69, 78, 84, 73, 67, 65, 84, 69] := by
    decide
  have h1 : strcasecmp_eq [65, 85, 84, 72, 69, 78, 84, 73, 67, 65, 84, 69] (str "OK") = false := by
    decide
  have h2 : strcasecmp_eq [65, 85, 84, 72, 69, 78, 84, 73, 67, 65, 84, 69] (str "NO") = false := by
    decide
  have h3 : strcasecmp_eq [65, 85, 84, 72, 69, 78, 84, 73, 67, 65, 84, 69] (str "BAD") = false := by
    decide
  have h4 : strcasecmp_eq [65, 85, 84, 72, 69, 78, 84, 73, 67, 65, 84, 69] (str "ID") = false := by
    decide
  have h5 : strcasecmp_eq [65, 85, 84, 72, 69, 78, 84, 73, 67, 65, 84, 69] (str "IDLE") = false := by
    decide
  have h6 : strcasecmp_eq [65, 85, 84, 72, 69, 78, 84, 73, 67, 65, 84, 69] (str "LOGOUT") =
      false := by
    decide
  have h7 : strcasecmp_eq [65, 85, 84, 72, 69, 78, 84, 73, 67, 65, 84, 69]
      [65, 85, 84, 72, 69, 78, 84, 73, 67, 65, 84, 69] = true := by
    decide
  unfold find_next_imap_message
  simp only [hs1, hs2, if_false, hc, hsp, hsp2, hcr, Option.map_some', htake, hlt]
  simp only [hsub, hafter, htk, hstar, if_false, h1, h2, h3, h4, h5, h6, h7, Bool.false_eq_true,
    or_self, if_true, hname]

theorem auth_plain_line_length (tag tok : List Nat) :
    (auth_plain_line tag tok).length = tag.length + 20 + tok.length + 2 := by
  rw [auth_plain_line_eq]
  simp only [List.length_append, List.length_cons, List.length_nil]
  omega

theorem auth_plain_line_crlf (tag tok : List Nat) (htag : ∀ c ∈ tag, c ≠ 13)
    (htok : ∀ c ∈ tok, c ≠ 13) :
    find_sub [13, 10] (auth_plain_line tag tok) = some (tag.length + 20 + tok.length) := by
  have h := find_sub_crlf
    (tag ++ [32, 65, 85, 84, 72, 69, 78, 84, 73, 67, 65, 84, 69, 32, 80, 76, 65, 73, 78, 32] ++ tok)
    []
    (by
      intro x hx
      rcases List.mem_append.mp hx with h | h
      · rcases List.mem_append.mp h with h | h
        · exact htag x h
        · have hlit : ∀ y ∈ [32, 65, 85, 84, 72, 69, 78, 84, 73, 67, 65, 84, 69, 32, 80, 76, 65,
              73, 78, 32], y ≠ 13 := by decide
          exact hlit x h
      · exact htok x h)
  simp only [List.length_append, List.length_cons, List.length_nil] at h
  rw [auth_plain_line_eq]
  simpa using h

theorem strtok_r_first (tag rest : List Nat) (hne : tag ≠ []) (htag : ∀ c ∈ tag, c ≠ 32) :
    strtok_r (tag ++ 32 :: rest) 0 [32] = some (0, tag.length, tag.length + 1) := by
  obtain ⟨a, t, rfl⟩ := List.exists_cons_of_ne_nil hne
  have ha : a ≠ 32 := htag a (List.mem_cons_self _ _)
  have h1 : List.takeWhile (fun c => [32].contains c) (a :: t ++ 32 :: rest) = [] := by
    simp [List.takeWhile, ha]
  have h2 : List.takeWhile (fun c => !([32] : List Nat).contains c) (a :: t ++ 32 :: rest) =
      a :: t := by
    apply takeWhile_append_stop
    · intro c hc
      simp [htag c hc]
    · simp
  unfold strtok_r
  simp only [List.drop_zero, h1, List.length_nil, Nat.add_zero, h2, Nat.zero_add]
  simp only [List.length_append, List.length_cons]
  have hx : ¬ (0 ≥ (t.length + 1 + (rest.length + 1))) := by omega
  have hy : t.length + 1 < t.length + 1 + (rest.length + 1) := by omega
  simp only [hx, if_false, hy, if_true]

theorem strtok_r_literal (pre lit rest : List Nat) (delims : List Nat) (d : Nat) (pos : Nat)
    (hpos : pos = pre.length) (hne : lit ≠ [])
    (hlit : ∀ c ∈ lit, delims.contains c = false) (hd : delims.contains d = true) :
    strtok_r (pre ++ (lit ++ d :: rest)) pos delims =
      some (pos, pos + lit.length, pos + lit.length + 1) := by
  subst hpos
  obtain ⟨a, t, rfl⟩ := List.exists_cons_of_ne_nil hne
  have ha : delims.contains a = false := hlit a (List.mem_cons_self _ _)
  have h1 : List.takeWhile (fun c => delims.contains c) (a :: t ++ d :: rest) = [] := by
    simp only [List.cons_append, List.takeWhile_cons, ha]
    rfl
  have h2 : List.takeWhile (fun c => !delims.contains c) (a :: t ++ d :: rest) = a :: t := by
    apply takeWhile_append_stop
    · intro c hc
      show (!delims.contains c) = true
      rw [hlit c hc]
      rfl
    · show (!delims.contains d) = false
      rw [hd]
      rfl
  have hdrop : List.drop (pre.length + 0) (pre ++ (a :: t ++ d :: rest)) = a :: t ++ d :: rest := by
    rw [List.drop_append]
    rfl
  unfold strtok_r
  simp only [List.drop_left, h1, List.length_nil, Nat.add_zero, h2]
  simp only [List.length_append, List.length_cons]
  have hx : ¬ (pre.length ≥ pre.length + (t.length + 1 + (rest.length + 1))) := by omega
  have hy : pre.length + (t.length + 1) < pre.length + (t.length + 1 + (rest.length + 1)) := by
    omega
  simp only [hx, if_false, hy, if_true]

theorem mask_spaces_unmasked (pre rest : List Nat) (spaces : Nat) (hs : spaces < 2)
    (hpre : ∀ c ∈ pre, c ≠ 0 ∧ c ≠ 32) :
    mask_spaces spaces (pre ++ rest) = pre ++ mask_spaces spaces rest := by
  induction pre with
  | nil => rfl
  | cons a pre ih =>
    have ha := hpre a (List.mem_cons_self _ _)
    have hge : ¬ (spaces ≥ 2) := by omega
    simp only [List.cons_append, mask_spaces, hge, if_false, ha.1, ha.2]
    exact congrArg (List.cons a) (ih (fun c hc => hpre c (List.mem_cons_of_mem _ hc)))

theorem mask_plainauth_creds_eq (env : imap_env) (authzid : List Nat)
    (hzid : ∀ c ∈ authzid, c ≠ 0 ∧ c ≠ 32) (hlen : authzid.length + 8 ≤ 2047) :
    mask_plainauth_creds env authzid = redacted_token env authzid ++ [13, 10] := by
  have hstr : str " XXX XXX" = [32, 88, 88, 88, 32, 88, 88, 88] := by decide
  have hx : str "XXX" = [88, 88, 88] := by decide
  have htake : (authzid ++ [32, 88, 88, 88, 32, 88, 88, 88]).take 2047 =
      authzid ++ [32, 88, 88, 88, 32, 88, 88, 88] := by
    apply List.take_of_length_le
    simp only [List.length_append, List.length_cons, List.length_nil]
    omega
  have hm : mask_spaces 0 [32, 88, 88, 88, 32, 88, 88, 88] = [0, 88, 88, 88, 0, 88, 88, 88] := by
    decide
  unfold mask_plainauth_creds redacted_token
  simp only [hstr, hx, htake, mask_spaces_unmasked authzid _ 0 (by decide) hzid, hm]
  simp

theorem get_auth_type_plain (imapsess : imap_session) (tag tok : List Nat) (hne : tag ≠ [])
    (htag : ∀ c ∈ tag, c ≠ 0 ∧ c ≠ 32 ∧ c ≠ 13)
    (htok : ∀ c ∈ tok, c ≠ 0 ∧ c ≠ 32 ∧ c ≠ 13) :
    get_auth_type (auth_plain_line tag tok) imapsess =
      ({ imapsess with auth_type := OPENLI_IMAP_AUTH_PLAIN,
                       auth_read_from := imapsess.auth_read_from + (tag.length + 20) }, 1) := by
  have hcr := auth_plain_line_crlf tag tok (fun c h => (htag c h).2.2) (fun c h => (htok c h).2.2)
  have ht1 : strtok_r (auth_plain_line tag tok) 0 [32] = some (0, tag.length, tag.length + 1) := by
    rw [auth_plain_line_eq]
    exact strtok_r_first tag _ hne (fun c h => (htag c h).2.1)
  have ht2 : strtok_r (auth_plain_line tag tok) (tag.length + 1) [32] =
      some (tag.length + 1, tag.length + 1 + 12, tag.length + 1 + 12 + 1) := by
    have h := strtok_r_literal (tag ++ [32]) [65, 85, 84, 72, 69, 78, 84, 73, 67, 65, 84, 69]
      ([80, 76, 65, 73, 78] ++ 32 :: (tok ++ [13, 10])) [32] 32 (tag.length + 1) (by simp)
      (by decide) (by decide) (by decide)
    rw [auth_plain_line_eq]
    simpa using h
  have ht3 : strtok_r (auth_plain_line tag tok) (tag.length + 1 + 12 + 1) [32, 13, 10] =
      some (tag.length + 1 + 12 + 1, tag.length + 1 + 12 + 1 + 5, tag.length + 1 + 12 + 1 + 5 + 1) := by
    have h := strtok_r_literal
      (tag ++ [32, 65, 85, 84, 72, 69, 78, 84, 73, 67, 65, 84, 69, 32]) [80, 76, 65, 73, 78]
      (tok ++ [13, 10]) [32, 13, 10] 32 (tag.length + 1 + 12 + 1) (by simp)
      (by decide) (by decide) (by decide)
    rw [auth_plain_line_eq]
    simpa using h
  have hdrop : ((auth_plain_line tag tok).drop (tag.length + 1 + 12 + 1)).take
      (tag.length + 1 + 12 + 1 + 5 - (tag.length + 1 + 12 + 1)) = [80, 76, 65, 73, 78] := by
    have e : auth_plain_line tag tok =
        (tag ++ [32, 65, 85, 84, 72, 69, 78, 84, 73, 67, 65, 84, 69, 32]) ++
          ([80, 76, 65, 73, 78] ++ 32 :: (tok ++ [13, 10])) := by
      rw [auth_plain_line_eq]
      simp
    have hl : tag.length + 1 + 12 + 1 =
        (tag ++ [32, 65, 85, 84, 72, 69, 78, 84, 73, 67, 65, 84, 69, 32]).length := by
      simp
    have hs : tag.length + 1 + 12 + 1 + 5 - (tag.length + 1 + 12 + 1) = 5 := by omega
    rw [hs, e, hl, List.drop_left]
    rfl
  have hcmp : strcasecmp_eq [80, 76, 65, 73, 78] (str "PLAIN") = true := by decide
  have hline : ¬ (tag.length + 20 + tok.length = tag.length + 1 + 12 + 1 + 5) := by omega
  unfold get_auth_type
  simp only [hcr, ht1, ht2, ht3, hdrop, hcmp, if_true, hline, if_false]
  have harith : imapsess.auth_read_from + (5 + (tag.length + 1 + 12 + 1)) + 1 =
      imapsess.auth_read_from + (tag.length + 20) := by omega
  rw [harith]

theorem auth_plain_line_token (tag tok : List Nat) (htag : ∀ c ∈ tag, c ≠ 13)
    (htok : ∀ c ∈ tok, c ≠ 13) :
    find_sub (tok ++ [13, 10]) (auth_plain_line tag tok) = some (tag.length + 20) := by
  have hlit : str " AUTHENTICATE PLAIN " =
      [32, 65, 85, 84, 72, 69, 78, 84, 73, 67, 65, 84, 69, 32, 80, 76, 65, 73, 78, 32] := by
    decide
  have h := find_sub_token_line tok (tag ++ str " AUTHENTICATE PLAIN ") []
    (by
      intro x hx
      rcases List.mem_append.mp hx with h | h
      · exact htag x h
      · rw [hlit] at h
        have hl : ∀ y ∈ [32, 65, 85, 84, 72, 69, 78, 84, 73, 67, 65, 84, 69, 32, 80, 76, 65,
            73, 78, 32], y ≠ 13 := by decide
        exact hl x h) htok
  have hlen : (tag ++ str " AUTHENTICATE PLAIN ").length = tag.length + 20 := by
    rw [hlit]
    simp
  rw [hlen] at h
  unfold auth_plain_line
  exact h

theorem auth_plain_line_take (tag tok : List Nat) :
    (auth_plain_line tag tok).take (tag.length + 20) = tag ++ str " AUTHENTICATE PLAIN " := by
  have hlit : str " AUTHENTICATE PLAIN " =
      [32, 65, 85, 84, 72, 69, 78, 84, 73, 67, 65, 84, 69, 32, 80, 76, 65, 73, 78, 32] := by
    decide
  have hlen : tag.length + 20 = (tag ++ str " AUTHENTICATE PLAIN ").length := by
    rw [hlit]
    simp
  unfold auth_plain_line
  rw [hlen, List.append_assoc (tag ++ str " AUTHENTICATE PLAIN "), List.take_left]

theorem auth_plain_line_drop (tag tok : List Nat) :
    (auth_plain_line tag tok).drop (tag.length + 20) = tok ++ [13, 10] := by
  have hlit : str " AUTHENTICATE PLAIN " =
      [32, 65, 85, 84, 72, 69, 78, 84, 73, 67, 65, 84, 69, 32, 80, 76, 65, 73, 78, 32] := by
    decide
  have hlen : tag.length + 20 = (tag ++ str " AUTHENTICATE PLAIN ").length := by
    rw [hlit]
    simp
  unfold auth_plain_line
  rw [hlen, List.append_assoc (tag ++ str " AUTHENTICATE PLAIN "), List.drop_left]

theorem update_saved_auth_command_line (sess : imap_session) (comm : imap_command)
    (cc : imap_cc_index) (i : Nat) (tag tok replace : List Nat)
    (hind : sess.auth_command_index = (i : Int))
    (hslot : sess.commands[i]? = some comm)
    (hctag : comm.tag = sess.auth_tag)
    (hname : comm.imap_command = some (str "AUTHENTICATE"))
    (hbuf : comm.commbuffer = auth_plain_line tag tok)
    (hccs : comm.ccs = [cc])
    (htag : ∀ c ∈ tag, c ≠ 0 ∧ c ≠ 32 ∧ c ≠ 13)
    (htok : ∀ c ∈ tok, c ≠ 0 ∧ c ≠ 32 ∧ c ≠ 13)
    (hrep : ∀ c ∈ replace, c ≠ 0) :
    update_saved_auth_command sess replace (tok ++ [13, 10]) =
      ({ sess with
         commands := sess.commands.set i
                       ⟨tag ++ str " AUTHENTICATE PLAIN " ++ replace, comm.imap_command,
                        comm.tag, comm.imap_reply,
                        [⟨cc.cc_start, (tag ++ str " AUTHENTICATE PLAIN " ++ replace).length,
                          cc.dir⟩],
                        (tag ++ str " AUTHENTICATE PLAIN " ++ replace).length,
                        comm.reply_end⟩ }, 1) := by
  have h1 : ¬ ((i : Int) = -1) := by omega
  have h2 : (i : Int).toNat = i := Int.toNat_natCast i
  have hstr : strstr (auth_plain_line tag tok) (tok ++ [13, 10]) = some (tag.length + 20) := by
    unfold strstr
    rw [cstr_of_no_nul _ (auth_plain_line_no_nul tag tok (fun c h => (htag c h).1)
      (fun c h => (htok c h).1))]
    exact auth_plain_line_token tag tok (fun c h => (htag c h).2.2) (fun c h => (htok c h).2.2)
  unfold update_saved_auth_command
  simp only [hind, h1, if_false, h2, hslot, hctag, ne_eq, not_true_eq_false, hname, hbuf, hstr,
    auth_plain_line_take, cstr_of_no_nul replace hrep, hccs, List.getLast?_singleton,
    List.dropLast_single, List.nil_append]

theorem find_next_crlf_line (imapsess : imap_session) (tag tok : List Nat) (start : Nat)
    (hdrop : imapsess.contbuffer.drop start = auth_plain_line tag tok)
    (htag : ∀ c ∈ tag, c ≠ 0 ∧ c ≠ 32 ∧ c ≠ 13)
    (htok : ∀ c ∈ tok, c ≠ 0 ∧ c ≠ 32 ∧ c ≠ 13) :
    find_next_crlf imapsess start =
      ({ imapsess with contbufread := start + (auth_plain_line tag tok).length }, 1) := by
  unfold find_next_crlf
  rw [hdrop, auth_plain_line_crlf tag tok (fun c h => (htag c h).2.2) (fun c h => (htok c h).2.2)]
  have e : start + (tag.length + 20 + tok.length) + 2 = start + (auth_plain_line tag tok).length := by
    rw [auth_plain_line_length]
    omega
  simp only [e]

theorem save_imap_command_line (sess : imap_session) (c0 : imap_command) (i : Nat)
    (line : List Nat)
    (hfree : first_free_command sess.commands = some i)
    (hslot : sess.commands[i]? = some c0)
    (hbuf : c0.commbuffer = []) (hccs : c0.ccs = [])
    (hdrop : sess.contbuffer.drop sess.next_comm_start = line)
    (hread : sess.contbufread = sess.next_comm_start + line.length) :
    save_imap_command sess =
      ({ sess with
         commands := sess.commands.set i
                       ⟨line, sess.next_command_name, sess.next_comm_tag, c0.imap_reply,
                        [⟨0, line.length, 1⟩], line.length, 0⟩,
         next_comm_tag := none, next_command_name := none }, (i : Int)) := by
  have hcopy : (sess.contbuffer.drop sess.next_comm_start).take
      (sess.contbufread - sess.next_comm_start) = line := by
    rw [hdrop, hread, Nat.add_sub_cancel_left, List.take_length]
  unfold save_imap_command
  simp only [hfree, hslot, hcopy, hbuf, hccs, add_cc_to_imap_command, List.nil_append,
    List.length_nil]

theorem decode_plain_auth_content_line (env : imap_env) (sess : emailsession)
    (imapsess : imap_session) (comm : imap_command) (cc : imap_cc_index) (i : Nat)
    (tag tok authzid authcid password : List Nat)
    (hind : imapsess.auth_command_index = (i : Int))
    (hslot : imapsess.commands[i]? = some comm)
    (hctag : comm.tag = imapsess.auth_tag)
    (hname : comm.imap_command = some (str "AUTHENTICATE"))
    (hbuf : comm.commbuffer = auth_plain_line tag tok)
    (hccs : comm.ccs = [cc])
    (htag : ∀ c ∈ tag, c ≠ 0 ∧ c ≠ 32 ∧ c ≠ 13)
    (htok : ∀ c ∈ tok, c ≠ 0 ∧ c ≠ 32 ∧ c ≠ 13)
    (hplus : tok.head? ≠ some 43)
    (hdec : env.b64.decode (tok ++ [13, 10]) = authzid ++ 0 :: (authcid ++ 0 :: password))
    (hzid : ∀ c ∈ authzid, c ≠ 0 ∧ c ≠ 32) (hlen : authzid.length + 8 ≤ 2047)
    (henc : ∀ c ∈ redacted_token env authzid, c ≠ 0) :
    decode_plain_auth_content env (tok ++ [13, 10]) imapsess sess =
      ({ sess with
         participants := sess.participants ++ [authzid],
         client_octets := sess.client_octets + (redacted_token env authzid ++ [13, 10]).length,
         currstate := OPENLI_IMAP_STATE_AUTHENTICATED },
       { imapsess with
         mailbox := some authzid,
         commands := imapsess.commands.set i
                       ⟨tag ++ str " AUTHENTICATE PLAIN " ++ (redacted_token env authzid ++ [13, 10]),
                        comm.imap_command, comm.tag, comm.imap_reply,
                        [⟨cc.cc_start,
                          (tag ++ str " AUTHENTICATE PLAIN " ++
                            (redacted_token env authzid ++ [13, 10])).length, cc.dir⟩],
                        (tag ++ str " AUTHENTICATE PLAIN " ++
                          (redacted_token env authzid ++ [13, 10])).length,
                        comm.reply_end⟩,
         next_command_type := OPENLI_IMAP_COMMAND_NONE, next_comm_start := 0,
         reply_start := 0 }, 1) := by
  have hhead : ¬ ((tok ++ [13, 10]).head? = some 43) := by
    cases tok with
    | nil => simp
    | cons a t => simpa using hplus
  have hmail : cstr (authzid ++ 0 :: (authcid ++ 0 :: password)) = authzid := by
    unfold cstr
    apply takeWhile_append_stop
    · intro c hc
      simp [(hzid c hc).1]
    · simp
  have hrep : ∀ c ∈ redacted_token env authzid ++ [13, 10], c ≠ 0 := by
    intro c hc
    rcases List.mem_append.mp hc with h | h
    · exact henc c h
    · simp at h
      omega
  have hupd := update_saved_auth_command_line { imapsess with mailbox := some authzid } comm cc i
    tag tok (redacted_token env authzid ++ [13, 10]) hind hslot hctag hname hbuf hccs htag htok
    hrep
  unfold decode_plain_auth_content
  simp only [hhead, if_false, hdec, hmail, mask_plainauth_creds_eq env authzid hzid hlen, hupd,
    cstr_of_no_nul _ hrep]
  have h10 : ¬ ((1 : Int) < 0) := by decide
  simp only [h10, if_false]

theorem decode_authentication_command_line (env : imap_env) (sess : emailsession)
    (imapsess : imap_session) (tag tok : List Nat) (hne : tag ≠ [])
    (hauth : imapsess.auth_type = OPENLI_IMAP_AUTH_NONE)
    (hdrop : imapsess.contbuffer.drop imapsess.auth_read_from = auth_plain_line tag tok)
    (hread : imapsess.contbufread = imapsess.auth_read_from + (auth_plain_line tag tok).length)
    (htag : ∀ c ∈ tag, c ≠ 0 ∧ c ≠ 32 ∧ c ≠ 13)
    (htok : ∀ c ∈ tok, c ≠ 0 ∧ c ≠ 32 ∧ c ≠ 13) :
    decode_authentication_command env sess imapsess =
      decode_plain_auth_content env (tok ++ [13, 10])
        { imapsess with auth_type := OPENLI_IMAP_AUTH_PLAIN,
                        auth_read_from := imapsess.auth_read_from + (tag.length + 20) }
        { sess with client_octets := sess.client_octets + (tag.length + 20) } := by
  have hnul : ∀ c ∈ auth_plain_line tag tok, c ≠ 0 :=
    auth_plain_line_no_nul tag tok (fun c h => (htag c h).1) (fun c h => (htok c h).1)
  have hmsg1 : cstr ((imapsess.contbuffer.drop imapsess.auth_read_from).take
      (auth_plain_line tag tok).length) = auth_plain_line tag tok := by
    rw [hdrop, List.take_length]
    exact cstr_of_no_nul _ hnul
  have hlen2 : imapsess.contbufread - (imapsess.auth_read_from + (tag.length + 20)) =
      (tok ++ [13, 10]).length := by
    rw [hread, auth_plain_line_length]
    simp only [List.length_append, List.length_cons, List.length_nil]
    omega
  have hmsg2 : cstr ((imapsess.contbuffer.drop (imapsess.auth_read_from + (tag.length + 20))).take
      (imapsess.contbufread - (imapsess.auth_read_from + (tag.length + 20)))) =
      tok ++ [13, 10] := by
    rw [hlen2, ← List.drop_drop, hdrop, auth_plain_line_drop, List.take_length]
    apply cstr_of_no_nul
    intro c hc
    rcases List.mem_append.mp hc with h | h
    · exact (htok c h).1
    · simp at h
      omega
  have hoct : (auth_plain_line tag tok).length - (imapsess.contbufread -
      (imapsess.auth_read_from + (tag.length + 20))) = tag.length + 20 := by
    rw [hlen2, auth_plain_line_length]
    simp only [List.length_append, List.length_cons, List.length_nil]
    omega
  have hsub : imapsess.contbufread - imapsess.auth_read_from =
      (auth_plain_line tag tok).length := by
    rw [hread, Nat.add_sub_cancel_left]
  have h10 : (1 : Int) > 0 := by decide
  have h11 : ¬ ((1 : Int) ≤ 0) := by decide
  have hp : OPENLI_IMAP_AUTH_PLAIN ≠ OPENLI_IMAP_AUTH_NONE := by decide
  unfold decode_authentication_command
  simp only [decode_authentication_loop, hauth, if_true, hmsg1, get_auth_type_plain imapsess tag tok
    hne htag htok, h10, h11, if_false, hp, hmsg2, hsub, hoct]

theorem process_next_imap_state_parsing (env : imap_env) (sess : emailsession)
    (imapsess : imap_session) (h1 : sess.currstate ≠ OPENLI_IMAP_STATE_INIT)
    (h2 : sess.currstate ≠ OPENLI_IMAP_STATE_SERVER_READY) :
    process_next_imap_state env sess imapsess =
      if imapsess.next_command_type = OPENLI_IMAP_COMMAND_NONE then
        find_next_imap_message env sess imapsess
      else if imapsess.next_command_type = OPENLI_IMAP_COMMAND_REPLY then
        some (find_reply_end sess imapsess)
      else if imapsess.next_command_type = OPENLI_IMAP_COMMAND_REPLY_ONGOING then
        some (find_partial_reply_end sess imapsess)
      else some (find_command_end env sess imapsess) := by
  unfold process_next_imap_state
  simp only [h1, h2, if_false, false_and]

theorem find_next_imap_message_empty (env : imap_env) (sess : emailsession)
    (imapsess : imap_session)
    (h1 : sess.currstate ≠ OPENLI_IMAP_STATE_AUTHENTICATING)
    (h2 : sess.currstate ≠ OPENLI_IMAP_STATE_IDLING)
    (hread : imapsess.contbuffer.drop imapsess.contbufread = []) :
    find_next_imap_message env sess imapsess = some (sess, imapsess, 0) := by
  unfold find_next_imap_message
  simp only [h1, h2, if_false, hread]
  rfl

theorem find_command_end_plain (env : imap_env) (sess : emailsession)
    (imapsess : imap_session) (c0 : imap_command) (i : Nat)
    (tag tok authzid authcid password : List Nat)
    (htype : imapsess.next_command_type = OPENLI_IMAP_COMMAND_AUTH)
    (hstart : imapsess.auth_read_from = imapsess.next_comm_start)
    (hdrop : imapsess.contbuffer.drop imapsess.next_comm_start = auth_plain_line tag tok)
    (hatag : imapsess.auth_tag = some tag)
    (hntag : imapsess.next_comm_tag = some tag)
    (hnname : imapsess.next_command_name = some (str "AUTHENTICATE"))
    (hauth : imapsess.auth_type = OPENLI_IMAP_AUTH_NONE)
    (hfree : first_free_command imapsess.commands = some i)
    (hslot : imapsess.commands[i]? = some c0)
    (hbuf : c0.commbuffer = []) (hccs : c0.ccs = [])
    (hne : tag ≠ [])
    (htag : ∀ c ∈ tag, c ≠ 0 ∧ c ≠ 32 ∧ c ≠ 13)
    (htok : ∀ c ∈ tok, c ≠ 0 ∧ c ≠ 32 ∧ c ≠ 13)
    (hplus : tok.head? ≠ some 43)
    (hdec : env.b64.decode (tok ++ [13, 10]) = authzid ++ 0 :: (authcid ++ 0 :: password))
    (hzid : ∀ c ∈ authzid, c ≠ 0 ∧ c ≠ 32) (hlen : authzid.length + 8 ≤ 2047)
    (henc : ∀ c ∈ redacted_token env authzid, c ≠ 0) :
    ∃ sess1 imapsess1,
      find_command_end env sess imapsess = (sess1, imapsess1, 1) ∧
      sess1.currstate = OPENLI_IMAP_STATE_AUTHENTICATED ∧
      imapsess1.next_command_type = OPENLI_IMAP_COMMAND_NONE ∧
      imapsess1.contbuffer = imapsess.contbuffer ∧
      imapsess1.contbufread = imapsess.next_comm_start + (auth_plain_line tag tok).length ∧
      imapsess1.mailbox = some authzid ∧
      imapsess1.commands[i]? = some
        ⟨tag ++ str " AUTHENTICATE PLAIN " ++ (redacted_token env authzid ++ [13, 10]),
         some (str "AUTHENTICATE"), some tag, c0.imap_reply,
         [⟨0, (tag ++ str " AUTHENTICATE PLAIN " ++
                (redacted_token env authzid ++ [13, 10])).length, 1⟩],
         (tag ++ str " AUTHENTICATE PLAIN " ++ (redacted_token env authzid ++ [13, 10])).length,
         0⟩ := by
  have hlt : i < imapsess.commands.length := by
    rcases List.getElem?_eq_some_iff.mp hslot with ⟨h, _⟩
    exact h
  have hcrlf := find_next_crlf_line imapsess tag tok imapsess.next_comm_start hdrop htag htok
  have hsave := save_imap_command_line
    { imapsess with contbufread := imapsess.next_comm_start + (auth_plain_line tag tok).length }
    c0 i (auth_plain_line tag tok) hfree hslot hbuf hccs hdrop rfl
  have hdecode := decode_authentication_command_line env
    { sess with currstate := OPENLI_IMAP_STATE_AUTHENTICATING }
    { (save_imap_command { imapsess with
        contbufread := imapsess.next_comm_start + (auth_plain_line tag tok).length }).1 with
      auth_command_index := (i : Int) }
    tag tok hne (by rw [hsave]; exact hauth) (by rw [hsave, hstart]; exact hdrop)
    (by rw [hsave, hstart]) htag htok
  have hplain := decode_plain_auth_content_line env
    { sess with currstate := OPENLI_IMAP_STATE_AUTHENTICATING,
                client_octets := sess.client_octets + (tag.length + 20) }
    { (save_imap_command { imapsess with
        contbufread := imapsess.next_comm_start + (auth_plain_line tag tok).length }).1 with
      auth_command_index := (i : Int), auth_type := OPENLI_IMAP_AUTH_PLAIN,
      auth_read_from := imapsess.auth_read_from + (tag.length + 20) }
    ⟨auth_plain_line tag tok, some (str "AUTHENTICATE"), some tag, c0.imap_reply,
      [⟨0, (auth_plain_line tag tok).length, 1⟩], (auth_plain_line tag tok).length, 0⟩
    ⟨0, (auth_plain_line tag tok).length, 1⟩ i tag tok authzid authcid password rfl
    (by rw [hsave]; simp [hlt, hnname, hntag]) (by rw [hsave]; exact hatag.symm) rfl rfl rfl
    htag htok hplus hdec hzid hlen henc
  have h10 : ¬ ((1 : Int) = 0) := by decide
  have hi : ¬ ((i : Int) < 0) := by omega
  simp only [hsave] at hdecode hplain
  simp only [htype] at hdecode hplain
  unfold find_command_end
  simp only [hcrlf, h10, if_false, hsave, hi]
  simp only [htype, if_true, hdecode, hplain]
  refine ⟨_, _, rfl, rfl, rfl, rfl, rfl, rfl, ?_⟩
  simp [hlt]

theorem imap_ingestion_loop_plain (env : imap_env) (sess : emailsession)
    (imapsess : imap_session) (c0 : imap_command) (i n : Nat)
    (tag tok authzid authcid password : List Nat)
    (hstate : sess.currstate = OPENLI_IMAP_STATE_PRE_AUTH)
    (hnone : imapsess.next_command_type = OPENLI_IMAP_COMMAND_NONE)
    (hdrop : imapsess.contbuffer.drop imapsess.contbufread = auth_plain_line tag tok)
    (hauth : imapsess.auth_type = OPENLI_IMAP_AUTH_NONE)
    (hfree : first_free_command imapsess.commands = some i)
    (hslot : imapsess.commands[i]? = some c0)
    (hbuf : c0.commbuffer = []) (hccs : c0.ccs = [])
    (hne : tag ≠ []) (hstar : tag ≠ str "*")
    (htag : ∀ c ∈ tag, c ≠ 0 ∧ c ≠ 32 ∧ c ≠ 13)
    (htok : ∀ c ∈ tok, c ≠ 0 ∧ c ≠ 32 ∧ c ≠ 13)
    (hplus : tok.head? ≠ some 43)
    (hdec : env.b64.decode (tok ++ [13, 10]) = authzid ++ 0 :: (authcid ++ 0 :: password))
    (hzid : ∀ c ∈ authzid, c ≠ 0 ∧ c ≠ 32) (hlen : authzid.length + 8 ≤ 2047)
    (henc : ∀ c ∈ redacted_token env authzid, c ≠ 0) :
    ∃ sess1 imapsess1,
      imap_ingestion_loop env (n + 3) sess imapsess = some (sess1, imapsess1) ∧
      sess1.currstate = OPENLI_IMAP_STATE_AUTHENTICATED ∧
      imapsess1.mailbox = some authzid ∧
      imapsess1.commands[i]? = some
        ⟨tag ++ str " AUTHENTICATE PLAIN " ++ (redacted_token env authzid ++ [13, 10]),
         some (str "AUTHENTICATE"), some tag, c0.imap_reply,
         [⟨0, (tag ++ str " AUTHENTICATE PLAIN " ++
                (redacted_token env authzid ++ [13, 10])).length, 1⟩],
         (tag ++ str " AUTHENTICATE PLAIN " ++ (redacted_token env authzid ++ [13, 10])).length,
         0⟩ := by
  have hlen0 : imapsess.contbuffer.length =
      imapsess.contbufread + (auth_plain_line tag tok).length := by
    have h := congrArg List.length hdrop
    rw [List.length_drop] at h
    have hpos : 0 < (auth_plain_line tag tok).length := by
      rw [auth_plain_line_length]
      omega
    omega
  have hs1 : sess.currstate ≠ OPENLI_IMAP_STATE_INIT := by rw [hstate]; decide
  have hs2 : sess.currstate ≠ OPENLI_IMAP_STATE_SERVER_READY := by rw [hstate]; decide
  have hstep1 : process_next_imap_state env sess imapsess = _ :=
    (process_next_imap_state_parsing env sess imapsess hs1 hs2).trans
      ((if_pos hnone).trans
        (find_next_imap_message_authenticate env sess imapsess tag tok hstate hdrop htag hstar
          htok))
  obtain ⟨sess2, imapsess2, hfce, hst2, hty2, hcb2, hcr2, hmb2, hcmd2⟩ :=
    find_command_end_plain env
      { sess with currstate := OPENLI_IMAP_STATE_AUTH_STARTED }
      { imapsess with next_command_type := OPENLI_IMAP_COMMAND_AUTH, auth_tag := some tag,
                      auth_read_from := imapsess.contbufread, next_comm_tag := some tag,
                      next_command_name := some (str "AUTHENTICATE"),
                      next_comm_start := imapsess.contbufread }
      c0 i tag tok authzid authcid password rfl rfl hdrop rfl rfl rfl hauth hfree hslot hbuf hccs
      hne htag htok hplus hdec hzid hlen henc
  have hstep2 : process_next_imap_state env
      { sess with currstate := OPENLI_IMAP_STATE_AUTH_STARTED }
      { imapsess with next_command_type := OPENLI_IMAP_COMMAND_AUTH, auth_tag := some tag,
                      auth_read_from := imapsess.contbufread, next_comm_tag := some tag,
                      next_command_name := some (str "AUTHENTICATE"),
                      next_comm_start := imapsess.contbufread } =
      some (sess2, imapsess2, 1) := by
    have ha : OPENLI_IMAP_STATE_AUTH_STARTED ≠ OPENLI_IMAP_STATE_INIT := by decide
    have hb : OPENLI_IMAP_STATE_AUTH_STARTED ≠ OPENLI_IMAP_STATE_SERVER_READY := by decide
    rw [process_next_imap_state_parsing _ _ _ ha hb]
    simp only [reduceCtorEq, if_false]
    exact congrArg some hfce
  have hstep3 : process_next_imap_state env sess2 imapsess2 = some (sess2, imapsess2, 0) := by
    rw [process_next_imap_state_parsing _ _ _ (by rw [hst2]; decide) (by rw [hst2]; decide),
      if_pos hty2]
    apply find_next_imap_message_empty
    · rw [hst2]; decide
    · rw [hst2]; decide
    · rw [hcb2, hcr2]
      apply List.drop_eq_nil_of_le
      show imapsess.contbuffer.length ≤ imapsess.contbufread + (auth_plain_line tag tok).length
      omega
  have h10 : ¬ ((1 : Int) ≤ 0) := by decide
  have h00 : (0 : Int) ≤ 0 := by decide
  refine ⟨sess2, imapsess2, ?_, hst2, hmb2, hcmd2⟩
  simp only [imap_ingestion_loop, hstep1, h10, if_false, hstep2, hstep3, h00, if_true]

theorem cc_bytes_single (buf : List Nat) (name tag reply : Option (List Nat)) (rs re d : Nat) :
    cc_bytes ⟨buf, name, tag, reply, [⟨0, buf.length, d⟩], rs, re⟩ = buf := by
  simp [cc_bytes]

/-- The path on which the rewrite is reached: a session in the PRE_AUTH state,
with all earlier content consumed, no AUTHENTICATE seen before and an unused
command slot `i`, receives the single line `<tag> AUTHENTICATE PLAIN <tok>\r\n`
with the command word in upper case, where the codec decodes `tok` to
`authzid\0authcid\0password`. Provided that the tag is not empty, not
`*` and free of space, NUL and CR, that `tok` is free of them too and does not
start with `+`, that authzid has no space, that the codec output has no NUL
and that the texts fit the fixed buffers of the code (`input`, `decoded`,
`reencoded` of 2048 bytes, the command buffer of 4096), the ingestion ends
within three rounds, returns 0 and leaves the session AUTHENTICATED, and the
saved command in slot `i` is `<tag> AUTHENTICATE PLAIN <tok2>\r\n` with `tok2` the
codec's encoding of `authzid\0XXX\0XXX`: its only CC record runs from 0 to the
length of the rewritten command, and the bytes it covers are a function of
the tag and authzid alone, whatever authcid and password were. -/
theorem plain_auth_credentials_redacted (env : imap_env) (sess : emailsession)
    (imapsess : imap_session) (c0 : imap_command) (i fuel : Nat)
    (tag tok authzid authcid password : List Nat)
    (hproto : sess.proto_state = some imapsess)
    (hstate : sess.currstate = OPENLI_IMAP_STATE_PRE_AUTH)
    (hnone : imapsess.next_command_type = OPENLI_IMAP_COMMAND_NONE)
    (hread : imapsess.contbufread = imapsess.contbuffer.length)
    (hauth : imapsess.auth_type = OPENLI_IMAP_AUTH_NONE)
    (hfree : first_free_command imapsess.commands = some i)
    (hslot : imapsess.commands[i]? = some c0)
    (hbuf : c0.commbuffer = []) (hccs : c0.ccs = [])
    (hne : tag ≠ []) (hstar : tag ≠ str "*")
    (htag : ∀ c ∈ tag, c ≠ 0 ∧ c ≠ 32 ∧ c ≠ 13)
    (htok : ∀ c ∈ tok, c ≠ 0 ∧ c ≠ 32 ∧ c ≠ 13)
    (hplus : tok.head? ≠ some 43)
    (hdec : env.b64.decode (tok ++ [13, 10]) = authzid ++ 0 :: (authcid ++ 0 :: password))
    (hzid : ∀ c ∈ authzid, c ≠ 0 ∧ c ≠ 32)
    (henc : ∀ c ∈ redacted_token env authzid, c ≠ 0)
    (hinput : authzid.length + 8 ≤ 2047)
    (_hdecoded : (authzid ++ 0 :: (authcid ++ 0 :: password)).length < 2048)
    (_hreencoded : (redacted_token env authzid ++ [13, 10]).length < 2048)
    (_hcommand : (tag ++ str " AUTHENTICATE PLAIN " ++ redacted_token env authzid ++
      [13, 10]).length < 4096)
    (hfuel : 3 ≤ fuel) :
    ∃ sess1 comm,
      update_imap_session_by_ingestion env fuel sess (auth_plain_line tag tok) =
        some (sess1, 0) ∧
      sess1.currstate = OPENLI_IMAP_STATE_AUTHENTICATED ∧
      saved_command (some (sess1, 0)) i = some comm ∧
      comm.imap_command = some (str "AUTHENTICATE") ∧
      comm.tag = some tag ∧
      comm.commbuffer =
        tag ++ str " AUTHENTICATE PLAIN " ++ redacted_token env authzid ++ [13, 10] ∧
      comm.ccs = [⟨0, comm.commbuffer.length, 1⟩] ∧
      cc_bytes comm =
        tag ++ str " AUTHENTICATE PLAIN " ++ redacted_token env authzid ++ [13, 10] := by
  obtain ⟨n, rfl⟩ : ∃ n, fuel = n + 3 := ⟨fuel - 3, by omega⟩
  have hdrop : (append_content_to_imap_buffer imapsess (auth_plain_line tag tok)).contbuffer.drop
      (append_content_to_imap_buffer imapsess (auth_plain_line tag tok)).contbufread =
      auth_plain_line tag tok := by
    show (imapsess.contbuffer ++ auth_plain_line tag tok).drop imapsess.contbufread = _
    rw [hread, List.drop_left]
  obtain ⟨sess1, imapsess1, hloop, hst, _, hcmd⟩ :=
    imap_ingestion_loop_plain env sess
      (append_content_to_imap_buffer imapsess (auth_plain_line tag tok)) c0 i n tag tok authzid
      authcid password hstate hnone hdrop hauth hfree hslot hbuf hccs hne hstar htag htok hplus
      hdec hzid hinput henc
  have hno : sess1.currstate ≠ OPENLI_IMAP_STATE_SESSION_OVER := by rw [hst]; decide
  have hassoc : tag ++ str " AUTHENTICATE PLAIN " ++ redacted_token env authzid ++ [13, 10] =
      tag ++ str " AUTHENTICATE PLAIN " ++ (redacted_token env authzid ++ [13, 10]) := by
    rw [List.append_assoc (tag ++ str " AUTHENTICATE PLAIN ")]
  refine ⟨{ sess1 with proto_state := some imapsess1 }, _, ?_, hst, hcmd, rfl, rfl, hassoc.symm,
    rfl, ?_⟩
  · unfold update_imap_session_by_ingestion
    simp only [hproto, hloop, hno, if_false]
  · rw [hassoc]
    exact cc_bytes_single _ _ _ _ _ _ _

theorem plain_auth_credentials_redacted_witness :
    ∃ sess1 comm,
      update_imap_session_by_ingestion env_libb64 3 session_pre_auth
        (auth_plain_line (str "a1") token_alice) = some (sess1, 0) ∧
      sess1.currstate = OPENLI_IMAP_STATE_AUTHENTICATED ∧
      saved_command (some (sess1, 0)) 0 = some comm ∧
      comm.imap_command = some (str "AUTHENTICATE") ∧
      comm.tag = some (str "a1") ∧
      comm.commbuffer =
        str "a1" ++ str " AUTHENTICATE PLAIN " ++ redacted_token env_libb64 [] ++ [13, 10] ∧
      comm.ccs = [⟨0, comm.commbuffer.length, 1⟩] ∧
      cc_bytes comm =
        str "a1" ++ str " AUTHENTICATE PLAIN " ++ redacted_token env_libb64 [] ++ [13, 10] :=
  plain_auth_credentials_redacted env_libb64 session_pre_auth
    { new_imap_session with contbuffer := str "* OK imap ready\r\n", contbufread := 17 }
    init_imap_command 0 3 (str "a1") token_alice [] (str "alice") (str "secret")
    rfl rfl rfl (by decide) rfl (by decide) (by decide) rfl rfl (by decide) (by decide)
    (by decide) (by decide) (by decide) (by decide) (by decide) (by decide) (by decide)
    (by decide) (by decide) (by decide) (by decide)

/-- Claim C3 is contradicted by the code, which leaves the live token in the
bytes that the CC record of the saved command covers. `token_alice` is the
base64 of an empty authzid, the authcid `alice` and the password `secret`. A
session in the PRE_AUTH state that receives
`a1 authenticate PLAIN AGFsaWNlAHNlY3JldA==` recognises the command
(`find_next_imap_message` compares the word with `strcasecmp`), saves it,
decodes the token and adds the mailbox as a participant; then
`update_saved_auth_command` compares the saved command word with `strcmp`
against `AUTHENTICATE` and gives up. The ingestion returns 0, the session
stays AUTHENTICATING, and the only CC record of the saved command (0 to 44)
covers the line as it was received, with the token at offset 22. The same
line with the command word in upper case is rewritten: its CC record ends at
37 and the token is gone. Under an upper-case command word a token that
starts with `+` (here the base64 of the authzid byte 248, `alice` and
`secret`) is taken for a continuation line of the server by
`decode_plain_auth_content`, which returns before any rewrite: the CC record
(0 to 44) covers the received line, with the token at offset 22. -/
theorem plain_auth_live_token_kept :
    libb64.decode (token_alice ++ [13, 10]) = [] ++ 0 :: (str "alice" ++ 0 :: str "secret") ∧
    (update_imap_session_by_ingestion env_libb64 3 session_pre_auth
        (str "a1 authenticate PLAIN " ++ token_alice ++ [13, 10])).map
      (fun r => (r.2, r.1.currstate, r.1.participants)) =
      some (0, OPENLI_IMAP_STATE_AUTHENTICATING, [[]]) ∧
    (saved_command (update_imap_session_by_ingestion env_libb64 3 session_pre_auth
        (str "a1 authenticate PLAIN " ++ token_alice ++ [13, 10])) 0).map
      (fun comm => (comm.imap_command, comm.ccs, cc_bytes comm,
        find_sub token_alice (cc_bytes comm))) =
      some (some (str "authenticate"), [⟨0, 44, 1⟩],
        str "a1 authenticate PLAIN AGFsaWNlAHNlY3JldA==\r\n", some 22) ∧
    (saved_command (update_imap_session_by_ingestion env_libb64 3 session_pre_auth
        (auth_plain_line (str "a1") token_alice)) 0).map
      (fun comm => (comm.imap_command, comm.ccs, cc_bytes comm,
        find_sub token_alice (cc_bytes comm))) =
      some (some (str "AUTHENTICATE"), [⟨0, 37, 1⟩],
        str "a1 AUTHENTICATE PLAIN AFhYWABYWFg=\n\r\n", none) ∧
    libb64.decode (token_plus ++ [13, 10]) = [248] ++ 0 :: (str "alice" ++ 0 :: str "secret") ∧
    (update_imap_session_by_ingestion env_libb64 3 session_pre_auth
        (auth_plain_line (str "a1") token_plus)).map
      (fun r => (r.2, r.1.currstate, r.1.participants)) =
      some (0, OPENLI_IMAP_STATE_AUTHENTICATING, []) ∧
    (saved_command (update_imap_session_by_ingestion env_libb64 3 session_pre_auth
        (auth_plain_line (str "a1") token_plus)) 0).map
      (fun comm => (comm.imap_command, comm.ccs, cc_bytes comm,
        find_sub token_plus (cc_bytes comm))) =
      some (some (str "AUTHENTICATE"), [⟨0, 44, 1⟩],
        str "a1 AUTHENTICATE PLAIN +ABhbGljZQBzZWNyZXQ=\r\n", some 22) := by
  refine ⟨?_, ?_, ?_, ?_, ?_, ?_, ?_⟩ <;> decide
/-! ## Announcement of a mediator -/

/-- C11 fails on the code: a job creates the unannounced entry of mediator 42
and `DROP_SINGLE_MEDIATOR` halts it; after `add_new_destination` for mediator
42 the entry has the announced address but is still halted, and the next
`connect_export_targets` skips it. -/
theorem add_new_destination_leaves_halted :
    (exporter_run env_three_blocks 5 exp_x (events_drop_announce_42.take 2)).dests.map
      (fun d => (d.details.mediatorid, d.details.ipstr, d.awaitingconfirm, d.halted)) =
        [(42, none, false, true)] ∧
    (exporter_run env_three_blocks 5 exp_x events_drop_announce_42).dests.map
      (fun d => (d.details.mediatorid, d.details.ipstr, d.awaitingconfirm, d.halted)) =
        [(42, some "192.0.2.1", false, true)] ∧
    (exporter_run env_three_blocks 5 exp_x
        (events_drop_announce_42 ++ [exporter_event.CONNECT_TIMER])).dests.map
      (fun d => (d.halted, d.fd, get_buffered_amount d.buffer)) = [(true, -1, 5)] := by
  refine ⟨?_, ?_, ?_⟩ <;> rfl

/-! ## Jobs for an unknown LIID -/

/-- C13: a job whose LIID is not in the intercept table (no entry has it as
its key, be the key memory live or freed) leaves the whole exporter as it is
(no encoder call, nothing forwarded, no sequence counter, no mediator entry)
and `run_encoding_job` returns 0, whatever the fuel. -/
theorem run_encoding_job_unknown_liid (env : Env) (fuel : Nat) (exp : collector_export)
    (recvd : openli_export_recv) (h : exp.intercepts recvd.liid = none)
    (hf : exp.freed_intercepts recvd.liid = none) :
    run_encoding_job env fuel exp recvd = (exp, some 0) := by
  unfold run_encoding_job
  rw [h]
  simp only [hf]

theorem run_encoding_job_unknown_liid_witness :
    run_encoding_job env_three_blocks 0 exp_x job_cc_unknown = (exp_x, some 0) :=
  run_encoding_job_unknown_liid env_three_blocks 0 exp_x job_cc_unknown (by rfl) (by rfl)

/-! ## Failures of the exporter thread -/

theorem find_next_imap_message_words (env : imap_env) (sess : emailsession)
    (imapsess : imap_session)
    (h1 : sess.currstate ≠ OPENLI_IMAP_STATE_AUTHENTICATING)
    (h2 : sess.currstate ≠ OPENLI_IMAP_STATE_IDLING) :
    find_next_imap_message env sess imapsess =
      some (match imap_message_words (cstr (imapsess.contbuffer.drop imapsess.contbufread)) with
      | none => (sess, imapsess, 0)
      | some w => classify_imap_message sess imapsess w.1 w.2) := by
  unfold find_next_imap_message imap_message_words
  simp only [h1, h2, if_false]
  congr 1
  cases hsp : find_sub [32] (cstr (imapsess.contbuffer.drop imapsess.contbufread)) with
  | none => rfl
  | some sp =>
    simp only []
    cases hs2 : find_sub [32] ((cstr (imapsess.contbuffer.drop imapsess.contbufread)).drop
      (sp + 1)) with
    | none =>
      cases hc : find_sub [13, 10] ((cstr (imapsess.contbuffer.drop imapsess.contbufread)).drop
        (sp + 1)) with
      | none => rfl
      | some c =>
        simp only [Option.map_none', Option.map_some']
        have e : sp + 1 + c - sp - 1 = c := by omega
        rw [e]
        rfl
    | some s =>
      cases hc : find_sub [13, 10] ((cstr (imapsess.contbuffer.drop imapsess.contbufread)).drop
        (sp + 1)) with
      | none =>
        simp only [Option.map_none', Option.map_some']
        have e : sp + 1 + s - sp - 1 = s := by omega
        rw [e]
        rfl
      | some c =>
        simp only [Option.map_some']
        by_cases hlt : c < s
        · have hlt2 : sp + 1 + c < sp + 1 + s := by omega
          have e : sp + 1 + c - sp - 1 = c := by omega
          simp only [hlt, hlt2, if_true, e]
          rfl
        · have hlt2 : ¬ (sp + 1 + c < sp + 1 + s) := by omega
          have e : sp + 1 + s - sp - 1 = s := by omega
          simp only [hlt, hlt2, if_false, e]
          rfl

theorem cstr_append_of_no_nul (pre rest : List Nat) (h : ∀ c ∈ pre, c ≠ 0) :
    cstr (pre ++ rest) = pre ++ cstr rest := by
  induction pre with
  | nil => rfl
  | cons a pre ih =>
    have ha : a ≠ 0 := h a (List.mem_cons_self _ _)
    have e := ih (fun c hc => h c (List.mem_cons_of_mem _ hc))
    unfold cstr at e ⊢
    simp only [List.cons_append, List.takeWhile_cons, bne_iff_ne, ne_eq, ha, not_false_eq_true,
      if_true]
    rw [e]

theorem find_sub_getElem (needle hay : List Nat) (j : Nat) (h : find_sub needle hay = some j) :
    needle.isPrefixOf (hay.drop j) = true := by
  induction hay generalizing j with
  | nil =>
    unfold find_sub at h
    by_cases hn : needle = []
    · subst hn
      simp at h
      subst h
      rfl
    · simp [hn] at h
  | cons a hay ih =>
    unfold find_sub at h
    by_cases hp : needle.isPrefixOf (a :: hay) = true
    · simp only [hp, if_true, Option.some.injEq] at h
      subst h
      exact hp
    · simp only [hp, Bool.false_eq_true, if_false, Option.map_eq_some'] at h
      obtain ⟨i, hi, rfl⟩ := h
      exact ih i hi

theorem find_sub_single_at (c : Nat) (hay : List Nat) (j : Nat) (h : find_sub [c] hay = some j) :
    hay[j]? = some c := by
  have hp := find_sub_getElem [c] hay j h
  cases hd : hay.drop j with
  | nil => rw [hd] at hp; simp [List.isPrefixOf] at hp
  | cons x xs =>
    rw [hd] at hp
    simp only [List.isPrefixOf, Bool.and_true, beq_iff_eq] at hp
    have := congrArg List.head? hd
    rw [List.head?_drop] at this
    rw [this]
    simp [hp]

theorem find_sub_crlf_at (hay : List Nat) (j : Nat) (h : find_sub [13, 10] hay = some j) :
    hay[j]? = some 13 ∧ hay[j + 1]? = some 10 := by
  have hp := find_sub_getElem [13, 10] hay j h
  cases hd : hay.drop j with
  | nil => rw [hd] at hp; simp [List.isPrefixOf] at hp
  | cons x xs =>
    cases xs with
    | nil => rw [hd] at hp; simp [List.isPrefixOf] at hp
    | cons y ys =>
      rw [hd] at hp
      simp only [List.isPrefixOf, Bool.and_true, Bool.and_eq_true, beq_iff_eq] at hp
      have h0 := congrArg (fun l => l[0]?) hd
      have h1 := congrArg (fun l => l[1]?) hd
      simp only [List.getElem?_drop, Nat.add_zero, List.getElem?_cons_zero,
        List.getElem?_cons_succ] at h0 h1
      constructor
      · rw [h0, hp.1]
      · rw [h1, hp.2]

theorem imap_message_words_bye_space (rest : List Nat) :
    imap_message_words (42 :: 32 :: 66 :: 89 :: 69 :: 32 :: rest) =
      some ([42], [66, 89, 69]) := by
  have hsp : find_sub [32] (42 :: 32 :: 66 :: 89 :: 69 :: 32 :: rest) = some 1 :=
    find_sub_single 32 [42] _ (by decide)
  have hs2 : find_sub [32] (66 :: 89 :: 69 :: 32 :: rest) = some 3 :=
    find_sub_single 32 [66, 89, 69] _ (by decide)
  unfold imap_message_words
  simp only [hsp, List.drop_succ_cons, List.drop_zero, hs2]
  cases hc : find_sub [13, 10] (66 :: 89 :: 69 :: 32 :: rest) with
  | none => rfl
  | some c =>
    have hat := (find_sub_crlf_at _ c hc).1
    have hge : ¬ (c < 3) := by
      intro hlt
      interval_cases c <;> simp at hat
    simp only [hge, if_false]
    rfl

theorem imap_message_words_bye_crlf (rest : List Nat) :
    imap_message_words (42 :: 32 :: 66 :: 89 :: 69 :: 13 :: 10 :: rest) =
      some ([42], [66, 89, 69]) := by
  have hsp : find_sub [32] (42 :: 32 :: 66 :: 89 :: 69 :: 13 :: 10 :: rest) = some 1 :=
    find_sub_single 32 [42] _ (by decide)
  have hc : find_sub [13, 10] (66 :: 89 :: 69 :: 13 :: 10 :: rest) = some 3 :=
    find_sub_crlf [66, 89, 69] _ (by decide)
  unfold imap_message_words
  simp only [hsp, List.drop_succ_cons, List.drop_zero, hc]
  cases hs : find_sub [32] (66 :: 89 :: 69 :: 13 :: 10 :: rest) with
  | none => rfl
  | some s =>
    have hat := find_sub_single_at 32 _ s hs
    have hlt : 3 < s := by
      by_contra hle
      have : s ≤ 3 := by omega
      interval_cases s <;> simp at hat
    simp only [hlt, if_true]
    rfl

theorem starts_with_bye_cases (l : List Nat) (h : starts_with_bye l = true) :
    (∃ rest, l = 42 :: 32 :: 66 :: 89 :: 69 :: 32 :: rest) ∨
    (∃ rest, l = 42 :: 32 :: 66 :: 89 :: 69 :: 13 :: 10 :: rest) := by
  unfold starts_with_bye at h
  rcases Bool.or_eq_true _ _ ▸ h with h | h
  · rw [List.isPrefixOf_iff_prefix] at h
    obtain ⟨t, rfl⟩ := h
    exact Or.inl ⟨t, rfl⟩
  · rw [List.isPrefixOf_iff_prefix] at h
    obtain ⟨t, rfl⟩ := h
    exact Or.inr ⟨t, rfl⟩

theorem starts_with_bye_append (l x : List Nat) (h : starts_with_bye l = true) :
    starts_with_bye (l ++ x) = true := by
  unfold starts_with_bye at h ⊢
  rcases Bool.or_eq_true _ _ ▸ h with h | h
  · rw [List.isPrefixOf_iff_prefix] at h
    have h2 : (List.isPrefixOf [42, 32, 66, 89, 69, 32] (l ++ x)) = true := by
      rw [List.isPrefixOf_iff_prefix]
      exact h.trans (List.prefix_append l x)
    rw [h2]
    rfl
  · rw [List.isPrefixOf_iff_prefix] at h
    have h2 : (List.isPrefixOf [42, 32, 66, 89, 69, 13, 10] (l ++ x)) = true := by
      rw [List.isPrefixOf_iff_prefix]
      exact h.trans (List.prefix_append l x)
    rw [h2, Bool.or_true]

theorem imap_message_words_of_bye (l : List Nat) (h : starts_with_bye l = true) :
    imap_message_words (cstr l) = some ([42], [66, 89, 69]) := by
  rcases starts_with_bye_cases l h with ⟨rest, rfl⟩ | ⟨rest, rfl⟩
  · have e := cstr_append_of_no_nul [42, 32, 66, 89, 69, 32] rest (by decide)
    simp only [List.cons_append, List.nil_append] at e
    rw [e]
    exact imap_message_words_bye_space _
  · have e := cstr_append_of_no_nul [42, 32, 66, 89, 69, 13, 10] rest (by decide)
    simp only [List.cons_append, List.nil_append] at e
    rw [e]
    exact imap_message_words_bye_crlf _

theorem find_next_imap_message_bye (env : imap_env) (sess : emailsession)
    (imapsess : imap_session)
    (h1 : sess.currstate ≠ OPENLI_IMAP_STATE_AUTHENTICATING)
    (h2 : sess.currstate ≠ OPENLI_IMAP_STATE_IDLING)
    (h3 : sess.currstate ≠ OPENLI_IMAP_STATE_LOGOUT)
    (hbye : starts_with_bye (imapsess.contbuffer.drop imapsess.contbufread) = true) :
    find_next_imap_message env sess imapsess =
      some ({ sess with currstate := OPENLI_IMAP_STATE_SESSION_OVER }, imapsess, 0) := by
  rw [find_next_imap_message_words env sess imapsess h1 h2, imap_message_words_of_bye _ hbye]
  have hstar : ([42] : List Nat) = str "*" := by decide
  have hb : strcasecmp_eq [66, 89, 69] (str "BYE") = true := by decide
  simp only [classify_imap_message, hstar, if_true, hb, ne_eq, h3, not_false_eq_true, and_self]

theorem starts_with_bye_le (buf : List Nat) (r : Nat)
    (h : starts_with_bye (buf.drop r) = true) : r ≤ buf.length := by
  by_contra hlt
  have : buf.drop r = [] := List.drop_eq_nil_of_le (by omega)
  rw [this] at h
  exact absurd h (by decide)

theorem process_next_imap_state_bye (env : imap_env) (sess : emailsession)
    (imapsess : imap_session)
    (hnone : imapsess.next_command_type = OPENLI_IMAP_COMMAND_NONE)
    (h0 : sess.currstate ≠ OPENLI_IMAP_STATE_SERVER_READY)
    (h1 : sess.currstate ≠ OPENLI_IMAP_STATE_AUTHENTICATING)
    (h2 : sess.currstate ≠ OPENLI_IMAP_STATE_IDLING)
    (h3 : sess.currstate ≠ OPENLI_IMAP_STATE_LOGOUT)
    (hinit : sess.currstate = OPENLI_IMAP_STATE_INIT →
      strcasestr (imapsess.contbuffer.drop imapsess.contbufread) (str "* OK ") = none)
    (hbye : starts_with_bye (imapsess.contbuffer.drop imapsess.contbufread) = true) :
    process_next_imap_state env sess imapsess =
      some ({ sess with currstate := OPENLI_IMAP_STATE_SESSION_OVER }, imapsess, 0) := by
  by_cases hi : sess.currstate = OPENLI_IMAP_STATE_INIT
  · have hready : find_server_ready imapsess = (imapsess, 0) := by
      unfold find_server_ready
      rw [hinit hi]
      split <;> rfl
    have h01 : ¬ ((0 : Int) = 1) := by decide
    unfold process_next_imap_state
    simp only [hi, if_true, hready, h01, and_false, if_false, reduceCtorEq, hnone]
    rw [find_next_imap_message_bye env sess imapsess h1 h2 h3 hbye]
  · rw [process_next_imap_state_parsing env sess imapsess hi h0, if_pos hnone]
    exact find_next_imap_message_bye env sess imapsess h1 h2 h3 hbye

/-- C18 fails on the code as it is stated: a session that is IDLING (after the
greeting, `a1 IDLE` and the continuation line) receives `* BYE shutdown\r\n`;
the ingestion returns 0 and the session is still IDLING. -/
theorem bye_while_idling_is_ignored :
    (ingest_captures env_libb64 6 fresh_session
        [str "* OK imap ready\r\n", str "a1 IDLE\r\n", str "+ idling\r\n"]).map
      (fun s => s.currstate) = some OPENLI_IMAP_STATE_IDLING ∧
    ((ingest_captures env_libb64 6 fresh_session
        [str "* OK imap ready\r\n", str "a1 IDLE\r\n", str "+ idling\r\n"]).bind
      (fun s => update_imap_session_by_ingestion env_libb64 6 s (str "* BYE shutdown\r\n"))).map
      (fun r => (r.1.currstate, r.2)) = some (OPENLI_IMAP_STATE_IDLING, 0) := by
  decide

/-- C18 (as amended): in every session state other than LOGOUT, SERVER_READY,
AUTHENTICATING and IDLING, with no message pending, when the unread part of
the content buffer (the new content included) starts with an untagged
`* BYE` followed by a space or by CRLF (and, in the INIT state, holds no
`* OK ` greeting), `update_imap_session_by_ingestion` moves the session to
SESSION_OVER and returns 1; nothing else changes but the content buffer, which
has grown by the content. -/
theorem untagged_bye_ends_session (env : imap_env) (sess : emailsession)
    (imapsess : imap_session) (content : List Nat) (fuel : Nat)
    (hproto : sess.proto_state = some imapsess ∨
      (sess.proto_state = none ∧ imapsess = new_imap_session))
    (hnone : imapsess.next_command_type = OPENLI_IMAP_COMMAND_NONE)
    (h0 : sess.currstate ≠ OPENLI_IMAP_STATE_SERVER_READY)
    (h1 : sess.currstate ≠ OPENLI_IMAP_STATE_AUTHENTICATING)
    (h2 : sess.currstate ≠ OPENLI_IMAP_STATE_IDLING)
    (h3 : sess.currstate ≠ OPENLI_IMAP_STATE_LOGOUT)
    (hinit : sess.currstate = OPENLI_IMAP_STATE_INIT →
      strcasestr ((imapsess.contbuffer ++ content).drop imapsess.contbufread) (str "* OK ") =
        none)
    (hbye : starts_with_bye ((imapsess.contbuffer ++ content).drop imapsess.contbufread) = true)
    (hfuel : 1 ≤ fuel) :
    update_imap_session_by_ingestion env fuel sess content =
      some ({ sess with
              currstate := OPENLI_IMAP_STATE_SESSION_OVER,
              proto_state := some { imapsess with contbuffer := imapsess.contbuffer ++ content } },
            1) := by
  obtain ⟨n, rfl⟩ : ∃ n, fuel = n + 1 := ⟨fuel - 1, by omega⟩
  have hstep := process_next_imap_state_bye env sess
    (append_content_to_imap_buffer imapsess content) hnone h0 h1 h2 h3 hinit hbye
  have hsel : (match sess.proto_state with
      | none => new_imap_session
      | some s => s) = imapsess := by
    rcases hproto with h | ⟨h, rfl⟩ <;> rw [h]
  have h00 : (0 : Int) ≤ 0 := by decide
  unfold update_imap_session_by_ingestion
  simp only [hsel, imap_ingestion_loop, hstep, h00, if_true]
  rfl

theorem untagged_bye_ends_session_witness :
    update_imap_session_by_ingestion env_libb64 1 session_pre_auth (str "* BYE shutdown\r\n") =
      some ({ session_pre_auth with
              currstate := OPENLI_IMAP_STATE_SESSION_OVER,
              proto_state := some { new_imap_session with
                contbuffer := str "* OK imap ready\r\n" ++ str "* BYE shutdown\r\n",
                contbufread := 17 } }, 1) :=
  untagged_bye_ends_session env_libb64 session_pre_auth
    { new_imap_session with contbuffer := str "* OK imap ready\r\n", contbufread := 17 }
    (str "* BYE shutdown\r\n") 1 (Or.inl rfl) rfl (by decide) (by decide) (by decide) (by decide)
    (by decide) (by decide) (by decide)

/-- C17 fails on the code as it is stated: a session reaches SESSION_OVER by
the reply to its LOGOUT; a further capture `a2 IDLE\r\n` is then parsed like
any command: it is saved, `client_octets` grows from 11 to 20, the state
becomes IDLING and the ingestion returns 0; a capture `a2 NOOP\r\n` instead is
saved and counted as well, with the state left SESSION_OVER. -/
theorem session_over_still_parses :
    (ingest_captures env_libb64 6 fresh_session
        [str "* OK imap ready\r\n", str "a1 LOGOUT\r\n", str "a1 OK\r\n"]).map
      (fun s => (s.currstate, s.client_octets)) =
        some (OPENLI_IMAP_STATE_SESSION_OVER, 11) ∧
    ((ingest_captures env_libb64 6 fresh_session
        [str "* OK imap ready\r\n", str "a1 LOGOUT\r\n", str "a1 OK\r\n"]).bind
      (fun s => update_imap_session_by_ingestion env_libb64 6 s (str "a2 IDLE\r\n"))).map
      (fun r => (r.1.currstate, r.2, r.1.client_octets,
        (saved_command (some r) 1).map (fun c => c.tag))) =
        some (OPENLI_IMAP_STATE_IDLING, 0, 20, some (some (str "a2"))) ∧
    ((ingest_captures env_libb64 6 fresh_session
        [str "* OK imap ready\r\n", str "a1 LOGOUT\r\n", str "a1 OK\r\n"]).bind
      (fun s => update_imap_session_by_ingestion env_libb64 6 s (str "a2 NOOP\r\n"))).map
      (fun r => (r.1.currstate, r.2, r.1.client_octets,
        (saved_command (some r) 1).map (fun c => c.ccs))) =
        some (OPENLI_IMAP_STATE_SESSION_OVER, 1, 20, some [⟨0, 9, 1⟩]) := by
  refine ⟨?_, ?_, ?_⟩ <;> rfl

/-- C17 (as amended): a session that is in SESSION_OVER with the untagged
`* BYE` line that ended it still unread at the cursor (the BYE path never
consumes the line) stays there: after any captures `cs`, every further
ingestion returns 1 and changes nothing but the content buffer, which grows by
the content; the state stays SESSION_OVER, no command is saved, no CC record
is added, and `client_octets` and `server_octets` keep their values. -/
theorem session_over_by_bye_is_terminal (env : imap_env) (sess : emailsession)
    (imapsess : imap_session) (cs : List (List Nat)) (content : List Nat) (fuel : Nat)
    (hproto : sess.proto_state = some imapsess)
    (hstate : sess.currstate = OPENLI_IMAP_STATE_SESSION_OVER)
    (hnone : imapsess.next_command_type = OPENLI_IMAP_COMMAND_NONE)
    (hbye : starts_with_bye (imapsess.contbuffer.drop imapsess.contbufread) = true)
    (hfuel : 1 ≤ fuel) :
    ingest_captures env fuel sess cs = some (with_content sess imapsess cs.flatten) ∧
    update_imap_session_by_ingestion env fuel (with_content sess imapsess cs.flatten) content =
      some (with_content sess imapsess (cs ++ [content]).flatten, 1) := by
  have hle := starts_with_bye_le _ _ hbye
  have hone : ∀ (pre c : List Nat), update_imap_session_by_ingestion env fuel
      (with_content sess imapsess pre) c = some (with_content sess imapsess (pre ++ c), 1) := by
    intro pre c
    have hb : starts_with_bye (((imapsess.contbuffer ++ pre) ++ c).drop imapsess.contbufread) =
        true := by
      rw [List.append_assoc, List.drop_append_of_le_length hle]
      exact starts_with_bye_append _ _ hbye
    have h := untagged_bye_ends_session env (with_content sess imapsess pre)
      { imapsess with contbuffer := imapsess.contbuffer ++ pre } c fuel (Or.inl rfl) hnone
      (by show sess.currstate ≠ _; rw [hstate]; decide)
      (by show sess.currstate ≠ _; rw [hstate]; decide)
      (by show sess.currstate ≠ _; rw [hstate]; decide)
      (by show sess.currstate ≠ _; rw [hstate]; decide)
      (by
        intro hi
        have : sess.currstate = OPENLI_IMAP_STATE_INIT := hi
        rw [hstate] at this
        exact absurd this (by decide))
      hb hfuel
    rw [h]
    simp only [with_content, List.append_assoc, ← hstate]
  have hall : ∀ (l : List (List Nat)) (pre : List Nat), ingest_captures env fuel
      (with_content sess imapsess pre) l =
        some (with_content sess imapsess (pre ++ l.flatten)) := by
    intro l
    induction l with
    | nil =>
      intro pre
      simp [ingest_captures]
    | cons c l ih =>
      intro pre
      simp only [ingest_captures, hone pre c, ih (pre ++ c), List.flatten_cons, List.append_assoc]
  constructor
  · have h := hall cs []
    simp only [List.nil_append] at h
    have e : with_content sess imapsess [] = sess := by
      cases sess
      simp only [with_content, List.append_nil, emailsession.mk.injEq, true_and] at hproto ⊢
      rw [hproto]
    rw [e] at h
    exact h
  · rw [hone cs.flatten content]
    simp [List.flatten_append]

theorem session_over_by_bye_is_terminal_witness :
    ingest_captures env_libb64 1 session_over_by_bye [str "a2 NOOP\r\n"] =
      some (with_content session_over_by_bye
        { new_imap_session with
          contbuffer := str "* OK imap ready\r\n* BYE shutdown\r\n", contbufread := 17 }
        [str "a2 NOOP\r\n"].flatten) :=
  (session_over_by_bye_is_terminal env_libb64 session_over_by_bye
    { new_imap_session with
      contbuffer := str "* OK imap ready\r\n* BYE shutdown\r\n", contbufread := 17 }
    [str "a2 NOOP\r\n"] (str "a3 NOOP\r\n") 1 rfl rfl rfl (by decide) (by decide)).1

/-! ## The IMAP tracker: SASL mechanisms other than PLAIN -/

/-- C16 fails on the code: after the greeting the client issues
`a1 AUTHENTICATE GSSAPI\r\n`, the server answers `a1 OK\r\n` and the client
goes on with `a2 NOOP\r\n`. `get_auth_type` rejects the mechanism, so
`find_command_end` returns 0 with the AUTHENTICATE command still pending: at
every later ingestion the same line is saved again (into slot 1, whose
command name stays unset), the read cursor stays behind it at 41, the state is
AUTHENTICATING each time, and neither the reply nor the NOOP is ever parsed
(no saved command has the tag `a2`, `server_octets` stays at the 17 bytes of
the greeting). -/
theorem non_plain_authenticate_stalls :
    (ingest_captures env_libb64 6 fresh_session
        [str "* OK imap ready\r\n", str "a1 AUTHENTICATE GSSAPI\r\n"]).map
      (fun s => (s.currstate, s.proto_state.map
        (fun i => (i.contbufread, i.next_command_type, i.mailbox)))) =
      some (OPENLI_IMAP_STATE_AUTHENTICATING,
        some (41, OPENLI_IMAP_COMMAND_AUTH, none)) ∧
    (ingest_captures env_libb64 6 fresh_session
        [str "* OK imap ready\r\n", str "a1 AUTHENTICATE GSSAPI\r\n", str "a1 OK\r\n"]).map
      (fun s => (s.currstate, s.server_octets, s.proto_state.map
        (fun i => (i.contbufread, i.contbuffer.length, i.next_command_type)))) =
      some (OPENLI_IMAP_STATE_AUTHENTICATING, 17,
        some (41, 48, OPENLI_IMAP_COMMAND_AUTH)) ∧
    (ingest_captures env_libb64 6 fresh_session
        [str "* OK imap ready\r\n", str "a1 AUTHENTICATE GSSAPI\r\n", str "a1 OK\r\n",
         str "a2 NOOP\r\n"]).map
      (fun s => (s.currstate, s.client_octets, s.server_octets, s.proto_state.map
        (fun i => (i.contbufread, i.contbuffer.length, i.mailbox,
          i.commands.map (fun c => (c.tag, c.ccs.length)))))) =
      some (OPENLI_IMAP_STATE_AUTHENTICATING, 0, 17,
        some (41, 57, none,
          [(some (str "a1"), 1), (none, 2), (none, 0), (none, 0), (none, 0)])) := by
  refine ⟨?_, ?_, ?_⟩ <;> rfl

/-! ## The IMAP tracker: lines, commands and replies -/

theorem imap_message_words_space (tag w rest : List Nat) (htag : ∀ c ∈ tag, c ≠ 32)
    (hw : ∀ c ∈ w, c ≠ 32 ∧ c ≠ 13) :
    imap_message_words (tag ++ 32 :: (w ++ 32 :: rest)) = some (tag, w) := by
  have hsp : find_sub [32] (tag ++ 32 :: (w ++ 32 :: rest)) = some tag.length :=
    find_sub_single 32 tag _ htag
  have hs2 : find_sub [32] (w ++ 32 :: rest) = some w.length :=
    find_sub_single 32 w _ (fun c h => (hw c h).1)
  have hdrop : (tag ++ 32 :: (w ++ 32 :: rest)).drop (tag.length + 1) = w ++ 32 :: rest := by
    rw [List.drop_append]
    rfl
  unfold imap_message_words
  simp only [hsp, hdrop, hs2, List.take_left]
  cases hc : find_sub [13, 10] (w ++ 32 :: rest) with
  | none => simp only [List.take_left]
  | some c =>
    have hat := (find_sub_crlf_at _ c hc).1
    have hge : ¬ (c < w.length) := by
      intro hlt
      rw [List.getElem?_append_left hlt] at hat
      exact (hw 13 (List.getElem?_mem hat)).2 rfl
    simp only [hge, if_false, List.take_left]

theorem imap_message_words_crlf (tag w rest : List Nat) (htag : ∀ c ∈ tag, c ≠ 32)
    (hw : ∀ c ∈ w, c ≠ 32 ∧ c ≠ 13) :
    imap_message_words (tag ++ 32 :: (w ++ 13 :: 10 :: rest)) = some (tag, w) := by
  have hsp : find_sub [32] (tag ++ 32 :: (w ++ 13 :: 10 :: rest)) = some tag.length :=
    find_sub_single 32 tag _ htag
  have hc : find_sub [13, 10] (w ++ 13 :: 10 :: rest) = some w.length :=
    find_sub_crlf w _ (fun c h => (hw c h).2)
  have hdrop : (tag ++ 32 :: (w ++ 13 :: 10 :: rest)).drop (tag.length + 1) =
      w ++ 13 :: 10 :: rest := by
    rw [List.drop_append]
    rfl
  unfold imap_message_words
  simp only [hsp, hdrop, hc, List.take_left]
  cases hs : find_sub [32] (w ++ 13 :: 10 :: rest) with
  | none => simp only [List.take_left]
  | some s =>
    have hat := find_sub_single_at 32 _ s hs
    have hlt : w.length < s := by
      by_contra hle
      rcases Nat.lt_or_ge s w.length with h | h
      · rw [List.getElem?_append_left h] at hat
        exact (hw 32 (List.getElem?_mem hat)).1 rfl
      · have hs : s = w.length := by omega
        subst hs
        rw [List.getElem?_append_right (le_refl _)] at hat
        simp at hat
    simp only [hlt, if_true, List.take_left]

theorem find_next_crlf_at (sess : imap_session) (start : Nat) (body rest : List Nat)
    (hdrop : sess.contbuffer.drop start = body ++ 13 :: 10 :: rest)
    (hbody : ∀ c ∈ body, c ≠ 13) :
    find_next_crlf sess start = ({ sess with contbufread := start + body.length + 2 }, 1) := by
  unfold find_next_crlf
  rw [hdrop, find_sub_crlf body rest hbody]

theorem find_next_crlf_none (sess : imap_session) (start : Nat)
    (h : find_sub [13, 10] (sess.contbuffer.drop start) = none) :
    find_next_crlf sess start = (sess, 0) := by
  unfold find_next_crlf
  rw [h]

theorem take_of_drop_eq (l : List Nat) (start : Nat) (body rest : List Nat)
    (h : l.drop start = body ++ rest) : (l.drop start).take body.length = body := by
  rw [h, List.take_left]

theorem find_reply_end_line (sess : emailsession) (imapsess : imap_session)
    (comm : imap_command) (j : Nat) (body rest rep name : List Nat)
    (hdrop : imapsess.contbuffer.drop imapsess.next_comm_start = body ++ 13 :: 10 :: rest)
    (hbody : ∀ c ∈ body, c ≠ 13)
    (hcopy : (imapsess.contbuffer.drop imapsess.reply_start).take
      (imapsess.next_comm_start + body.length + 2 - imapsess.reply_start) = rep)
    (hfind : find_command_by_tag imapsess.next_comm_tag imapsess.commands = some j)
    (hslot : imapsess.commands[j]? = some comm)
    (hname : comm.imap_command = some name)
    (hlogout : strcasecmp_eq name (str "LOGOUT") = false) :
    find_reply_end sess imapsess =
      ({ sess with
         server_octets := sess.server_octets + (body.length + 2),
         currstate := if strcasecmp_eq name (str "AUTHENTICATE") then
                        OPENLI_IMAP_STATE_AUTHENTICATED else sess.currstate },
       { imapsess with
         contbufread := imapsess.next_comm_start + body.length + 2,
         commands := imapsess.commands.set j
                       ⟨comm.commbuffer ++ rep, comm.imap_command, comm.tag,
                        imapsess.next_command_name,
                        comm.ccs ++ [⟨comm.commbuffer.length, (comm.commbuffer ++ rep).length, 0⟩],
                        comm.reply_start, (comm.commbuffer ++ rep).length⟩,
         next_comm_tag := none, next_command_name := none,
         next_command_type := OPENLI_IMAP_COMMAND_NONE, next_comm_start := 0,
         reply_start := 0 }, 1) := by
  have hcrlf := find_next_crlf_at imapsess imapsess.next_comm_start body rest hdrop hbody
  have h10 : ¬ ((1 : Int) = 0) := by decide
  have h1lt : ¬ ((1 : Int) < 0) := by decide
  have hsub : imapsess.next_comm_start + body.length + 2 - imapsess.next_comm_start =
      body.length + 2 := by omega
  unfold find_reply_end
  simp only [hcrlf, h10, if_false, save_imap_reply, hfind, hslot, hcopy, add_cc_to_imap_command,
    h1lt, hname, hlogout, Bool.false_eq_true, hsub]
  by_cases ha : strcasecmp_eq name (str "AUTHENTICATE") = true
  · simp only [ha, if_true]
  · simp only [ha, Bool.false_eq_true, if_false]

theorem find_command_end_line (env : imap_env) (sess : emailsession)
    (imapsess : imap_session) (c0 : imap_command) (i : Nat) (body rest : List Nat)
    (hdrop : imapsess.contbuffer.drop imapsess.next_comm_start = body ++ 13 :: 10 :: rest)
    (hbody : ∀ c ∈ body, c ≠ 13)
    (hfree : first_free_command imapsess.commands = some i)
    (hslot : imapsess.commands[i]? = some c0)
    (hauth : imapsess.next_command_type ≠ OPENLI_IMAP_COMMAND_AUTH)
    (hid : imapsess.next_command_type ≠ OPENLI_IMAP_COMMAND_ID) :
    find_command_end env sess imapsess =
      ({ sess with
         client_octets := sess.client_octets + (body.length + 2),
         currstate :=
           if imapsess.next_command_type = OPENLI_IMAP_COMMAND_LOGOUT then
             OPENLI_IMAP_STATE_LOGOUT
           else if imapsess.next_command_type = OPENLI_IMAP_COMMAND_IDLE then
             OPENLI_IMAP_STATE_IDLING
           else sess.currstate },
       { imapsess with
         contbufread := imapsess.next_comm_start + body.length + 2,
         commands := imapsess.commands.set i
                       ⟨c0.commbuffer ++ (body ++ [13, 10]), imapsess.next_command_name,
                        imapsess.next_comm_tag, c0.imap_reply,
                        c0.ccs ++ [⟨c0.commbuffer.length,
                          (c0.commbuffer ++ (body ++ [13, 10])).length, 1⟩],
                        (c0.commbuffer ++ (body ++ [13, 10])).length, 0⟩,
         next_comm_tag := none, next_command_name := none,
         idle_command_index :=
           if imapsess.next_command_type = OPENLI_IMAP_COMMAND_IDLE then (i : Int)
           else imapsess.idle_command_index,
         next_command_type := OPENLI_IMAP_COMMAND_NONE, next_comm_start := 0,
         reply_start := 0 }, 1) := by
  have hcrlf := find_next_crlf_at imapsess imapsess.next_comm_start body rest hdrop hbody
  have h10 : ¬ ((1 : Int) = 0) := by decide
  have hi : ¬ ((i : Int) < 0) := by omega
  have hsub : imapsess.next_comm_start + body.length + 2 - imapsess.next_comm_start =
      body.length + 2 := by omega
  have hcopy : (imapsess.contbuffer.drop imapsess.next_comm_start).take (body.length + 2) =
      body ++ [13, 10] := by
    rw [hdrop]
    have e : body ++ 13 :: 10 :: rest = (body ++ [13, 10]) ++ rest := by simp
    have e2 : body.length + 2 = (body ++ [13, 10]).length := by simp
    rw [e, e2, List.take_left]
  unfold find_command_end
  simp only [hcrlf, h10, if_false, save_imap_command, hfree, hslot, hsub, hcopy,
    add_cc_to_imap_command, hi, hauth, hid]
  by_cases hl : imapsess.next_command_type = OPENLI_IMAP_COMMAND_LOGOUT
  · have hidle : ¬ (OPENLI_IMAP_COMMAND_LOGOUT = OPENLI_IMAP_COMMAND_IDLE) := by decide
    simp only [hl, if_true, hidle, if_false]
  · by_cases hd : imapsess.next_command_type = OPENLI_IMAP_COMMAND_IDLE
    · simp only [hd, if_true, if_false, reduceCtorEq]
    · simp only [hl, hd, if_false]

theorem find_command_end_plain_eq (env : imap_env) (sess : emailsession)
    (imapsess : imap_session) (c0 : imap_command) (i : Nat)
    (tag tok authzid authcid password : List Nat)
    (htype : imapsess.next_command_type = OPENLI_IMAP_COMMAND_AUTH)
    (hstart : imapsess.auth_read_from = imapsess.next_comm_start)
    (hdrop : imapsess.contbuffer.drop imapsess.next_comm_start = auth_plain_line tag tok)
    (hatag : imapsess.auth_tag = some tag)
    (hntag : imapsess.next_comm_tag = some tag)
    (hnname : imapsess.next_command_name = some (str "AUTHENTICATE"))
    (hauth : imapsess.auth_type = OPENLI_IMAP_AUTH_NONE)
    (hfree : first_free_command imapsess.commands = some i)
    (hslot : imapsess.commands[i]? = some c0)
    (hbuf : c0.commbuffer = []) (hccs : c0.ccs = [])
    (hne : tag ≠ [])
    (htag : ∀ c ∈ tag, c ≠ 0 ∧ c ≠ 32 ∧ c ≠ 13)
    (htok : ∀ c ∈ tok, c ≠ 0 ∧ c ≠ 32 ∧ c ≠ 13)
    (hplus : tok.head? ≠ some 43)
    (hdec : env.b64.decode (tok ++ [13, 10]) = authzid ++ 0 :: (authcid ++ 0 :: password))
    (hzid : ∀ c ∈ authzid, c ≠ 0 ∧ c ≠ 32) (hlen : authzid.length + 8 ≤ 2047)
    (henc : ∀ c ∈ redacted_token env authzid, c ≠ 0) :
    find_command_end env sess imapsess =
      ({ sess with
         currstate := OPENLI_IMAP_STATE_AUTHENTICATED,
         client_octets := sess.client_octets + (tag.length + 20) +
                            (redacted_token env authzid ++ [13, 10]).length,
         participants := sess.participants ++ [authzid] },
       { imapsess with
         contbufread := imapsess.next_comm_start + (auth_plain_line tag tok).length,
         commands := imapsess.commands.set i
                       ⟨tag ++ str " AUTHENTICATE PLAIN " ++ (redacted_token env authzid ++ [13, 10]),
                        some (str "AUTHENTICATE"), some tag, c0.imap_reply,
                        [⟨0, (tag ++ str " AUTHENTICATE PLAIN " ++
                               (redacted_token env authzid ++ [13, 10])).length, 1⟩],
                        (tag ++ str " AUTHENTICATE PLAIN " ++
                          (redacted_token env authzid ++ [13, 10])).length, 0⟩,
         mailbox := some authzid, reply_start := 0, next_comm_start := 0,
         next_command_type := OPENLI_IMAP_COMMAND_NONE, next_comm_tag := none,
         next_command_name := none, auth_command_index := (i : Int),
         auth_read_from := imapsess.auth_read_from + (tag.length + 20),
         auth_type := OPENLI_IMAP_AUTH_PLAIN }, 1) := by
  have hlt : i < imapsess.commands.length := by
    rcases List.getElem?_eq_some_iff.mp hslot with ⟨h, _⟩
    exact h
  have hcrlf := find_next_crlf_line imapsess tag tok imapsess.next_comm_start hdrop htag htok
  have hsave := save_imap_command_line
    { imapsess with contbufread := imapsess.next_comm_start + (auth_plain_line tag tok).length }
    c0 i (auth_plain_line tag tok) hfree hslot hbuf hccs hdrop rfl
  have hdecode := decode_authentication_command_line env
    { sess with currstate := OPENLI_IMAP_STATE_AUTHENTICATING }
    { (save_imap_command { imapsess with
        contbufread := imapsess.next_comm_start + (auth_plain_line tag tok).length }).1 with
      auth_command_index := (i : Int) }
    tag tok hne (by rw [hsave]; exact hauth) (by rw [hsave, hstart]; exact hdrop)
    (by rw [hsave, hstart]) htag htok
  have hplain := decode_plain_auth_content_line env
    { sess with currstate := OPENLI_IMAP_STATE_AUTHENTICATING,
                client_octets := sess.client_octets + (tag.length + 20) }
    { (save_imap_command { imapsess with
        contbufread := imapsess.next_comm_start + (auth_plain_line tag tok).length }).1 with
      auth_command_index := (i : Int), auth_type := OPENLI_IMAP_AUTH_PLAIN,
      auth_read_from := imapsess.auth_read_from + (tag.length + 20) }
    ⟨auth_plain_line tag tok, some (str "AUTHENTICATE"), some tag, c0.imap_reply,
      [⟨0, (auth_plain_line tag tok).length, 1⟩], (auth_plain_line tag tok).length, 0⟩
    ⟨0, (auth_plain_line tag tok).length, 1⟩ i tag tok authzid authcid password rfl
    (by rw [hsave]; simp [hlt, hnname, hntag]) (by rw [hsave]; exact hatag.symm) rfl rfl rfl
    htag htok hplus hdec hzid hlen henc
  have h10 : ¬ ((1 : Int) = 0) := by decide
  have hi : ¬ ((i : Int) < 0) := by omega
  simp only [hsave] at hdecode hplain
  simp only [htype] at hdecode hplain
  unfold find_command_end
  simp only [hcrlf, h10, if_false, hsave, hi]
  simp only [htype, if_true, hdecode, hplain, List.set_set]

/-! ## The IMAP tracker: the mailbox of a PLAIN authentication -/

theorem find_sub_of_isPrefixOf (needle hay : List Nat) (hne : hay ≠ [])
    (h : needle.isPrefixOf hay = true) : find_sub needle hay = some 0 := by
  cases hay with
  | nil => exact absurd rfl hne
  | cons a hay => simp [find_sub, h]

theorem process_next_imap_state_greeting (env : imap_env) (sess : emailsession)
    (imapsess : imap_session) (text rest : List Nat)
    (hstate : sess.currstate = OPENLI_IMAP_STATE_INIT)
    (hdrop : imapsess.contbuffer.drop imapsess.contbufread =
      str "* OK " ++ text ++ 13 :: 10 :: rest)
    (htext : ∀ c ∈ text, c ≠ 0 ∧ c ≠ 13) :
    process_next_imap_state env sess imapsess =
      some ({ sess with currstate := OPENLI_IMAP_STATE_PRE_AUTH,
                        server_octets := sess.server_octets + (5 + text.length + 2) },
            { imapsess with contbufread := imapsess.contbufread + (5 + text.length) + 2,
                            next_comm_start := 0,
                            next_command_type := OPENLI_IMAP_COMMAND_NONE }, 1) := by
  have hlit : str "* OK " = [42, 32, 79, 75, 32] := by decide
  have hlen : ¬ (imapsess.contbuffer.length - imapsess.contbufread < 5) := by
    have h := congrArg List.length hdrop
    rw [List.length_drop, hlit] at h
    simp only [List.length_append, List.length_cons, List.length_nil] at h
    omega
  have hcase : strcasestr (imapsess.contbuffer.drop imapsess.contbufread) (str "* OK ") =
      some 0 := by
    unfold strcasestr
    apply find_sub_of_isPrefixOf
    · rw [hdrop, hlit]
      simp [cstr]
    · rw [hdrop, hlit, List.append_assoc,
        cstr_append_of_no_nul [42, 32, 79, 75, 32] _ (by decide), List.map_append,
        List.isPrefixOf_iff_prefix]
      exact ⟨_, rfl⟩
  have hready : find_server_ready imapsess =
      ({ imapsess with next_comm_start := imapsess.contbufread + 0,
                       next_command_type := OPENLI_IMAP_COMMAND_SERVREADY }, 1) := by
    unfold find_server_ready
    simp only [hlen, if_false, hcase]
  have hbody : ∀ c ∈ str "* OK " ++ text, c ≠ 13 := by
    intro c hc
    rcases List.mem_append.mp hc with h | h
    · rw [hlit] at h
      have hl : ∀ y ∈ [42, 32, 79, 75, 32], y ≠ 13 := by decide
      exact hl c h
    · exact (htext c h).2
  have hend := find_next_crlf_at
    { imapsess with next_comm_start := imapsess.contbufread + 0,
                    next_command_type := OPENLI_IMAP_COMMAND_SERVREADY }
    (imapsess.contbufread + 0) (str "* OK " ++ text) rest
    (by rw [Nat.add_zero]; exact hdrop) hbody
  have hblen : (str "* OK " ++ text).length = 5 + text.length := by
    rw [hlit]
    simp
    omega
  rw [hblen] at hend
  have h11 : (1 : Int) = 1 := rfl
  have h10 : ¬ ((1 : Int) = 0) := by decide
  unfold process_next_imap_state
  simp only [hstate, if_true, hready, and_self, find_server_ready_end, hend, h10, if_false]
  have e : imapsess.contbufread + (5 + text.length) + 2 - imapsess.contbufread =
      5 + text.length + 2 := by omega
  simp only [Nat.add_zero, e]

theorem process_next_imap_state_consumed (env : imap_env) (sess : emailsession)
    (imapsess : imap_session)
    (h0 : sess.currstate ≠ OPENLI_IMAP_STATE_INIT)
    (h1 : sess.currstate ≠ OPENLI_IMAP_STATE_SERVER_READY)
    (h2 : sess.currstate ≠ OPENLI_IMAP_STATE_AUTHENTICATING)
    (h3 : sess.currstate ≠ OPENLI_IMAP_STATE_IDLING)
    (hnone : imapsess.next_command_type = OPENLI_IMAP_COMMAND_NONE)
    (hread : imapsess.contbuffer.drop imapsess.contbufread = []) :
    process_next_imap_state env sess imapsess = some (sess, imapsess, 0) := by
  rw [process_next_imap_state_parsing env sess imapsess h0 h1, if_pos hnone]
  exact find_next_imap_message_empty env sess imapsess h2 h3 hread

theorem imap_ingestion_loop_greeting (env : imap_env) (sess : emailsession)
    (imapsess : imap_session) (text : List Nat) (n : Nat)
    (hstate : sess.currstate = OPENLI_IMAP_STATE_INIT)
    (hdrop : imapsess.contbuffer.drop imapsess.contbufread = str "* OK " ++ text ++ [13, 10])
    (htext : ∀ c ∈ text, c ≠ 0 ∧ c ≠ 13) :
    imap_ingestion_loop env (n + 2) sess imapsess =
      some ({ sess with currstate := OPENLI_IMAP_STATE_PRE_AUTH,
                        server_octets := sess.server_octets + (5 + text.length + 2) },
            { imapsess with contbufread := imapsess.contbufread + (5 + text.length) + 2,
                            next_comm_start := 0,
                            next_command_type := OPENLI_IMAP_COMMAND_NONE }) := by
  have hstep1 := process_next_imap_state_greeting env sess imapsess text [] hstate hdrop htext
  have hlit : str "* OK " = [42, 32, 79, 75, 32] := by decide
  have hlen : imapsess.contbuffer.length = imapsess.contbufread + (5 + text.length + 2) := by
    have h := congrArg List.length hdrop
    rw [List.length_drop, hlit] at h
    simp only [List.length_append, List.length_cons, List.length_nil] at h
    omega
  have hstep2 := process_next_imap_state_consumed env
    { sess with currstate := OPENLI_IMAP_STATE_PRE_AUTH,
                server_octets := sess.server_octets + (5 + text.length + 2) }
    { imapsess with contbufread := imapsess.contbufread + (5 + text.length) + 2,
                    next_comm_start := 0,
                    next_command_type := OPENLI_IMAP_COMMAND_NONE }
    (by show OPENLI_IMAP_STATE_PRE_AUTH ≠ _; decide)
    (by show OPENLI_IMAP_STATE_PRE_AUTH ≠ _; decide)
    (by show OPENLI_IMAP_STATE_PRE_AUTH ≠ _; decide)
    (by show OPENLI_IMAP_STATE_PRE_AUTH ≠ _; decide) rfl
    (by
      apply List.drop_eq_nil_of_le
      show imapsess.contbuffer.length ≤ imapsess.contbufread + (5 + text.length) + 2
      omega)
  have h10 : ¬ ((1 : Int) ≤ 0) := by decide
  have h00 : (0 : Int) ≤ 0 := by decide
  simp only [imap_ingestion_loop, hstep1, h10, if_false, hstep2, h00, if_true]

theorem update_of_loop (env : imap_env) (fuel : Nat) (sess sess1 : emailsession)
    (imapsess imapsess1 : imap_session) (content : List Nat)
    (hproto : (match sess.proto_state with
      | none => new_imap_session
      | some s => s) = imapsess)
    (hloop : imap_ingestion_loop env fuel sess (append_content_to_imap_buffer imapsess content) =
      some (sess1, imapsess1)) :
    update_imap_session_by_ingestion env fuel sess content =
      some ({ sess1 with proto_state := some imapsess1 },
        if sess1.currstate = OPENLI_IMAP_STATE_SESSION_OVER then 1 else 0) := by
  unfold update_imap_session_by_ingestion
  simp only [hproto, hloop]
  split <;> rfl

theorem update_greeting (env : imap_env) (sess : emailsession) (text : List Nat) (fuel : Nat)
    (hproto : sess.proto_state = none)
    (hstate : sess.currstate = OPENLI_IMAP_STATE_INIT)
    (htext : ∀ c ∈ text, c ≠ 0 ∧ c ≠ 13) (hfuel : 2 ≤ fuel) :
    ∃ imapsess,
      update_imap_session_by_ingestion env fuel sess (str "* OK " ++ text ++ [13, 10]) =
        some ({ sess with
                currstate := OPENLI_IMAP_STATE_PRE_AUTH,
                server_octets := sess.server_octets + (5 + text.length + 2),
                proto_state := some imapsess }, 0) ∧
      imapsess.contbuffer = str "* OK " ++ text ++ [13, 10] ∧
      imapsess.contbufread = imapsess.contbuffer.length ∧
      imapsess.commands = List.replicate 5 init_imap_command ∧
      imapsess.next_command_type = OPENLI_IMAP_COMMAND_NONE ∧
      imapsess.reply_start = 0 ∧
      imapsess.auth_type = OPENLI_IMAP_AUTH_NONE ∧
      imapsess.mailbox = none := by
  obtain ⟨n, rfl⟩ : ∃ n, fuel = n + 2 := ⟨fuel - 2, by omega⟩
  have hlit : str "* OK " = [42, 32, 79, 75, 32] := by decide
  obtain ⟨im0, hg⟩ : ∃ im0, append_content_to_imap_buffer new_imap_session
      (str "* OK " ++ text ++ [13, 10]) = im0 := ⟨_, rfl⟩
  have hb : im0.contbuffer = str "* OK " ++ text ++ [13, 10] := by
    rw [← hg]
    simp [append_content_to_imap_buffer, new_imap_session]
  have hr : im0.contbufread = 0 := by rw [← hg]; rfl
  have hloop := imap_ingestion_loop_greeting env sess im0 text n hstate
    (by rw [hb, hr, List.drop_zero]) htext
  have hupd := update_of_loop env (n + 2) sess
    { sess with currstate := OPENLI_IMAP_STATE_PRE_AUTH,
                server_octets := sess.server_octets + (5 + text.length + 2) }
    new_imap_session
    { im0 with contbufread := im0.contbufread + (5 + text.length) + 2,
               next_comm_start := 0,
               next_command_type := OPENLI_IMAP_COMMAND_NONE }
    (str "* OK " ++ text ++ [13, 10]) (by rw [hproto]) (by rw [hg]; exact hloop)
  have hs : OPENLI_IMAP_STATE_PRE_AUTH ≠ OPENLI_IMAP_STATE_SESSION_OVER := by decide
  simp only [hs, if_false] at hupd
  refine ⟨{ im0 with contbufread := im0.contbufread + (5 + text.length) + 2,
                     next_comm_start := 0,
                     next_command_type := OPENLI_IMAP_COMMAND_NONE }, hupd, hb, ?_, ?_, rfl, ?_, ?_,
    ?_⟩
  · show im0.contbufread + (5 + text.length) + 2 = im0.contbuffer.length
    rw [hb, hr, hlit]
    simp
    omega
  · rw [← hg]; rfl
  · rw [← hg]; rfl
  · rw [← hg]; rfl
  · rw [← hg]; rfl

theorem imap_ingestion_loop_plain_eq (env : imap_env) (sess : emailsession)
    (imapsess : imap_session) (c0 : imap_command) (i n : Nat)
    (tag tok authzid authcid password : List Nat)
    (hstate : sess.currstate = OPENLI_IMAP_STATE_PRE_AUTH)
    (hnone : imapsess.next_command_type = OPENLI_IMAP_COMMAND_NONE)
    (hdrop : imapsess.contbuffer.drop imapsess.contbufread = auth_plain_line tag tok)
    (hauth : imapsess.auth_type = OPENLI_IMAP_AUTH_NONE)
    (hfree : first_free_command imapsess.commands = some i)
    (hslot : imapsess.commands[i]? = some c0)
    (hbuf : c0.commbuffer = []) (hccs : c0.ccs = [])
    (hne : tag ≠ []) (hstar : tag ≠ str "*")
    (htag : ∀ c ∈ tag, c ≠ 0 ∧ c ≠ 32 ∧ c ≠ 13)
    (htok : ∀ c ∈ tok, c ≠ 0 ∧ c ≠ 32 ∧ c ≠ 13)
    (hplus : tok.head? ≠ some 43)
    (hdec : env.b64.decode (tok ++ [13, 10]) = authzid ++ 0 :: (authcid ++ 0 :: password))
    (hzid : ∀ c ∈ authzid, c ≠ 0 ∧ c ≠ 32) (hlen : authzid.length + 8 ≤ 2047)
    (henc : ∀ c ∈ redacted_token env authzid, c ≠ 0) :
    ∃ imapsess1,
      imap_ingestion_loop env (n + 3) sess imapsess =
        some ({ sess with
                currstate := OPENLI_IMAP_STATE_AUTHENTICATED,
                client_octets := sess.client_octets + (tag.length + 20) +
                                   (redacted_token env authzid ++ [13, 10]).length,
                participants := sess.participants ++ [authzid] }, imapsess1) ∧
      imapsess1.contbuffer = imapsess.contbuffer ∧
      imapsess1.contbufread = imapsess.contbuffer.length ∧
      imapsess1.commands = imapsess.commands.set i
        ⟨tag ++ str " AUTHENTICATE PLAIN " ++ (redacted_token env authzid ++ [13, 10]),
         some (str "AUTHENTICATE"), some tag, c0.imap_reply,
         [⟨0, (tag ++ str " AUTHENTICATE PLAIN " ++
                (redacted_token env authzid ++ [13, 10])).length, 1⟩],
         (tag ++ str " AUTHENTICATE PLAIN " ++ (redacted_token env authzid ++ [13, 10])).length,
         0⟩ ∧
      imapsess1.next_command_type = OPENLI_IMAP_COMMAND_NONE ∧
      imapsess1.reply_start = 0 ∧
      imapsess1.mailbox = some authzid := by
  have hlen0 : imapsess.contbuffer.length =
      imapsess.contbufread + (auth_plain_line tag tok).length := by
    have h := congrArg List.length hdrop
    rw [List.length_drop] at h
    have hpos : 0 < (auth_plain_line tag tok).length := by
      rw [auth_plain_line_length]
      omega
    omega
  have hs1 : sess.currstate ≠ OPENLI_IMAP_STATE_INIT := by rw [hstate]; decide
  have hs2 : sess.currstate ≠ OPENLI_IMAP_STATE_SERVER_READY := by rw [hstate]; decide
  have hstep1 : process_next_imap_state env sess imapsess = _ :=
    (process_next_imap_state_parsing env sess imapsess hs1 hs2).trans
      ((if_pos hnone).trans
        (find_next_imap_message_authenticate env sess imapsess tag tok hstate hdrop htag hstar
          htok))
  have hfce := find_command_end_plain_eq env
      { sess with currstate := OPENLI_IMAP_STATE_AUTH_STARTED }
      { imapsess with next_command_type := OPENLI_IMAP_COMMAND_AUTH, auth_tag := some tag,
                      auth_read_from := imapsess.contbufread, next_comm_tag := some tag,
                      next_command_name := some (str "AUTHENTICATE"),
                      next_comm_start := imapsess.contbufread }
      c0 i tag tok authzid authcid password rfl rfl hdrop rfl rfl rfl hauth hfree hslot hbuf hccs
      hne htag htok hplus hdec hzid hlen henc
  obtain ⟨s2, hs2def⟩ : ∃ s2 : emailsession, s2 = { sess with
      currstate := OPENLI_IMAP_STATE_AUTHENTICATED,
      client_octets := sess.client_octets + (tag.length + 20) +
                         (redacted_token env authzid ++ [13, 10]).length,
      participants := sess.participants ++ [authzid] } := ⟨_, rfl⟩
  obtain ⟨i2, hi2def⟩ : ∃ i2 : imap_session, i2 = { imapsess with
      contbufread := imapsess.contbufread + (auth_plain_line tag tok).length,
      commands := imapsess.commands.set i
                    ⟨tag ++ str " AUTHENTICATE PLAIN " ++ (redacted_token env authzid ++ [13, 10]),
                     some (str "AUTHENTICATE"), some tag, c0.imap_reply,
                     [⟨0, (tag ++ str " AUTHENTICATE PLAIN " ++
                            (redacted_token env authzid ++ [13, 10])).length, 1⟩],
                     (tag ++ str " AUTHENTICATE PLAIN " ++
                       (redacted_token env authzid ++ [13, 10])).length, 0⟩,
      mailbox := some authzid, reply_start := 0, next_comm_start := 0,
      next_command_type := OPENLI_IMAP_COMMAND_NONE, next_comm_tag := none,
      next_command_name := none, auth_command_index := (i : Int),
      auth_read_from := imapsess.contbufread + (tag.length + 20),
      auth_type := OPENLI_IMAP_AUTH_PLAIN, auth_tag := some tag } := ⟨_, rfl⟩
  have hstep2b : process_next_imap_state env
      { sess with currstate := OPENLI_IMAP_STATE_AUTH_STARTED }
      { imapsess with next_command_type := OPENLI_IMAP_COMMAND_AUTH, auth_tag := some tag,
                      auth_read_from := imapsess.contbufread, next_comm_tag := some tag,
                      next_command_name := some (str "AUTHENTICATE"),
                      next_comm_start := imapsess.contbufread } = some (s2, i2, 1) := by
    have ha : OPENLI_IMAP_STATE_AUTH_STARTED ≠ OPENLI_IMAP_STATE_INIT := by decide
    have hb : OPENLI_IMAP_STATE_AUTH_STARTED ≠ OPENLI_IMAP_STATE_SERVER_READY := by decide
    rw [process_next_imap_state_parsing _ _ _ ha hb]
    simp only [reduceCtorEq, if_false]
    rw [hfce, hs2def, hi2def]
  have hstep3 : process_next_imap_state env s2 i2 = some (s2, i2, 0) := by
    apply process_next_imap_state_consumed
    · rw [hs2def]; show OPENLI_IMAP_STATE_AUTHENTICATED ≠ _; decide
    · rw [hs2def]; show OPENLI_IMAP_STATE_AUTHENTICATED ≠ _; decide
    · rw [hs2def]; show OPENLI_IMAP_STATE_AUTHENTICATED ≠ _; decide
    · rw [hs2def]; show OPENLI_IMAP_STATE_AUTHENTICATED ≠ _; decide
    · rw [hi2def]
    · rw [hi2def]
      apply List.drop_eq_nil_of_le
      show imapsess.contbuffer.length ≤ imapsess.contbufread + (auth_plain_line tag tok).length
      omega
  have h10 : ¬ ((1 : Int) ≤ 0) := by decide
  have h00 : (0 : Int) ≤ 0 := by decide
  refine ⟨i2, ?_, ?_, ?_, ?_, ?_, ?_, ?_⟩
  · simp only [imap_ingestion_loop, hstep1, h10, if_false, hstep2b, hstep3, h00, if_true]
    rw [hs2def]
  · rw [hi2def]
  · rw [hi2def]
    show imapsess.contbufread + (auth_plain_line tag tok).length = imapsess.contbuffer.length
    omega
  · rw [hi2def]
  · rw [hi2def]
  · rw [hi2def]
  · rw [hi2def]

theorem imap_message_words_ok (tag txt rest : List Nat) (htag : ∀ c ∈ tag, c ≠ 32)
    (htxt : txt = [] ∨ txt.head? = some 32) (hcr : ∀ c ∈ txt, c ≠ 13) :
    imap_message_words (tag ++ str " OK" ++ txt ++ 13 :: 10 :: rest) = some (tag, [79, 75]) := by
  have hlit : str " OK" = [32, 79, 75] := by decide
  rcases htxt with h | h
  · subst h
    have e : tag ++ str " OK" ++ [] ++ 13 :: 10 :: rest =
        tag ++ 32 :: ([79, 75] ++ 13 :: 10 :: rest) := by
      rw [hlit]
      simp
    rw [e]
    exact imap_message_words_crlf tag [79, 75] rest htag (by decide)
  · cases txt with
    | nil => simp at h
    | cons a t =>
      simp only [List.head?_cons, Option.some.injEq] at h
      subst h
      have e : tag ++ str " OK" ++ 32 :: t ++ 13 :: 10 :: rest =
          tag ++ 32 :: ([79, 75] ++ 32 :: (t ++ 13 :: 10 :: rest)) := by
        rw [hlit]
        simp
      rw [e]
      exact imap_message_words_space tag [79, 75] _ htag (by decide)

theorem imap_ingestion_loop_reply_ok (env : imap_env) (sess : emailsession)
    (imapsess : imap_session) (comm : imap_command) (j n : Nat) (tag txt name : List Nat)
    (h0 : sess.currstate ≠ OPENLI_IMAP_STATE_INIT)
    (h1 : sess.currstate ≠ OPENLI_IMAP_STATE_SERVER_READY)
    (h2 : sess.currstate ≠ OPENLI_IMAP_STATE_AUTHENTICATING)
    (h3 : sess.currstate ≠ OPENLI_IMAP_STATE_IDLING)
    (hnone : imapsess.next_command_type = OPENLI_IMAP_COMMAND_NONE)
    (hrs : imapsess.reply_start = 0)
    (hdrop : imapsess.contbuffer.drop imapsess.contbufread = tag ++ str " OK" ++ txt ++ [13, 10])
    (htag : ∀ c ∈ tag, c ≠ 0 ∧ c ≠ 32 ∧ c ≠ 13) (hstar : tag ≠ str "*")
    (htxt : ∀ c ∈ txt, c ≠ 0 ∧ c ≠ 13) (htxt0 : txt = [] ∨ txt.head? = some 32)
    (hfind : find_command_by_tag (some tag) imapsess.commands = some j)
    (hslot : imapsess.commands[j]? = some comm)
    (hname : comm.imap_command = some name)
    (hlogout : strcasecmp_eq name (str "LOGOUT") = false) :
    ∃ imapsess1,
      imap_ingestion_loop env (n + 3) sess imapsess =
        some ({ sess with
                server_octets := sess.server_octets + ((tag ++ str " OK" ++ txt).length + 2),
                currstate := if strcasecmp_eq name (str "AUTHENTICATE") then
                               OPENLI_IMAP_STATE_AUTHENTICATED else sess.currstate },
              imapsess1) ∧
      imapsess1.contbuffer = imapsess.contbuffer ∧
      imapsess1.contbufread = imapsess.contbuffer.length ∧
      imapsess1.commands = imapsess.commands.set j
        ⟨comm.commbuffer ++ (tag ++ str " OK" ++ txt ++ [13, 10]), comm.imap_command, comm.tag,
         some (str "OK"),
         comm.ccs ++ [⟨comm.commbuffer.length,
           (comm.commbuffer ++ (tag ++ str " OK" ++ txt ++ [13, 10])).length, 0⟩],
         comm.reply_start, (comm.commbuffer ++ (tag ++ str " OK" ++ txt ++ [13, 10])).length⟩ ∧
      imapsess1.next_command_type = OPENLI_IMAP_COMMAND_NONE ∧
      imapsess1.reply_start = 0 ∧
      imapsess1.mailbox = imapsess.mailbox := by
  have hlit : str " OK" = [32, 79, 75] := by decide
  have hok : str "OK" = [79, 75] := by decide
  have hlen0 : imapsess.contbuffer.length =
      imapsess.contbufread + ((tag ++ str " OK" ++ txt).length + 2) := by
    have h := congrArg List.length hdrop
    rw [List.length_drop] at h
    simp only [List.length_append, List.length_cons, List.length_nil] at h ⊢
    omega
  have hnul : ∀ c ∈ tag ++ str " OK" ++ txt ++ [13, 10], c ≠ 0 := by
    intro c hc
    rw [hlit] at hc
    simp only [List.mem_append, List.mem_cons, List.mem_singleton, List.not_mem_nil,
      or_false] at hc
    rcases hc with ((h | h) | h) | h
    · exact (htag c h).1
    · rcases h with h | h | h <;> omega
    · exact (htxt c h).1
    · rcases h with h | h <;> omega
  have hwords : imap_message_words (cstr (imapsess.contbuffer.drop imapsess.contbufread)) =
      some (tag, [79, 75]) := by
    rw [hdrop, cstr_of_no_nul _ hnul]
    exact imap_message_words_ok tag txt [] (fun c h => (htag c h).2.1) htxt0
      (fun c h => (htxt c h).2)
  have hc1 : strcasecmp_eq [79, 75] [79, 75] = true := by decide
  have hstep1 : process_next_imap_state env sess imapsess =
      some (sess, { imapsess with next_command_type := OPENLI_IMAP_COMMAND_REPLY,
                                  reply_start := imapsess.contbufread,
                                  next_comm_tag := some tag, next_command_name := some (str "OK"),
                                  next_comm_start := imapsess.contbufread }, 1) := by
    rw [process_next_imap_state_parsing env sess imapsess h0 h1, if_pos hnone,
      find_next_imap_message_words env sess imapsess h2 h3, hwords]
    simp only [classify_imap_message, hstar, if_false, hc1, true_or, if_true, hrs, hok]
  have hbody : ∀ c ∈ tag ++ str " OK" ++ txt, c ≠ 13 := by
    intro c hc
    rw [hlit] at hc
    simp only [List.mem_append, List.mem_cons, List.mem_singleton, List.not_mem_nil,
      or_false] at hc
    rcases hc with (h | h) | h
    · exact (htag c h).2.2
    · rcases h with h | h | h <;> omega
    · exact (htxt c h).2
  have hfre := find_reply_end_line sess
    { imapsess with next_command_type := OPENLI_IMAP_COMMAND_REPLY,
                    reply_start := imapsess.contbufread,
                    next_comm_tag := some tag, next_command_name := some (str "OK"),
                    next_comm_start := imapsess.contbufread }
    comm j (tag ++ str " OK" ++ txt) [] (tag ++ str " OK" ++ txt ++ [13, 10]) name hdrop hbody
    (by
      show (imapsess.contbuffer.drop imapsess.contbufread).take
        (imapsess.contbufread + (tag ++ str " OK" ++ txt).length + 2 - imapsess.contbufread) = _
      rw [hdrop]
      apply List.take_of_length_le
      simp only [List.length_append, List.length_cons, List.length_nil]
      omega)
    hfind hslot hname hlogout
  obtain ⟨s2, hs2def⟩ : ∃ s2 : emailsession, s2 = { sess with
      server_octets := sess.server_octets + ((tag ++ str " OK" ++ txt).length + 2),
      currstate := if strcasecmp_eq name (str "AUTHENTICATE") then
                     OPENLI_IMAP_STATE_AUTHENTICATED else sess.currstate } := ⟨_, rfl⟩
  obtain ⟨i2, hi2def⟩ : ∃ i2 : imap_session, i2 = { imapsess with
      contbufread := imapsess.contbufread + (tag ++ str " OK" ++ txt).length + 2,
      commands := imapsess.commands.set j
                    ⟨comm.commbuffer ++ (tag ++ str " OK" ++ txt ++ [13, 10]), comm.imap_command,
                     comm.tag, some (str "OK"),
                     comm.ccs ++ [⟨comm.commbuffer.length,
                       (comm.commbuffer ++ (tag ++ str " OK" ++ txt ++ [13, 10])).length, 0⟩],
                     comm.reply_start,
                     (comm.commbuffer ++ (tag ++ str " OK" ++ txt ++ [13, 10])).length⟩,
      next_comm_tag := none, next_command_name := none,
      next_command_type := OPENLI_IMAP_COMMAND_NONE, next_comm_start := 0,
      reply_start := 0 } := ⟨_, rfl⟩
  have hstep2 : process_next_imap_state env sess
      { imapsess with next_command_type := OPENLI_IMAP_COMMAND_REPLY,
                      reply_start := imapsess.contbufread,
                      next_comm_tag := some tag, next_command_name := some (str "OK"),
                      next_comm_start := imapsess.contbufread } = some (s2, i2, 1) := by
    rw [process_next_imap_state_parsing _ _ _ h0 h1]
    simp only [reduceCtorEq, if_false, if_true]
    rw [hfre, hs2def, hi2def]
  have hs2state : s2.currstate = OPENLI_IMAP_STATE_AUTHENTICATED ∨
      s2.currstate = sess.currstate := by
    rw [hs2def]
    by_cases ha : strcasecmp_eq name (str "AUTHENTICATE") = true
    · left; simp [ha]
    · right; simp [ha]
  have hstep3 : process_next_imap_state env s2 i2 = some (s2, i2, 0) := by
    apply process_next_imap_state_consumed
    · rcases hs2state with h | h <;> rw [h]
      · decide
      · exact h0
    · rcases hs2state with h | h <;> rw [h]
      · decide
      · exact h1
    · rcases hs2state with h | h <;> rw [h]
      · decide
      · exact h2
    · rcases hs2state with h | h <;> rw [h]
      · decide
      · exact h3
    · rw [hi2def]
    · rw [hi2def]
      apply List.drop_eq_nil_of_le
      show imapsess.contbuffer.length ≤
        imapsess.contbufread + (tag ++ str " OK" ++ txt).length + 2
      omega
  have h10 : ¬ ((1 : Int) ≤ 0) := by decide
  have h00 : (0 : Int) ≤ 0 := by decide
  refine ⟨i2, ?_, ?_, ?_, ?_, ?_, ?_, ?_⟩
  · simp only [imap_ingestion_loop, hstep1, h10, if_false, hstep2, hstep3, h00, if_true]
    rw [hs2def]
  · rw [hi2def]
  · rw [hi2def]
    show imapsess.contbufread + (tag ++ str " OK" ++ txt).length + 2 = imapsess.contbuffer.length
    omega
  · rw [hi2def]
  · rw [hi2def]
  · rw [hi2def]
  · rw [hi2def]

theorem update_plain (env : imap_env) (sess : emailsession) (imapsess : imap_session)
    (c0 : imap_command) (i fuel : Nat) (tag tok authzid authcid password : List Nat)
    (hproto : sess.proto_state = some imapsess)
    (hstate : sess.currstate = OPENLI_IMAP_STATE_PRE_AUTH)
    (hnone : imapsess.next_command_type = OPENLI_IMAP_COMMAND_NONE)
    (hread : imapsess.contbufread = imapsess.contbuffer.length)
    (hauth : imapsess.auth_type = OPENLI_IMAP_AUTH_NONE)
    (hfree : first_free_command imapsess.commands = some i)
    (hslot : imapsess.commands[i]? = some c0)
    (hbuf : c0.commbuffer = []) (hccs : c0.ccs = [])
    (hne : tag ≠ []) (hstar : tag ≠ str "*")
    (htag : ∀ c ∈ tag, c ≠ 0 ∧ c ≠ 32 ∧ c ≠ 13)
    (htok : ∀ c ∈ tok, c ≠ 0 ∧ c ≠ 32 ∧ c ≠ 13)
    (hplus : tok.head? ≠ some 43)
    (hdec : env.b64.decode (tok ++ [13, 10]) = authzid ++ 0 :: (authcid ++ 0 :: password))
    (hzid : ∀ c ∈ authzid, c ≠ 0 ∧ c ≠ 32) (hlen : authzid.length + 8 ≤ 2047)
    (henc : ∀ c ∈ redacted_token env authzid, c ≠ 0) (hfuel : 3 ≤ fuel) :
    ∃ imapsess1,
      update_imap_session_by_ingestion env fuel sess (auth_plain_line tag tok) =
        some ({ sess with
                currstate := OPENLI_IMAP_STATE_AUTHENTICATED,
                client_octets := sess.client_octets + (tag.length + 20) +
                                   (redacted_token env authzid ++ [13, 10]).length,
                participants := sess.participants ++ [authzid],
                proto_state := some imapsess1 }, 0) ∧
      imapsess1.contbuffer = imapsess.contbuffer ++ auth_plain_line tag tok ∧
      imapsess1.contbufread = imapsess1.contbuffer.length ∧
      imapsess1.commands = imapsess.commands.set i
        ⟨tag ++ str " AUTHENTICATE PLAIN " ++ (redacted_token env authzid ++ [13, 10]),
         some (str "AUTHENTICATE"), some tag, c0.imap_reply,
         [⟨0, (tag ++ str " AUTHENTICATE PLAIN " ++
                (redacted_token env authzid ++ [13, 10])).length, 1⟩],
         (tag ++ str " AUTHENTICATE PLAIN " ++ (redacted_token env authzid ++ [13, 10])).length,
         0⟩ ∧
      imapsess1.next_command_type = OPENLI_IMAP_COMMAND_NONE ∧
      imapsess1.reply_start = 0 ∧
      imapsess1.mailbox = some authzid := by
  obtain ⟨n, rfl⟩ : ∃ n, fuel = n + 3 := ⟨fuel - 3, by omega⟩
  obtain ⟨im0, hg⟩ : ∃ im0, append_content_to_imap_buffer imapsess (auth_plain_line tag tok) =
      im0 := ⟨_, rfl⟩
  have hb : im0.contbuffer = imapsess.contbuffer ++ auth_plain_line tag tok := by rw [← hg]; rfl
  have hr : im0.contbufread = imapsess.contbufread := by rw [← hg]; rfl
  have hc : im0.commands = imapsess.commands := by rw [← hg]; rfl
  have hdrop : im0.contbuffer.drop im0.contbufread = auth_plain_line tag tok := by
    rw [hb, hr, hread, List.drop_left]
  obtain ⟨im1, hloop, h1, h2, h3, h4, h5, h6⟩ := imap_ingestion_loop_plain_eq env sess im0 c0 i n
    tag tok authzid authcid password hstate (by rw [← hg]; exact hnone) hdrop
    (by rw [← hg]; exact hauth) (by rw [hc]; exact hfree) (by rw [hc]; exact hslot) hbuf hccs
    hne hstar htag htok hplus hdec hzid hlen henc
  have hupd := update_of_loop env (n + 3) sess _ imapsess im1 (auth_plain_line tag tok)
    (by rw [hproto]) (by rw [hg]; exact hloop)
  have hs : OPENLI_IMAP_STATE_AUTHENTICATED ≠ OPENLI_IMAP_STATE_SESSION_OVER := by decide
  simp only [hs, if_false] at hupd
  refine ⟨im1, hupd, ?_, ?_, ?_, h4, h5, h6⟩
  · rw [h1, hb]
  · rw [h2, h1]
  · rw [h3, hc]

theorem update_reply_ok (env : imap_env) (sess : emailsession) (imapsess : imap_session)
    (comm : imap_command) (j fuel : Nat) (tag txt name : List Nat)
    (hproto : sess.proto_state = some imapsess)
    (h0 : sess.currstate ≠ OPENLI_IMAP_STATE_INIT)
    (h1 : sess.currstate ≠ OPENLI_IMAP_STATE_SERVER_READY)
    (h2 : sess.currstate ≠ OPENLI_IMAP_STATE_AUTHENTICATING)
    (h3 : sess.currstate ≠ OPENLI_IMAP_STATE_IDLING)
    (h4 : sess.currstate ≠ OPENLI_IMAP_STATE_SESSION_OVER)
    (hnone : imapsess.next_command_type = OPENLI_IMAP_COMMAND_NONE)
    (hrs : imapsess.reply_start = 0)
    (hread : imapsess.contbufread = imapsess.contbuffer.length)
    (htag : ∀ c ∈ tag, c ≠ 0 ∧ c ≠ 32 ∧ c ≠ 13) (hstar : tag ≠ str "*")
    (htxt : ∀ c ∈ txt, c ≠ 0 ∧ c ≠ 13) (htxt0 : txt = [] ∨ txt.head? = some 32)
    (hfind : find_command_by_tag (some tag) imapsess.commands = some j)
    (hslot : imapsess.commands[j]? = some comm)
    (hname : comm.imap_command = some name)
    (hlogout : strcasecmp_eq name (str "LOGOUT") = false) (hfuel : 3 ≤ fuel) :
    ∃ imapsess1,
      update_imap_session_by_ingestion env fuel sess (tag ++ str " OK" ++ txt ++ [13, 10]) =
        some ({ sess with
                server_octets := sess.server_octets + ((tag ++ str " OK" ++ txt).length + 2),
                currstate := if strcasecmp_eq name (str "AUTHENTICATE") then
                               OPENLI_IMAP_STATE_AUTHENTICATED else sess.currstate,
                proto_state := some imapsess1 }, 0) ∧
      imapsess1.contbuffer = imapsess.contbuffer ++ (tag ++ str " OK" ++ txt ++ [13, 10]) ∧
      imapsess1.contbufread = imapsess1.contbuffer.length ∧
      imapsess1.commands = imapsess.commands.set j
        ⟨comm.commbuffer ++ (tag ++ str " OK" ++ txt ++ [13, 10]), comm.imap_command, comm.tag,
         some (str "OK"),
         comm.ccs ++ [⟨comm.commbuffer.length,
           (comm.commbuffer ++ (tag ++ str " OK" ++ txt ++ [13, 10])).length, 0⟩],
         comm.reply_start, (comm.commbuffer ++ (tag ++ str " OK" ++ txt ++ [13, 10])).length⟩ ∧
      imapsess1.next_command_type = OPENLI_IMAP_COMMAND_NONE ∧
      imapsess1.reply_start = 0 ∧
      imapsess1.mailbox = imapsess.mailbox := by
  obtain ⟨n, rfl⟩ : ∃ n, fuel = n + 3 := ⟨fuel - 3, by omega⟩
  obtain ⟨im0, hg⟩ : ∃ im0, append_content_to_imap_buffer imapsess
      (tag ++ str " OK" ++ txt ++ [13, 10]) = im0 := ⟨_, rfl⟩
  have hb : im0.contbuffer = imapsess.contbuffer ++ (tag ++ str " OK" ++ txt ++ [13, 10]) := by
    rw [← hg]; rfl
  have hr : im0.contbufread = imapsess.contbufread := by rw [← hg]; rfl
  have hc : im0.commands = imapsess.commands := by rw [← hg]; rfl
  have hm : im0.mailbox = imapsess.mailbox := by rw [← hg]; rfl
  have hdrop : im0.contbuffer.drop im0.contbufread = tag ++ str " OK" ++ txt ++ [13, 10] := by
    rw [hb, hr, hread, List.drop_left]
  obtain ⟨im1, hloop, e1, e2, e3, e4, e5, e6⟩ := imap_ingestion_loop_reply_ok env sess im0 comm j n
    tag txt name h0 h1 h2 h3 (by rw [← hg]; exact hnone) (by rw [← hg]; exact hrs) hdrop htag
    hstar htxt htxt0 (by rw [hc]; exact hfind) (by rw [hc]; exact hslot) hname hlogout
  have hupd := update_of_loop env (n + 3) sess _ imapsess im1
    (tag ++ str " OK" ++ txt ++ [13, 10]) (by rw [hproto]) (by rw [hg]; exact hloop)
  have hs : (if strcasecmp_eq name (str "AUTHENTICATE") = true then
      OPENLI_IMAP_STATE_AUTHENTICATED else sess.currstate) ≠ OPENLI_IMAP_STATE_SESSION_OVER := by
    split
    · decide
    · exact h4
  simp only [hs, if_false] at hupd
  refine ⟨im1, hupd, ?_, ?_, ?_, e4, e5, ?_⟩
  · rw [e1, hb]
  · rw [e2, e1]
  · rw [e3, hc]
  · rw [e6, hm]

/-- C15 fails on the code: with libb64, the token `AGFsaWNlAHNlY3JldA==` decodes
to `\0alice\0secret` (empty authzid, authcid `alice`). After the greeting, the
line `a1 AUTHENTICATE PLAIN AGFsaWNlAHNlY3JldA==\r\n` and the reply `a1 OK\r\n`
the session is AUTHENTICATED, but its mailbox is the empty authzid and not
`alice`, and the stored command carries the token of `\0XXX\0XXX`; the token
of `alice\0XXX\0XXX` does not occur in it. -/
theorem plain_auth_mailbox_not_authcid :
    env_libb64.b64.decode (token_alice ++ [13, 10]) = [] ++ 0 :: (str "alice" ++ 0 :: str "secret") ∧
    final_state (ingest_captures env_libb64 3 fresh_session
      (plain_exchange (str "imap ready") (str "a1") token_alice)) =
        some OPENLI_IMAP_STATE_AUTHENTICATED ∧
    final_mailbox (ingest_captures env_libb64 3 fresh_session
      (plain_exchange (str "imap ready") (str "a1") token_alice)) = some [] ∧
    final_mailbox (ingest_captures env_libb64 3 fresh_session
      (plain_exchange (str "imap ready") (str "a1") token_alice)) ≠ some (str "alice") ∧
    (final_command (ingest_captures env_libb64 3 fresh_session
      (plain_exchange (str "imap ready") (str "a1") token_alice)) 0).map
        (fun c => c.commbuffer) =
        some (str "a1 AUTHENTICATE PLAIN AFhYWABYWFg=\n\r\na1 OK\r\n") ∧
    env_libb64.b64.encode (str "alice" ++ 0 :: str "XXX" ++ 0 :: str "XXX") =
      str "YWxpY2UAWFhYAFhYWA==\n" ∧
    find_sub (str "YWxpY2UAWFhYAFhYWA==")
      (str "a1 AUTHENTICATE PLAIN AFhYWABYWFg=\n\r\na1 OK\r\n") = none := by
  refine ⟨?_, ?_, ?_, ?_, ?_, ?_, ?_⟩ <;> decide

/-- C15, amended: a session without tracker state in the INIT state receives
the greeting `* OK <text>\r\n`, the line `<tag> AUTHENTICATE PLAIN <tok>\r\n` and
the reply `<tag> OK\r\n` as three captures, where the codec decodes `tok` to
`authzid\0authcid\0password`. Provided that the greeting text is free of NUL
and CR, that the tag is not empty, not `*` and free of space, NUL and CR, that
`tok` is free of them too and does not start with `+`, that authzid has no
space, that the codec output has no NUL and that the texts fit the fixed
buffers of the code, every capture is ingested within three rounds, the session
ends AUTHENTICATED, its mailbox is authzid (the first field of the decoded
token, not authcid), authzid is its only new participant, and the stored
command in slot 0 is `<tag> AUTHENTICATE PLAIN <tok2>\r\n<tag> OK\r\n` with `tok2`
the codec's encoding of `authzid\0XXX\0XXX`. -/
theorem plain_auth_mailbox_is_authzid (env : imap_env) (sess : emailsession) (fuel : Nat)
    (text tag tok authzid authcid password : List Nat)
    (hproto : sess.proto_state = none)
    (hstate : sess.currstate = OPENLI_IMAP_STATE_INIT)
    (htext : ∀ c ∈ text, c ≠ 0 ∧ c ≠ 13)
    (hne : tag ≠ []) (hstar : tag ≠ str "*")
    (htag : ∀ c ∈ tag, c ≠ 0 ∧ c ≠ 32 ∧ c ≠ 13)
    (htok : ∀ c ∈ tok, c ≠ 0 ∧ c ≠ 32 ∧ c ≠ 13)
    (hplus : tok.head? ≠ some 43)
    (hdec : env.b64.decode (tok ++ [13, 10]) = authzid ++ 0 :: (authcid ++ 0 :: password))
    (hzid : ∀ c ∈ authzid, c ≠ 0 ∧ c ≠ 32)
    (henc : ∀ c ∈ redacted_token env authzid, c ≠ 0)
    (hinput : authzid.length + 8 ≤ 2047)
    (_hdecoded : (authzid ++ 0 :: (authcid ++ 0 :: password)).length < 2048)
    (_hreencoded : (redacted_token env authzid ++ [13, 10]).length < 2048)
    (_hcommand : (tag ++ str " AUTHENTICATE PLAIN " ++ redacted_token env authzid ++
      [13, 10] ++ tag ++ str " OK\r\n").length < 4096)
    (hfuel : 3 ≤ fuel) :
    ∃ sess1,
      ingest_captures env fuel sess (plain_exchange text tag tok) = some sess1 ∧
      sess1.currstate = OPENLI_IMAP_STATE_AUTHENTICATED ∧
      sess1.participants = sess.participants ++ [authzid] ∧
      final_mailbox (some sess1) = some authzid ∧
      (final_command (some sess1) 0).map (fun c => c.commbuffer) =
        some (tag ++ str " AUTHENTICATE PLAIN " ++ redacted_token env authzid ++ [13, 10] ++
          tag ++ str " OK\r\n") := by
  obtain ⟨img, hupd1, _, g2, g3, g4, g5, g6, _⟩ :=
    update_greeting env sess text fuel hproto hstate htext (by omega)
  obtain ⟨s1, hs1⟩ : ∃ s1 : emailsession, s1 = { sess with
      currstate := OPENLI_IMAP_STATE_PRE_AUTH,
      server_octets := sess.server_octets + (5 + text.length + 2),
      proto_state := some img } := ⟨_, rfl⟩
  rw [← hs1] at hupd1
  have hfree : first_free_command img.commands = some 0 := by rw [g3]; decide
  have hslot : img.commands[0]? = some init_imap_command := by rw [g3]; rfl
  obtain ⟨im1, hupd2, _, p2, p3, p4, p5, p6⟩ := update_plain env s1 img init_imap_command 0 fuel
    tag tok authzid authcid password (by rw [hs1]) (by rw [hs1]) g4 g2 g6 hfree hslot rfl rfl
    hne hstar htag htok hplus hdec hzid hinput henc hfuel
  obtain ⟨s2, hs2⟩ : ∃ s2 : emailsession, s2 = { s1 with
      currstate := OPENLI_IMAP_STATE_AUTHENTICATED,
      client_octets := s1.client_octets + (tag.length + 20) +
                         (redacted_token env authzid ++ [13, 10]).length,
      participants := s1.participants ++ [authzid],
      proto_state := some im1 } := ⟨_, rfl⟩
  rw [← hs2] at hupd2
  have hst2 : s2.currstate = OPENLI_IMAP_STATE_AUTHENTICATED := by rw [hs2]
  have hfind : find_command_by_tag (some tag) im1.commands = some 0 := by
    rw [p3, g3]
    simp [find_command_by_tag, List.replicate]
  obtain ⟨c1, hc1⟩ : ∃ c1 : imap_command, c1 =
      ⟨tag ++ str " AUTHENTICATE PLAIN " ++ (redacted_token env authzid ++ [13, 10]),
       some (str "AUTHENTICATE"), some tag, init_imap_command.imap_reply,
       [⟨0, (tag ++ str " AUTHENTICATE PLAIN " ++
              (redacted_token env authzid ++ [13, 10])).length, 1⟩],
       (tag ++ str " AUTHENTICATE PLAIN " ++ (redacted_token env authzid ++ [13, 10])).length,
       0⟩ := ⟨_, rfl⟩
  rw [← hc1] at p3
  have hslot1 : im1.commands[0]? = some c1 := by
    rw [p3, g3]
    rfl
  have hline : tag ++ str " OK\r\n" = tag ++ str " OK" ++ [] ++ [13, 10] := by
    have e : str " OK\r\n" = str " OK" ++ [13, 10] := by decide
    rw [e]
    simp
  obtain ⟨im2, hupd3, _, _, r3, _, _, r6⟩ := update_reply_ok env s2 im1 c1 0 fuel tag []
    (str "AUTHENTICATE") (by rw [hs2]) (by rw [hst2]; decide) (by rw [hst2]; decide)
    (by rw [hst2]; decide) (by rw [hst2]; decide) (by rw [hst2]; decide) p4 p5 p2 htag hstar
    (by simp) (Or.inl rfl) hfind hslot1 (by rw [hc1]) (by decide) hfuel
  rw [← hline] at hupd3 r3
  have hauth : strcasecmp_eq (str "AUTHENTICATE") (str "AUTHENTICATE") = true := by decide
  simp only [hauth, if_true] at hupd3
  obtain ⟨s3, hs3⟩ : ∃ s3 : emailsession, s3 = { s2 with
      server_octets := s2.server_octets + ((tag ++ str " OK" ++ []).length + 2),
      currstate := OPENLI_IMAP_STATE_AUTHENTICATED,
      proto_state := some im2 } := ⟨_, rfl⟩
  rw [← hs3] at hupd3
  refine ⟨s3, ?_, ?_, ?_, ?_, ?_⟩
  · simp only [ingest_captures, plain_exchange, hupd1, hupd2, hupd3]
  · rw [hs3]
  · rw [hs3, hs2, hs1]
  · rw [hs3]
    show im2.mailbox = _
    rw [r6, p6]
  · rw [hs3]
    show (im2.commands[0]?).map (fun c => c.commbuffer) = _
    rw [r3, p3, g3, hc1]
    simp [List.replicate]

theorem plain_auth_mailbox_is_authzid_witness :
    ∃ sess1,
      ingest_captures env_libb64 3 fresh_session
        (plain_exchange (str "imap ready") (str "a1") token_alice) = some sess1 ∧
      sess1.currstate = OPENLI_IMAP_STATE_AUTHENTICATED ∧
      sess1.participants = fresh_session.participants ++ [[]] ∧
      final_mailbox (some sess1) = some [] ∧
      (final_command (some sess1) 0).map (fun c => c.commbuffer) =
        some (str "a1" ++ str " AUTHENTICATE PLAIN " ++ redacted_token env_libb64 [] ++
          [13, 10] ++ str "a1" ++ str " OK\r\n") :=
  plain_auth_mailbox_is_authzid env_libb64 fresh_session 3 (str "imap ready") (str "a1")
    token_alice [] (str "alice") (str "secret") rfl rfl (by decide) (by decide) (by decide)
    (by decide) (by decide) (by decide) (by decide) (by decide) (by decide) (by decide)
    (by decide) (by decide) (by decide) (by decide)

/-! ## The IMAP tracker: byte accounting -/

theorem find_next_crlf_cases (imapsess : imap_session) (start : Nat) :
    find_next_crlf imapsess start = (imapsess, 0) ∨
    ∃ k, find_next_crlf imapsess start = ({ imapsess with contbufread := start + k + 2 }, 1) := by
  unfold find_next_crlf
  cases find_sub [13, 10] (imapsess.contbuffer.drop start) with
  | none => exact Or.inl rfl
  | some k => exact Or.inr ⟨k, rfl⟩

theorem first_free_command_lt (l : List imap_command) (i : Nat)
    (h : first_free_command l = some i) : i < l.length := by
  induction l generalizing i with
  | nil => simp [first_free_command] at h
  | cons c rest ih =>
    simp only [first_free_command] at h
    split at h
    · simp only [Option.some.injEq] at h
      subst h
      simp
    · cases hr : first_free_command rest with
      | none => simp [hr] at h
      | some j =>
        simp only [hr, Option.map_some', Option.some.injEq] at h
        subst h
        have := ih j hr
        simp only [List.length_cons]
        omega

theorem save_imap_command_fields (imapsess : imap_session) :
    0 ≤ (save_imap_command imapsess).2 ∧
    (save_imap_command imapsess).1.contbufread = imapsess.contbufread ∧
    (save_imap_command imapsess).1.next_comm_start = imapsess.next_comm_start ∧
    (save_imap_command imapsess).1.next_command_type = imapsess.next_command_type := by
  unfold save_imap_command
  cases hf : first_free_command imapsess.commands with
  | none =>
    have hlt : imapsess.commands.length <
        (imapsess.commands ++ List.replicate 5 init_imap_command).length := by
      simp
    simp only [List.getElem?_eq_getElem hlt]
    refine ⟨?_, ?_, ?_, ?_⟩ <;> first | trivial | rfl | exact Int.ofNat_nonneg _
  | some i =>
    have hlt := first_free_command_lt _ _ hf
    simp only [List.getElem?_eq_getElem hlt]
    refine ⟨?_, ?_, ?_, ?_⟩ <;> first | trivial | rfl | exact Int.ofNat_nonneg _

theorem save_imap_reply_fields (imapsess : imap_session) :
    0 ≤ (save_imap_reply imapsess).2.1 ∧
    (save_imap_reply imapsess).1.contbufread = imapsess.contbufread := by
  have h00 : (0 : Int) ≤ 0 := by decide
  have h01 : (0 : Int) ≤ 1 := by decide
  unfold save_imap_reply
  split
  · exact ⟨h00, rfl⟩
  · split
    · exact ⟨h00, rfl⟩
    · exact ⟨h01, rfl⟩

theorem parse_id_command_fields (sess : emailsession) (imapsess : imap_session) :
    (parse_id_command sess imapsess).1.client_octets = sess.client_octets ∧
    (parse_id_command sess imapsess).1.server_octets = sess.server_octets ∧
    (parse_id_command sess imapsess).1.currstate = sess.currstate := by
  simp only [parse_id_command]
  split
  · exact ⟨rfl, rfl, rfl⟩
  · refine ⟨?_, ?_, ?_⟩ <;> (repeat' split) <;> rfl

theorem classify_imap_message_accounted (sess : emailsession) (imapsess : imap_session)
    (tag comm_resp : List Nat) (h : accounted sess imapsess)
    (hnone : imapsess.next_command_type = OPENLI_IMAP_COMMAND_NONE)
    (h2 : sess.currstate ≠ OPENLI_IMAP_STATE_IDLING) :
    accounted (classify_imap_message sess imapsess tag comm_resp).1
      (classify_imap_message sess imapsess tag comm_resp).2.1 := by
  obtain ⟨a1, a2, a3, a4⟩ := h
  have d1 : OPENLI_IMAP_STATE_SESSION_OVER ≠ OPENLI_IMAP_STATE_SERVER_READY := by decide
  have d2 : OPENLI_IMAP_STATE_SESSION_OVER ≠ OPENLI_IMAP_STATE_IDLING := by decide
  have d3 : OPENLI_IMAP_STATE_AUTH_STARTED ≠ OPENLI_IMAP_STATE_SERVER_READY := by decide
  have d4 : OPENLI_IMAP_STATE_AUTH_STARTED ≠ OPENLI_IMAP_STATE_IDLING := by decide
  unfold classify_imap_message
  simp only
  repeat' split
  all_goals
    refine ⟨?_, ?_, ?_, ?_⟩
    all_goals first
      | exact a1
      | (intro hx; first | rfl | exact absurd hx h2 | exact absurd hnone hx
                          | exact absurd hx d1 | exact absurd hx d2 | exact absurd hx d3
                          | exact absurd hx d4)

theorem read_imap_while_idle_state_accounted (sess : emailsession) (imapsess : imap_session)
    (h : accounted sess imapsess) (hstate : sess.currstate = OPENLI_IMAP_STATE_IDLING)
    (hreg : imapsess.reply_start = 0 →
      (strstr (imapsess.contbuffer.drop imapsess.contbufread) (str "+ ")).getD 0 = 0) :
    ∀ r, read_imap_while_idle_state sess imapsess = some r → accounted r.1 r.2.1 := by
  intro r hr
  obtain ⟨a1, a2, a3, a4⟩ := h
  obtain ⟨a4, a5⟩ := a4 hstate
  have hsr : OPENLI_IMAP_STATE_IDLING ≠ OPENLI_IMAP_STATE_SERVER_READY := by decide
  have d1 : OPENLI_IMAP_STATE_AUTHENTICATED ≠ OPENLI_IMAP_STATE_SERVER_READY := by decide
  have d2 : OPENLI_IMAP_STATE_AUTHENTICATED ≠ OPENLI_IMAP_STATE_IDLING := by decide
  have hstart : (if imapsess.reply_start = 0 then
        (strstr (imapsess.contbuffer.drop imapsess.contbufread) (str "+ ")).map
          (fun k => imapsess.contbufread + k)
      else some imapsess.reply_start) = none ∨
      (if imapsess.reply_start = 0 then
        (strstr (imapsess.contbuffer.drop imapsess.contbufread) (str "+ ")).map
          (fun k => imapsess.contbufread + k)
      else some imapsess.reply_start) = some imapsess.contbufread := by
    by_cases hrs : imapsess.reply_start = 0
    · have hk := hreg hrs
      simp only [hrs, if_true]
      cases hs : strstr (imapsess.contbuffer.drop imapsess.contbufread) (str "+ ") with
      | none => exact Or.inl rfl
      | some k =>
        rw [hs] at hk
        simp only [Option.getD_some] at hk
        subst hk
        exact Or.inr rfl
    · simp only [hrs, if_false]
      exact Or.inr (congrArg some (a5 hrs))
  simp only [read_imap_while_idle_state] at hr
  split at hr
  · exact absurd hr (by simp)
  · split at hr
    · exact absurd hr (by simp)
    · rcases hstart with hs | hs
      · simp only [hs, Option.some.injEq] at hr
        subst hr
        exact ⟨a1, a2, a3, fun _ => ⟨a4, a5⟩⟩
      · simp only [hs] at hr
        split at hr
        · simp only [Option.some.injEq] at hr
          subst hr
          refine ⟨a1, ?_, ?_, ?_⟩
          · intro hx
            exact absurd a4 hx
          · intro hx
            rw [hstate] at hx
            exact absurd hx hsr
          · intro _
            exact ⟨a4, fun _ => rfl⟩
        · split at hr
          · exact absurd hr (by simp)
          · simp only [Option.some.injEq] at hr
            subst hr
            refine ⟨?_, ?_, ?_, ?_⟩
            · show sess.client_octets + 6 + (sess.server_octets + _) = _ + 8
              omega
            · intro hx
              exact absurd a4 hx
            · intro hx
              exact absurd hx d1
            · intro hx
              exact absurd hx d2

theorem find_reply_end_accounted (sess : emailsession) (imapsess : imap_session)
    (h : accounted sess imapsess)
    (htype : imapsess.next_command_type ≠ OPENLI_IMAP_COMMAND_NONE)
    (hready : sess.currstate ≠ OPENLI_IMAP_STATE_SERVER_READY) :
    accounted (find_reply_end sess imapsess).1 (find_reply_end sess imapsess).2.1 := by
  obtain ⟨a1, a2, a3, a4⟩ := h
  have hstart := a2 htype
  have hidle : sess.currstate ≠ OPENLI_IMAP_STATE_IDLING := fun hx => htype (a4 hx).1
  have d1 : OPENLI_IMAP_STATE_AUTHENTICATED ≠ OPENLI_IMAP_STATE_SERVER_READY := by decide
  have d2 : OPENLI_IMAP_STATE_AUTHENTICATED ≠ OPENLI_IMAP_STATE_IDLING := by decide
  have d3 : OPENLI_IMAP_STATE_SESSION_OVER ≠ OPENLI_IMAP_STATE_SERVER_READY := by decide
  have d4 : OPENLI_IMAP_STATE_SESSION_OVER ≠ OPENLI_IMAP_STATE_IDLING := by decide
  simp only [find_reply_end]
  rcases find_next_crlf_cases imapsess imapsess.next_comm_start with hc | ⟨k, hc⟩
  · simp only [hc, if_true]
    exact ⟨a1, a2, a3, a4⟩
  · obtain ⟨im1, him1⟩ : ∃ im1 : imap_session, im1 =
        { imapsess with contbufread := imapsess.next_comm_start + k + 2 } := ⟨_, rfl⟩
    rw [← him1] at hc
    have hr1 : im1.contbufread = imapsess.next_comm_start + k + 2 := by rw [him1]
    have hn1 : im1.next_comm_start = imapsess.next_comm_start := by rw [him1]
    obtain ⟨s1, s2⟩ := save_imap_reply_fields im1
    have hneg : ¬ ((save_imap_reply im1).2.1 < 0) := by omega
    have h10 : ¬ ((1 : Int) = 0) := by decide
    simp only [hc, h10, if_false, hneg]
    have hsum : sess.client_octets + (sess.server_octets +
        (im1.contbufread - im1.next_comm_start)) = (save_imap_reply im1).1.contbufread := by
      rw [s2, hr1, hn1]
      omega
    repeat' split
    all_goals
      refine ⟨hsum, fun hx => absurd rfl hx, ?_, ?_⟩
      all_goals
        intro hx
        first | exact absurd hx hready | exact absurd hx hidle | exact absurd hx d1
              | exact absurd hx d2 | exact absurd hx d3 | exact absurd hx d4

theorem find_partial_reply_end_accounted (sess : emailsession) (imapsess : imap_session)
    (h : accounted sess imapsess)
    (htype : imapsess.next_command_type ≠ OPENLI_IMAP_COMMAND_NONE)
    (hready : sess.currstate ≠ OPENLI_IMAP_STATE_SERVER_READY) :
    accounted (find_partial_reply_end sess imapsess).1
      (find_partial_reply_end sess imapsess).2.1 := by
  obtain ⟨a1, a2, a3, a4⟩ := h
  have hstart := a2 htype
  have hidle : sess.currstate ≠ OPENLI_IMAP_STATE_IDLING := fun hx => htype (a4 hx).1
  simp only [find_partial_reply_end]
  rcases find_next_crlf_cases imapsess imapsess.next_comm_start with hc | ⟨k, hc⟩
  · simp only [hc, if_true]
    exact ⟨a1, a2, a3, a4⟩
  · have h10 : ¬ ((1 : Int) = 0) := by decide
    simp only [hc, h10, if_false]
    refine ⟨?_, fun hx => absurd rfl hx, fun hx => absurd hx hready, fun hx => absurd hx hidle⟩
    show sess.client_octets + (sess.server_octets +
      (imapsess.next_comm_start + k + 2 - imapsess.next_comm_start)) =
      imapsess.next_comm_start + k + 2
    omega

theorem find_command_end_accounted (env : imap_env) (sess : emailsession)
    (imapsess : imap_session) (h : accounted sess imapsess)
    (htype : imapsess.next_command_type ≠ OPENLI_IMAP_COMMAND_NONE)
    (hauth : imapsess.next_command_type ≠ OPENLI_IMAP_COMMAND_AUTH)
    (hready : sess.currstate ≠ OPENLI_IMAP_STATE_SERVER_READY) :
    accounted (find_command_end env sess imapsess).1 (find_command_end env sess imapsess).2.1 := by
  obtain ⟨a1, a2, a3, a4⟩ := h
  have hstart := a2 htype
  have hidle : sess.currstate ≠ OPENLI_IMAP_STATE_IDLING := fun hx => htype (a4 hx).1
  have d1 : OPENLI_IMAP_STATE_LOGOUT ≠ OPENLI_IMAP_STATE_SERVER_READY := by decide
  have d2 : OPENLI_IMAP_STATE_LOGOUT ≠ OPENLI_IMAP_STATE_IDLING := by decide
  have d3 : OPENLI_IMAP_STATE_IDLING ≠ OPENLI_IMAP_STATE_SERVER_READY := by decide
  simp only [find_command_end]
  rcases find_next_crlf_cases imapsess imapsess.next_comm_start with hc | ⟨k, hc⟩
  · simp only [hc, if_true]
    exact ⟨a1, a2, a3, a4⟩
  · obtain ⟨im1, him1⟩ : ∃ im1 : imap_session, im1 =
        { imapsess with contbufread := imapsess.next_comm_start + k + 2 } := ⟨_, rfl⟩
    rw [← him1] at hc
    have hr1 : im1.contbufread = imapsess.next_comm_start + k + 2 := by rw [him1]
    have hn1 : im1.next_comm_start = imapsess.next_comm_start := by rw [him1]
    have ht1 : im1.next_command_type = imapsess.next_command_type := by rw [him1]
    obtain ⟨s1, s2, s3, s4⟩ := save_imap_command_fields im1
    obtain ⟨p1, p2, p3⟩ := parse_id_command_fields
      { sess with client_octets := sess.client_octets +
          ((save_imap_command im1).1.contbufread - (save_imap_command im1).1.next_comm_start) }
      (save_imap_command im1).1
    have hneg : ¬ ((save_imap_command im1).2 < 0) := by omega
    have h10 : ¬ ((1 : Int) = 0) := by decide
    have hauth1 : (save_imap_command im1).1.next_command_type ≠ OPENLI_IMAP_COMMAND_AUTH := by
      rw [s4, ht1]
      exact hauth
    simp only [hc, h10, if_false, hneg, hauth1]
    have hsum : sess.client_octets + ((save_imap_command im1).1.contbufread -
        (save_imap_command im1).1.next_comm_start) + sess.server_octets =
        (save_imap_command im1).1.contbufread := by
      rw [s2, s3, hr1, hn1]
      omega
    repeat' split
    all_goals
      refine ⟨?_, fun hx => absurd rfl hx, ?_, ?_⟩
    all_goals first
      | exact hsum
      | exact (congrArg₂ (· + ·) p1 p2).trans hsum
      | (intro hx
         first | exact absurd hx hready | exact absurd hx hidle | exact absurd hx d1
               | exact absurd hx d2 | exact absurd hx d3
               | exact absurd (p3.symm.trans hx) hready
               | exact absurd (p3.symm.trans hx) hidle
               | exact ⟨rfl, fun hy => absurd rfl hy⟩)

theorem find_next_imap_message_accounted (env : imap_env) (sess : emailsession)
    (imapsess : imap_session) (h : accounted sess imapsess)
    (hnone : imapsess.next_command_type = OPENLI_IMAP_COMMAND_NONE)
    (hidle : sess.currstate = OPENLI_IMAP_STATE_IDLING → imapsess.reply_start = 0 →
      (strstr (imapsess.contbuffer.drop imapsess.contbufread) (str "+ ")).getD 0 = 0) :
    ∀ r, find_next_imap_message env sess imapsess = some r → accounted r.1 r.2.1 := by
  intro r hr
  by_cases h1 : sess.currstate = OPENLI_IMAP_STATE_AUTHENTICATING
  · have e : find_next_imap_message env sess imapsess =
        some (read_imap_while_auth_state env sess imapsess) := by
      unfold find_next_imap_message
      rw [if_pos h1]
    rw [e, Option.some.injEq] at hr
    subst hr
    exact h
  · by_cases h2 : sess.currstate = OPENLI_IMAP_STATE_IDLING
    · have e : find_next_imap_message env sess imapsess =
          read_imap_while_idle_state sess imapsess := by
        unfold find_next_imap_message
        rw [if_neg h1, if_pos h2]
      rw [e] at hr
      exact read_imap_while_idle_state_accounted sess imapsess h h2 (hidle h2) r hr
    · rw [find_next_imap_message_words env sess imapsess h1 h2, Option.some.injEq] at hr
      subst hr
      split
      · exact h
      · exact classify_imap_message_accounted sess imapsess _ _ h hnone h2

theorem parse_message_accounted (env : imap_env) (sess : emailsession)
    (imapsess : imap_session) (h : accounted sess imapsess)
    (hready : sess.currstate ≠ OPENLI_IMAP_STATE_SERVER_READY)
    (hauth : imapsess.next_command_type ≠ OPENLI_IMAP_COMMAND_AUTH)
    (hidle : sess.currstate = OPENLI_IMAP_STATE_IDLING → imapsess.reply_start = 0 →
      (strstr (imapsess.contbuffer.drop imapsess.contbufread) (str "+ ")).getD 0 = 0)
    (r : emailsession × imap_session × Int)
    (hr : some r = if imapsess.next_command_type = OPENLI_IMAP_COMMAND_NONE then
        find_next_imap_message env sess imapsess
      else if imapsess.next_command_type = OPENLI_IMAP_COMMAND_REPLY then
        some (find_reply_end sess imapsess)
      else if imapsess.next_command_type = OPENLI_IMAP_COMMAND_REPLY_ONGOING then
        some (find_partial_reply_end sess imapsess)
      else some (find_command_end env sess imapsess)) :
    accounted r.1 r.2.1 := by
  split at hr
  · rename_i hnone
    exact find_next_imap_message_accounted env sess imapsess h hnone hidle r hr.symm
  · rename_i hnone
    split at hr
    · rw [Option.some.injEq] at hr
      subst hr
      exact find_reply_end_accounted sess imapsess h hnone hready
    · split at hr
      · rw [Option.some.injEq] at hr
        subst hr
        exact find_partial_reply_end_accounted sess imapsess h hnone hready
      · rw [Option.some.injEq] at hr
        subst hr
        exact find_command_end_accounted env sess imapsess h hnone hauth hready

theorem find_server_ready_cases (imapsess : imap_session) :
    find_server_ready imapsess = (imapsess, 0) ∨
    ∃ k, strcasestr (imapsess.contbuffer.drop imapsess.contbufread) (str "* OK ") = some k ∧
      find_server_ready imapsess =
        ({ imapsess with next_comm_start := imapsess.contbufread + k,
                         next_command_type := OPENLI_IMAP_COMMAND_SERVREADY }, 1) := by
  unfold find_server_ready
  split
  · exact Or.inl rfl
  · split
    · rename_i k hk
      exact Or.inr ⟨k, hk, rfl⟩
    · exact Or.inl rfl

theorem process_next_imap_state_accounted (env : imap_env) (sess : emailsession)
    (imapsess : imap_session) (h : accounted sess imapsess)
    (hv : counts_verbatim sess imapsess = true) :
    ∀ r, process_next_imap_state env sess imapsess = some r → accounted r.1 r.2.1 := by
  intro r hr
  simp only [counts_verbatim, decide_eq_true_eq] at hv
  obtain ⟨v1, v2, v3⟩ := hv
  have d1 : OPENLI_IMAP_STATE_INIT ≠ OPENLI_IMAP_STATE_SERVER_READY := by decide
  have d2 : OPENLI_IMAP_STATE_PRE_AUTH ≠ OPENLI_IMAP_STATE_SERVER_READY := by decide
  have d3 : OPENLI_IMAP_STATE_PRE_AUTH ≠ OPENLI_IMAP_STATE_IDLING := by decide
  have d4 : OPENLI_IMAP_STATE_SERVER_READY ≠ OPENLI_IMAP_STATE_IDLING := by decide
  have d5 : OPENLI_IMAP_STATE_SERVER_READY ≠ OPENLI_IMAP_STATE_INIT := by decide
  have h10 : ¬ ((1 : Int) = 0) := by decide
  have h01 : ¬ ((0 : Int) = 1) := by decide
  -- a session in the SERVER_READY state, whose greeting starts at the read cursor
  have hend : ∀ (s : emailsession) (im : imap_session),
      s.currstate = OPENLI_IMAP_STATE_SERVER_READY →
      s.client_octets + s.server_octets = im.contbufread →
      im.next_comm_start = im.contbufread →
      ∀ r, process_next_imap_state env s im = some r → accounted r.1 r.2.1 := by
    intro s im hs hsum hstart r hr
    have hni : s.currstate ≠ OPENLI_IMAP_STATE_INIT := by rw [hs]; exact d5
    unfold process_next_imap_state at hr
    simp only [hs, d5, if_false, false_and, if_true, find_server_ready_end] at hr
    rcases find_next_crlf_cases im im.next_comm_start with hc | ⟨k, hc⟩
    · simp only [hc, if_true, h01, if_false, Option.some.injEq] at hr
      subst hr
      refine ⟨hsum, fun _ => hstart, fun _ => hstart, ?_⟩
      intro hx
      rw [hs] at hx
      exact absurd hx d4
    · simp only [hc, h10, if_false, if_true, Option.some.injEq] at hr
      subst hr
      refine ⟨?_, fun hx => absurd rfl hx, fun hx => absurd hx d2, fun hx => absurd hx d3⟩
      show s.client_octets + (s.server_octets + (im.next_comm_start + k + 2 -
        im.next_comm_start)) = im.next_comm_start + k + 2
      omega
  by_cases hready : sess.currstate = OPENLI_IMAP_STATE_SERVER_READY
  · exact hend sess imapsess hready h.1 (h.2.2.1 hready) r hr
  · by_cases hinit : sess.currstate = OPENLI_IMAP_STATE_INIT
    · rcases find_server_ready_cases imapsess with hf | ⟨k, hk, hf⟩
      · refine parse_message_accounted env sess imapsess h hready v1 v3 r ?_
        rw [← hr]
        unfold process_next_imap_state
        simp only [hinit, if_true, hf, h01, and_false, if_false, d1]
      · have hk0 := v2 hinit
        rw [hk, Option.getD_some] at hk0
        subst hk0
        have e : process_next_imap_state env sess imapsess =
            process_next_imap_state env
              { sess with currstate := OPENLI_IMAP_STATE_SERVER_READY }
              { imapsess with next_comm_start := imapsess.contbufread + 0,
                              next_command_type := OPENLI_IMAP_COMMAND_SERVREADY } := by
          unfold process_next_imap_state
          simp only [hinit, if_true, hf, and_self, d5, if_false, false_and]
        rw [e] at hr
        exact hend { sess with currstate := OPENLI_IMAP_STATE_SERVER_READY }
          { imapsess with next_comm_start := imapsess.contbufread + 0,
                          next_command_type := OPENLI_IMAP_COMMAND_SERVREADY } rfl h.1 rfl r hr
    · exact parse_message_accounted env sess imapsess h hready v1 v3 r
        (hr.symm.trans (process_next_imap_state_parsing env sess imapsess hinit hready))

theorem imap_ingestion_loop_accounted (env : imap_env) (fuel : Nat) :
    ∀ (sess sess1 : emailsession) (imapsess imapsess1 : imap_session),
      accounted sess imapsess →
      imap_ingestion_verbatim env fuel sess imapsess = true →
      imap_ingestion_loop env fuel sess imapsess = some (sess1, imapsess1) →
      accounted sess1 imapsess1 := by
  induction fuel with
  | zero =>
    intro sess sess1 imapsess imapsess1 _ _ hl
    simp [imap_ingestion_loop] at hl
  | succ n ih =>
    intro sess sess1 imapsess imapsess1 h hv hl
    simp only [imap_ingestion_verbatim, Bool.and_eq_true] at hv
    obtain ⟨hv1, hv2⟩ := hv
    simp only [imap_ingestion_loop] at hl
    cases hp : process_next_imap_state env sess imapsess with
    | none => simp [hp] at hl
    | some r =>
      have hstep := process_next_imap_state_accounted env sess imapsess h hv1 r hp
      simp only [hp] at hl hv2
      by_cases hret : r.2.2 ≤ 0
      · simp only [hret, if_true, Option.some.injEq, Prod.mk.injEq] at hl
        obtain ⟨e1, e2⟩ := hl
        rw [← e1, ← e2]
        exact hstep
      · simp only [hret, if_false] at hl hv2
        exact ih _ _ _ _ hstep hv2 hl

theorem new_imap_session_accounted (sess : emailsession)
    (h : sess.client_octets + sess.server_octets = 0) : accounted sess new_imap_session :=
  ⟨h, fun hx => absurd rfl hx, fun _ => rfl, fun _ => ⟨rfl, fun hx => absurd rfl hx⟩⟩

theorem ingest_captures_accounted (env : imap_env) (fuel : Nat) (captures : List (List Nat)) :
    ∀ (sess sess1 : emailsession),
      accounted sess (match sess.proto_state with
        | none => new_imap_session
        | some s => s) →
      ingest_verbatim env fuel sess captures = true →
      ingest_captures env fuel sess captures = some sess1 →
      accounted sess1 (match sess1.proto_state with
        | none => new_imap_session
        | some s => s) := by
  induction captures with
  | nil =>
    intro sess sess1 h _ hrun
    simp only [ingest_captures, Option.some.injEq] at hrun
    rw [← hrun]
    exact h
  | cons c rest ih =>
    intro sess sess1 h hv hrun
    simp only [ingest_verbatim, Bool.and_eq_true] at hv
    obtain ⟨hv1, hv2⟩ := hv
    simp only [ingest_captures] at hrun
    cases hloop : imap_ingestion_loop env fuel sess (append_content_to_imap_buffer
        (match sess.proto_state with
         | none => new_imap_session
         | some s => s) c) with
    | none =>
      have hu : update_imap_session_by_ingestion env fuel sess c = none := by
        unfold update_imap_session_by_ingestion
        simp only [hloop]
      simp [hu] at hrun
    | some r =>
      obtain ⟨s1, im1⟩ := r
      have hu := update_of_loop env fuel sess s1 _ im1 c rfl hloop
      have happ : accounted sess (append_content_to_imap_buffer
          (match sess.proto_state with
           | none => new_imap_session
           | some s => s) c) := h
      have hacc := imap_ingestion_loop_accounted env fuel sess s1 _ im1 happ hv1 hloop
      simp only [hu] at hrun hv2
      exact ih { s1 with proto_state := some im1 } _ hacc hv2 hrun

/-- C19 fails on the code: after the greeting, `a1 AUTHENTICATE PLAIN
AGFsaWNlAHNlY3JldA==\r\n` and `a1 OK\r\n` all 68 bytes are processed, but the
counters hold 37 and 24, which is 61: the client counter has the 37 bytes of
the rewritten command, not the 44 of the line that was read. -/
theorem plain_auth_octets_differ_from_cursor :
    final_cursor (ingest_captures env_libb64 3 fresh_session
      (plain_exchange (str "imap ready") (str "a1") token_alice)) = some 68 ∧
    final_octets (ingest_captures env_libb64 3 fresh_session
      (plain_exchange (str "imap ready") (str "a1") token_alice)) = some (37, 24) ∧
    (auth_plain_line (str "a1") token_alice).length = 44 ∧
    (final_command (ingest_captures env_libb64 3 fresh_session
      (plain_exchange (str "imap ready") (str "a1") token_alice)) 0).map
        (fun c => c.ccs) = some [⟨0, 37, 1⟩, ⟨37, 44, 0⟩] ∧
    ingest_verbatim env_libb64 3 fresh_session
      (plain_exchange (str "imap ready") (str "a1") token_alice) = false := by
  refine ⟨?_, ?_, ?_, ?_, ?_⟩ <;> decide

/-- C19, amended: a session without tracker state and with both octet counters
at 0 is fed any sequence of captures. If every update returns, and every call
of `process_next_imap_state` on the way is one that `counts_verbatim` (no
AUTHENTICATE command is pending, a greeting `* OK ` seen in the INIT state is
at the start of the unread bytes, and so is the `+ ` that an IDLING session
looks for), then at the end `client_octets + server_octets` equals the read
cursor `contbufread`. -/
theorem octets_match_cursor_of_verbatim (env : imap_env) (fuel : Nat)
    (sess sess1 : emailsession) (captures : List (List Nat))
    (hproto : sess.proto_state = none)
    (hclient : sess.client_octets = 0) (hserver : sess.server_octets = 0)
    (hrun : ingest_captures env fuel sess captures = some sess1)
    (hverb : ingest_verbatim env fuel sess captures = true) :
    octets_match_cursor sess1 := by
  have h0 : accounted sess (match sess.proto_state with
      | none => new_imap_session
      | some s => s) := by
    rw [hproto]
    exact new_imap_session_accounted sess (by omega)
  have h := (ingest_captures_accounted env fuel captures sess sess1 h0 hverb hrun).1
  unfold octets_match_cursor
  cases hp : sess1.proto_state with
  | none =>
    rw [hp] at h
    exact h
  | some im =>
    rw [hp] at h
    exact h

theorem octets_match_cursor_of_verbatim_witness :
    ∃ sess1, ingest_captures env_libb64 6 fresh_session captures_select_idle = some sess1 ∧
      ingest_verbatim env_libb64 6 fresh_session captures_select_idle = true ∧
      octets_match_cursor sess1 :=
  ⟨(ingest_captures env_libb64 6 fresh_session captures_select_idle).get (by decide),
   (Option.some_get _).symm, by decide,
   octets_match_cursor_of_verbatim env_libb64 6 fresh_session _ captures_select_idle rfl rfl rfl
     (Option.some_get _).symm (by decide)⟩

/-! ## The IMAP tracker: incomplete messages -/

theorem parse_id_command_proto (sess : emailsession) (imapsess : imap_session)
    (p : Option imap_session) :
    parse_id_command (with_proto_state sess p) imapsess =
      (with_proto_state (parse_id_command sess imapsess).1 p,
       (parse_id_command sess imapsess).2) := by
  obtain ⟨cs, co, so, pa, sa, ca, ps⟩ := sess
  simp only [parse_id_command, with_proto_state]
  split
  · rfl
  · repeat' split
    all_goals rfl

theorem decode_plain_auth_content_proto (env : imap_env) (authmsg : List Nat)
    (sess : emailsession) (imapsess : imap_session) (p : Option imap_session) :
    decode_plain_auth_content env authmsg imapsess (with_proto_state sess p) =
      (with_proto_state (decode_plain_auth_content env authmsg imapsess sess).1 p,
       (decode_plain_auth_content env authmsg imapsess sess).2) := by
  obtain ⟨cs, co, so, pa, sa, ca, ps⟩ := sess
  simp only [decode_plain_auth_content, with_proto_state]
  repeat' split
  all_goals rfl

theorem decode_authentication_loop_proto (env : imap_env) (fuel : Nat) :
    ∀ (sess : emailsession) (imapsess : imap_session) (p : Option imap_session),
      decode_authentication_loop env fuel (with_proto_state sess p) imapsess =
        (with_proto_state (decode_authentication_loop env fuel sess imapsess).1 p,
         (decode_authentication_loop env fuel sess imapsess).2) := by
  induction fuel with
  | zero =>
    intro sess imapsess p
    rfl
  | succ n ih =>
    intro sess imapsess p
    simp only [decode_authentication_loop]
    split
    · generalize get_auth_type _ imapsess = g
      by_cases hgt : g.2 > 0
      · have hle : ¬ (g.2 ≤ 0) := by omega
        simp only [hgt, hle, if_true, if_false]
        exact ih { sess with client_octets := sess.client_octets +
          (imapsess.contbufread - imapsess.auth_read_from -
            (g.1.contbufread - g.1.auth_read_from)) } g.1 p
      · have hle : g.2 ≤ 0 := by omega
        simp only [hgt, hle, if_true, if_false]
    · split
      · exact decode_plain_auth_content_proto env _ sess imapsess p
      · rfl

theorem find_command_end_proto (env : imap_env) (sess : emailsession)
    (imapsess : imap_session) (p : Option imap_session) :
    find_command_end env (with_proto_state sess p) imapsess =
      (with_proto_state (find_command_end env sess imapsess).1 p,
       (find_command_end env sess imapsess).2) := by
  simp only [find_command_end]
  generalize find_next_crlf imapsess imapsess.next_comm_start = r
  by_cases hr : r.2 = 0
  · simp only [hr, if_true]
  · generalize save_imap_command r.1 = s
    by_cases hneg : s.2 < 0
    · simp only [hr, hneg, if_true, if_false]
    · by_cases hauth : s.1.next_command_type = OPENLI_IMAP_COMMAND_AUTH
      · simp only [hr, hneg, hauth, if_true, if_false]
        exact decode_authentication_loop_proto env 2
          { sess with currstate := OPENLI_IMAP_STATE_AUTHENTICATING } _ p
      · by_cases hid : s.1.next_command_type = OPENLI_IMAP_COMMAND_ID
        · have e1 : (parse_id_command
              { with_proto_state sess p with
                client_octets := (with_proto_state sess p).client_octets +
                  (s.1.contbufread - s.1.next_comm_start) } s.1).1 =
              with_proto_state (parse_id_command
                { sess with client_octets := sess.client_octets +
                    (s.1.contbufread - s.1.next_comm_start) } s.1).1 p :=
            congrArg Prod.fst (parse_id_command_proto
              { sess with client_octets := sess.client_octets +
                  (s.1.contbufread - s.1.next_comm_start) } s.1 p)
          simp only [hr, hneg, hid, reduceCtorEq, if_true, if_false, e1]
        · simp only [hr, hneg, hauth, hid, if_true, if_false]
          by_cases hl : s.1.next_command_type = OPENLI_IMAP_COMMAND_LOGOUT
          · simp only [hl, reduceCtorEq, if_true, if_false]
            rfl
          · by_cases hi : s.1.next_command_type = OPENLI_IMAP_COMMAND_IDLE
            · simp only [hi, reduceCtorEq, if_true, if_false]
              rfl
            · simp only [hl, hi, if_false]
              rfl

theorem find_reply_end_proto (sess : emailsession) (imapsess : imap_session)
    (p : Option imap_session) :
    find_reply_end (with_proto_state sess p) imapsess =
      (with_proto_state (find_reply_end sess imapsess).1 p, (find_reply_end sess imapsess).2) := by
  simp only [find_reply_end]
  generalize find_next_crlf imapsess imapsess.next_comm_start = r
  by_cases hr : r.2 = 0
  · simp only [hr, if_true]
  · generalize save_imap_reply r.1 = s
    by_cases hneg : s.2.1 < 0
    · simp only [hr, hneg, if_true, if_false]
      rfl
    · simp only [hr, hneg, if_false]
      split
      · rfl
      · split
        · rfl
        · split
          · rfl
          · rfl

theorem find_partial_reply_end_proto (sess : emailsession) (imapsess : imap_session)
    (p : Option imap_session) :
    find_partial_reply_end (with_proto_state sess p) imapsess =
      (with_proto_state (find_partial_reply_end sess imapsess).1 p,
       (find_partial_reply_end sess imapsess).2) := by
  simp only [find_partial_reply_end]
  split
  · rfl
  · rfl

theorem read_imap_while_idle_state_proto (sess : emailsession) (imapsess : imap_session)
    (p : Option imap_session) :
    read_imap_while_idle_state (with_proto_state sess p) imapsess =
      (read_imap_while_idle_state sess imapsess).map
        (fun r => (with_proto_state r.1 p, r.2)) := by
  simp only [read_imap_while_idle_state]
  split
  · rfl
  · split
    · rfl
    · split
      · rfl
      · split
        · rfl
        · split <;> rfl

theorem classify_imap_message_proto (sess : emailsession) (imapsess : imap_session)
    (tag comm_resp : List Nat) (p : Option imap_session) :
    classify_imap_message (with_proto_state sess p) imapsess tag comm_resp =
      (with_proto_state (classify_imap_message sess imapsess tag comm_resp).1 p,
       (classify_imap_message sess imapsess tag comm_resp).2) := by
  simp only [classify_imap_message]
  have hs : (with_proto_state sess p).currstate = sess.currstate := rfl
  rw [hs]
  repeat' split
  all_goals rfl

theorem find_next_imap_message_proto (env : imap_env) (sess : emailsession)
    (imapsess : imap_session) (p : Option imap_session) :
    find_next_imap_message env (with_proto_state sess p) imapsess =
      (find_next_imap_message env sess imapsess).map
        (fun r => (with_proto_state r.1 p, r.2)) := by
  have hs : (with_proto_state sess p).currstate = sess.currstate := rfl
  by_cases h1 : sess.currstate = OPENLI_IMAP_STATE_AUTHENTICATING
  · unfold find_next_imap_message
    rw [hs, if_pos h1, if_pos h1]
    rfl
  · by_cases h2 : sess.currstate = OPENLI_IMAP_STATE_IDLING
    · unfold find_next_imap_message
      rw [hs, if_neg h1, if_neg h1, if_pos h2, if_pos h2]
      exact read_imap_while_idle_state_proto sess imapsess p
    · rw [find_next_imap_message_words env sess imapsess h1 h2,
        find_next_imap_message_words env (with_proto_state sess p) imapsess h1 h2,
        Option.map_some']
      congr 1
      split
      · rfl
      · exact classify_imap_message_proto sess imapsess _ _ p

theorem process_next_imap_state_proto (env : imap_env) (sess : emailsession)
    (imapsess : imap_session) (p : Option imap_session) :
    process_next_imap_state env (with_proto_state sess p) imapsess =
      (process_next_imap_state env sess imapsess).map
        (fun r => (with_proto_state r.1 p, r.2)) := by
  have hs : (with_proto_state sess p).currstate = sess.currstate := rfl
  have d1 : OPENLI_IMAP_STATE_INIT ≠ OPENLI_IMAP_STATE_SERVER_READY := by decide
  have hparse : ∀ im : imap_session,
      (if im.next_command_type = OPENLI_IMAP_COMMAND_NONE then
        find_next_imap_message env (with_proto_state sess p) im
      else if im.next_command_type = OPENLI_IMAP_COMMAND_REPLY then
        some (find_reply_end (with_proto_state sess p) im)
      else if im.next_command_type = OPENLI_IMAP_COMMAND_REPLY_ONGOING then
        some (find_partial_reply_end (with_proto_state sess p) im)
      else some (find_command_end env (with_proto_state sess p) im)) =
      (if im.next_command_type = OPENLI_IMAP_COMMAND_NONE then
        find_next_imap_message env sess im
      else if im.next_command_type = OPENLI_IMAP_COMMAND_REPLY then
        some (find_reply_end sess im)
      else if im.next_command_type = OPENLI_IMAP_COMMAND_REPLY_ONGOING then
        some (find_partial_reply_end sess im)
      else some (find_command_end env sess im)).map
        (fun r => (with_proto_state r.1 p, r.2)) := by
    intro im
    split
    · exact find_next_imap_message_proto env sess im p
    · split
      · exact congrArg some (find_reply_end_proto sess im p)
      · split
        · exact congrArg some (find_partial_reply_end_proto sess im p)
        · exact congrArg some (find_command_end_proto env sess im p)
  simp only [process_next_imap_state, hs]
  by_cases hinit : sess.currstate = OPENLI_IMAP_STATE_INIT
  · by_cases hf : (find_server_ready imapsess).2 = 1
    · simp only [hinit, hf, and_self, if_true]
      have e : (with_proto_state sess p).currstate = sess.currstate := rfl
      split <;> rfl
    · simp only [hinit, hf, and_false, if_true, if_false, d1, hs]
      exact hparse _
  · simp only [hinit, false_and, if_false]
    by_cases hready : sess.currstate = OPENLI_IMAP_STATE_SERVER_READY
    · simp only [hready, if_true, hs]
      split <;> rfl
    · simp only [hready, if_false, hs]
      exact hparse _

theorem find_sub_cons (needle : List Nat) (a : Nat) (rest : List Nat) :
    find_sub needle (a :: rest) =
      if needle.isPrefixOf (a :: rest) then some 0
      else (find_sub needle rest).map (fun i => i + 1) := rfl

theorem find_sub_single_append (c : Nat) (l x : List Nat) (k : Nat)
    (h : find_sub [c] l = some k) : find_sub [c] (l ++ x) = some k := by
  induction l generalizing k with
  | nil => simp [find_sub] at h
  | cons a rest ih =>
    rw [List.cons_append, find_sub_cons]
    rw [find_sub_cons] at h
    have hp : List.isPrefixOf [c] (a :: (rest ++ x)) = List.isPrefixOf [c] (a :: rest) := by
      simp only [List.isPrefixOf, Bool.and_true]
    rw [hp]
    split
    · rename_i hq
      rw [if_pos hq] at h
      exact h
    · rename_i hq
      rw [if_neg hq] at h
      cases hr : find_sub [c] rest with
      | none => simp [hr] at h
      | some j =>
        rw [hr] at h
        rw [ih j hr]
        exact h

theorem find_sub_single_lt (c : Nat) (l : List Nat) (k : Nat) (h : find_sub [c] l = some k) :
    k < l.length := by
  have h1 := find_sub_single_at c l k h
  by_contra hge
  rw [List.getElem?_eq_none (by omega)] at h1
  simp at h1

theorem find_sub_crlf_append (l x : List Nat) (k : Nat) (h : find_sub [13, 10] l = some k) :
    find_sub [13, 10] (l ++ x) = some k := by
  induction l generalizing k with
  | nil => simp [find_sub] at h
  | cons a rest ih =>
    cases rest with
    | nil => simp [find_sub, List.isPrefixOf] at h
    | cons b r =>
      rw [List.cons_append, find_sub_cons]
      rw [find_sub_cons] at h
      have hp : List.isPrefixOf [13, 10] (a :: (b :: r ++ x)) =
          List.isPrefixOf [13, 10] (a :: b :: r) := by
        simp only [List.cons_append, List.isPrefixOf, Bool.and_true]
      rw [hp]
      split
      · rename_i hq
        rw [if_pos hq] at h
        exact h
      · rename_i hq
        rw [if_neg hq] at h
        cases hr : find_sub [13, 10] (b :: r) with
        | none => simp [hr] at h
        | some j =>
          rw [hr] at h
          rw [ih j hr]
          exact h

theorem find_sub_crlf_none_of_append (l x : List Nat)
    (h : find_sub [13, 10] (l ++ x) = none) : find_sub [13, 10] l = none := by
  cases hl : find_sub [13, 10] l with
  | none => rfl
  | some k =>
    rw [find_sub_crlf_append l x k hl] at h
    simp at h

theorem find_sub_none_drop (needle l : List Nat) (j : Nat) (hne : needle ≠ [])
    (h : find_sub needle l = none) : find_sub needle (l.drop j) = none := by
  induction j generalizing l with
  | zero => exact h
  | succ n ih =>
    cases l with
    | nil => simp [find_sub, hne]
    | cons a rest =>
      simp only [List.drop_succ_cons]
      apply ih
      simp only [find_sub] at h
      split at h
      · simp at h
      · cases hr : find_sub needle rest with
        | none => rfl
        | some k => simp [hr] at h

theorem find_sub_crlf_straddle (l x : List Nat) (c : Nat) (h : find_sub [13, 10] l = none)
    (hx : find_sub [13, 10] (l ++ x) = some c) : l.length ≤ c + 1 := by
  induction l generalizing c with
  | nil => simp
  | cons a rest ih =>
    cases rest with
    | nil => simp
    | cons b r =>
      rw [List.cons_append, find_sub_cons] at hx
      rw [find_sub_cons] at h
      have hp : List.isPrefixOf [13, 10] (a :: (b :: r ++ x)) =
          List.isPrefixOf [13, 10] (a :: b :: r) := by
        simp only [List.cons_append, List.isPrefixOf, Bool.and_true]
      rw [hp] at hx
      by_cases hq : List.isPrefixOf [13, 10] (a :: b :: r) = true
      · rw [if_pos hq] at h
        simp at h
      · rw [if_neg hq] at h hx
        have hnone : find_sub [13, 10] (b :: r) = none := by
          cases hr : find_sub [13, 10] (b :: r) with
          | none => rfl
          | some j => simp [hr] at h
        cases hr : find_sub [13, 10] (b :: r ++ x) with
        | none =>
          rw [hr] at hx
          simp at hx
        | some j =>
          have e := ih j hnone hr
          rw [hr] at hx
          simp only [Option.map_some', Option.some.injEq] at hx
          simp only [List.length_cons] at e ⊢
          omega

theorem cstr_append_cases (l x : List Nat) :
    cstr (l ++ x) = cstr l ∨ (cstr l = l ∧ cstr (l ++ x) = l ++ cstr x) := by
  induction l with
  | nil => exact Or.inr ⟨rfl, rfl⟩
  | cons a rest ih =>
    by_cases ha : a = 0
    · left
      subst ha
      rfl
    · have e1 : cstr (a :: rest ++ x) = a :: cstr (rest ++ x) := by
        unfold cstr
        simp [List.takeWhile_cons, ha]
      have e2 : cstr (a :: rest) = a :: cstr rest := by
        unfold cstr
        simp [List.takeWhile_cons, ha]
      rcases ih with h | ⟨h1, h2⟩
      · left
        rw [e1, e2, h]
      · right
        rw [e1, e2, h1, h2]
        exact ⟨rfl, rfl⟩

theorem cstr_is_start (l : List Nat) : ∃ rest, l = cstr l ++ rest :=
  ⟨l.dropWhile (fun c => c != 0), (List.takeWhile_append_dropWhile _ l).symm⟩

theorem imap_message_words_append (m y : List Nat) (w : List Nat × List Nat)
    (h : imap_message_words m = some w) (hcrlf : find_sub [13, 10] m = none) :
    imap_message_words (m ++ y) = some w := by
  unfold imap_message_words at h ⊢
  cases hsp : find_sub [32] m with
  | none => simp [hsp] at h
  | some sp =>
    have hlt := find_sub_single_lt 32 m sp hsp
    have hafter : find_sub [13, 10] (m.drop (sp + 1)) = none :=
      find_sub_none_drop _ _ _ (by decide) hcrlf
    simp only [hsp, hafter] at h
    rw [find_sub_single_append 32 m y sp hsp]
    simp only
    have hdrop : (m ++ y).drop (sp + 1) = m.drop (sp + 1) ++ y :=
      List.drop_append_of_le_length (by omega)
    have htake : (m ++ y).take sp = m.take sp := List.take_append_of_le_length (by omega)
    rw [hdrop, htake]
    cases hs : find_sub [32] (m.drop (sp + 1)) with
    | none => simp [hs] at h
    | some s =>
      simp only [hs] at h
      have hslt := find_sub_single_lt 32 _ s hs
      have htake2 : (m.drop (sp + 1) ++ y).take s = (m.drop (sp + 1)).take s :=
        List.take_append_of_le_length (by omega)
      rw [find_sub_single_append 32 _ y s hs]
      cases hc : find_sub [13, 10] (m.drop (sp + 1) ++ y) with
      | none =>
        simp only [htake2]
        exact h
      | some c =>
        have hge := find_sub_crlf_straddle _ y c hafter hc
        have hnlt : ¬ (c < s) := by omega
        simp only [hnlt, if_false, htake2]
        exact h

theorem imap_message_words_stable (u x : List Nat) (w : List Nat × List Nat)
    (h : imap_message_words (cstr u) = some w) (hcrlf : find_sub [13, 10] u = none) :
    imap_message_words (cstr (u ++ x)) = some w := by
  rcases cstr_append_cases u x with e | ⟨e0, e⟩
  · rw [e]
    exact h
  · obtain ⟨rest, hrest⟩ := cstr_is_start u
    have hc : find_sub [13, 10] (cstr u) = none := by
      apply find_sub_crlf_none_of_append (cstr u) rest
      rw [← hrest]
      exact hcrlf
    have e2 : cstr (u ++ x) = cstr u ++ cstr x := by
      rw [e, e0]
    rw [e2]
    exact imap_message_words_append _ _ w h hc

theorem imap_ingestion_loop_mono (env : imap_env) (fuel : Nat) :
    ∀ (sess : emailsession) (imapsess : imap_session) (r : emailsession × imap_session),
      imap_ingestion_loop env fuel sess imapsess = some r →
      imap_ingestion_loop env (fuel + 1) sess imapsess = some r := by
  induction fuel with
  | zero =>
    intro sess imapsess r h
    simp [imap_ingestion_loop] at h
  | succ n ih =>
    intro sess imapsess r h
    rw [imap_ingestion_loop] at h ⊢
    cases hp : process_next_imap_state env sess imapsess with
    | none =>
      rw [hp] at h
      exact absurd h (by simp)
    | some q =>
      rw [hp] at h
      by_cases hret : q.2.2 ≤ 0
      · simp only [hret, if_true] at h ⊢
        exact h
      · simp only [hret, if_false] at h ⊢
        exact ih _ _ r h

theorem imap_ingestion_loop_proto (env : imap_env) (fuel : Nat) :
    ∀ (sess : emailsession) (imapsess : imap_session) (p : Option imap_session),
      imap_ingestion_loop env fuel (with_proto_state sess p) imapsess =
        (imap_ingestion_loop env fuel sess imapsess).map
          (fun r => (with_proto_state r.1 p, r.2)) := by
  induction fuel with
  | zero =>
    intro sess imapsess p
    rfl
  | succ n ih =>
    intro sess imapsess p
    rw [imap_ingestion_loop, imap_ingestion_loop,
      process_next_imap_state_proto env sess imapsess p]
    cases process_next_imap_state env sess imapsess with
    | none => rfl
    | some r =>
      simp only [Option.map_some']
      split
      · rfl
      · exact ih _ _ p

/-- What `update_imap_session_by_ingestion` makes of the result of its loop. -/
theorem update_eq_loop (env : imap_env) (fuel : Nat) (sess : emailsession)
    (imapsess : imap_session) (content : List Nat)
    (hproto : (match sess.proto_state with
      | none => new_imap_session
      | some s => s) = imapsess) :
    update_imap_session_by_ingestion env fuel sess content =
      (imap_ingestion_loop env fuel sess (append_content_to_imap_buffer imapsess content)).map
        (fun r => (with_proto_state r.1 (some r.2),
          if r.1.currstate = OPENLI_IMAP_STATE_SESSION_OVER then 1 else 0)) := by
  unfold update_imap_session_by_ingestion
  simp only [hproto]
  cases imap_ingestion_loop env fuel sess (append_content_to_imap_buffer imapsess content) with
  | none => rfl
  | some r =>
    obtain ⟨s1, im1⟩ := r
    simp only [Option.map_some']
    split <;> rfl

theorem update_of_proto (env : imap_env) (fuel : Nat) (sess : emailsession)
    (imapsess : imap_session) (content : List Nat) :
    update_imap_session_by_ingestion env fuel (with_proto_state sess (some imapsess)) content =
      (imap_ingestion_loop env fuel sess (append_content_to_imap_buffer imapsess content)).map
        (fun r => (with_proto_state r.1 (some r.2),
          if r.1.currstate = OPENLI_IMAP_STATE_SESSION_OVER then 1 else 0)) := by
  rw [update_eq_loop env fuel (with_proto_state sess (some imapsess)) imapsess content rfl,
    imap_ingestion_loop_proto]
  cases imap_ingestion_loop env fuel sess (append_content_to_imap_buffer imapsess content) with
  | none => rfl
  | some r => rfl

theorem classify_imap_message_append (sess : emailsession) (imapsess : imap_session)
    (tag comm_resp x : List Nat) :
    classify_imap_message sess (append_content_to_imap_buffer imapsess x) tag comm_resp =
      ((classify_imap_message sess imapsess tag comm_resp).1,
       append_content_to_imap_buffer (classify_imap_message sess imapsess tag comm_resp).2.1 x,
       (classify_imap_message sess imapsess tag comm_resp).2.2) := by
  simp only [classify_imap_message, append_content_to_imap_buffer]
  repeat' split
  all_goals rfl

/-- The two ways in which `classify_imap_message` ends for a message that is
not an untagged PREAUTH. -/
theorem classify_imap_message_cases (sess : emailsession) (imapsess : imap_session)
    (tag comm_resp : List Nat)
    (hpre : tag = str "*" → strcasecmp_eq comm_resp (str "PREAUTH") = false) :
    (tag = str "*" ∧ strcasecmp_eq comm_resp (str "BYE") = true ∧
      sess.currstate ≠ OPENLI_IMAP_STATE_LOGOUT ∧
      classify_imap_message sess imapsess tag comm_resp =
        ({ sess with currstate := OPENLI_IMAP_STATE_SESSION_OVER }, imapsess, 0)) ∨
    ((classify_imap_message sess imapsess tag comm_resp).2.2 = 1 ∧
      (classify_imap_message sess imapsess tag comm_resp).2.1.next_command_type ≠
        OPENLI_IMAP_COMMAND_NONE ∧
      (classify_imap_message sess imapsess tag comm_resp).2.1.next_comm_start =
        imapsess.contbufread ∧
      (classify_imap_message sess imapsess tag comm_resp).2.1.contbuffer = imapsess.contbuffer ∧
      (classify_imap_message sess imapsess tag comm_resp).2.1.contbufread =
        imapsess.contbufread ∧
      (classify_imap_message sess imapsess tag comm_resp).2.1.commands = imapsess.commands ∧
      (classify_imap_message sess imapsess tag comm_resp).1.client_octets = sess.client_octets ∧
      (classify_imap_message sess imapsess tag comm_resp).1.server_octets = sess.server_octets ∧
      ((classify_imap_message sess imapsess tag comm_resp).1.currstate = sess.currstate ∨
       (classify_imap_message sess imapsess tag comm_resp).1.currstate =
         OPENLI_IMAP_STATE_AUTH_STARTED)) := by
  have t1 : OPENLI_IMAP_COMMAND_REPLY_ONGOING ≠ OPENLI_IMAP_COMMAND_NONE := by decide
  have t2 : OPENLI_IMAP_COMMAND_REPLY ≠ OPENLI_IMAP_COMMAND_NONE := by decide
  have t3 : OPENLI_IMAP_COMMAND_ID ≠ OPENLI_IMAP_COMMAND_NONE := by decide
  have t4 : OPENLI_IMAP_COMMAND_IDLE ≠ OPENLI_IMAP_COMMAND_NONE := by decide
  have t5 : OPENLI_IMAP_COMMAND_LOGOUT ≠ OPENLI_IMAP_COMMAND_NONE := by decide
  have t6 : OPENLI_IMAP_COMMAND_AUTH ≠ OPENLI_IMAP_COMMAND_NONE := by decide
  have t7 : OPENLI_IMAP_COMMAND_GENERIC ≠ OPENLI_IMAP_COMMAND_NONE := by decide
  by_cases hstar : tag = str "*"
  · have hp := hpre hstar
    by_cases hbye : strcasecmp_eq comm_resp (str "BYE") = true ∧
        sess.currstate ≠ OPENLI_IMAP_STATE_LOGOUT
    · left
      refine ⟨hstar, hbye.1, hbye.2, ?_⟩
      simp only [classify_imap_message, hstar, if_true, hbye, and_self, ne_eq, not_false_eq_true]
    · right
      simp only [classify_imap_message, hstar, if_true, hbye, if_false, hp, Bool.false_eq_true]
      refine ⟨?_, ?_, ?_, ?_, ?_, ?_, ?_, ?_, ?_⟩
      all_goals first
        | trivial
        | rfl
        | exact Or.inl trivial
  · right
    simp only [classify_imap_message, hstar, if_false]
    repeat' split
    all_goals
      refine ⟨?_, ?_, ?_, ?_, ?_, ?_, ?_, ?_, ?_⟩
    all_goals first
      | trivial
      | rfl
      | exact t1
      | exact t2
      | exact t3
      | exact t4
      | exact t5
      | exact t6
      | exact t7
      | exact Or.inl rfl
      | exact Or.inr rfl

/-- A pending message whose CRLF has not arrived: the call returns 0 and
changes nothing. -/
theorem process_next_imap_state_pending (env : imap_env) (sess : emailsession)
    (imapsess : imap_session)
    (h0 : sess.currstate ≠ OPENLI_IMAP_STATE_INIT)
    (h1 : sess.currstate ≠ OPENLI_IMAP_STATE_SERVER_READY)
    (htype : imapsess.next_command_type ≠ OPENLI_IMAP_COMMAND_NONE)
    (hcrlf : find_sub [13, 10] (imapsess.contbuffer.drop imapsess.next_comm_start) = none) :
    process_next_imap_state env sess imapsess = some (sess, imapsess, 0) := by
  have hc : find_next_crlf imapsess imapsess.next_comm_start = (imapsess, 0) := by
    unfold find_next_crlf
    rw [hcrlf]
  rw [process_next_imap_state_parsing env sess imapsess h0 h1, if_neg htype]
  simp only [find_reply_end, find_partial_reply_end, find_command_end, hc, if_true]
  repeat' split
  all_goals rfl

theorem update_mono (env : imap_env) (fuel : Nat) (sess : emailsession) (content : List Nat)
    (r : emailsession × Int)
    (h : update_imap_session_by_ingestion env fuel sess content = some r) :
    update_imap_session_by_ingestion env (fuel + 1) sess content = some r := by
  rw [update_eq_loop env _ sess _ content rfl] at h ⊢
  cases hl : imap_ingestion_loop env fuel sess (append_content_to_imap_buffer
      (match sess.proto_state with
       | none => new_imap_session
       | some s => s) content) with
  | none => simp [hl] at h
  | some q =>
    rw [imap_ingestion_loop_mono env fuel _ _ q hl]
    rw [hl] at h
    exact h

theorem classify_imap_message_bye (sess : emailsession) (imapsess : imap_session)
    (tag comm_resp : List Nat) (hstar : tag = str "*")
    (hbye : strcasecmp_eq comm_resp (str "BYE") = true)
    (hstate : sess.currstate ≠ OPENLI_IMAP_STATE_LOGOUT) :
    classify_imap_message sess imapsess tag comm_resp =
      ({ sess with currstate := OPENLI_IMAP_STATE_SESSION_OVER }, imapsess, 0) := by
  simp only [classify_imap_message, hstar, if_true, hbye, hstate, and_self, ne_eq,
    not_false_eq_true]

theorem imap_ingestion_loop_done (env : imap_env) (n : Nat) (sess s1 : emailsession)
    (imapsess im1 : imap_session)
    (h : process_next_imap_state env sess imapsess = some (s1, im1, 0)) :
    imap_ingestion_loop env (n + 1) sess imapsess = some (s1, im1) := by
  have h00 : (0 : Int) ≤ 0 := by decide
  simp only [imap_ingestion_loop, h, h00, if_true]

theorem imap_ingestion_loop_next (env : imap_env) (n : Nat) (sess s1 : emailsession)
    (imapsess im1 : imap_session)
    (h : process_next_imap_state env sess imapsess = some (s1, im1, 1)) :
    imap_ingestion_loop env (n + 1) sess imapsess = imap_ingestion_loop env n s1 im1 := by
  have h10 : ¬ ((1 : Int) ≤ 0) := by decide
  simp only [imap_ingestion_loop, h, h10, if_false]

theorem append_content_append (imapsess : imap_session) (p x : List Nat) :
    append_content_to_imap_buffer imapsess (p ++ x) =
      append_content_to_imap_buffer (append_content_to_imap_buffer imapsess p) x := by
  simp only [append_content_to_imap_buffer, List.append_assoc]

theorem incomplete_message_loop (env : imap_env) (sess : emailsession)
    (imapsess : imap_session) (x : List Nat) (n : Nat)
    (h0 : sess.currstate ≠ OPENLI_IMAP_STATE_INIT)
    (h1 : sess.currstate ≠ OPENLI_IMAP_STATE_SERVER_READY)
    (h2 : sess.currstate ≠ OPENLI_IMAP_STATE_AUTHENTICATING)
    (h3 : sess.currstate ≠ OPENLI_IMAP_STATE_IDLING)
    (hpend : imapsess.next_command_type ≠ OPENLI_IMAP_COMMAND_NONE →
      imapsess.next_comm_start = imapsess.contbufread)
    (hcrlf : find_sub [13, 10] (imapsess.contbuffer.drop imapsess.contbufread) = none)
    (hpre : imapsess.next_command_type = OPENLI_IMAP_COMMAND_NONE →
      ∀ w, imap_message_words (cstr (imapsess.contbuffer.drop imapsess.contbufread)) =
        some w → w.1 = str "*" → strcasecmp_eq w.2 (str "PREAUTH") = false) :
    ∃ s1 im1,
      imap_ingestion_loop env (n + 2) sess imapsess = some (s1, im1) ∧
      im1.contbuffer = imapsess.contbuffer ∧
      im1.contbufread = imapsess.contbufread ∧
      im1.commands = imapsess.commands ∧
      s1.client_octets = sess.client_octets ∧
      s1.server_octets = sess.server_octets ∧
      ((∀ f, imap_ingestion_loop env f s1 (append_content_to_imap_buffer im1 x) =
          imap_ingestion_loop env f sess (append_content_to_imap_buffer imapsess x)) ∨
       (∀ f, imap_ingestion_loop env f s1 (append_content_to_imap_buffer im1 x) =
          imap_ingestion_loop env (f + 1) sess (append_content_to_imap_buffer imapsess x))) := by
  have d0 : OPENLI_IMAP_STATE_AUTH_STARTED ≠ OPENLI_IMAP_STATE_INIT := by decide
  have d1 : OPENLI_IMAP_STATE_AUTH_STARTED ≠ OPENLI_IMAP_STATE_SERVER_READY := by decide
  have e0 : OPENLI_IMAP_STATE_SESSION_OVER ≠ OPENLI_IMAP_STATE_INIT := by decide
  have e1 : OPENLI_IMAP_STATE_SESSION_OVER ≠ OPENLI_IMAP_STATE_SERVER_READY := by decide
  have e2 : OPENLI_IMAP_STATE_SESSION_OVER ≠ OPENLI_IMAP_STATE_AUTHENTICATING := by decide
  have e3 : OPENLI_IMAP_STATE_SESSION_OVER ≠ OPENLI_IMAP_STATE_IDLING := by decide
  have e4 : OPENLI_IMAP_STATE_SESSION_OVER ≠ OPENLI_IMAP_STATE_LOGOUT := by decide
  by_cases htype : imapsess.next_command_type = OPENLI_IMAP_COMMAND_NONE
  · have hstep : process_next_imap_state env sess imapsess =
        some (match imap_message_words (cstr (imapsess.contbuffer.drop imapsess.contbufread)) with
        | none => (sess, imapsess, 0)
        | some w => classify_imap_message sess imapsess w.1 w.2) := by
      rw [process_next_imap_state_parsing env sess imapsess h0 h1, if_pos htype,
        find_next_imap_message_words env sess imapsess h2 h3]
    cases hw : imap_message_words (cstr (imapsess.contbuffer.drop imapsess.contbufread)) with
    | none =>
      rw [hw] at hstep
      exact ⟨sess, imapsess, imap_ingestion_loop_done env _ _ _ _ _ hstep, rfl, rfl, rfl, rfl,
        rfl, Or.inl (fun _ => rfl)⟩
    | some w =>
      rw [hw] at hstep
      simp only at hstep
      -- the unread bytes are not empty, so the new bytes come after them
      have hlen : imapsess.contbufread ≤ imapsess.contbuffer.length := by
        by_contra hgt
        rw [List.drop_eq_nil_of_le (by omega)] at hw
        simp [cstr, imap_message_words, find_sub] at hw
      have hdrop : (append_content_to_imap_buffer imapsess x).contbuffer.drop
          (append_content_to_imap_buffer imapsess x).contbufread =
          imapsess.contbuffer.drop imapsess.contbufread ++ x :=
        List.drop_append_of_le_length hlen
      have hwx := imap_message_words_stable _ x w hw hcrlf
      have hstepx : ∀ s : emailsession, s.currstate ≠ OPENLI_IMAP_STATE_INIT →
          s.currstate ≠ OPENLI_IMAP_STATE_SERVER_READY →
          s.currstate ≠ OPENLI_IMAP_STATE_AUTHENTICATING →
          s.currstate ≠ OPENLI_IMAP_STATE_IDLING →
          process_next_imap_state env s (append_content_to_imap_buffer imapsess x) =
            some ((classify_imap_message s imapsess w.1 w.2).1,
             append_content_to_imap_buffer (classify_imap_message s imapsess w.1 w.2).2.1 x,
             (classify_imap_message s imapsess w.1 w.2).2.2) := by
        intro s g0 g1 g2 g3
        rw [process_next_imap_state_parsing env s _ g0 g1, if_pos (by exact htype),
          find_next_imap_message_words env s _ g2 g3, hdrop, hwx]
        exact congrArg some (classify_imap_message_append s imapsess w.1 w.2 x)
      rcases classify_imap_message_cases sess imapsess w.1 w.2 (hpre htype w hw) with
        ⟨hstar, hbye, hlog, hc⟩ | ⟨c1, c2, c3, c4, c5, c6, c7, c8, c9⟩
      · rw [hc] at hstep
        refine ⟨_, imapsess, imap_ingestion_loop_done env _ _ _ _ _ hstep, rfl, rfl, rfl, rfl,
          rfl, Or.inl ?_⟩
        intro f
        cases f with
        | zero => rfl
        | succ g =>
          have a1 := hstepx sess h0 h1 h2 h3
          rw [hc] at a1
          have a2 := hstepx { sess with currstate := OPENLI_IMAP_STATE_SESSION_OVER } e0 e1 e2 e3
          rw [classify_imap_message_bye _ imapsess w.1 w.2 hstar hbye e4] at a2
          rw [imap_ingestion_loop_done env g _ _ _ _ a1,
            imap_ingestion_loop_done env g _ _ _ _ a2]
      · obtain ⟨sC, hsC⟩ : ∃ sC, (classify_imap_message sess imapsess w.1 w.2).1 = sC :=
          ⟨_, rfl⟩
        obtain ⟨imC, himC⟩ : ∃ imC, (classify_imap_message sess imapsess w.1 w.2).2.1 = imC :=
          ⟨_, rfl⟩
        rw [hsC] at c7 c8 c9
        rw [himC] at c2 c3 c4 c5 c6
        have hcl : classify_imap_message sess imapsess w.1 w.2 = (sC, imC, 1) := by
          rw [← hsC, ← himC, ← c1]
        rw [hcl] at hstep
        have g0 : sC.currstate ≠ OPENLI_IMAP_STATE_INIT := by
          rcases c9 with h | h <;> rw [h]
          · exact h0
          · exact d0
        have g1 : sC.currstate ≠ OPENLI_IMAP_STATE_SERVER_READY := by
          rcases c9 with h | h <;> rw [h]
          · exact h1
          · exact d1
        have hstep2 : process_next_imap_state env sC imC = some (sC, imC, 0) := by
          apply process_next_imap_state_pending env sC imC g0 g1 c2
          rw [c3, c4]
          exact hcrlf
        refine ⟨sC, imC, ?_, c4, c5, c6, c7, c8, Or.inr ?_⟩
        · rw [imap_ingestion_loop_next env (n + 1) _ _ _ _ hstep]
          exact imap_ingestion_loop_done env n _ _ _ _ hstep2
        · intro f
          have a1 := hstepx sess h0 h1 h2 h3
          rw [hcl] at a1
          rw [imap_ingestion_loop_next env f _ _ _ _ a1]
  · have hstep : process_next_imap_state env sess imapsess = some (sess, imapsess, 0) := by
      apply process_next_imap_state_pending env sess imapsess h0 h1 htype
      rw [hpend htype]
      exact hcrlf
    exact ⟨sess, imapsess, imap_ingestion_loop_done env _ _ _ _ _ hstep, rfl, rfl, rfl, rfl,
      rfl, Or.inl (fun _ => rfl)⟩

/-- C20 fails on the code: a PRE_AUTH session whose unread bytes are
`a1 SELECT inbox`, without CRLF. The call of `process_next_imap_state` returns
1, not 0, and records the tag and the command word of the incomplete message;
only the next call returns 0. The read cursor, the saved commands and the
octet counters stay as they were. -/
theorem incomplete_message_is_classified :
    find_sub [13, 10] (str "a1 SELECT inbox") = none ∧
    (process_next_imap_state env_libb64 session_pre_auth
      (append_content_to_imap_buffer tracker_pre_auth (str "a1 SELECT inbox"))).map
        (fun r => r.2.2) = some 1 ∧
    (process_next_imap_state env_libb64 session_pre_auth
      (append_content_to_imap_buffer tracker_pre_auth (str "a1 SELECT inbox"))).map
        (fun r => (r.2.1.next_command_type, r.2.1.next_comm_tag, r.2.1.contbufread)) =
      some (OPENLI_IMAP_COMMAND_GENERIC, some (str "a1"), 17) ∧
    ((process_next_imap_state env_libb64 session_pre_auth
      (append_content_to_imap_buffer tracker_pre_auth (str "a1 SELECT inbox"))).bind
        (fun r => process_next_imap_state env_libb64 r.1 r.2.1)).map (fun r => r.2.2) =
      some 0 := by
  refine ⟨?_, ?_, ?_, ?_⟩ <;> decide

/-- C20, amended: a session that is not in the INIT, SERVER_READY,
AUTHENTICATING or IDLING state, whose pending message (if one is pending)
starts at the read cursor, receives the capture `p`, after which the unread
bytes hold no CRLF and do not start an untagged PREAUTH. Then
`update_imap_session_by_ingestion` returns within two calls of
`process_next_imap_state` (the first may return 1 for the tag and the command
word, the last returns 0), and leaves the read cursor, the saved commands with
their CC records and both octet counters as they were. When the capture `x`
follows, the result is that of the single capture `p ++ x`: whatever either of
the two runs returns, the other returns too (the single capture with one more
round of fuel at most). -/
theorem incomplete_message_restart (env : imap_env) (sess : emailsession)
    (imapsess : imap_session) (p x : List Nat) (fuel : Nat)
    (hproto : sess.proto_state = some imapsess)
    (h0 : sess.currstate ≠ OPENLI_IMAP_STATE_INIT)
    (h1 : sess.currstate ≠ OPENLI_IMAP_STATE_SERVER_READY)
    (h2 : sess.currstate ≠ OPENLI_IMAP_STATE_AUTHENTICATING)
    (h3 : sess.currstate ≠ OPENLI_IMAP_STATE_IDLING)
    (hpend : imapsess.next_command_type ≠ OPENLI_IMAP_COMMAND_NONE →
      imapsess.next_comm_start = imapsess.contbufread)
    (hcrlf : find_sub [13, 10] ((imapsess.contbuffer ++ p).drop imapsess.contbufread) = none)
    (hpre : imapsess.next_command_type = OPENLI_IMAP_COMMAND_NONE →
      ∀ w, imap_message_words (cstr ((imapsess.contbuffer ++ p).drop imapsess.contbufread)) =
        some w → w.1 = str "*" → strcasecmp_eq w.2 (str "PREAUTH") = false)
    (hfuel : 2 ≤ fuel) :
    ∃ s1 im1,
      update_imap_session_by_ingestion env fuel sess p =
        some (s1, if s1.currstate = OPENLI_IMAP_STATE_SESSION_OVER then 1 else 0) ∧
      s1.proto_state = some im1 ∧
      im1.contbuffer = imapsess.contbuffer ++ p ∧
      im1.contbufread = imapsess.contbufread ∧
      im1.commands = imapsess.commands ∧
      s1.client_octets = sess.client_octets ∧
      s1.server_octets = sess.server_octets ∧
      (∀ r, update_imap_session_by_ingestion env fuel s1 x = some r →
        update_imap_session_by_ingestion env (fuel + 1) sess (p ++ x) = some r) ∧
      (∀ r, update_imap_session_by_ingestion env fuel sess (p ++ x) = some r →
        update_imap_session_by_ingestion env fuel s1 x = some r) := by
  obtain ⟨n, rfl⟩ : ∃ n, fuel = n + 2 := ⟨fuel - 2, by omega⟩
  have hm : (match sess.proto_state with
      | none => new_imap_session
      | some s => s) = imapsess := by rw [hproto]
  obtain ⟨s1, im1, hloop, f1, f2, f3, f4, f5, hx⟩ := incomplete_message_loop env sess
    (append_content_to_imap_buffer imapsess p) x n h0 h1 h2 h3 hpend hcrlf hpre
  have hu1 : ∀ g, update_imap_session_by_ingestion env g (with_proto_state s1 (some im1)) x =
      (imap_ingestion_loop env g s1 (append_content_to_imap_buffer im1 x)).map
        (fun r => (with_proto_state r.1 (some r.2),
          if r.1.currstate = OPENLI_IMAP_STATE_SESSION_OVER then 1 else 0)) :=
    fun g => update_of_proto env g s1 im1 x
  have hu2 : ∀ g, update_imap_session_by_ingestion env g sess (p ++ x) =
      (imap_ingestion_loop env g sess
        (append_content_to_imap_buffer (append_content_to_imap_buffer imapsess p) x)).map
        (fun r => (with_proto_state r.1 (some r.2),
          if r.1.currstate = OPENLI_IMAP_STATE_SESSION_OVER then 1 else 0)) := by
    intro g
    rw [update_eq_loop env g sess imapsess (p ++ x) hm, append_content_append]
  refine ⟨with_proto_state s1 (some im1), im1, ?_, rfl, f1, f2, f3, f4, f5, ?_, ?_⟩
  · rw [update_eq_loop env _ sess imapsess p hm, hloop]
    rfl
  · intro r hr
    rcases hx with hx | hx
    · apply update_mono
      rw [hu2, ← hx, ← hu1]
      exact hr
    · rw [hu2, ← hx, ← hu1]
      exact hr
  · intro r hr
    rcases hx with hx | hx
    · rw [hu1, hx, ← hu2]
      exact hr
    · apply update_mono
      rw [hu1, hx, ← hu2]
      exact hr

theorem incomplete_message_restart_witness :
    ∃ s1 im1,
      update_imap_session_by_ingestion env_libb64 2 session_pre_auth (str "a1 SELECT inbox") =
        some (s1, if s1.currstate = OPENLI_IMAP_STATE_SESSION_OVER then 1 else 0) ∧
      s1.proto_state = some im1 ∧
      im1.contbuffer = tracker_pre_auth.contbuffer ++ str "a1 SELECT inbox" ∧
      im1.contbufread = tracker_pre_auth.contbufread ∧
      im1.commands = tracker_pre_auth.commands ∧
      s1.client_octets = session_pre_auth.client_octets ∧
      s1.server_octets = session_pre_auth.server_octets ∧
      (∀ r, update_imap_session_by_ingestion env_libb64 2 s1 (str "\r\n") = some r →
        update_imap_session_by_ingestion env_libb64 (2 + 1) session_pre_auth
          (str "a1 SELECT inbox" ++ str "\r\n") = some r) ∧
      (∀ r, update_imap_session_by_ingestion env_libb64 2 session_pre_auth
          (str "a1 SELECT inbox" ++ str "\r\n") = some r →
        update_imap_session_by_ingestion env_libb64 2 s1 (str "\r\n") = some r) :=
  incomplete_message_restart env_libb64 session_pre_auth tracker_pre_auth
    (str "a1 SELECT inbox") (str "\r\n") 2 rfl (by decide) (by decide) (by decide) (by decide)
    (by decide) (by decide)
    (by
      intro _ w hw hs
      have e : imap_message_words (cstr ((tracker_pre_auth.contbuffer ++
          str "a1 SELECT inbox").drop tracker_pre_auth.contbufread)) =
          some (str "a1", str "SELECT") := by decide
      rw [e] at hw
      cases hw
      exact absurd hs (by decide))
    (by decide)

/-! ## The IMAP tracker: the IDLE exchange -/

theorem idle_step_wait_command (env : imap_env) (sess : emailsession)
    (imapsess : imap_session) (i : Nat) (c0 : imap_command) (tag reply txt e : List Nat)
    (hstate : sess.currstate = OPENLI_IMAP_STATE_AUTHENTICATED)
    (hnone : imapsess.next_command_type = OPENLI_IMAP_COMMAND_NONE)
    (hread : imapsess.contbufread = imapsess.contbuffer.length)
    (hw : imap_message_words (cstr e) = none) :
    process_next_imap_state env (idle_session sess tag reply txt 0)
      (idle_tracker imapsess i c0 tag reply txt e 0) =
      some (idle_session sess tag reply txt 0, idle_tracker imapsess i c0 tag reply txt e 0, 0) := by
  have s0 : sess.currstate ≠ OPENLI_IMAP_STATE_INIT := by rw [hstate]; decide
  have s1 : sess.currstate ≠ OPENLI_IMAP_STATE_SERVER_READY := by rw [hstate]; decide
  have s2 : sess.currstate ≠ OPENLI_IMAP_STATE_AUTHENTICATING := by rw [hstate]; decide
  have s3 : sess.currstate ≠ OPENLI_IMAP_STATE_IDLING := by rw [hstate]; decide
  have hdrop : (idle_tracker imapsess i c0 tag reply txt e 0).contbuffer.drop
      (idle_tracker imapsess i c0 tag reply txt e 0).contbufread = e := by
    show (imapsess.contbuffer ++ e).drop imapsess.contbufread = e
    rw [hread, List.drop_left]
  show process_next_imap_state env sess _ = _
  rw [process_next_imap_state_parsing env sess _ s0 s1, if_pos (by exact hnone),
    find_next_imap_message_words env sess _ s2 s3, hdrop, hw]
  rfl

theorem idle_step_classify_command (env : imap_env) (sess : emailsession)
    (imapsess : imap_session) (i : Nat) (c0 : imap_command) (tag reply txt e : List Nat)
    (hstate : sess.currstate = OPENLI_IMAP_STATE_AUTHENTICATED)
    (hnone : imapsess.next_command_type = OPENLI_IMAP_COMMAND_NONE)
    (hread : imapsess.contbufread = imapsess.contbuffer.length)
    (hstar : tag ≠ str "*")
    (hw : imap_message_words (cstr e) = some (tag, str "IDLE")) :
    process_next_imap_state env (idle_session sess tag reply txt 0)
      (idle_tracker imapsess i c0 tag reply txt e 0) =
      some (idle_session sess tag reply txt 1, idle_tracker imapsess i c0 tag reply txt e 1, 1) := by
  have s0 : sess.currstate ≠ OPENLI_IMAP_STATE_INIT := by rw [hstate]; decide
  have s1 : sess.currstate ≠ OPENLI_IMAP_STATE_SERVER_READY := by rw [hstate]; decide
  have s2 : sess.currstate ≠ OPENLI_IMAP_STATE_AUTHENTICATING := by rw [hstate]; decide
  have s3 : sess.currstate ≠ OPENLI_IMAP_STATE_IDLING := by rw [hstate]; decide
  have hdrop : (idle_tracker imapsess i c0 tag reply txt e 0).contbuffer.drop
      (idle_tracker imapsess i c0 tag reply txt e 0).contbufread = e := by
    show (imapsess.contbuffer ++ e).drop imapsess.contbufread = e
    rw [hread, List.drop_left]
  have c1 : strcasecmp_eq (str "IDLE") (str "OK") = false := by decide
  have c2 : strcasecmp_eq (str "IDLE") (str "NO") = false := by decide
  have c3 : strcasecmp_eq (str "IDLE") (str "BAD") = false := by decide
  have c4 : strcasecmp_eq (str "IDLE") (str "ID") = false := by decide
  have c5 : strcasecmp_eq (str "IDLE") (str "IDLE") = true := by decide
  show process_next_imap_state env sess _ = _
  rw [process_next_imap_state_parsing env sess _ s0 s1, if_pos (by exact hnone),
    find_next_imap_message_words env sess _ s2 s3, hdrop, hw]
  simp only [classify_imap_message, hstar, if_false, c1, c2, c3, c4, c5, Bool.false_eq_true,
    or_self, if_true]
  rfl

theorem idle_step_save_command (env : imap_env) (sess : emailsession)
    (imapsess : imap_session) (i : Nat) (c0 : imap_command) (tag reply txt rest : List Nat)
    (hstate : sess.currstate = OPENLI_IMAP_STATE_AUTHENTICATED)
    (hread : imapsess.contbufread = imapsess.contbuffer.length)
    (hfree : first_free_command imapsess.commands = some i)
    (hslot : imapsess.commands[i]? = some c0)
    (htag : ∀ c ∈ tag, c ≠ 13) :
    process_next_imap_state env (idle_session sess tag reply txt 1)
      (idle_tracker imapsess i c0 tag reply txt ((tag ++ str " IDLE" ++ [13, 10]) ++ rest) 1) =
      some (idle_session sess tag reply txt 2,
            idle_tracker imapsess i c0 tag reply txt ((tag ++ str " IDLE" ++ [13, 10]) ++ rest) 2,
            1) := by
  have s0 : sess.currstate ≠ OPENLI_IMAP_STATE_INIT := by rw [hstate]; decide
  have s1 : sess.currstate ≠ OPENLI_IMAP_STATE_SERVER_READY := by rw [hstate]; decide
  have hbody : ∀ c ∈ tag ++ str " IDLE", c ≠ 13 := by
    intro c hc
    rcases List.mem_append.mp hc with h | h
    · exact htag c h
    · have : ∀ x ∈ str " IDLE", x ≠ 13 := by decide
      exact this c h
  have hdrop : (idle_tracker imapsess i c0 tag reply txt
      ((tag ++ str " IDLE" ++ [13, 10]) ++ rest) 1).contbuffer.drop
      (idle_tracker imapsess i c0 tag reply txt
        ((tag ++ str " IDLE" ++ [13, 10]) ++ rest) 1).next_comm_start =
      (tag ++ str " IDLE") ++ 13 :: 10 :: rest := by
    show (imapsess.contbuffer ++ ((tag ++ str " IDLE" ++ [13, 10]) ++ rest)).drop
      imapsess.contbufread = _
    rw [hread, List.drop_left]
    simp
  have h := find_command_end_line env sess
    (idle_tracker imapsess i c0 tag reply txt ((tag ++ str " IDLE" ++ [13, 10]) ++ rest) 1)
    c0 i (tag ++ str " IDLE") rest hdrop hbody hfree hslot
    (by show OPENLI_IMAP_COMMAND_IDLE ≠ _; decide) (by show OPENLI_IMAP_COMMAND_IDLE ≠ _; decide)
  show process_next_imap_state env sess _ = _
  rw [process_next_imap_state_parsing env sess _ s0 s1]
  have t1 : (idle_tracker imapsess i c0 tag reply txt
      ((tag ++ str " IDLE" ++ [13, 10]) ++ rest) 1).next_command_type =
      OPENLI_IMAP_COMMAND_IDLE := rfl
  simp only [t1, reduceCtorEq, if_false, if_true] at h ⊢
  rw [h]
  rfl

theorem process_next_imap_state_idling (env : imap_env) (sess : emailsession)
    (imapsess : imap_session) (hstate : sess.currstate = OPENLI_IMAP_STATE_IDLING)
    (hnone : imapsess.next_command_type = OPENLI_IMAP_COMMAND_NONE) :
    process_next_imap_state env sess imapsess = read_imap_while_idle_state sess imapsess := by
  have s0 : sess.currstate ≠ OPENLI_IMAP_STATE_INIT := by rw [hstate]; decide
  have s1 : sess.currstate ≠ OPENLI_IMAP_STATE_SERVER_READY := by rw [hstate]; decide
  have s2 : sess.currstate ≠ OPENLI_IMAP_STATE_AUTHENTICATING := by rw [hstate]; decide
  rw [process_next_imap_state_parsing env sess imapsess s0 s1, if_pos hnone]
  unfold find_next_imap_message
  rw [if_neg s2, if_pos hstate]

theorem read_imap_while_idle_state_no_plus (sess : emailsession) (imapsess : imap_session)
    (comm : imap_command)
    (hslot : imapsess.commands[imapsess.idle_command_index.toNat]? = some comm)
    (hrs : imapsess.reply_start = 0)
    (hplus : strstr (imapsess.contbuffer.drop imapsess.contbufread) (str "+ ") = none)
    (hidx : ¬ (imapsess.idle_command_index < 0)) :
    read_imap_while_idle_state sess imapsess = some (sess, imapsess, 0) := by
  simp only [read_imap_while_idle_state, hslot, hrs, if_true, hplus, Option.map_none', hidx,
    if_false]

theorem read_imap_while_idle_state_wait (sess : emailsession) (imapsess : imap_session)
    (comm : imap_command) (rs : Nat)
    (hslot : imapsess.commands[imapsess.idle_command_index.toNat]? = some comm)
    (hstart : (if imapsess.reply_start = 0 then
        (strstr (imapsess.contbuffer.drop imapsess.contbufread) (str "+ ")).map
          (fun k => imapsess.contbufread + k)
      else some imapsess.reply_start) = some rs)
    (hdone : strstr (imapsess.contbuffer.drop imapsess.contbufread)
      [13, 10, 68, 79, 78, 69, 13, 10] = none)
    (hidx : ¬ (imapsess.idle_command_index < 0)) :
    read_imap_while_idle_state sess imapsess =
      some (sess, { imapsess with reply_start := rs }, 0) := by
  simp only [read_imap_while_idle_state, hslot, hstart, hdone, hidx, if_false]

theorem read_imap_while_idle_state_done (sess : emailsession) (imapsess : imap_session)
    (comm : imap_command) (rs k : Nat) (reply : List Nat)
    (hslot : imapsess.commands[imapsess.idle_command_index.toNat]? = some comm)
    (hstart : (if imapsess.reply_start = 0 then
        (strstr (imapsess.contbuffer.drop imapsess.contbufread) (str "+ ")).map
          (fun k => imapsess.contbufread + k)
      else some imapsess.reply_start) = some rs)
    (hdone : strstr (imapsess.contbuffer.drop imapsess.contbufread)
      [13, 10, 68, 79, 78, 69, 13, 10] = some k)
    (hlen : imapsess.contbufread + k + 2 - rs = reply.length)
    (hcopy : (imapsess.contbuffer.drop rs).take (reply.length + 6) = reply ++ str "DONE\r\n")
    (hidx : ¬ (imapsess.idle_command_index < 0))
    (hle : rs ≤ imapsess.contbufread + k + 2) :
    read_imap_while_idle_state sess imapsess =
      some ({ sess with server_octets := sess.server_octets + reply.length,
                        client_octets := sess.client_octets + 6,
                        currstate := OPENLI_IMAP_STATE_AUTHENTICATED },
       { imapsess with contbufread := imapsess.contbufread + k + 8, reply_start := 0,
                       commands := imapsess.commands.set imapsess.idle_command_index.toNat
                         { comm with
                           commbuffer := comm.commbuffer ++ (reply ++ str "DONE\r\n"),
                           ccs := comm.ccs ++
                             [⟨comm.commbuffer.length, comm.commbuffer.length + reply.length, 0⟩,
                              ⟨comm.commbuffer.length + reply.length,
                               comm.commbuffer.length + reply.length + 6, 1⟩] } }, 1) := by
  have hg : ¬ (((imapsess.contbufread + k : Nat) : Int) + 2 - (rs : Int) < 0) := by omega
  simp only [read_imap_while_idle_state, hslot, hstart, hdone, hlen, hcopy, hidx, hg, if_false,
    add_cc_to_imap_command, List.append_assoc, List.cons_append, List.nil_append]

/-- A `DONE` line that comes in front of the `+ ` of the server: the length of
the server part is negative, and the ingestion has no result. -/
theorem idle_done_before_plus :
    (ingest_captures env_libb64 6 session_pre_auth [str "a2 IDLE\r\n"]).map
      (fun r => r.currstate) = some OPENLI_IMAP_STATE_IDLING ∧
    ingest_captures env_libb64 6 session_pre_auth
      [str "a2 IDLE\r\n", str "x\r\nDONE\r\n+ idling\r\n"] = none := by
  constructor <;> decide

theorem drop_base_line (base line u : List Nat) (n : Nat) (hn : n = base.length + line.length) :
    (base ++ (line ++ u)).drop n = u := by
  rw [hn, ← List.append_assoc]
  have e : base.length + line.length = (base ++ line).length := by simp
  rw [e, List.drop_left]

theorem idle_line_length (tag : List Nat) :
    (tag ++ str " IDLE" ++ [13, 10]).length = (tag ++ str " IDLE").length + 2 := by
  rw [List.length_append]
  rfl

theorem idle_slot (commands : List imap_command) (i : Nat) (c0 c : imap_command)
    (hslot : commands[i]? = some c0) : (commands.set i c)[((i : Int)).toNat]? = some c := by
  have hlt : i < commands.length := by
    by_contra h
    rw [List.getElem?_eq_none (by omega)] at hslot
    simp at hslot
  simp [List.getElem?_set, hlt]

theorem idle_step_wait_plus (env : imap_env) (sess : emailsession)
    (imapsess : imap_session) (i : Nat) (c0 : imap_command) (tag reply txt u : List Nat)
    (hread : imapsess.contbufread = imapsess.contbuffer.length)
    (hslot : imapsess.commands[i]? = some c0)
    (hplus : strstr u (str "+ ") = none) :
    process_next_imap_state env (idle_session sess tag reply txt 2)
      (idle_tracker imapsess i c0 tag reply txt ((tag ++ str " IDLE" ++ [13, 10]) ++ u) 2) =
      some (idle_session sess tag reply txt 2,
            idle_tracker imapsess i c0 tag reply txt ((tag ++ str " IDLE" ++ [13, 10]) ++ u) 2,
            0) := by
  have hdrop : (idle_tracker imapsess i c0 tag reply txt
      ((tag ++ str " IDLE" ++ [13, 10]) ++ u) 2).contbuffer.drop
      (idle_tracker imapsess i c0 tag reply txt
        ((tag ++ str " IDLE" ++ [13, 10]) ++ u) 2).contbufread = u :=
    drop_base_line _ _ _ _ (by
      show imapsess.contbufread + (tag ++ str " IDLE").length + 2 = _
      rw [hread, idle_line_length]
      omega)
  rw [process_next_imap_state_idling env _ _ rfl rfl]
  exact read_imap_while_idle_state_no_plus _ _ (idle_command_saved c0 tag)
    (idle_slot _ i c0 _ hslot) rfl (by rw [hdrop]; exact hplus)
    (by show ¬ ((i : Int) < 0); omega)

theorem idle_step_see_plus (env : imap_env) (sess : emailsession)
    (imapsess : imap_session) (i : Nat) (c0 : imap_command) (tag reply txt u : List Nat)
    (hread : imapsess.contbufread = imapsess.contbuffer.length)
    (hslot : imapsess.commands[i]? = some c0)
    (hplus : strstr u (str "+ ") = some 0)
    (hdone : strstr u [13, 10, 68, 79, 78, 69, 13, 10] = none) :
    process_next_imap_state env (idle_session sess tag reply txt 2)
      (idle_tracker imapsess i c0 tag reply txt ((tag ++ str " IDLE" ++ [13, 10]) ++ u) 2) =
      some (idle_session sess tag reply txt 3,
            idle_tracker imapsess i c0 tag reply txt ((tag ++ str " IDLE" ++ [13, 10]) ++ u) 3,
            0) := by
  have hdrop : (idle_tracker imapsess i c0 tag reply txt
      ((tag ++ str " IDLE" ++ [13, 10]) ++ u) 2).contbuffer.drop
      (idle_tracker imapsess i c0 tag reply txt
        ((tag ++ str " IDLE" ++ [13, 10]) ++ u) 2).contbufread = u :=
    drop_base_line _ _ _ _ (by
      show imapsess.contbufread + (tag ++ str " IDLE").length + 2 = _
      rw [hread, idle_line_length]
      omega)
  rw [process_next_imap_state_idling env _ _ rfl rfl]
  rw [read_imap_while_idle_state_wait _ _ (idle_command_saved c0 tag)
    (imapsess.contbufread + (tag ++ str " IDLE").length + 2)
    (idle_slot _ i c0 _ hslot)
    (by
      rw [hdrop, hplus]
      rfl)
    (by rw [hdrop]; exact hdone)
    (by show ¬ ((i : Int) < 0); omega)]
  rfl

theorem idle_step_wait_done (env : imap_env) (sess : emailsession)
    (imapsess : imap_session) (i : Nat) (c0 : imap_command) (tag reply txt u : List Nat)
    (hread : imapsess.contbufread = imapsess.contbuffer.length)
    (hslot : imapsess.commands[i]? = some c0)
    (hdone : strstr u [13, 10, 68, 79, 78, 69, 13, 10] = none) :
    process_next_imap_state env (idle_session sess tag reply txt 3)
      (idle_tracker imapsess i c0 tag reply txt ((tag ++ str " IDLE" ++ [13, 10]) ++ u) 3) =
      some (idle_session sess tag reply txt 3,
            idle_tracker imapsess i c0 tag reply txt ((tag ++ str " IDLE" ++ [13, 10]) ++ u) 3,
            0) := by
  have hdrop : (idle_tracker imapsess i c0 tag reply txt
      ((tag ++ str " IDLE" ++ [13, 10]) ++ u) 3).contbuffer.drop
      (idle_tracker imapsess i c0 tag reply txt
        ((tag ++ str " IDLE" ++ [13, 10]) ++ u) 3).contbufread = u :=
    drop_base_line _ _ _ _ (by
      show imapsess.contbufread + (tag ++ str " IDLE").length + 2 = _
      rw [hread, idle_line_length]
      omega)
  have hrs : ¬ ((idle_tracker imapsess i c0 tag reply txt
      ((tag ++ str " IDLE" ++ [13, 10]) ++ u) 3).reply_start = 0) := by
    show ¬ (imapsess.contbufread + (tag ++ str " IDLE").length + 2 = 0)
    omega
  rw [process_next_imap_state_idling env _ _ rfl rfl]
  rw [read_imap_while_idle_state_wait _ _ (idle_command_saved c0 tag)
    (imapsess.contbufread + (tag ++ str " IDLE").length + 2)
    (idle_slot _ i c0 _ hslot)
    (by rw [if_neg hrs]; rfl)
    (by rw [hdrop]; exact hdone)
    (by show ¬ ((i : Int) < 0); omega)]
  rfl

theorem idle_step_done (env : imap_env) (sess : emailsession)
    (imapsess : imap_session) (i : Nat) (c0 : imap_command) (tag reply txt v : List Nat)
    (p : Nat) (hp : p = 2 ∨ p = 3)
    (hread : imapsess.contbufread = imapsess.contbuffer.length)
    (hslot : imapsess.commands[i]? = some c0)
    (hplus : strstr (reply ++ str "DONE\r\n" ++ v) (str "+ ") = some 0)
    (hlen : 2 ≤ reply.length)
    (hdone : strstr (reply ++ str "DONE\r\n" ++ v) [13, 10, 68, 79, 78, 69, 13, 10] =
      some (reply.length - 2)) :
    process_next_imap_state env (idle_session sess tag reply txt p)
      (idle_tracker imapsess i c0 tag reply txt
        ((tag ++ str " IDLE" ++ [13, 10]) ++ (reply ++ str "DONE\r\n" ++ v)) p) =
      some (idle_session sess tag reply txt 4,
            idle_tracker imapsess i c0 tag reply txt
             ((tag ++ str " IDLE" ++ [13, 10]) ++ (reply ++ str "DONE\r\n" ++ v)) 4,
            1) := by
  have hcbr : imapsess.contbufread + (tag ++ str " IDLE").length + 2 =
      imapsess.contbuffer.length + (tag ++ str " IDLE" ++ [13, 10]).length := by
    rw [hread, idle_line_length]
    omega
  have hcopy : ((imapsess.contbuffer ++ ((tag ++ str " IDLE" ++ [13, 10]) ++
      (reply ++ str "DONE\r\n" ++ v))).drop
        (imapsess.contbufread + (tag ++ str " IDLE").length + 2)).take (reply.length + 6) =
      reply ++ str "DONE\r\n" := by
    rw [drop_base_line _ _ _ _ hcbr]
    have e : reply.length + 6 = (reply ++ str "DONE\r\n").length := by
      rw [List.length_append]
      rfl
    rw [e, List.take_left]
  have hk : imapsess.contbufread + (tag ++ str " IDLE").length + 2 + (reply.length - 2) + 2 -
      (imapsess.contbufread + (tag ++ str " IDLE").length + 2) = reply.length := by omega
  rcases hp with rfl | rfl
  · have hdrop : (idle_tracker imapsess i c0 tag reply txt
        ((tag ++ str " IDLE" ++ [13, 10]) ++ (reply ++ str "DONE\r\n" ++ v)) 2).contbuffer.drop
        (idle_tracker imapsess i c0 tag reply txt
          ((tag ++ str " IDLE" ++ [13, 10]) ++ (reply ++ str "DONE\r\n" ++ v)) 2).contbufread =
        reply ++ str "DONE\r\n" ++ v := drop_base_line _ _ _ _ hcbr
    rw [process_next_imap_state_idling env _ _ rfl rfl]
    rw [read_imap_while_idle_state_done _ _ (idle_command_saved c0 tag)
      (imapsess.contbufread + (tag ++ str " IDLE").length + 2) (reply.length - 2) reply
      (idle_slot _ i c0 _ hslot)
      (by
        rw [hdrop, hplus]
        rfl)
      (by rw [hdrop]; exact hdone) hk hcopy
      (by show ¬ ((i : Int) < 0); omega)
      (by
        show imapsess.contbufread + (tag ++ str " IDLE").length + 2 ≤
          imapsess.contbufread + (tag ++ str " IDLE").length + 2 + (reply.length - 2) + 2
        omega)]
    have e : imapsess.contbufread + (tag ++ str " IDLE").length + 2 + (reply.length - 2) + 8 =
        imapsess.contbufread + (tag ++ str " IDLE").length + 2 + reply.length + 6 := by omega
    simp only [idle_tracker, idle_session, Int.toNat_ofNat, List.set_set, e]
    rfl
  · have hdrop : (idle_tracker imapsess i c0 tag reply txt
        ((tag ++ str " IDLE" ++ [13, 10]) ++ (reply ++ str "DONE\r\n" ++ v)) 3).contbuffer.drop
        (idle_tracker imapsess i c0 tag reply txt
          ((tag ++ str " IDLE" ++ [13, 10]) ++ (reply ++ str "DONE\r\n" ++ v)) 3).contbufread =
        reply ++ str "DONE\r\n" ++ v := drop_base_line _ _ _ _ hcbr
    have hrs : ¬ ((idle_tracker imapsess i c0 tag reply txt
        ((tag ++ str " IDLE" ++ [13, 10]) ++ (reply ++ str "DONE\r\n" ++ v)) 3).reply_start =
        0) := by
      show ¬ (imapsess.contbufread + (tag ++ str " IDLE").length + 2 = 0)
      omega
    rw [process_next_imap_state_idling env _ _ rfl rfl]
    rw [read_imap_while_idle_state_done _ _ (idle_command_saved c0 tag)
      (imapsess.contbufread + (tag ++ str " IDLE").length + 2) (reply.length - 2) reply
      (idle_slot _ i c0 _ hslot)
      (by rw [if_neg hrs]; rfl)
      (by rw [hdrop]; exact hdone) hk hcopy
      (by show ¬ ((i : Int) < 0); omega)
      (by
        show imapsess.contbufread + (tag ++ str " IDLE").length + 2 ≤
          imapsess.contbufread + (tag ++ str " IDLE").length + 2 + (reply.length - 2) + 2
        omega)]
    have e : imapsess.contbufread + (tag ++ str " IDLE").length + 2 + (reply.length - 2) + 8 =
        imapsess.contbufread + (tag ++ str " IDLE").length + 2 + reply.length + 6 := by omega
    simp only [idle_tracker, idle_session, Int.toNat_ofNat, List.set_set, e]
    rfl

theorem find_command_by_tag_set (tag : List Nat) (c1 : imap_command) (htag : c1.tag = some tag) :
    ∀ (commands : List imap_command) (i : Nat), i < commands.length →
      (∀ j, j < i → ∃ c, commands[j]? = some c ∧ c.tag ≠ none ∧ c.tag ≠ some tag) →
      find_command_by_tag (some tag) (commands.set i c1) = some i := by
  intro commands
  induction commands with
  | nil =>
    intro i hi _
    simp at hi
  | cons a rest ih =>
    intro i hi hbefore
    cases i with
    | zero =>
      simp only [List.set_cons_zero, find_command_by_tag, htag, reduceCtorEq, if_false, if_true]
    | succ k =>
      obtain ⟨c, hc, hc1, hc2⟩ := hbefore 0 (by omega)
      simp only [List.getElem?_cons_zero, Option.some.injEq] at hc
      subst hc
      have hrest := ih k (by simpa using hi) (fun j hj => by
        obtain ⟨c, hc, h1, h2⟩ := hbefore (j + 1) (by omega)
        exact ⟨c, by simpa using hc, h1, h2⟩)
      simp only [List.set_cons_succ, find_command_by_tag, hc1, hc2, if_false, hrest,
        Option.map_some']

theorem drop_base_exchange (base line mid v : List Nat) (n : Nat)
    (hn : n = base.length + line.length + mid.length) :
    (base ++ (line ++ (mid ++ v))).drop n = v := by
  have e : base ++ (line ++ (mid ++ v)) = (base ++ line ++ mid) ++ v := by simp
  have e2 : n = (base ++ line ++ mid).length := by
    rw [hn]
    simp only [List.length_append]
  rw [e, e2, List.drop_left]

theorem idle_cursor_after_done (imapsess : imap_session) (tag reply : List Nat)
    (hread : imapsess.contbufread = imapsess.contbuffer.length) :
    imapsess.contbufread + (tag ++ str " IDLE").length + 2 + reply.length + 6 =
      imapsess.contbuffer.length + (tag ++ str " IDLE" ++ [13, 10]).length +
        (reply ++ str "DONE\r\n").length := by
  have e : (reply ++ str "DONE\r\n").length = reply.length + 6 := by
    rw [List.length_append]
    rfl
  rw [hread, idle_line_length, e]
  omega

theorem idle_step_wait_reply (env : imap_env) (sess : emailsession)
    (imapsess : imap_session) (i : Nat) (c0 : imap_command) (tag reply txt v : List Nat)
    (hread : imapsess.contbufread = imapsess.contbuffer.length)
    (hw : imap_message_words (cstr v) = none) :
    process_next_imap_state env (idle_session sess tag reply txt 4)
      (idle_tracker imapsess i c0 tag reply txt
        ((tag ++ str " IDLE" ++ [13, 10]) ++ (reply ++ str "DONE\r\n" ++ v)) 4) =
      some (idle_session sess tag reply txt 4,
            idle_tracker imapsess i c0 tag reply txt
             ((tag ++ str " IDLE" ++ [13, 10]) ++ (reply ++ str "DONE\r\n" ++ v)) 4,
            0) := by
  have s0 : (idle_session sess tag reply txt 4).currstate ≠ OPENLI_IMAP_STATE_INIT := by
    show OPENLI_IMAP_STATE_AUTHENTICATED ≠ _
    decide
  have s1 : (idle_session sess tag reply txt 4).currstate ≠ OPENLI_IMAP_STATE_SERVER_READY := by
    show OPENLI_IMAP_STATE_AUTHENTICATED ≠ _
    decide
  have s2 : (idle_session sess tag reply txt 4).currstate ≠
      OPENLI_IMAP_STATE_AUTHENTICATING := by
    show OPENLI_IMAP_STATE_AUTHENTICATED ≠ _
    decide
  have s3 : (idle_session sess tag reply txt 4).currstate ≠ OPENLI_IMAP_STATE_IDLING := by
    show OPENLI_IMAP_STATE_AUTHENTICATED ≠ _
    decide
  have hdrop : (idle_tracker imapsess i c0 tag reply txt
      ((tag ++ str " IDLE" ++ [13, 10]) ++ (reply ++ str "DONE\r\n" ++ v)) 4).contbuffer.drop
      (idle_tracker imapsess i c0 tag reply txt
        ((tag ++ str " IDLE" ++ [13, 10]) ++ (reply ++ str "DONE\r\n" ++ v)) 4).contbufread =
      v := drop_base_exchange _ _ _ _ _ (idle_cursor_after_done imapsess tag reply hread)
  rw [process_next_imap_state_parsing env _ _ s0 s1, if_pos (by rfl),
    find_next_imap_message_words env _ _ s2 s3, hdrop, hw]

theorem idle_step_classify_reply (env : imap_env) (sess : emailsession)
    (imapsess : imap_session) (i : Nat) (c0 : imap_command) (tag reply txt v : List Nat)
    (hread : imapsess.contbufread = imapsess.contbuffer.length)
    (hstar : tag ≠ str "*")
    (hw : imap_message_words (cstr v) = some (tag, str "OK")) :
    process_next_imap_state env (idle_session sess tag reply txt 4)
      (idle_tracker imapsess i c0 tag reply txt
        ((tag ++ str " IDLE" ++ [13, 10]) ++ (reply ++ str "DONE\r\n" ++ v)) 4) =
      some (idle_session sess tag reply txt 5,
            idle_tracker imapsess i c0 tag reply txt
             ((tag ++ str " IDLE" ++ [13, 10]) ++ (reply ++ str "DONE\r\n" ++ v)) 5,
            1) := by
  have s0 : (idle_session sess tag reply txt 4).currstate ≠ OPENLI_IMAP_STATE_INIT := by
    show OPENLI_IMAP_STATE_AUTHENTICATED ≠ _
    decide
  have s1 : (idle_session sess tag reply txt 4).currstate ≠ OPENLI_IMAP_STATE_SERVER_READY := by
    show OPENLI_IMAP_STATE_AUTHENTICATED ≠ _
    decide
  have s2 : (idle_session sess tag reply txt 4).currstate ≠
      OPENLI_IMAP_STATE_AUTHENTICATING := by
    show OPENLI_IMAP_STATE_AUTHENTICATED ≠ _
    decide
  have s3 : (idle_session sess tag reply txt 4).currstate ≠ OPENLI_IMAP_STATE_IDLING := by
    show OPENLI_IMAP_STATE_AUTHENTICATED ≠ _
    decide
  have hdrop : (idle_tracker imapsess i c0 tag reply txt
      ((tag ++ str " IDLE" ++ [13, 10]) ++ (reply ++ str "DONE\r\n" ++ v)) 4).contbuffer.drop
      (idle_tracker imapsess i c0 tag reply txt
        ((tag ++ str " IDLE" ++ [13, 10]) ++ (reply ++ str "DONE\r\n" ++ v)) 4).contbufread =
      v := drop_base_exchange _ _ _ _ _ (idle_cursor_after_done imapsess tag reply hread)
  have c1 : strcasecmp_eq (str "OK") (str "OK") = true := by decide
  rw [process_next_imap_state_parsing env _ _ s0 s1, if_pos (by rfl),
    find_next_imap_message_words env _ _ s2 s3, hdrop, hw]
  simp only [classify_imap_message, hstar, if_false, c1, true_or, if_true]
  rfl

theorem idle_step_wait_reply_end (env : imap_env) (sess : emailsession)
    (imapsess : imap_session) (i : Nat) (c0 : imap_command) (tag reply txt v : List Nat)
    (hread : imapsess.contbufread = imapsess.contbuffer.length)
    (hcrlf : find_sub [13, 10] v = none) :
    process_next_imap_state env (idle_session sess tag reply txt 5)
      (idle_tracker imapsess i c0 tag reply txt
        ((tag ++ str " IDLE" ++ [13, 10]) ++ (reply ++ str "DONE\r\n" ++ v)) 5) =
      some (idle_session sess tag reply txt 5,
            idle_tracker imapsess i c0 tag reply txt
             ((tag ++ str " IDLE" ++ [13, 10]) ++ (reply ++ str "DONE\r\n" ++ v)) 5,
            0) := by
  have s0 : (idle_session sess tag reply txt 5).currstate ≠ OPENLI_IMAP_STATE_INIT := by
    show OPENLI_IMAP_STATE_AUTHENTICATED ≠ _
    decide
  have s1 : (idle_session sess tag reply txt 5).currstate ≠ OPENLI_IMAP_STATE_SERVER_READY := by
    show OPENLI_IMAP_STATE_AUTHENTICATED ≠ _
    decide
  have hdrop : (idle_tracker imapsess i c0 tag reply txt
      ((tag ++ str " IDLE" ++ [13, 10]) ++ (reply ++ str "DONE\r\n" ++ v)) 5).contbuffer.drop
      (idle_tracker imapsess i c0 tag reply txt
        ((tag ++ str " IDLE" ++ [13, 10]) ++ (reply ++ str "DONE\r\n" ++ v)) 5).next_comm_start =
      v := drop_base_exchange _ _ _ _ _ (idle_cursor_after_done imapsess tag reply hread)
  apply process_next_imap_state_pending env _ _ s0 s1
  · show OPENLI_IMAP_COMMAND_REPLY ≠ _
    decide
  · rw [hdrop]
    exact hcrlf

theorem idle_step_save_reply (env : imap_env) (sess : emailsession)
    (imapsess : imap_session) (i : Nat) (c0 : imap_command) (tag reply txt : List Nat)
    (hread : imapsess.contbufread = imapsess.contbuffer.length)
    (hslot : imapsess.commands[i]? = some c0)
    (hbefore : ∀ j, j < i → ∃ c, imapsess.commands[j]? = some c ∧ c.tag ≠ none ∧
      c.tag ≠ some tag)
    (htag : ∀ c ∈ tag, c ≠ 13) (htxt : ∀ c ∈ txt, c ≠ 13) :
    process_next_imap_state env (idle_session sess tag reply txt 5)
      (idle_tracker imapsess i c0 tag reply txt
        ((tag ++ str " IDLE" ++ [13, 10]) ++ (reply ++ str "DONE\r\n" ++
          (tag ++ str " OK" ++ txt ++ [13, 10]))) 5) =
      some (idle_session sess tag reply txt 6,
            idle_tracker imapsess i c0 tag reply txt
             ((tag ++ str " IDLE" ++ [13, 10]) ++ (reply ++ str "DONE\r\n" ++
               (tag ++ str " OK" ++ txt ++ [13, 10]))) 6,
            1) := by
  have s0 : (idle_session sess tag reply txt 5).currstate ≠ OPENLI_IMAP_STATE_INIT := by
    show OPENLI_IMAP_STATE_AUTHENTICATED ≠ _
    decide
  have s1 : (idle_session sess tag reply txt 5).currstate ≠ OPENLI_IMAP_STATE_SERVER_READY := by
    show OPENLI_IMAP_STATE_AUTHENTICATED ≠ _
    decide
  have hlt : i < imapsess.commands.length := by
    by_contra h
    rw [List.getElem?_eq_none (by omega)] at hslot
    simp at hslot
  have hbody : ∀ c ∈ tag ++ str " OK" ++ txt, c ≠ 13 := by
    intro c hc
    rcases List.mem_append.mp hc with h | h
    · rcases List.mem_append.mp h with h | h
      · exact htag c h
      · have : ∀ x ∈ str " OK", x ≠ 13 := by decide
        exact this c h
    · exact htxt c h
  have hd := drop_base_exchange imapsess.contbuffer (tag ++ str " IDLE" ++ [13, 10])
    (reply ++ str "DONE\r\n") (tag ++ str " OK" ++ txt ++ [13, 10]) _
    (idle_cursor_after_done imapsess tag reply hread)
  have hdrop : (idle_tracker imapsess i c0 tag reply txt
      ((tag ++ str " IDLE" ++ [13, 10]) ++ (reply ++ str "DONE\r\n" ++
        (tag ++ str " OK" ++ txt ++ [13, 10]))) 5).contbuffer.drop
      (idle_tracker imapsess i c0 tag reply txt
        ((tag ++ str " IDLE" ++ [13, 10]) ++ (reply ++ str "DONE\r\n" ++
          (tag ++ str " OK" ++ txt ++ [13, 10]))) 5).next_comm_start =
      (tag ++ str " OK" ++ txt) ++ 13 :: 10 :: [] := by
    refine hd.trans ?_
    simp
  have h := find_reply_end_line (idle_session sess tag reply txt 5)
    (idle_tracker imapsess i c0 tag reply txt
      ((tag ++ str " IDLE" ++ [13, 10]) ++ (reply ++ str "DONE\r\n" ++
        (tag ++ str " OK" ++ txt ++ [13, 10]))) 5)
    (idle_command_done c0 tag reply) i (tag ++ str " OK" ++ txt) []
    (tag ++ str " OK" ++ txt ++ [13, 10]) (str "IDLE") hdrop hbody
    (by
      show ((imapsess.contbuffer ++ ((tag ++ str " IDLE" ++ [13, 10]) ++
        (reply ++ str "DONE\r\n" ++ (tag ++ str " OK" ++ txt ++ [13, 10])))).drop
          (imapsess.contbufread + (tag ++ str " IDLE").length + 2 + reply.length + 6)).take
          (imapsess.contbufread + (tag ++ str " IDLE").length + 2 + reply.length + 6 +
            (tag ++ str " OK" ++ txt).length + 2 -
            (imapsess.contbufread + (tag ++ str " IDLE").length + 2 + reply.length + 6)) = _
      rw [hd]
      apply List.take_of_length_le
      simp only [List.length_append, List.length_cons, List.length_nil]
      omega)
    (find_command_by_tag_set tag _ rfl _ i hlt hbefore)
    (by
      show (imapsess.commands.set i _)[i]? = _
      simp [List.getElem?_set, hlt])
    rfl (by decide)
  rw [process_next_imap_state_parsing env _ _ s0 s1]
  have t1 : (idle_tracker imapsess i c0 tag reply txt
      ((tag ++ str " IDLE" ++ [13, 10]) ++ (reply ++ str "DONE\r\n" ++
        (tag ++ str " OK" ++ txt ++ [13, 10]))) 5).next_command_type =
      OPENLI_IMAP_COMMAND_REPLY := rfl
  simp only [t1, reduceCtorEq, if_false, if_true]
  rw [h]
  have c1 : strcasecmp_eq (str "IDLE") (str "AUTHENTICATE") = false := by decide
  simp only [c1, Bool.false_eq_true, if_false, idle_tracker, idle_session, List.set_set]
  rfl

theorem idle_step_end (env : imap_env) (sess : emailsession)
    (imapsess : imap_session) (i : Nat) (c0 : imap_command) (tag reply txt : List Nat)
    (hread : imapsess.contbufread = imapsess.contbuffer.length) :
    process_next_imap_state env (idle_session sess tag reply txt 6)
      (idle_tracker imapsess i c0 tag reply txt
        ((tag ++ str " IDLE" ++ [13, 10]) ++ (reply ++ str "DONE\r\n" ++
          (tag ++ str " OK" ++ txt ++ [13, 10]))) 6) =
      some (idle_session sess tag reply txt 6,
            idle_tracker imapsess i c0 tag reply txt
             ((tag ++ str " IDLE" ++ [13, 10]) ++ (reply ++ str "DONE\r\n" ++
               (tag ++ str " OK" ++ txt ++ [13, 10]))) 6,
            0) := by
  apply process_next_imap_state_consumed
  · show OPENLI_IMAP_STATE_AUTHENTICATED ≠ _
    decide
  · show OPENLI_IMAP_STATE_AUTHENTICATED ≠ _
    decide
  · show OPENLI_IMAP_STATE_AUTHENTICATED ≠ _
    decide
  · show OPENLI_IMAP_STATE_AUTHENTICATED ≠ _
    decide
  · rfl
  · apply List.drop_eq_nil_of_le
    show (imapsess.contbuffer ++ _).length ≤
      imapsess.contbufread + (tag ++ str " IDLE").length + 2 + reply.length + 6 +
        (tag ++ str " OK" ++ txt).length + 2
    rw [hread]
    simp only [List.length_append, List.length_cons, List.length_nil, str]
    simp
    omega

theorem take_append_ge (a b : List Nat) (n : Nat) (h : a.length ≤ n) :
    (a ++ b).take n = a ++ b.take (n - a.length) := by
  rw [List.take_append_eq_append_take, List.take_of_length_le h]

theorem find_sub_le (needle hay : List Nat) (q : Nat) (hne : needle ≠ [])
    (h : find_sub needle hay = some q) : q + needle.length ≤ hay.length := by
  have hp := find_sub_getElem needle hay q h
  rw [List.isPrefixOf_iff_prefix] at hp
  have hl := hp.length_le
  rw [List.length_drop] at hl
  have hpos : 0 < needle.length := List.length_pos.mpr hne
  omega

theorem find_sub_append_some (needle : List Nat) (hne : needle ≠ []) (l x : List Nat) (q : Nat)
    (h : find_sub needle l = some q) : find_sub needle (l ++ x) = some q := by
  induction l generalizing q with
  | nil => simp [find_sub, hne] at h
  | cons a rest ih =>
    rw [List.cons_append, find_sub_cons]
    rw [find_sub_cons] at h
    by_cases hp : needle.isPrefixOf (a :: rest) = true
    · rw [if_pos hp] at h
      have hp2 : needle.isPrefixOf (a :: (rest ++ x)) = true := by
        rw [List.isPrefixOf_iff_prefix] at hp ⊢
        exact hp.trans (List.prefix_append (a :: rest) x)
      rw [if_pos hp2]
      exact h
    · rw [if_neg hp] at h
      cases hr : find_sub needle rest with
      | none => simp [hr] at h
      | some j =>
        rw [hr] at h
        have hle := find_sub_le needle rest j hne hr
        have hp2 : ¬ (needle.isPrefixOf (a :: (rest ++ x)) = true) := by
          intro hq
          apply hp
          rw [List.isPrefixOf_iff_prefix] at hq ⊢
          exact List.prefix_of_prefix_length_le hq (List.prefix_append (a :: rest) x)
            (by simp only [List.length_cons]; omega)
        rw [if_neg hp2, ih j hr]
        exact h

theorem find_sub_short (needle hay : List Nat) (h : hay.length < needle.length) :
    find_sub needle hay = none := by
  have hne : needle ≠ [] := by
    intro e
    rw [e] at h
    simp at h
  cases hf : find_sub needle hay with
  | none => rfl
  | some q =>
    have := find_sub_le needle hay q hne hf
    omega

theorem find_sub_single_none (x : Nat) (l : List Nat) (h : ∀ c ∈ l, c ≠ x) :
    find_sub [x] l = none := by
  cases hf : find_sub [x] l with
  | none => rfl
  | some q =>
    have hq := find_sub_single_at x l q hf
    have hmem : x ∈ l := List.getElem?_mem hq
    exact absurd rfl (h x hmem)

theorem find_sub_crlf_none_take (body : List Nat) (m : Nat) (hbody : ∀ c ∈ body, c ≠ 13)
    (hm : m < body.length + 2) : find_sub [13, 10] ((body ++ [13, 10]).take m) = none := by
  cases hf : find_sub [13, 10] ((body ++ [13, 10]).take m) with
  | none => rfl
  | some q =>
    exfalso
    have hle := find_sub_le _ _ q (by decide) hf
    have hat := (find_sub_crlf_at _ q hf).1
    rw [List.length_take] at hle
    simp only [List.length_append, List.length_cons, List.length_nil] at hle
    have hq : q < body.length := by
      omega
    rw [List.getElem?_take_of_lt (by omega), List.getElem?_append_left hq] at hat
    exact hbody 13 (List.getElem?_mem hat) rfl

theorem imap_message_words_no_space (l : List Nat) (h : ∀ c ∈ l, c ≠ 32) :
    imap_message_words l = none := by
  unfold imap_message_words
  rw [find_sub_single_none 32 l h]

theorem imap_message_words_one_word (tag a : List Nat) (htag : ∀ c ∈ tag, c ≠ 32)
    (h1 : find_sub [32] a = none) (h2 : find_sub [13, 10] a = none) :
    imap_message_words (tag ++ 32 :: a) = none := by
  have hsp : find_sub [32] (tag ++ 32 :: a) = some tag.length := find_sub_single 32 tag _ htag
  have hdrop : (tag ++ 32 :: a).drop (tag.length + 1) = a := by
    have e : tag ++ 32 :: a = (tag ++ [32]) ++ a := by simp
    have e2 : tag.length + 1 = (tag ++ [32]).length := by simp
    rw [e, e2, List.drop_left]
  unfold imap_message_words
  simp only [hsp, hdrop, h1, h2]

/-- The first two words of an incomplete line `<tag> <w>`: there are none while
the second word has no end. -/
theorem imap_message_words_take (tag w : List Nat) (n m : Nat)
    (htag : ∀ c ∈ tag, c ≠ 32)
    (hw : ∀ j, j < n → find_sub [32] (w.take j) = none ∧ find_sub [13, 10] (w.take j) = none)
    (hm : m < tag.length + 1 + n) :
    imap_message_words ((tag ++ 32 :: w).take m) = none := by
  by_cases hle : m ≤ tag.length
  · rw [List.take_append_of_le_length hle]
    exact imap_message_words_no_space _ (fun c hc => htag c (List.mem_of_mem_take hc))
  · have e : tag ++ 32 :: w = (tag ++ [32]) ++ w := by simp
    have hlen : (tag ++ [32]).length = tag.length + 1 := by simp
    rw [e, take_append_ge _ _ _ (by rw [hlen]; omega), hlen]
    have e2 : tag ++ [32] ++ w.take (m - (tag.length + 1)) =
        tag ++ 32 :: w.take (m - (tag.length + 1)) := by simp
    rw [e2]
    have hj := hw (m - (tag.length + 1)) (by omega)
    exact imap_message_words_one_word tag _ htag hj.1 hj.2

theorem idle_exchange_eq (tag reply txt : List Nat) :
    idle_exchange tag reply txt =
      (tag ++ str " IDLE" ++ [13, 10]) ++
        (reply ++ str "DONE\r\n" ++ (tag ++ str " OK" ++ txt ++ [13, 10])) := by
  unfold idle_exchange
  simp only [List.append_assoc]

theorem idle_exchange_length (tag reply txt : List Nat) :
    (idle_exchange tag reply txt).length =
      tag.length + 7 + reply.length + 6 + (tag.length + 3 + txt.length + 2) := by
  unfold idle_exchange
  have e1 : (str " IDLE").length = 5 := rfl
  have e2 : (str "DONE\r\n").length = 6 := rfl
  have e3 : (str " OK").length = 3 := rfl
  simp only [List.length_append, List.length_cons, List.length_nil, e1, e2, e3]

theorem idle_exchange_take_command (tag reply txt : List Nat) (m : Nat)
    (hm : m < tag.length + 7) :
    (idle_exchange tag reply txt).take m = (tag ++ 32 :: str "IDLE\r\n").take m := by
  rw [idle_exchange_eq]
  have e : tag ++ str " IDLE" ++ [13, 10] = tag ++ 32 :: str "IDLE\r\n" := by
    have : str " IDLE" ++ [13, 10] = 32 :: str "IDLE\r\n" := by decide
    rw [List.append_assoc, this]
  rw [e]
  apply List.take_append_of_le_length
  have : (str "IDLE\r\n").length = 6 := rfl
  simp only [List.length_append, List.length_cons, this]
  omega

theorem idle_exchange_take_reply (tag reply txt : List Nat) (m : Nat)
    (hm : tag.length + 7 ≤ m) :
    (idle_exchange tag reply txt).take m =
      (tag ++ str " IDLE" ++ [13, 10]) ++
        (reply ++ str "DONE\r\n" ++ (tag ++ str " OK" ++ txt ++ [13, 10])).take
          (m - (tag.length + 7)) := by
  have hl : (tag ++ str " IDLE" ++ [13, 10]).length = tag.length + 7 := by
    have e1 : (str " IDLE").length = 5 := rfl
    simp only [List.length_append, List.length_cons, List.length_nil, e1]
  rw [idle_exchange_eq, take_append_ge _ _ _ (by rw [hl]; exact hm), hl]

theorem idle_exchange_take_done (tag reply txt : List Nat) (m : Nat)
    (hm : tag.length + 7 + reply.length + 6 ≤ m) :
    (idle_exchange tag reply txt).take m =
      (tag ++ str " IDLE" ++ [13, 10]) ++
        (reply ++ str "DONE\r\n" ++ (tag ++ str " OK" ++ txt ++ [13, 10]).take
          (m - (tag.length + 7 + reply.length + 6))) := by
  have hl : (reply ++ str "DONE\r\n").length = reply.length + 6 := by
    rw [List.length_append]
    rfl
  rw [idle_exchange_take_reply tag reply txt m (by omega),
    take_append_ge _ _ _ (by rw [hl]; omega), hl]
  congr 3
  omega

theorem idle_exchange_take_all (tag reply txt : List Nat) (m : Nat)
    (hm : tag.length + 7 + reply.length + 6 + (tag.length + 3 + txt.length + 2) ≤ m) :
    (idle_exchange tag reply txt).take m =
      (tag ++ str " IDLE" ++ [13, 10]) ++
        (reply ++ str "DONE\r\n" ++ (tag ++ str " OK" ++ txt ++ [13, 10])) := by
  rw [← idle_exchange_eq]
  apply List.take_of_length_le
  rw [idle_exchange_length]
  exact hm

theorem idle_reply_length (sess : emailsession) (imapsess : imap_session) (i : Nat)
    (c0 : imap_command) (tag reply txt : List Nat)
    (h : idle_conditions sess imapsess i c0 tag reply txt) : 2 ≤ reply.length := by
  have e := congrArg List.length h.hplus
  rw [List.length_take] at e
  have : (str "+ ").length = 2 := rfl
  omega

theorem idle_ok_line_no_nul (sess : emailsession) (imapsess : imap_session) (i : Nat)
    (c0 : imap_command) (tag reply txt : List Nat)
    (h : idle_conditions sess imapsess i c0 tag reply txt) :
    ∀ c ∈ tag ++ str " OK" ++ txt ++ [13, 10], c ≠ 0 := by
  intro c hc
  have h1 : ∀ x ∈ str " OK", x ≠ 0 := by decide
  have h2 : ∀ x ∈ [13, 10], x ≠ 0 := by decide
  rcases List.mem_append.mp hc with hc | hc
  · rcases List.mem_append.mp hc with hc | hc
    · rcases List.mem_append.mp hc with hc | hc
      · exact (h.htag c hc).1
      · exact h1 c hc
    · exact (h.htxt c hc).1
  · exact h2 c hc

theorem idle_rest_no_nul (sess : emailsession) (imapsess : imap_session) (i : Nat)
    (c0 : imap_command) (tag reply txt v : List Nat)
    (h : idle_conditions sess imapsess i c0 tag reply txt) (hv : ∀ c ∈ v, c ≠ 0) :
    ∀ c ∈ reply ++ str "DONE\r\n" ++ v, c ≠ 0 := by
  intro c hc
  have h1 : ∀ x ∈ str "DONE\r\n", x ≠ 0 := by decide
  rcases List.mem_append.mp hc with hc | hc
  · rcases List.mem_append.mp hc with hc | hc
    · exact h.hreply c hc
    · exact h1 c hc
  · exact hv c hc

theorem idle_words_incomplete_command (sess : emailsession) (imapsess : imap_session)
    (i : Nat) (c0 : imap_command) (tag reply txt : List Nat) (m : Nat)
    (h : idle_conditions sess imapsess i c0 tag reply txt) (hm : m < tag.length + 7) :
    imap_message_words (cstr ((idle_exchange tag reply txt).take m)) = none := by
  rw [idle_exchange_take_command tag reply txt m hm]
  have hnul : ∀ c ∈ (tag ++ 32 :: str "IDLE\r\n").take m, c ≠ 0 := by
    intro c hc
    have hc2 := List.mem_of_mem_take hc
    have h1 : ∀ x ∈ 32 :: str "IDLE\r\n", x ≠ 0 := by decide
    rcases List.mem_append.mp hc2 with hc2 | hc2
    · exact (h.htag c hc2).1
    · exact h1 c hc2
  rw [cstr_of_no_nul _ hnul]
  exact imap_message_words_take tag (str "IDLE\r\n") 6 m (fun c hc => (h.htag c hc).2.1)
    (by decide) (by omega)

theorem idle_words_command (sess : emailsession) (imapsess : imap_session)
    (i : Nat) (c0 : imap_command) (tag reply txt u : List Nat)
    (h : idle_conditions sess imapsess i c0 tag reply txt) (hu : ∀ c ∈ u, c ≠ 0) :
    imap_message_words (cstr ((tag ++ str " IDLE" ++ [13, 10]) ++ u)) =
      some (tag, str "IDLE") := by
  have hnul : ∀ c ∈ (tag ++ str " IDLE" ++ [13, 10]) ++ u, c ≠ 0 := by
    intro c hc
    have h1 : ∀ x ∈ str " IDLE", x ≠ 0 := by decide
    have h2 : ∀ x ∈ [13, 10], x ≠ 0 := by decide
    rcases List.mem_append.mp hc with hc | hc
    · rcases List.mem_append.mp hc with hc | hc
      · rcases List.mem_append.mp hc with hc | hc
        · exact (h.htag c hc).1
        · exact h1 c hc
      · exact h2 c hc
    · exact hu c hc
  rw [cstr_of_no_nul _ hnul]
  have e : (tag ++ str " IDLE" ++ [13, 10]) ++ u = tag ++ 32 :: (str "IDLE" ++ 13 :: 10 :: u) := by
    have e1 : str " IDLE" = 32 :: str "IDLE" := by decide
    rw [e1]
    simp
  rw [e]
  exact imap_message_words_crlf tag (str "IDLE") u (fun c hc => (h.htag c hc).2.1) (by decide)

theorem idle_no_plus (u : List Nat) (hu : u.length < 2) : strstr u (str "+ ") = none := by
  unfold strstr
  apply find_sub_short
  have h1 : (cstr u).length ≤ u.length := by
    unfold cstr
    exact (List.takeWhile_prefix _).length_le
  have h2 : (str "+ ").length = 2 := rfl
  omega

theorem idle_plus (sess : emailsession) (imapsess : imap_session)
    (i : Nat) (c0 : imap_command) (tag reply txt v : List Nat) (k : Nat)
    (h : idle_conditions sess imapsess i c0 tag reply txt) (hv : ∀ c ∈ v, c ≠ 0)
    (hk : 2 ≤ k) :
    strstr ((reply ++ str "DONE\r\n" ++ v).take k) (str "+ ") = some 0 := by
  have h2 := idle_reply_length sess imapsess i c0 tag reply txt h
  have hnul : ∀ c ∈ (reply ++ str "DONE\r\n" ++ v).take k, c ≠ 0 :=
    fun c hc => idle_rest_no_nul sess imapsess i c0 tag reply txt v h hv c
      (List.mem_of_mem_take hc)
  unfold strstr
  rw [cstr_of_no_nul _ hnul]
  have ht : ((reply ++ str "DONE\r\n" ++ v).take k).take 2 = str "+ " := by
    rw [List.take_take, Nat.min_eq_left hk, List.append_assoc,
      List.take_append_of_le_length h2]
    exact h.hplus
  have hne : (reply ++ str "DONE\r\n" ++ v).take k ≠ [] := by
    intro e
    rw [e] at ht
    revert ht
    decide
  apply find_sub_of_isPrefixOf _ _ hne
  rw [List.isPrefixOf_iff_prefix, ← ht]
  exact List.take_prefix _ _

theorem idle_no_done (sess : emailsession) (imapsess : imap_session)
    (i : Nat) (c0 : imap_command) (tag reply txt v : List Nat) (k : Nat)
    (h : idle_conditions sess imapsess i c0 tag reply txt) (hv : ∀ c ∈ v, c ≠ 0)
    (hk : k < reply.length + 6) :
    strstr ((reply ++ str "DONE\r\n" ++ v).take k) [13, 10, 68, 79, 78, 69, 13, 10] = none := by
  have h2 := idle_reply_length sess imapsess i c0 tag reply txt h
  have hnul : ∀ c ∈ (reply ++ str "DONE\r\n" ++ v).take k, c ≠ 0 :=
    fun c hc => idle_rest_no_nul sess imapsess i c0 tag reply txt v h hv c
      (List.mem_of_mem_take hc)
  have hl : (reply ++ str "DONE\r\n").length = reply.length + 6 := by
    rw [List.length_append]
    rfl
  unfold strstr
  rw [cstr_of_no_nul _ hnul, List.take_append_of_le_length (by rw [hl]; omega)]
  cases hf : find_sub [13, 10, 68, 79, 78, 69, 13, 10] ((reply ++ str "DONE\r\n").take k) with
  | none => rfl
  | some q =>
    exfalso
    have hle := find_sub_le _ _ q (by decide) hf
    have happ := find_sub_append_some _ (by decide) _ ((reply ++ str "DONE\r\n").drop k) q hf
    rw [List.take_append_drop] at happ
    have hd := h.hdone
    have e : str "\r\nDONE\r\n" = [13, 10, 68, 79, 78, 69, 13, 10] := by decide
    rw [e, happ] at hd
    simp only [Option.some.injEq] at hd
    rw [List.length_take, hl] at hle
    simp only [List.length_cons, List.length_nil] at hle
    omega

theorem idle_done (sess : emailsession) (imapsess : imap_session)
    (i : Nat) (c0 : imap_command) (tag reply txt v : List Nat)
    (h : idle_conditions sess imapsess i c0 tag reply txt) (hv : ∀ c ∈ v, c ≠ 0) :
    strstr (reply ++ str "DONE\r\n" ++ v) [13, 10, 68, 79, 78, 69, 13, 10] =
      some (reply.length - 2) := by
  unfold strstr
  rw [cstr_of_no_nul _ (idle_rest_no_nul sess imapsess i c0 tag reply txt v h hv)]
  apply find_sub_append_some _ (by decide)
  have e : str "\r\nDONE\r\n" = [13, 10, 68, 79, 78, 69, 13, 10] := by decide
  rw [← e]
  exact h.hdone

theorem idle_words_incomplete_reply (sess : emailsession) (imapsess : imap_session)
    (i : Nat) (c0 : imap_command) (tag reply txt : List Nat) (j : Nat)
    (h : idle_conditions sess imapsess i c0 tag reply txt)
    (hj : j < tag.length + (if txt = [] then 5 else 4)) :
    imap_message_words (cstr ((tag ++ str " OK" ++ txt ++ [13, 10]).take j)) = none := by
  have hnul : ∀ c ∈ (tag ++ str " OK" ++ txt ++ [13, 10]).take j, c ≠ 0 :=
    fun c hc => idle_ok_line_no_nul sess imapsess i c0 tag reply txt h c
      (List.mem_of_mem_take hc)
  rw [cstr_of_no_nul _ hnul]
  have e1 : str " OK" = 32 :: str "OK" := by decide
  rcases h.htxt0 with ht | ht
  · subst ht
    have e : tag ++ str " OK" ++ [] ++ [13, 10] = tag ++ 32 :: str "OK\r\n" := by
      have e2 : str "OK" ++ [13, 10] = str "OK\r\n" := by decide
      rw [e1]
      simp only [List.append_nil, List.append_assoc, List.cons_append, e2]
    rw [e]
    simp only [if_true] at hj
    exact imap_message_words_take tag (str "OK\r\n") 4 j (fun c hc => (h.htag c hc).2.1)
      (by decide) (by omega)
  · cases txt with
    | nil => simp at ht
    | cons a t =>
      have e : tag ++ str " OK" ++ (a :: t) ++ [13, 10] =
          tag ++ 32 :: (str "OK" ++ (a :: t ++ [13, 10])) := by
        rw [e1]
        simp only [List.append_assoc, List.cons_append]
      rw [e]
      have hne : ¬ (a :: t = []) := by simp
      simp only [hne, if_false] at hj
      apply imap_message_words_take tag _ 3 j (fun c hc => (h.htag c hc).2.1) _ (by omega)
      intro q hq
      have e3 : (str "OK" ++ (a :: t ++ [13, 10])).take q = (str "OK").take q :=
        List.take_append_of_le_length (by
          have : (str "OK").length = 2 := rfl
          omega)
      rw [e3]
      have hall : ∀ q, q < 3 → find_sub [32] ((str "OK").take q) = none ∧
          find_sub [13, 10] ((str "OK").take q) = none := by decide
      exact hall q hq

theorem idle_words_reply (sess : emailsession) (imapsess : imap_session)
    (i : Nat) (c0 : imap_command) (tag reply txt : List Nat) (j : Nat)
    (h : idle_conditions sess imapsess i c0 tag reply txt)
    (hj : tag.length + (if txt = [] then 5 else 4) ≤ j) :
    imap_message_words (cstr ((tag ++ str " OK" ++ txt ++ [13, 10]).take j)) =
      some (tag, str "OK") := by
  have hnul : ∀ c ∈ (tag ++ str " OK" ++ txt ++ [13, 10]).take j, c ≠ 0 :=
    fun c hc => idle_ok_line_no_nul sess imapsess i c0 tag reply txt h c
      (List.mem_of_mem_take hc)
  rw [cstr_of_no_nul _ hnul]
  have e1 : str " OK" = 32 :: str "OK" := by decide
  rcases h.htxt0 with ht | ht
  · subst ht
    simp only [if_true] at hj
    have e : tag ++ str " OK" ++ [] ++ [13, 10] = tag ++ 32 :: (str "OK" ++ 13 :: 10 :: []) := by
      rw [e1]
      simp only [List.append_nil, List.append_assoc, List.cons_append]
    rw [e, List.take_of_length_le (by
      have : (str "OK").length = 2 := rfl
      simp only [List.length_append, List.length_cons, List.length_nil, this]
      omega)]
    exact imap_message_words_crlf tag (str "OK") [] (fun c hc => (h.htag c hc).2.1) (by decide)
  · cases txt with
    | nil => simp at ht
    | cons a t =>
      simp only [List.head?_cons, Option.some.injEq] at ht
      subst ht
      have hne : ¬ (32 :: t = []) := by simp
      simp only [hne, if_false] at hj
      have e : tag ++ str " OK" ++ (32 :: t) ++ [13, 10] =
          (tag ++ 32 :: (str "OK" ++ [32])) ++ (t ++ [13, 10]) := by
        rw [e1]
        simp only [List.append_assoc, List.cons_append, List.nil_append]
      have hl : (tag ++ 32 :: (str "OK" ++ [32])).length = tag.length + 4 := by
        have : (str "OK").length = 2 := rfl
        simp only [List.length_append, List.length_cons, List.length_nil, this]
      rw [e, take_append_ge _ _ _ (by rw [hl]; exact hj)]
      have e2 : (tag ++ 32 :: (str "OK" ++ [32])) ++ (t ++ [13, 10]).take
          (j - (tag ++ 32 :: (str "OK" ++ [32])).length) =
          tag ++ 32 :: (str "OK" ++ 32 :: (t ++ [13, 10]).take
            (j - (tag ++ 32 :: (str "OK" ++ [32])).length)) := by
        simp only [List.append_assoc, List.cons_append, List.nil_append]
      rw [e2]
      exact imap_message_words_space tag (str "OK") _ (fun c hc => (h.htag c hc).2.1)
        (by decide)

theorem idle_reply_no_crlf (sess : emailsession) (imapsess : imap_session)
    (i : Nat) (c0 : imap_command) (tag reply txt : List Nat) (j : Nat)
    (h : idle_conditions sess imapsess i c0 tag reply txt)
    (hj : j < tag.length + 3 + txt.length + 2) :
    find_sub [13, 10] ((tag ++ str " OK" ++ txt ++ [13, 10]).take j) = none := by
  apply find_sub_crlf_none_take
  · intro c hc
    have h1 : ∀ x ∈ str " OK", x ≠ 13 := by decide
    rcases List.mem_append.mp hc with hc | hc
    · rcases List.mem_append.mp hc with hc | hc
      · exact (h.htag c hc).2.2
      · exact h1 c hc
    · exact (h.htxt c hc).2
  · have : (str " OK").length = 3 := rfl
    simp only [List.length_append, this]
    omega

theorem idle_word_end_le (tag txt : List Nat) :
    tag.length + (if txt = [] then 5 else 4) ≤ tag.length + 3 + txt.length + 2 := by
  split
  · omega
  · omega

theorem idle_phase_command (tag reply txt : List Nat) (m : Nat) (h : m < tag.length + 7) :
    idle_phase tag reply txt m = 0 := by
  unfold idle_phase
  rw [if_pos h]

theorem idle_phase_plus (tag reply txt : List Nat) (m : Nat) (h1 : tag.length + 7 ≤ m)
    (h2 : m < tag.length + 7 + 2) : idle_phase tag reply txt m = 2 := by
  unfold idle_phase
  rw [if_neg (by omega), if_pos h2]

theorem idle_phase_reply (tag reply txt : List Nat) (m : Nat) (h1 : tag.length + 7 + 2 ≤ m)
    (h2 : m < tag.length + 7 + reply.length + 6) : idle_phase tag reply txt m = 3 := by
  unfold idle_phase
  rw [if_neg (by omega), if_neg (by omega), if_pos h2]

theorem idle_phase_done (tag reply txt : List Nat) (m : Nat) (hr : 2 ≤ reply.length)
    (h1 : tag.length + 7 + reply.length + 6 ≤ m)
    (h2 : m < tag.length + 7 + reply.length + 6 + (tag.length + (if txt = [] then 5 else 4))) :
    idle_phase tag reply txt m = 4 := by
  unfold idle_phase
  rw [if_neg (by omega), if_neg (by omega), if_neg (by omega), if_pos h2]

theorem idle_phase_classified (tag reply txt : List Nat) (m : Nat) (hr : 2 ≤ reply.length)
    (h1 : tag.length + 7 + reply.length + 6 + (tag.length + (if txt = [] then 5 else 4)) ≤ m)
    (h2 : m < tag.length + 7 + reply.length + 6 + (tag.length + 3 + txt.length + 2)) :
    idle_phase tag reply txt m = 5 := by
  unfold idle_phase
  rw [if_neg (by omega), if_neg (by omega), if_neg (by omega), if_neg (by omega), if_pos h2]

theorem idle_phase_end (tag reply txt : List Nat) (m : Nat) (hr : 2 ≤ reply.length)
    (h1 : tag.length + 7 + reply.length + 6 + (tag.length + 3 + txt.length + 2) ≤ m) :
    idle_phase tag reply txt m = 6 := by
  have hw := idle_word_end_le tag txt
  unfold idle_phase
  rw [if_neg (by omega), if_neg (by omega), if_neg (by omega), if_neg (by omega),
    if_neg (by omega)]

theorem idle_loop_end (env : imap_env) (sess : emailsession) (imapsess : imap_session)
    (i : Nat) (c0 : imap_command) (tag reply txt : List Nat) (m n : Nat)
    (h : idle_conditions sess imapsess i c0 tag reply txt)
    (hm : tag.length + 7 + reply.length + 6 + (tag.length + 3 + txt.length + 2) ≤ m) :
    imap_ingestion_loop env (n + 1) (idle_session sess tag reply txt 6)
      (idle_tracker imapsess i c0 tag reply txt ((idle_exchange tag reply txt).take m) 6) =
      some (idle_session sess tag reply txt (idle_phase tag reply txt m),
        idle_tracker imapsess i c0 tag reply txt ((idle_exchange tag reply txt).take m)
          (idle_phase tag reply txt m)) := by
  rw [idle_phase_end tag reply txt m (idle_reply_length _ _ _ _ _ _ _ h) hm,
    idle_exchange_take_all tag reply txt m hm]
  exact imap_ingestion_loop_done env n _ _ _ _
    (idle_step_end env sess imapsess i c0 tag reply txt h.hread)

theorem idle_loop_classified (env : imap_env) (sess : emailsession) (imapsess : imap_session)
    (i : Nat) (c0 : imap_command) (tag reply txt : List Nat) (m n : Nat)
    (h : idle_conditions sess imapsess i c0 tag reply txt)
    (hm : tag.length + 7 + reply.length + 6 + (tag.length + (if txt = [] then 5 else 4)) ≤ m) :
    imap_ingestion_loop env (n + 2) (idle_session sess tag reply txt 5)
      (idle_tracker imapsess i c0 tag reply txt ((idle_exchange tag reply txt).take m) 5) =
      some (idle_session sess tag reply txt (idle_phase tag reply txt m),
        idle_tracker imapsess i c0 tag reply txt ((idle_exchange tag reply txt).take m)
          (idle_phase tag reply txt m)) := by
  have hr := idle_reply_length _ _ _ _ _ _ _ h
  by_cases hlt : m < tag.length + 7 + reply.length + 6 + (tag.length + 3 + txt.length + 2)
  · rw [idle_phase_classified tag reply txt m hr hm hlt,
      idle_exchange_take_done tag reply txt m (by omega)]
    exact imap_ingestion_loop_done env (n + 1) _ _ _ _
      (idle_step_wait_reply_end env sess imapsess i c0 tag reply txt _ h.hread
        (idle_reply_no_crlf sess imapsess i c0 tag reply txt _ h (by omega)))
  · have hall := idle_exchange_take_all tag reply txt m (by omega)
    have hstep := idle_step_save_reply env sess imapsess i c0 tag reply txt h.hread h.hslot
      h.hbefore (fun c hc => (h.htag c hc).2.2) (fun c hc => (h.htxt c hc).2)
    rw [← hall] at hstep
    rw [imap_ingestion_loop_next env (n + 1) _ _ _ _ hstep]
    exact idle_loop_end env sess imapsess i c0 tag reply txt m n h (by omega)

theorem idle_loop_done (env : imap_env) (sess : emailsession) (imapsess : imap_session)
    (i : Nat) (c0 : imap_command) (tag reply txt : List Nat) (m n : Nat)
    (h : idle_conditions sess imapsess i c0 tag reply txt)
    (hm : tag.length + 7 + reply.length + 6 ≤ m) :
    imap_ingestion_loop env (n + 3) (idle_session sess tag reply txt 4)
      (idle_tracker imapsess i c0 tag reply txt ((idle_exchange tag reply txt).take m) 4) =
      some (idle_session sess tag reply txt (idle_phase tag reply txt m),
        idle_tracker imapsess i c0 tag reply txt ((idle_exchange tag reply txt).take m)
          (idle_phase tag reply txt m)) := by
  have hr := idle_reply_length _ _ _ _ _ _ _ h
  have htake := idle_exchange_take_done tag reply txt m hm
  by_cases hlt : m < tag.length + 7 + reply.length + 6 +
      (tag.length + (if txt = [] then 5 else 4))
  · rw [idle_phase_done tag reply txt m hr hm hlt, htake]
    exact imap_ingestion_loop_done env (n + 2) _ _ _ _
      (idle_step_wait_reply env sess imapsess i c0 tag reply txt _ h.hread
        (idle_words_incomplete_reply sess imapsess i c0 tag reply txt _ h (by omega)))
  · have hstep := idle_step_classify_reply env sess imapsess i c0 tag reply txt
      ((tag ++ str " OK" ++ txt ++ [13, 10]).take (m - (tag.length + 7 + reply.length + 6)))
      h.hread h.hstar
      (idle_words_reply sess imapsess i c0 tag reply txt _ h (by omega))
    rw [← htake] at hstep
    rw [imap_ingestion_loop_next env (n + 2) _ _ _ _ hstep]
    exact idle_loop_classified env sess imapsess i c0 tag reply txt m n h (by omega)

theorem idle_loop_reply (env : imap_env) (sess : emailsession) (imapsess : imap_session)
    (i : Nat) (c0 : imap_command) (tag reply txt : List Nat) (m n : Nat)
    (h : idle_conditions sess imapsess i c0 tag reply txt)
    (hm : tag.length + 7 + 2 ≤ m) :
    imap_ingestion_loop env (n + 4) (idle_session sess tag reply txt 3)
      (idle_tracker imapsess i c0 tag reply txt ((idle_exchange tag reply txt).take m) 3) =
      some (idle_session sess tag reply txt (idle_phase tag reply txt m),
        idle_tracker imapsess i c0 tag reply txt ((idle_exchange tag reply txt).take m)
          (idle_phase tag reply txt m)) := by
  have hr := idle_reply_length _ _ _ _ _ _ _ h
  have hnul := idle_ok_line_no_nul sess imapsess i c0 tag reply txt h
  by_cases hlt : m < tag.length + 7 + reply.length + 6
  · rw [idle_phase_reply tag reply txt m hm hlt,
      idle_exchange_take_reply tag reply txt m (by omega)]
    exact imap_ingestion_loop_done env (n + 3) _ _ _ _
      (idle_step_wait_done env sess imapsess i c0 tag reply txt _ h.hread h.hslot
        (idle_no_done sess imapsess i c0 tag reply txt _ _ h hnul (by omega)))
  · have htake := idle_exchange_take_done tag reply txt m (by omega)
    have hv : ∀ c ∈ (tag ++ str " OK" ++ txt ++ [13, 10]).take
        (m - (tag.length + 7 + reply.length + 6)), c ≠ 0 :=
      fun c hc => hnul c (List.mem_of_mem_take hc)
    have hplus := idle_plus sess imapsess i c0 tag reply txt _
      ((reply ++ str "DONE\r\n" ++ (tag ++ str " OK" ++ txt ++ [13, 10]).take
        (m - (tag.length + 7 + reply.length + 6))).length) h hv (by
          simp only [List.length_append]
          omega)
    rw [List.take_length] at hplus
    have hstep := idle_step_done env sess imapsess i c0 tag reply txt _ 3 (Or.inr rfl)
      h.hread h.hslot hplus hr (idle_done sess imapsess i c0 tag reply txt _ h hv)
    rw [← htake] at hstep
    rw [imap_ingestion_loop_next env (n + 3) _ _ _ _ hstep]
    exact idle_loop_done env sess imapsess i c0 tag reply txt m n h (by omega)

theorem idle_loop_saved (env : imap_env) (sess : emailsession) (imapsess : imap_session)
    (i : Nat) (c0 : imap_command) (tag reply txt : List Nat) (m n : Nat)
    (h : idle_conditions sess imapsess i c0 tag reply txt)
    (hm : tag.length + 7 ≤ m) :
    imap_ingestion_loop env (n + 4) (idle_session sess tag reply txt 2)
      (idle_tracker imapsess i c0 tag reply txt ((idle_exchange tag reply txt).take m) 2) =
      some (idle_session sess tag reply txt (idle_phase tag reply txt m),
        idle_tracker imapsess i c0 tag reply txt ((idle_exchange tag reply txt).take m)
          (idle_phase tag reply txt m)) := by
  have hr := idle_reply_length _ _ _ _ _ _ _ h
  have hnul := idle_ok_line_no_nul sess imapsess i c0 tag reply txt h
  by_cases hlt2 : m < tag.length + 7 + 2
  · rw [idle_phase_plus tag reply txt m hm hlt2,
      idle_exchange_take_reply tag reply txt m hm]
    exact imap_ingestion_loop_done env (n + 3) _ _ _ _
      (idle_step_wait_plus env sess imapsess i c0 tag reply txt _ h.hread h.hslot
        (idle_no_plus _ (by
          rw [List.length_take]
          omega)))
  · by_cases hlt : m < tag.length + 7 + reply.length + 6
    · rw [idle_phase_reply tag reply txt m (by omega) hlt,
        idle_exchange_take_reply tag reply txt m hm]
      exact imap_ingestion_loop_done env (n + 3) _ _ _ _
        (idle_step_see_plus env sess imapsess i c0 tag reply txt _ h.hread h.hslot
          (idle_plus sess imapsess i c0 tag reply txt _ _ h hnul (by omega))
          (idle_no_done sess imapsess i c0 tag reply txt _ _ h hnul (by omega)))
    · have htake := idle_exchange_take_done tag reply txt m (by omega)
      have hv : ∀ c ∈ (tag ++ str " OK" ++ txt ++ [13, 10]).take
          (m - (tag.length + 7 + reply.length + 6)), c ≠ 0 :=
        fun c hc => hnul c (List.mem_of_mem_take hc)
      have hplus := idle_plus sess imapsess i c0 tag reply txt _
        ((reply ++ str "DONE\r\n" ++ (tag ++ str " OK" ++ txt ++ [13, 10]).take
          (m - (tag.length + 7 + reply.length + 6))).length) h hv (by
            simp only [List.length_append]
            omega)
      rw [List.take_length] at hplus
      have hstep := idle_step_done env sess imapsess i c0 tag reply txt _ 2 (Or.inl rfl)
        h.hread h.hslot hplus hr (idle_done sess imapsess i c0 tag reply txt _ h hv)
      rw [← htake] at hstep
      rw [imap_ingestion_loop_next env (n + 3) _ _ _ _ hstep]
      exact idle_loop_done env sess imapsess i c0 tag reply txt m n h (by omega)

theorem idle_loop_start (env : imap_env) (sess : emailsession) (imapsess : imap_session)
    (i : Nat) (c0 : imap_command) (tag reply txt : List Nat) (m n : Nat)
    (h : idle_conditions sess imapsess i c0 tag reply txt) :
    imap_ingestion_loop env (n + 6) (idle_session sess tag reply txt 0)
      (idle_tracker imapsess i c0 tag reply txt ((idle_exchange tag reply txt).take m) 0) =
      some (idle_session sess tag reply txt (idle_phase tag reply txt m),
        idle_tracker imapsess i c0 tag reply txt ((idle_exchange tag reply txt).take m)
          (idle_phase tag reply txt m)) := by
  have hnul := idle_ok_line_no_nul sess imapsess i c0 tag reply txt h
  by_cases hlt : m < tag.length + 7
  · rw [idle_phase_command tag reply txt m hlt]
    exact imap_ingestion_loop_done env (n + 5) _ _ _ _
      (idle_step_wait_command env sess imapsess i c0 tag reply txt _ h.hstate h.hnone h.hread
        (idle_words_incomplete_command sess imapsess i c0 tag reply txt m h hlt))
  · have htake := idle_exchange_take_reply tag reply txt m (by omega)
    have hu : ∀ c ∈ (reply ++ str "DONE\r\n" ++ (tag ++ str " OK" ++ txt ++ [13, 10])).take
        (m - (tag.length + 7)), c ≠ 0 :=
      fun c hc => idle_rest_no_nul sess imapsess i c0 tag reply txt _ h hnul c
        (List.mem_of_mem_take hc)
    have hstep1 := idle_step_classify_command env sess imapsess i c0 tag reply txt
      ((idle_exchange tag reply txt).take m) h.hstate h.hnone h.hread h.hstar (by
        rw [htake]
        exact idle_words_command sess imapsess i c0 tag reply txt _ h hu)
    have hstep2 := idle_step_save_command env sess imapsess i c0 tag reply txt
      ((reply ++ str "DONE\r\n" ++ (tag ++ str " OK" ++ txt ++ [13, 10])).take
        (m - (tag.length + 7))) h.hstate h.hread h.hfree h.hslot
      (fun c hc => (h.htag c hc).2.2)
    rw [← htake] at hstep2
    rw [imap_ingestion_loop_next env (n + 5) _ _ _ _ hstep1,
      imap_ingestion_loop_next env (n + 4) _ _ _ _ hstep2]
    exact idle_loop_saved env sess imapsess i c0 tag reply txt m n h (by omega)

theorem idle_tracker_append (imapsess : imap_session) (i : Nat) (c0 : imap_command)
    (tag reply txt e c : List Nat) (p : Nat) :
    append_content_to_imap_buffer (idle_tracker imapsess i c0 tag reply txt e p) c =
      idle_tracker imapsess i c0 tag reply txt (e ++ c) p := by
  rcases p with _ | _ | _ | _ | _ | _ | _ <;>
    simp only [idle_tracker, append_content_to_imap_buffer, List.append_assoc]

theorem idle_phase_cases (tag reply txt : List Nat) (m : Nat) (hr : 2 ≤ reply.length) :
    idle_phase tag reply txt m = 0 ∨
    (idle_phase tag reply txt m = 2 ∧ tag.length + 7 ≤ m) ∨
    (idle_phase tag reply txt m = 3 ∧ tag.length + 7 + 2 ≤ m) ∨
    (idle_phase tag reply txt m = 4 ∧ tag.length + 7 + reply.length + 6 ≤ m) ∨
    (idle_phase tag reply txt m = 5 ∧
      tag.length + 7 + reply.length + 6 + (tag.length + (if txt = [] then 5 else 4)) ≤ m) ∨
    (idle_phase tag reply txt m = 6 ∧
      tag.length + 7 + reply.length + 6 + (tag.length + 3 + txt.length + 2) ≤ m) := by
  have hw := idle_word_end_le tag txt
  by_cases h1 : m < tag.length + 7
  · exact Or.inl (idle_phase_command tag reply txt m h1)
  · by_cases h2 : m < tag.length + 7 + 2
    · exact Or.inr (Or.inl ⟨idle_phase_plus tag reply txt m (by omega) h2, by omega⟩)
    · by_cases h3 : m < tag.length + 7 + reply.length + 6
      · exact Or.inr (Or.inr (Or.inl ⟨idle_phase_reply tag reply txt m (by omega) h3,
          by omega⟩))
      · by_cases h4 : m < tag.length + 7 + reply.length + 6 +
            (tag.length + (if txt = [] then 5 else 4))
        · exact Or.inr (Or.inr (Or.inr (Or.inl
            ⟨idle_phase_done tag reply txt m hr (by omega) h4, by omega⟩)))
        · by_cases h5 : m < tag.length + 7 + reply.length + 6 +
              (tag.length + 3 + txt.length + 2)
          · exact Or.inr (Or.inr (Or.inr (Or.inr (Or.inl
              ⟨idle_phase_classified tag reply txt m hr (by omega) h5, by omega⟩))))
          · exact Or.inr (Or.inr (Or.inr (Or.inr (Or.inr
              ⟨idle_phase_end tag reply txt m hr (by omega), by omega⟩))))

/-- From the state in which the tracker waits after `m0` bytes of the exchange,
the loop on the first `m` bytes ends in the state in which it waits after `m`
bytes. -/
theorem idle_loop_waiting (env : imap_env) (sess : emailsession) (imapsess : imap_session)
    (i : Nat) (c0 : imap_command) (tag reply txt : List Nat) (m0 m fuel : Nat)
    (h : idle_conditions sess imapsess i c0 tag reply txt) (hm : m0 ≤ m) (hfuel : 6 ≤ fuel) :
    imap_ingestion_loop env fuel (idle_session sess tag reply txt (idle_phase tag reply txt m0))
      (idle_tracker imapsess i c0 tag reply txt ((idle_exchange tag reply txt).take m)
        (idle_phase tag reply txt m0)) =
      some (idle_session sess tag reply txt (idle_phase tag reply txt m),
        idle_tracker imapsess i c0 tag reply txt ((idle_exchange tag reply txt).take m)
          (idle_phase tag reply txt m)) := by
  have hr := idle_reply_length _ _ _ _ _ _ _ h
  obtain ⟨n, rfl⟩ : ∃ n, fuel = n + 6 := ⟨fuel - 6, by omega⟩
  rcases idle_phase_cases tag reply txt m0 hr with
    h0 | ⟨h0, hlow⟩ | ⟨h0, hlow⟩ | ⟨h0, hlow⟩ | ⟨h0, hlow⟩ | ⟨h0, hlow⟩
  · rw [h0]
    exact idle_loop_start env sess imapsess i c0 tag reply txt m n h
  · rw [h0]
    exact idle_loop_saved env sess imapsess i c0 tag reply txt m (n + 2) h (by omega)
  · rw [h0]
    exact idle_loop_reply env sess imapsess i c0 tag reply txt m (n + 2) h (by omega)
  · rw [h0]
    exact idle_loop_done env sess imapsess i c0 tag reply txt m (n + 3) h (by omega)
  · rw [h0]
    exact idle_loop_classified env sess imapsess i c0 tag reply txt m (n + 4) h (by omega)
  · rw [h0]
    exact idle_loop_end env sess imapsess i c0 tag reply txt m (n + 5) h (by omega)

theorem idle_captures (env : imap_env) (sess : emailsession) (imapsess : imap_session)
    (i : Nat) (c0 : imap_command) (tag reply txt : List Nat) (fuel : Nat)
    (h : idle_conditions sess imapsess i c0 tag reply txt) (hfuel : 6 ≤ fuel) :
    ∀ (captures : List (List Nat)) (m : Nat),
      (idle_exchange tag reply txt).drop m = captures.flatten →
      ingest_captures env fuel
        (with_proto_state (idle_session sess tag reply txt (idle_phase tag reply txt m))
          (some (idle_tracker imapsess i c0 tag reply txt ((idle_exchange tag reply txt).take m)
            (idle_phase tag reply txt m)))) captures =
        some (with_proto_state (idle_session sess tag reply txt 6)
          (some (idle_tracker imapsess i c0 tag reply txt (idle_exchange tag reply txt) 6))) := by
  have hr := idle_reply_length _ _ _ _ _ _ _ h
  intro captures
  induction captures with
  | nil =>
    intro m hdrop
    have hlen : (idle_exchange tag reply txt).length ≤ m := by
      simp only [List.flatten_nil, List.drop_eq_nil_iff] at hdrop
      exact hdrop
    rw [List.take_of_length_le hlen, idle_phase_end tag reply txt m hr (by
      rw [← idle_exchange_length]
      exact hlen)]
    rfl
  | cons c rest ih =>
    intro m hdrop
    rw [List.flatten_cons] at hdrop
    have htake : (idle_exchange tag reply txt).take (m + c.length) =
        (idle_exchange tag reply txt).take m ++ c := by
      rw [List.take_add, hdrop, List.take_left]
    have hdrop2 : (idle_exchange tag reply txt).drop (m + c.length) = rest.flatten := by
      rw [← List.drop_drop, hdrop, List.drop_left]
    have hloop := idle_loop_waiting env sess imapsess i c0 tag reply txt m (m + c.length) fuel h
      (by omega) hfuel
    rw [htake, ← idle_tracker_append] at hloop
    rw [ingest_captures, update_of_proto, hloop]
    simp only [Option.map_some']
    rw [← htake]
    exact ih (m + c.length) hdrop2

/-- C14: an AUTHENTICATED session under `idle_conditions` is fed the bytes of
an IDLE exchange, `<tag> IDLE\r\n`, the server bytes `reply` (`+ ...\r\n` and
updates), `DONE\r\n` and `<tag> OK<txt>\r\n`, cut into captures in any way. With
six rounds of fuel for each capture every ingestion returns; the session is
AUTHENTICATED again; the saved IDLE command in slot `i` has gained, after the
record of its command line, a record of direction 0 that covers exactly the
server bytes `reply`, then a record of direction 1 that covers exactly the six
bytes `DONE\r\n`, and last the record of the tagged reply; `server_octets` has
grown by the length of `reply` (and by the tagged reply line), `client_octets`
by 6 (and by the command line). -/
theorem idle_exchange_cc_records (env : imap_env) (sess : emailsession)
    (imapsess : imap_session) (i : Nat) (c0 : imap_command) (tag reply txt : List Nat)
    (captures : List (List Nat)) (fuel : Nat)
    (hproto : sess.proto_state = some imapsess)
    (h : idle_conditions sess imapsess i c0 tag reply txt)
    (hcap : captures.flatten = idle_exchange tag reply txt)
    (hfuel : 6 ≤ fuel) :
    ∃ s1 im1 comm,
      ingest_captures env fuel sess captures = some s1 ∧
      s1.currstate = OPENLI_IMAP_STATE_AUTHENTICATED ∧
      s1.server_octets = sess.server_octets + reply.length +
        (tag ++ str " OK" ++ txt ++ [13, 10]).length ∧
      s1.client_octets = sess.client_octets + (tag ++ str " IDLE" ++ [13, 10]).length + 6 ∧
      s1.proto_state = some im1 ∧
      im1.commands[i]? = some comm ∧
      comm.ccs = c0.ccs ++
        [⟨c0.commbuffer.length, (c0.commbuffer ++ (tag ++ str " IDLE" ++ [13, 10])).length, 1⟩,
         ⟨(c0.commbuffer ++ (tag ++ str " IDLE" ++ [13, 10])).length,
          (c0.commbuffer ++ (tag ++ str " IDLE" ++ [13, 10])).length + reply.length, 0⟩,
         ⟨(c0.commbuffer ++ (tag ++ str " IDLE" ++ [13, 10])).length + reply.length,
          (c0.commbuffer ++ (tag ++ str " IDLE" ++ [13, 10])).length + reply.length + 6, 1⟩,
         ⟨(c0.commbuffer ++ (tag ++ str " IDLE" ++ [13, 10])).length + reply.length + 6,
          (c0.commbuffer ++ (tag ++ str " IDLE" ++ [13, 10])).length + reply.length + 6 +
            (tag ++ str " OK" ++ txt ++ [13, 10]).length, 0⟩] ∧
      (comm.commbuffer.drop (c0.commbuffer ++ (tag ++ str " IDLE" ++ [13, 10])).length).take
        reply.length = reply ∧
      (comm.commbuffer.drop
        ((c0.commbuffer ++ (tag ++ str " IDLE" ++ [13, 10])).length + reply.length)).take 6 =
        str "DONE\r\n" := by
  have hlt : i < imapsess.commands.length := by
    by_contra hge
    have hs := h.hslot
    rw [List.getElem?_eq_none (by omega)] at hs
    simp at hs
  have hstart : with_proto_state (idle_session sess tag reply txt (idle_phase tag reply txt 0))
      (some (idle_tracker imapsess i c0 tag reply txt ((idle_exchange tag reply txt).take 0)
        (idle_phase tag reply txt 0))) = sess := by
    rw [idle_phase_command tag reply txt 0 (by omega), List.take_zero]
    obtain ⟨a1, a2, a3, a4, a5, a6, a7⟩ := sess
    simp only at hproto
    subst hproto
    simp only [with_proto_state, idle_session, idle_tracker, List.append_nil]
  have hrun := idle_captures env sess imapsess i c0 tag reply txt fuel h hfuel captures 0
    (by rw [List.drop_zero, hcap])
  rw [hstart] at hrun
  have e1 : (str " IDLE").length = 5 := rfl
  have e2 : (str "DONE\r\n").length = 6 := rfl
  have e3 : (str " OK").length = 3 := rfl
  refine ⟨_, _, idle_command_replied c0 tag reply txt, hrun, rfl, ?_, ?_, rfl, ?_, ?_, ?_, ?_⟩
  · show sess.server_octets + reply.length + ((tag ++ str " OK" ++ txt).length + 2) = _
    simp only [List.length_append, List.length_cons, List.length_nil]
  · show sess.client_octets + ((tag ++ str " IDLE").length + 2) + 6 = _
    simp only [List.length_append, List.length_cons, List.length_nil]
  · show (imapsess.commands.set i _)[i]? = _
    simp [List.getElem?_set, hlt]
  · simp only [idle_command_replied, idle_command_done, idle_command_saved, List.append_assoc,
      List.length_append, List.cons_append, List.nil_append, List.length_cons, List.length_nil,
      e1, e2, e3]
    simp only [List.append_cancel_left_eq, List.cons.injEq, imap_cc_index.mk.injEq, and_true,
      true_and]
    omega
  · show (((idle_command_saved c0 tag).commbuffer ++ (reply ++ str "DONE\r\n") ++
      (tag ++ str " OK" ++ txt ++ [13, 10])).drop
        (c0.commbuffer ++ (tag ++ str " IDLE" ++ [13, 10])).length).take reply.length = reply
    have e : (idle_command_saved c0 tag).commbuffer ++ (reply ++ str "DONE\r\n") ++
        (tag ++ str " OK" ++ txt ++ [13, 10]) =
        (c0.commbuffer ++ (tag ++ str " IDLE" ++ [13, 10])) ++
          (reply ++ (str "DONE\r\n" ++ (tag ++ str " OK" ++ txt ++ [13, 10]))) := by
      simp only [idle_command_saved, List.append_assoc]
    rw [e, List.drop_left, List.take_left]
  · show (((idle_command_saved c0 tag).commbuffer ++ (reply ++ str "DONE\r\n") ++
      (tag ++ str " OK" ++ txt ++ [13, 10])).drop
        ((c0.commbuffer ++ (tag ++ str " IDLE" ++ [13, 10])).length + reply.length)).take 6 =
      str "DONE\r\n"
    have e : (idle_command_saved c0 tag).commbuffer ++ (reply ++ str "DONE\r\n") ++
        (tag ++ str " OK" ++ txt ++ [13, 10]) =
        ((c0.commbuffer ++ (tag ++ str " IDLE" ++ [13, 10])) ++ reply) ++
          (str "DONE\r\n" ++ (tag ++ str " OK" ++ txt ++ [13, 10])) := by
      simp only [idle_command_saved, List.append_assoc]
    have e4 : (c0.commbuffer ++ (tag ++ str " IDLE" ++ [13, 10])).length + reply.length =
        ((c0.commbuffer ++ (tag ++ str " IDLE" ++ [13, 10])) ++ reply).length := by
      rw [List.length_append _ reply]
    have e5 : (6 : Nat) = (str "DONE\r\n").length := rfl
    rw [e, e4, List.drop_left, e5, List.take_left]

theorem idle_exchange_cc_records_witness :
    ∃ s1 im1 comm,
      ingest_captures env_libb64 6 session_authenticated captures_idle_split = some s1 ∧
      s1.currstate = OPENLI_IMAP_STATE_AUTHENTICATED ∧
      s1.server_octets = session_authenticated.server_octets + idle_reply_update.length +
        (str "a1" ++ str " OK" ++ str " done" ++ [13, 10]).length ∧
      s1.client_octets = session_authenticated.client_octets +
        (str "a1" ++ str " IDLE" ++ [13, 10]).length + 6 ∧
      s1.proto_state = some im1 ∧
      im1.commands[0]? = some comm ∧
      comm.ccs = init_imap_command.ccs ++
        [⟨init_imap_command.commbuffer.length,
          (init_imap_command.commbuffer ++ (str "a1" ++ str " IDLE" ++ [13, 10])).length, 1⟩,
         ⟨(init_imap_command.commbuffer ++ (str "a1" ++ str " IDLE" ++ [13, 10])).length,
          (init_imap_command.commbuffer ++ (str "a1" ++ str " IDLE" ++ [13, 10])).length +
            idle_reply_update.length, 0⟩,
         ⟨(init_imap_command.commbuffer ++ (str "a1" ++ str " IDLE" ++ [13, 10])).length +
            idle_reply_update.length,
          (init_imap_command.commbuffer ++ (str "a1" ++ str " IDLE" ++ [13, 10])).length +
            idle_reply_update.length + 6, 1⟩,
         ⟨(init_imap_command.commbuffer ++ (str "a1" ++ str " IDLE" ++ [13, 10])).length +
            idle_reply_update.length + 6,
          (init_imap_command.commbuffer ++ (str "a1" ++ str " IDLE" ++ [13, 10])).length +
            idle_reply_update.length + 6 +
            (str "a1" ++ str " OK" ++ str " done" ++ [13, 10]).length, 0⟩] ∧
      (comm.commbuffer.drop
        (init_imap_command.commbuffer ++ (str "a1" ++ str " IDLE" ++ [13, 10])).length).take
        idle_reply_update.length = idle_reply_update ∧
      (comm.commbuffer.drop
        ((init_imap_command.commbuffer ++ (str "a1" ++ str " IDLE" ++ [13, 10])).length +
          idle_reply_update.length)).take 6 = str "DONE\r\n" :=
  idle_exchange_cc_records env_libb64 session_authenticated tracker_pre_auth 0
    init_imap_command (str "a1") idle_reply_update (str " done") captures_idle_split 6 rfl
    ⟨rfl, rfl, rfl, by decide, rfl, fun j hj => absurd hj (Nat.not_lt_zero j), by decide,
      by decide, by decide, by decide, by decide, by decide, by decide⟩
    (by decide) (by decide)

/-! ## Intercept announcements read from the subscription socket -/

/-- For every announcement of three frames, all three length fields hold the
length of the LIID. -/
theorem read_new_intercept_message_lengths (l a d : List Nat) :
    read_new_intercept_message
      [zmq_frame.part l true, zmq_frame.part a true, zmq_frame.part d false] =
    some ({ liid := some (cstr l), liid_len := (cstr l).length,
            authcc := some (cstr a), authcc_len := (cstr l).length,
            delivcc := some (cstr d), delivcc_len := (cstr l).length }, 1) := by
  rfl

/-- Claim C27 fails: for the frames `LIID0001`, `NZ`, `DE`
`read_new_intercept_message` returns 1 with the three strings stored, but
`authcc_len` and `delivcc_len` are both 8, the length of the LIID, while the
two country codes are 2 bytes long; only `liid_len` measures its own
string. -/
theorem read_new_intercept_message_lengths_of_liid :
    ∃ cept, read_new_intercept_message frames_liid0001 = some (cept, 1) ∧
      cept.liid = some (str "LIID0001") ∧ cept.authcc = some (str "NZ") ∧
      cept.delivcc = some (str "DE") ∧
      cept.liid_len = 8 ∧ strlen cept.liid = 8 ∧
      cept.authcc_len = 8 ∧ strlen cept.authcc = 2 ∧
      cept.delivcc_len = 8 ∧ strlen cept.delivcc = 2 := by
  refine ⟨_, rfl, ?_, ?_, ?_, ?_, ?_, ?_, ?_, ?_, ?_⟩ <;> decide

/-! ## The IMAP tracker: the PREAUTH greeting -/

/-- On the PREAUTH greeting `process_next_imap_state` returns 1 and leaves
the tracker in the state `preauth_pending`, whether it starts from the new
state or from `preauth_pending` itself. -/
theorem process_next_imap_state_preauth (env : imap_env) (s : imap_session)
    (hs : s = preauth_received ∨ s = preauth_pending) :
    process_next_imap_state env fresh_session s = some (fresh_session, preauth_pending, 1) := by
  have h1 : find_server_ready preauth_received = (preauth_received, 0) := by decide
  have h2 : find_server_ready preauth_pending = (preauth_pending, 0) := by decide
  have h3 : classify_imap_message fresh_session preauth_received (str "*") (str "PREAUTH") =
      (fresh_session, preauth_pending, 1) := by decide
  have h4 : classify_imap_message fresh_session preauth_pending (str "*") (str "PREAUTH") =
      (fresh_session, preauth_pending, 1) := by decide
  have w1 : imap_message_words (cstr (preauth_received.contbuffer.drop
      preauth_received.contbufread)) = some (str "*", str "PREAUTH") := by decide
  have w2 : imap_message_words (cstr (preauth_pending.contbuffer.drop
      preauth_pending.contbufread)) = some (str "*", str "PREAUTH") := by decide
  have d1 : fresh_session.currstate = OPENLI_IMAP_STATE_INIT := rfl
  have d2 : OPENLI_IMAP_STATE_INIT ≠ OPENLI_IMAP_STATE_SERVER_READY := by decide
  have d3 : OPENLI_IMAP_STATE_INIT ≠ OPENLI_IMAP_STATE_AUTHENTICATING := by decide
  have d4 : OPENLI_IMAP_STATE_INIT ≠ OPENLI_IMAP_STATE_IDLING := by decide
  have t1 : preauth_received.next_command_type = OPENLI_IMAP_COMMAND_NONE := rfl
  have t2 : preauth_pending.next_command_type = OPENLI_IMAP_COMMAND_NONE := rfl
  rcases hs with rfl | rfl
  · unfold process_next_imap_state
    simp only [d1, h1, if_true, d2, if_false, t1, true_and, zero_ne_one]
    rw [find_next_imap_message_words env _ _ (by rw [d1]; exact d3) (by rw [d1]; exact d4), w1]
    exact congrArg some h3
  · unfold process_next_imap_state
    simp only [d1, h2, if_true, d2, if_false, t2, true_and, zero_ne_one]
    rw [find_next_imap_message_words env _ _ (by rw [d1]; exact d3) (by rw [d1]; exact d4), w2]
    exact congrArg some h4

/-- Once the PREAUTH greeting is pending the loop of
`update_imap_session_by_ingestion` does not end, whatever the fuel. -/
theorem imap_ingestion_loop_preauth (env : imap_env) (fuel : Nat) (s : imap_session)
    (hs : s = preauth_received ∨ s = preauth_pending) :
    imap_ingestion_loop env fuel fresh_session s = none := by
  induction fuel generalizing s with
  | zero => rfl
  | succ n ih =>
    rw [imap_ingestion_loop, process_next_imap_state_preauth env s hs]
    simp only [show ¬ ((1 : Int) ≤ 0) by decide, if_false]
    exact ih _ (Or.inr rfl)

/-- Claim C29 fails: when a new session receives the greeting
`* PREAUTH IMAP4rev1 server logged in as Smith`, the loop of
`update_imap_session_by_ingestion` does not end within any number of rounds:
every call of `process_next_imap_state` returns 1 and leaves the tracker in
the same state, with nothing consumed and the message type still NONE. -/
theorem preauth_greeting_never_returns (env : imap_env) (fuel : Nat) :
    update_imap_session_by_ingestion env fuel fresh_session preauth_greeting = none ∧
    process_next_imap_state env fresh_session preauth_pending =
      some (fresh_session, preauth_pending, 1) ∧
    preauth_pending.contbufread = 0 ∧
    preauth_pending.next_command_type = OPENLI_IMAP_COMMAND_NONE := by
  refine ⟨?_, process_next_imap_state_preauth env _ (Or.inr rfl), rfl, rfl⟩
  have h : imap_ingestion_loop env fuel fresh_session preauth_received = none :=
    imap_ingestion_loop_preauth env fuel _ (Or.inl rfl)
  have e : append_content_to_imap_buffer new_imap_session preauth_greeting =
      preauth_received := rfl
  rw [update_eq_loop env fuel fresh_session new_imap_session preauth_greeting rfl, e, h]
  rfl

/-! ## The IMAP tracker: the bytes that `parse_id_command` reads -/

/-- For a command that is not AUTHENTICATE, `find_command_end` does not use
the base64 codec. -/
theorem find_command_end_env (env env1 : imap_env) (sess : emailsession)
    (imapsess : imap_session)
    (h : imapsess.next_command_type ≠ OPENLI_IMAP_COMMAND_AUTH) :
    find_command_end env sess imapsess = find_command_end env1 sess imapsess := by
  have e : (save_imap_command (find_next_crlf imapsess imapsess.next_comm_start).1).1.next_command_type
      = imapsess.next_command_type := by
    have e1 : (find_next_crlf imapsess imapsess.next_comm_start).1.next_command_type =
        imapsess.next_command_type := by
      unfold find_next_crlf
      split <;> rfl
    rw [← e1]
    generalize (find_next_crlf imapsess imapsess.next_comm_start).1 = s
    unfold save_imap_command
    simp only []
    split <;> rfl
  unfold find_command_end
  simp only [e, h, if_false]

/-- Claim C30 fails: behind the command `a1 ID NIL`, whose line holds no
parenthesis, `parse_id_command` reads on into the bytes that follow it in the
content buffer. With nothing behind the line `find_command_end` leaves the
client endpoint unset; with the command
`a2 LIST "" ("x-originating-ip" "198.51.100.7" "x-originating-port" "4444")`
behind it, `find_command_end` consumes the same 11 bytes of the ID line and
sets the client endpoint to 198.51.100.7 port 4444. The two buffers agree up
to and including the CRLF of the ID command. Accordingly the endpoint of the
session depends on how the same bytes are cut into captures. -/
theorem id_command_reads_past_line (env : imap_env) :
    (id_nil_pending []).contbuffer = str "* OK imap ready\r\n" ++ id_nil_line ∧
    (id_nil_pending list_after_id).contbuffer =
      str "* OK imap ready\r\n" ++ id_nil_line ++ list_after_id ∧
    process_next_imap_state env session_pre_auth (id_nil_received list_after_id) =
      some (session_pre_auth, id_nil_pending list_after_id, 1) ∧
    (find_command_end env session_pre_auth (id_nil_pending [])).1.clientaddr = none ∧
    (find_command_end env session_pre_auth (id_nil_pending [])).2.1.contbufread = 28 ∧
    (find_command_end env session_pre_auth (id_nil_pending list_after_id)).1.clientaddr =
      some (str "198.51.100.7", str "4444") ∧
    (find_command_end env session_pre_auth (id_nil_pending list_after_id)).2.1.contbufread =
      28 ∧
    (ingest_captures env_libb64 6 session_pre_auth [id_nil_line, list_after_id]).map
      (fun r => r.clientaddr) = some none ∧
    (ingest_captures env_libb64 6 session_pre_auth [id_nil_line ++ list_after_id]).map
      (fun r => r.clientaddr) = some (some (str "198.51.100.7", str "4444")) := by
  have t : ∀ x, (id_nil_pending x).next_command_type ≠ OPENLI_IMAP_COMMAND_AUTH := by
    intro x; simp [id_nil_pending]
  rw [find_command_end_env env env_libb64 _ _ (t _),
    find_command_end_env env env_libb64 _ _ (t _)]
  refine ⟨rfl, rfl, ?_, by decide, by decide, by decide, by decide, by decide, by decide⟩
  rw [process_next_imap_state_parsing env _ _ (by decide) (by decide), if_pos (show (id_nil_received list_after_id).next_command_type =
      OPENLI_IMAP_COMMAND_NONE from rfl),
    find_next_imap_message_words env _ _ (by decide) (by decide)]
  decide

/-! ## A failed drain in `forward_message` -/

/-- When the entry has a socket and a non-empty buffer and the drain fails,
`forward_message` returns -1 with the buffer as it was: the new record is not
appended. -/
theorem forward_message_failed_drain (dest : export_dest) (tag : Nat) (msg : openli_exportmsg)
    (o2 : SendOutcome) (hfd : dest.fd ≠ -1) (hbuf : get_buffered_amount dest.buffer ≠ 0) :
    forward_message dest tag msg SendOutcome.error o2 =
      ({ dest with wire := wire_write dest.wire [] }, -1) := by
  unfold forward_message
  simp only [hfd, hbuf, if_false, transmit_buffered_records, if_true]

/-- Claim C24 fails: the entry `dest_backlog` has a socket and 11 buffered
bytes of an earlier record; when the drain of the buffer fails with a socket
error, `forward_message` returns -1 and the buffer is exactly what it was.
The new record (enqueue index 1) was neither written to the socket nor
appended to the buffer, and `export_encoded_record` then only closes the
socket. -/
theorem forward_message_loses_record (o2 : SendOutcome) :
    dest_backlog.fd = 5 ∧ get_buffered_amount dest_backlog.buffer = 11 ∧
    (forward_message dest_backlog 1 msg_second SendOutcome.error o2).2 = -1 ∧
    (forward_message dest_backlog 1 msg_second SendOutcome.error o2).1.buffer =
      dest_backlog.buffer ∧
    (∀ b ∈ (forward_message dest_backlog 1 msg_second SendOutcome.error o2).1.buffer.bytes,
      b.tag ≠ 1) ∧
    (forward_message dest_backlog 1 msg_second SendOutcome.error o2).1.wire = [[]] ∧
    export_encoded_record_dests [dest_backlog] 1 msg_second SendOutcome.error o2 =
      ([{ dest_backlog with fd := -1 }], -1) := by
  rw [forward_message_failed_drain dest_backlog 1 msg_second o2 (by decide) (by decide)]
  refine ⟨rfl, by decide, rfl, rfl, by decide, rfl, ?_⟩
  unfold export_encoded_record_dests export_encoded_record_walk
  simp only [show dest_backlog.details.mediatorid = msg_second.destid from rfl, if_true,
    forward_message_failed_drain dest_backlog 1 msg_second o2 (by decide) (by decide)]
  rfl

/-! ## `forward_fd` on an entry with an empty buffer -/

theorem wrap_int32_lt (z : Int) : wrap_int32 z < 2147483648 := by
  unfold wrap_int32
  omega

theorem forward_fd_total_lt (msg : openli_exportmsg) : forward_fd_total msg < 2147483648 := by
  unfold forward_fd_total
  simp only []
  split
  · exact wrap_int32_lt _
  · exact wrap_int32_lt _

theorem forward_fd_total_msg_2gib : forward_fd_total msg_2gib = -2147483644 := by
  simp only [forward_fd_total, msg_2gib, forward_fd_enclen, u32_sub, wrap_int32]
  norm_num

theorem forward_fd_bytes_msg_2gib : (forward_fd_bytes msg_2gib).length = 2147483652 := by
  have he : forward_fd_enclen msg_2gib = 2147483648 := by
    simp only [forward_fd_enclen, msg_2gib, u32_sub]
  have hb : forward_fd_bytes msg_2gib =
      [1] ++ ([0, 1] ++ [90]) ++ body_2gib.take 2147483648 := by
    unfold forward_fd_bytes forward_fd_iov
    rw [he]
    simp only [msg_2gib, htons_bytes, gt_iff_lt, lt_irrefl, if_false, List.append_nil,
      List.flatten_cons, List.flatten_nil, List.take_succ_cons, List.take_nil,
      List.take_zero, List.append_assoc]
    simp
  rw [hb]
  simp only [List.length_append, List.length_take, body_2gib_length, List.length_cons,
    List.length_nil, Nat.min_self]

/-- The walk of `export_encoded_record` stops at the first entry with the
record's `destid`. -/
theorem export_encoded_record_walk_at (tag : Nat) (msg : openli_exportmsg)
    (o1 o2 : SendOutcome) (pre : List export_dest) (dest : export_dest)
    (rest : List export_dest)
    (hpre : ∀ d ∈ pre, d.details.mediatorid ≠ msg.destid)
    (hd : dest.details.mediatorid = msg.destid) :
    export_encoded_record_walk tag msg o1 o2 (pre ++ dest :: rest) =
      some (if (forward_message dest tag msg o1 o2).2 = -1 then
          (pre ++ { (forward_message dest tag msg o1 o2).1 with fd := -1 } :: rest, -1)
        else (pre ++ (forward_message dest tag msg o1 o2).1 :: rest, 1)) := by
  induction pre with
  | nil =>
    simp only [List.nil_append, export_encoded_record_walk, hd, if_true]
    split <;> rfl
  | cons d pre ih =>
    have hne : d.details.mediatorid ≠ msg.destid := hpre d (List.mem_cons_self _ _)
    rw [List.cons_append, export_encoded_record_walk]
    simp only [hne, if_false]
    rw [ih (fun x hx => hpre x (List.mem_cons_of_mem _ hx))]
    simp only [Option.map_some']
    split <;> rfl

/-- Claim C23 as stated fails for a record whose length does not fit the
`int total` of `forward_fd`: of the 2147483652 bytes of `msg_2gib` the send
writes 5, and since `total` is -2147483644 the test `ret < total` fails, so
the record is not appended: the buffer stays empty and the result is 0. -/
theorem forward_fd_partial_send_2gib :
    get_buffered_amount (add_unknown_destination 1).buffer = 0 ∧
    5 < (forward_fd_bytes msg_2gib).length ∧
    (forward_fd { add_unknown_destination 1 with fd := 5 } 0 msg_2gib
      (SendOutcome.sent 5)).1.buffer = init_export_buffer ∧
    (forward_fd { add_unknown_destination 1 with fd := 5 } 0 msg_2gib
      (SendOutcome.sent 5)).2 = 0 := by
  have hneg : ∀ k : Nat, ¬ ((k : Int) < forward_fd_total msg_2gib) := by
    intro k
    rw [forward_fd_total_msg_2gib]
    omega
  refine ⟨rfl, ?_, ?_, ?_⟩
  · rw [forward_fd_bytes_msg_2gib]
    decide
  · simp only [forward_fd, hneg, if_false]
    rfl
  · simp only [forward_fd, hneg, if_false]

/-- Claim C23 (as amended): let the `int total` of `forward_fd` equal the
length T of the record (as it does for every well-formed record of fewer
than 2^31 bytes) and let the entry's buffer be empty. If the socket takes at
least T bytes, the whole record is written, the buffer stays as it is and the
result is 0; if it takes n < T bytes, the first n bytes are written, the whole
record is appended with `already_sent = n` and the result is 0; on EAGAIN the
whole record is appended with `already_sent = 0` and the result is 0; on
another error the whole record is appended with `already_sent = 0` and the
result is -1, and `export_encoded_record`, when this happens at the entry of
the record's mediator, returns -1 with the entry kept in its place, its
socket closed (`fd = -1`) and the record in its buffer. -/
theorem forward_fd_on_empty_buffer (env : Env) (exp : collector_export) (dest : export_dest)
    (pre rest : List export_dest) (tag : Nat) (msg : openli_exportmsg) (n : Nat)
    (hT : forward_fd_total msg = ((forward_fd_bytes msg).length : Int))
    (hempty : get_buffered_amount dest.buffer = 0) :
    ((forward_fd_bytes msg).length ≤ n →
      forward_fd dest tag msg (SendOutcome.sent n) =
        ({ dest with wire := wire_write dest.wire (tagged_bytes tag msg) }, 0)) ∧
    (n < (forward_fd_bytes msg).length →
      forward_fd dest tag msg (SendOutcome.sent n) =
        ({ dest with wire := wire_write dest.wire ((tagged_bytes tag msg).take n),
                     buffer := { records := dest.buffer.records ++ [tagged_bytes tag msg], partialfront := n } }, 0)) ∧
    forward_fd dest tag msg SendOutcome.eagain =
      ({ dest with buffer := { records := dest.buffer.records ++ [tagged_bytes tag msg], partialfront := 0 } }, 0) ∧
    forward_fd dest tag msg SendOutcome.error =
      ({ dest with buffer := { records := dest.buffer.records ++ [tagged_bytes tag msg], partialfront := 0 } }, -1) ∧
    (dest.fd ≠ -1 → dest.details.mediatorid = msg.destid →
      (∀ d ∈ pre, d.details.mediatorid ≠ msg.destid) → exp.dests = pre ++ dest :: rest →
      tag = exp.forwarded.length → env.send (exp.nsend + 1) = SendOutcome.error →
      (export_encoded_record env exp msg).2 = -1 ∧
      (export_encoded_record env exp msg).1.dests =
        pre ++ { dest with fd := -1,
                           buffer := { records := dest.buffer.records ++ [tagged_bytes tag msg], partialfront := 0 } } ::
          rest) := by
  have hb : dest.buffer.bytes = [] := List.length_eq_zero.mp hempty
  have happ : ∀ k, append_message_to_buffer dest.buffer tag msg k =
      { records := dest.buffer.records ++ [tagged_bytes tag msg], partialfront := k } := by
    intro k
    unfold append_message_to_buffer tagged_bytes
    simp [hb]
  have herr : forward_fd dest tag msg SendOutcome.error =
      ({ dest with buffer := { records := dest.buffer.records ++ [tagged_bytes tag msg], partialfront := 0 } }, -1) := by
    unfold forward_fd
    simp only [happ]
  refine ⟨?_, ?_, ?_, herr, ?_⟩
  · intro hn
    unfold forward_fd
    simp only [Nat.min_eq_right hn, hT, lt_irrefl, if_false, List.take_length]
    rfl
  · intro hn
    have hlt : forward_fd_total msg < 2147483648 := forward_fd_total_lt msg
    have hmod : n % 4294967296 = n := Nat.mod_eq_of_lt (by omega)
    unfold forward_fd
    simp only [Nat.min_eq_left (Nat.le_of_lt hn), hT, Nat.cast_lt, hn, if_true, happ, hmod,
      tagged_bytes, List.map_take]
  · unfold forward_fd
    simp only [happ]
  · intro hfd hid hpre hdests htag hsend
    have hfm : forward_message dest tag msg (env.send exp.nsend) SendOutcome.error =
        ({ dest with buffer := { records := dest.buffer.records ++ [tagged_bytes tag msg], partialfront := 0 } }, -1) := by
      unfold forward_message
      simp only [hfd, if_false, hempty, if_true, herr]
    unfold export_encoded_record export_encoded_record_dests
    simp only [hdests, hsend, ← htag,
      export_encoded_record_walk_at tag msg _ _ pre dest rest hpre hid, hfm, if_true]
    exact ⟨trivial, trivial⟩

theorem forward_fd_on_empty_buffer_witness :
    forward_fd_total msg_small = ((forward_fd_bytes msg_small).length : Int) ∧
    get_buffered_amount (add_unknown_destination 1).buffer = 0 ∧
    forward_fd { add_unknown_destination 1 with fd := 5 } 0 msg_small (SendOutcome.sent 4) =
      ({ add_unknown_destination 1 with
          fd := 5,
          wire := wire_write [] ((tagged_bytes 0 msg_small).take 4),
          buffer := { records := [tagged_bytes 0 msg_small], partialfront := 4 } }, 0) ∧
    (export_encoded_record env_send_fails
      { exp_x with dests := [{ add_unknown_destination 1 with fd := 5 }] } msg_small).2 = -1 ∧
    (export_encoded_record env_send_fails
      { exp_x with dests := [{ add_unknown_destination 1 with fd := 5 }] } msg_small).1.dests =
      [{ add_unknown_destination 1 with
          fd := -1, buffer := { records := [tagged_bytes 0 msg_small], partialfront := 0 } }] :=
  have w := forward_fd_on_empty_buffer env_send_fails
    { exp_x with dests := [{ add_unknown_destination 1 with fd := 5 }] }
    { add_unknown_destination 1 with fd := 5 } [] [] 0 msg_small 4 (by decide) rfl
  ⟨by decide, rfl, w.2.1 (by decide),
    w.2.2.2.2 (by decide) rfl (by intro d hd; cases hd) rfl rfl rfl⟩

/-! ## Mediator ids are unique in the registry -/

theorem forward_fd_details (dest : export_dest) (tag : Nat) (msg : openli_exportmsg)
    (o : SendOutcome) : (forward_fd dest tag msg o).1.details = dest.details := by
  unfold forward_fd
  cases o with
  | error => rfl
  | eagain => rfl
  | sent n =>
    simp only
    split <;> rfl

theorem forward_message_details (dest : export_dest) (tag : Nat) (msg : openli_exportmsg)
    (o1 o2 : SendOutcome) : (forward_message dest tag msg o1 o2).1.details = dest.details := by
  unfold forward_message
  split
  · rfl
  · split
    · exact forward_fd_details _ _ _ _
    · simp only
      split
      · rfl
      · split
        · exact forward_fd_details _ _ _ _
        · rfl

theorem registry_ids_remove_destination (dests : List export_dest) (med : openli_mediator) :
    registry_ids (remove_destination_dests dests med) = registry_ids dests := by
  unfold registry_ids remove_destination_dests
  rw [List.map_map]
  apply List.map_congr_left
  intro d _
  simp only [Function.comp]
  split <;> rfl

theorem registry_ids_purge (dests : List export_dest) :
    registry_ids (purge_unconfirmed_mediators_dests dests) = registry_ids dests := by
  unfold registry_ids purge_unconfirmed_mediators_dests
  rw [List.map_map]
  apply List.map_congr_left
  intro d _
  simp only [Function.comp]
  split <;> rfl

theorem connect_export_target_details (d : export_dest) (sockfd : Int) (o : SendOutcome) :
    (connect_export_target d sockfd o).1.details = d.details := by
  have h : (connect_single_target d sockfd).1.details = d.details := by
    unfold connect_single_target
    split
    · rfl
    · split
      · rfl
      · split <;> rfl
  unfold connect_export_target
  split
  · rfl
  · split
    · rfl
    · simp only
      split
      · split
        · split <;> exact h
        · exact h
      · exact h

theorem registry_ids_connect (conn : Nat → Int) (send : Nat → SendOutcome) (i : Nat)
    (dests : List export_dest) :
    registry_ids (connect_export_targets_walk conn send i dests).1 = registry_ids dests := by
  induction dests generalizing i with
  | nil => rfl
  | cons d rest ih =>
    unfold connect_export_targets_walk
    simp only [registry_ids, List.map_cons, connect_export_target_details]
    exact congrArg _ (ih (i + 1))

/-- The walk of `add_new_destination` keeps the ids of the entries, and it
falls off the end of the list only when no entry has the announced id. -/
theorem add_new_destination_walk_ids (med : openli_mediator) (dests : List export_dest) :
    match add_new_destination_walk med dests with
    | some ds => registry_ids ds = registry_ids dests
    | none => med.mediatorid ∉ registry_ids dests := by
  induction dests with
  | nil => simp [add_new_destination_walk, registry_ids]
  | cons d rest ih =>
    unfold add_new_destination_walk
    by_cases h1 : d.details.ipstr = none ∧ d.details.mediatorid = med.mediatorid
    · simp only [h1, and_self, if_true, registry_ids, List.map_cons]
    · simp only [h1, if_false]
      by_cases h2 : d.details.mediatorid = med.mediatorid
      · simp only [h2, if_true, registry_ids, List.map_cons]
        split <;> simp only [h2]
      · simp only [h2, if_false]
        cases hw : add_new_destination_walk med rest with
        | none =>
          rw [hw] at ih
          simp only [Option.map_none', registry_ids, List.map_cons, List.mem_cons, not_or]
          exact ⟨fun e => h2 e.symm, ih⟩
        | some ds =>
          rw [hw] at ih
          simp only [Option.map_some', registry_ids, List.map_cons]
          exact congrArg _ ih

/-- The walk of `export_encoded_record` keeps the ids of the entries, and it
falls off the end of the list only when no entry has the record's id. -/
theorem export_encoded_record_walk_ids (tag : Nat) (msg : openli_exportmsg)
    (o1 o2 : SendOutcome) (dests : List export_dest) :
    match export_encoded_record_walk tag msg o1 o2 dests with
    | some r => registry_ids r.1 = registry_ids dests
    | none => msg.destid ∉ registry_ids dests := by
  induction dests with
  | nil => simp [export_encoded_record_walk, registry_ids]
  | cons d rest ih =>
    unfold export_encoded_record_walk
    by_cases h : d.details.mediatorid = msg.destid
    · by_cases hr : (forward_message d tag msg o1 o2).2 = -1
      · simp only [h, hr, if_true, registry_ids, List.map_cons, forward_message_details]
      · simp only [h, hr, if_true, if_false, registry_ids, List.map_cons,
          forward_message_details]
    · simp only [h, if_false]
      cases hw : export_encoded_record_walk tag msg o1 o2 rest with
      | none =>
        rw [hw] at ih
        simp only [Option.map_none', registry_ids, List.map_cons, List.mem_cons, not_or]
        exact ⟨fun e => h e.symm, ih⟩
      | some r =>
        rw [hw] at ih
        simp only [Option.map_some', registry_ids, List.map_cons]
        exact congrArg _ ih

theorem registry_ids_nodup_add (dests : List export_dest) (med : openli_mediator)
    (h : (registry_ids dests).Nodup) :
    (registry_ids (add_new_destination_dests dests med)).Nodup := by
  have hw := add_new_destination_walk_ids med dests
  unfold add_new_destination_dests
  cases hc : add_new_destination_walk med dests with
  | some ds =>
    rw [hc] at hw
    simp only
    rw [hw]
    exact h
  | none =>
    rw [hc] at hw
    simp only [registry_ids, List.map_append, List.map_cons, List.map_nil]
    exact List.Nodup.append h (List.nodup_singleton _)
      (by
        intro a ha hb
        rw [List.mem_singleton] at hb
        exact hw (hb ▸ ha))

theorem registry_ids_nodup_export (dests : List export_dest) (tag : Nat)
    (msg : openli_exportmsg) (o1 o2 : SendOutcome) (h : (registry_ids dests).Nodup) :
    (registry_ids (export_encoded_record_dests dests tag msg o1 o2).1).Nodup := by
  have hw := export_encoded_record_walk_ids tag msg o1 o2 dests
  unfold export_encoded_record_dests
  cases hc : export_encoded_record_walk tag msg o1 o2 dests with
  | some r =>
    rw [hc] at hw
    simp only
    rw [hw]
    exact h
  | none =>
    rw [hc] at hw
    have e : registry_ids (dests ++ [(forward_message (add_unknown_destination msg.destid) tag
        msg o1 o2).1]) = registry_ids dests ++ [msg.destid] := by
      simp only [registry_ids, List.map_append, List.map_cons, List.map_nil,
        forward_message_details]
      rfl
    have n : (registry_ids dests ++ [msg.destid]).Nodup :=
      List.Nodup.append h (List.nodup_singleton _)
        (by
          intro a ha hb
          rw [List.mem_singleton] at hb
          exact hw (hb ▸ ha))
    simp only
    split
    · simp only
      rw [e]
      exact n
    · simp only
      rw [e]
      exact n

theorem registry_ids_nodup_apply (env : Env) (exp : collector_export) (op : registry_op)
    (h : (registry_ids exp.dests).Nodup) :
    (registry_ids (registry_apply env exp op).dests).Nodup := by
  cases op with
  | ADD_NEW_DESTINATION med =>
    have e : (add_new_destination env exp med).1.dests =
        add_new_destination_dests exp.dests med := by
      unfold add_new_destination
      simp only
      split
      · rfl
      · split
        · split <;> rfl
        · rfl
    simp only [registry_apply, e]
    exact registry_ids_nodup_add _ _ h
  | REMOVE_DESTINATION med =>
    simp only [registry_apply, remove_destination, registry_ids_remove_destination]
    exact h
  | PURGE_UNCONFIRMED_MEDIATORS =>
    simp only [registry_apply, purge_unconfirmed_mediators, registry_ids_purge]
    exact h
  | CONNECT_EXPORT_TARGETS =>
    simp only [registry_apply, connect_export_targets, registry_ids_connect]
    exact h
  | EXPORT_ENCODED_RECORD tosend =>
    simp only [registry_apply, export_encoded_record]
    exact registry_ids_nodup_export _ _ _ _ _ h

/-- Claim C25: in every state of the exporter that is reached from
`init_exporter`, whose registry is empty, by a sequence of calls of
`add_new_destination`, `remove_destination`, `purge_unconfirmed_mediators`,
`connect_export_targets` and `export_encoded_record` (whatever the sockets
and connects do), the mediator ids of the registry entries are pairwise
different. -/
theorem registry_mediatorids_unique (env : Env) (ops : List registry_op) :
    (registry_ids (registry_run env init_exporter ops).dests).Nodup := by
  have gen : ∀ (ops : List registry_op) (exp : collector_export),
      (registry_ids exp.dests).Nodup →
      (registry_ids (registry_run env exp ops).dests).Nodup := by
    intro ops
    induction ops with
    | nil => intro exp h; exact h
    | cons op rest ih =>
      intro exp h
      exact ih _ (registry_ids_nodup_apply env exp op h)
  exact gen ops init_exporter List.nodup_nil

/-! ## The length limits of the identifiers in the collector configuration -/

/-- The function `global_parser` either has no determined behaviour, or
releases the structure and returns -1, or keeps it and returns 0. -/
theorem global_parser_cases (env : config_env) (glob : collector_global)
    (key value : yaml_node) :
    global_parser_callback env glob key value = none ∨
    global_parser_callback env glob key value = some (none, -1) ∨
    ∃ g, global_parser_callback env glob key value = some (some g, 0) := by
  have gen : ∀ r, global_parser_callback env glob key value = r →
      r = none ∨ r = some (none, -1) ∨ ∃ g, r = some (some g, 0) := by
    intro r h
    unfold global_parser_callback at h
    generalize (if yaml_scalar_is key "inputs" = true ∧ yaml_is_sequence value = true then
      parse_input_config env glob value else some (glob, 0)) = inputs at h
    cases inputs with
    | none => exact Or.inl h.symm
    | some p =>
      obtain ⟨g, r0⟩ := p
      simp only [] at h
      by_cases hr : r0 = -1
      · rw [if_pos hr] at h
        exact Or.inr (Or.inl h.symm)
      · rw [if_neg hr] at h
        cases h1 : parse_operatorid g key value with
        | none =>
          rw [h1] at h
          exact Or.inr (Or.inl h.symm)
        | some g1 =>
          rw [h1] at h
          simp only [] at h
          cases h2 : parse_networkelementid g1 key value with
          | none =>
            rw [h2] at h
            exact Or.inr (Or.inl h.symm)
          | some g2 =>
            rw [h2] at h
            simp only [] at h
            cases h3 : parse_interceptpointid g2 key value with
            | none =>
              rw [h3] at h
              exact Or.inr (Or.inl h.symm)
            | some g3 =>
              rw [h3] at h
              exact Or.inr (Or.inr ⟨_, h.symm⟩)
  exact gen _ rfl

theorem parse_input_items_mappings (env : config_env) :
    ∀ (items : List yaml_node) (glob : collector_global),
    (∀ i ∈ items, ∃ pairs, i = YAML_MAPPING_NODE pairs) →
    parse_input_items env glob items ≠ none := by
  intro items
  induction items with
  | nil =>
    intro glob _
    simp [parse_input_items]
  | cons i rest ih =>
    intro glob h
    obtain ⟨pairs, rfl⟩ := h i (List.mem_cons_self _ _)
    rw [parse_input_items]
    exact ih _ (fun j hj => h j (List.mem_cons_of_mem _ hj))

/-- The behaviour of `global_parser` is determined for every pair whose value
is not a sequence with an item other than a mapping. -/
theorem global_parser_determined (env : config_env) (glob : collector_global)
    (key value : yaml_node)
    (h : ∀ items, value = YAML_SEQUENCE_NODE items →
      ∀ i ∈ items, ∃ pairs, i = YAML_MAPPING_NODE pairs) :
    global_parser_callback env glob key value ≠ none := by
  have hin : (if yaml_scalar_is key "inputs" = true ∧ yaml_is_sequence value = true then
      parse_input_config env glob value else some (glob, 0)) ≠ none := by
    split
    · rename_i hc
      cases value with
      | YAML_SCALAR_NODE v => simp [yaml_is_sequence] at hc
      | YAML_MAPPING_NODE ps => simp [yaml_is_sequence] at hc
      | YAML_SEQUENCE_NODE items =>
        have hi := parse_input_items_mappings env items glob (h items rfl)
        unfold parse_input_config
        cases hp : parse_input_items env glob items with
        | none => exact absurd hp hi
        | some g => simp [hp]
    · simp
  intro hn
  unfold global_parser_callback at hn
  generalize (if yaml_scalar_is key "inputs" = true ∧ yaml_is_sequence value = true then
    parse_input_config env glob value else some (glob, 0)) = inputs at hn hin
  cases inputs with
  | none => exact hin rfl
  | some p =>
    obtain ⟨g, r0⟩ := p
    simp only [] at hn
    by_cases hr : r0 = -1
    · rw [if_pos hr] at hn
      cases hn
    · rw [if_neg hr] at hn
      cases h1 : parse_operatorid g key value with
      | none =>
        rw [h1] at hn
        cases hn
      | some g1 =>
        rw [h1] at hn
        simp only [] at hn
        cases h2 : parse_networkelementid g1 key value with
        | none =>
          rw [h2] at hn
          cases hn
        | some g2 =>
          rw [h2] at hn
          simp only [] at hn
          cases h3 : parse_interceptpointid g2 key value with
          | none =>
            rw [h3] at hn
            cases hn
          | some g3 =>
            rw [h3] at hn
            cases hn

/-- When a pair of the root mapping makes `global_parser` return -1 whatever
the structure holds, and the pairs before it are processed with a determined
behaviour, `yaml_parser` returns -1. -/
theorem yaml_parser_pairs_fails (env : config_env) (key value : yaml_node)
    (rest : List (yaml_node × yaml_node))
    (hkv : ∀ g, global_parser_callback env g key value = some (none, -1)) :
    ∀ (pre : List (yaml_node × yaml_node)) (glob : collector_global) (ret : Int),
    (∀ p ∈ pre, ∀ g, global_parser_callback env g p.1 p.2 ≠ none) →
    ∃ a, yaml_parser_pairs (global_parser_callback env) glob ret (pre ++ (key, value) :: rest) =
      some (a, -1) := by
  intro pre
  induction pre with
  | nil =>
    intro glob ret _
    refine ⟨none, ?_⟩
    simp only [List.nil_append, yaml_parser_pairs, hkv, if_true]
  | cons p pre ih =>
    intro glob ret hpre
    obtain ⟨k1, v1⟩ := p
    rw [List.cons_append, yaml_parser_pairs]
    rcases global_parser_cases env glob k1 v1 with h | h | ⟨g, h⟩
    · exact absurd h (hpre (k1, v1) (List.mem_cons_self _ _) glob)
    · rw [h]
      exact ⟨none, by simp only [if_true]⟩
    · rw [h]
      simp only [show ¬ ((0 : Int) = -1) by decide, if_false]
      exact ih g 0 (fun q hq => hpre q (List.mem_cons_of_mem _ hq))

theorem global_parser_operatorid (env : config_env) (glob : collector_global) (v : List Nat) :
    global_parser_callback env glob (YAML_SCALAR_NODE (str "operatorid")) (YAML_SCALAR_NODE v) =
      if 16 < (cstr v).length then some (none, -1)
      else some (some { glob with operatorid := some (cstr v),
                                  operatorid_len := (cstr v).length }, 0) := by
  have k1 : yaml_scalar_is (YAML_SCALAR_NODE (str "operatorid")) "inputs" = false := by decide
  have k2 : yaml_scalar_is (YAML_SCALAR_NODE (str "operatorid")) "operatorid" = true := by
    decide
  have k3 : yaml_scalar_is (YAML_SCALAR_NODE (str "operatorid")) "networkelementid" = false := by
    decide
  have k4 : yaml_scalar_is (YAML_SCALAR_NODE (str "operatorid")) "interceptpointid" = false := by
    decide
  have k5 : yaml_scalar_is (YAML_SCALAR_NODE (str "operatorid")) "provisionerport" = false := by
    decide
  have k6 : yaml_scalar_is (YAML_SCALAR_NODE (str "operatorid")) "provisionerip" = false := by
    decide
  unfold global_parser_callback parse_operatorid parse_networkelementid parse_interceptpointid
    parse_provisioner
  by_cases hl : 16 < (cstr v).length
  · simp only [k1, k2, k3, k4, k5, k6, yaml_scalar_value, Bool.false_eq_true, false_and,
      if_false, if_true, show ¬ ((0 : Int) = -1) by decide, gt_iff_lt, hl]
  · simp only [k1, k2, k3, k4, k5, k6, yaml_scalar_value, Bool.false_eq_true, false_and,
      if_false, if_true, show ¬ ((0 : Int) = -1) by decide, gt_iff_lt, hl]

theorem global_parser_networkelementid (env : config_env) (glob : collector_global)
    (v : List Nat) :
    global_parser_callback env glob (YAML_SCALAR_NODE (str "networkelementid")) (YAML_SCALAR_NODE v) =
      if 16 < (cstr v).length then some (none, -1)
      else some (some { glob with networkelemid := some (cstr v),
                                  networkelemid_len := (cstr v).length }, 0) := by
  have k1 : yaml_scalar_is (YAML_SCALAR_NODE (str "networkelementid")) "inputs" = false := by
    decide
  have k2 : yaml_scalar_is (YAML_SCALAR_NODE (str "networkelementid")) "operatorid" = false := by
    decide
  have k3 : yaml_scalar_is (YAML_SCALAR_NODE (str "networkelementid")) "networkelementid" =
      true := by decide
  have k4 : yaml_scalar_is (YAML_SCALAR_NODE (str "networkelementid")) "interceptpointid" =
      false := by decide
  have k5 : yaml_scalar_is (YAML_SCALAR_NODE (str "networkelementid")) "provisionerport" =
      false := by decide
  have k6 : yaml_scalar_is (YAML_SCALAR_NODE (str "networkelementid")) "provisionerip" =
      false := by decide
  unfold global_parser_callback parse_operatorid parse_networkelementid parse_interceptpointid
    parse_provisioner
  by_cases hl : 16 < (cstr v).length
  · simp only [k1, k2, k3, k4, k5, k6, yaml_scalar_value, Bool.false_eq_true, false_and,
      if_false, if_true, show ¬ ((0 : Int) = -1) by decide, gt_iff_lt, hl]
  · simp only [k1, k2, k3, k4, k5, k6, yaml_scalar_value, Bool.false_eq_true, false_and,
      if_false, if_true, show ¬ ((0 : Int) = -1) by decide, gt_iff_lt, hl]

theorem global_parser_interceptpointid (env : config_env) (glob : collector_global)
    (v : List Nat) :
    global_parser_callback env glob (YAML_SCALAR_NODE (str "interceptpointid")) (YAML_SCALAR_NODE v) =
      if 8 < (cstr v).length then some (none, -1)
      else some (some { glob with intpointid := some (cstr v),
                                  intpointid_len := (cstr v).length }, 0) := by
  have k1 : yaml_scalar_is (YAML_SCALAR_NODE (str "interceptpointid")) "inputs" = false := by
    decide
  have k2 : yaml_scalar_is (YAML_SCALAR_NODE (str "interceptpointid")) "operatorid" = false := by
    decide
  have k3 : yaml_scalar_is (YAML_SCALAR_NODE (str "interceptpointid")) "networkelementid" =
      false := by decide
  have k4 : yaml_scalar_is (YAML_SCALAR_NODE (str "interceptpointid")) "interceptpointid" =
      true := by decide
  have k5 : yaml_scalar_is (YAML_SCALAR_NODE (str "interceptpointid")) "provisionerport" =
      false := by decide
  have k6 : yaml_scalar_is (YAML_SCALAR_NODE (str "interceptpointid")) "provisionerip" =
      false := by decide
  unfold global_parser_callback parse_operatorid parse_networkelementid parse_interceptpointid
    parse_provisioner
  by_cases hl : 8 < (cstr v).length
  · simp only [k1, k2, k3, k4, k5, k6, yaml_scalar_value, Bool.false_eq_true, false_and,
      if_false, if_true, show ¬ ((0 : Int) = -1) by decide, gt_iff_lt, hl]
  · simp only [k1, k2, k3, k4, k5, k6, yaml_scalar_value, Bool.false_eq_true, false_and,
      if_false, if_true, show ¬ ((0 : Int) = -1) by decide, gt_iff_lt, hl]

/-- Claim C26: for a scalar value `v` (a C string of `(cstr v).length`
bytes) and every state of the structure, `global_parser` releases the
structure and returns -1 when the key is `operatorid` or `networkelementid`
and the value is longer than 16 bytes, or the key is `interceptpointid` and
the value is longer than 8 bytes; within the limit it returns 0 with the
value stored and the length field set to the length of the value, nothing
else being changed. A configuration whose root mapping holds such an
over-long identifier, the pairs before it being processed with a determined
behaviour, makes `parse_global_config` return NULL. -/
theorem global_parser_identifier_limits (env : config_env) (glob : collector_global)
    (v : List Nat) :
    (global_parser_callback env glob (YAML_SCALAR_NODE (str "operatorid")) (YAML_SCALAR_NODE v) =
      if 16 < (cstr v).length then some (none, -1)
      else some (some { glob with operatorid := some (cstr v),
                                  operatorid_len := (cstr v).length }, 0)) ∧
    (global_parser_callback env glob (YAML_SCALAR_NODE (str "networkelementid")) (YAML_SCALAR_NODE v) =
      if 16 < (cstr v).length then some (none, -1)
      else some (some { glob with networkelemid := some (cstr v),
                                  networkelemid_len := (cstr v).length }, 0)) ∧
    (global_parser_callback env glob (YAML_SCALAR_NODE (str "interceptpointid")) (YAML_SCALAR_NODE v) =
      if 8 < (cstr v).length then some (none, -1)
      else some (some { glob with intpointid := some (cstr v),
                                  intpointid_len := (cstr v).length }, 0)) ∧
    (∀ (key : String) (limit : Nat) (pre rest : List (yaml_node × yaml_node)),
      (key, limit) ∈ [("operatorid", 16), ("networkelementid", 16), ("interceptpointid", 8)] →
      limit < (cstr v).length →
      (∀ p ∈ pre, ∀ g, global_parser_callback env g p.1 p.2 ≠ none) →
      parse_global_config env (config_file.document (YAML_MAPPING_NODE
        (pre ++ (YAML_SCALAR_NODE (str key), YAML_SCALAR_NODE v) :: rest))) = some none) := by
  refine ⟨global_parser_operatorid env glob v, global_parser_networkelementid env glob v,
    global_parser_interceptpointid env glob v, ?_⟩
  intro key limit pre rest hmem hlim hpre
  have hkv : ∀ g, global_parser_callback env g (YAML_SCALAR_NODE (str key)) (YAML_SCALAR_NODE v) =
      some (none, -1) := by
    intro g
    simp only [List.mem_cons, Prod.mk.injEq, List.mem_singleton, List.mem_nil_iff,
      or_false] at hmem
    rcases hmem with ⟨rfl, rfl⟩ | ⟨rfl, rfl⟩ | ⟨rfl, rfl⟩
    · rw [global_parser_operatorid, if_pos hlim]
    · rw [global_parser_networkelementid, if_pos hlim]
    · rw [global_parser_interceptpointid, if_pos hlim]
  obtain ⟨a, ha⟩ := yaml_parser_pairs_fails env _ _ rest hkv pre new_collector_global (-1) hpre
  unfold parse_global_config yaml_parser_file
  simp only [ha, if_true]

theorem global_parser_identifier_limits_witness :
    17 < 18 ∧
    global_parser_callback env_config new_collector_global (YAML_SCALAR_NODE (str "operatorid"))
      (YAML_SCALAR_NODE (str "WAND-operator-017")) = some (none, -1) ∧
    global_parser_callback env_config new_collector_global (YAML_SCALAR_NODE (str "interceptpointid"))
      (YAML_SCALAR_NODE (str "col01")) =
      some (some { new_collector_global with intpointid := some (str "col01"),
                                             intpointid_len := 5 }, 0) ∧
    parse_global_config env_config config_long_operatorid = some none := by
  have w := global_parser_identifier_limits env_config new_collector_global
    (str "WAND-operator-017")
  have w2 := global_parser_identifier_limits env_config new_collector_global (str "col01")
  refine ⟨by decide, ?_, ?_, ?_⟩
  · rw [w.1]
    decide
  · rw [w2.2.2.1]
    decide
  · refine w.2.2.2 "operatorid" 16
      [(YAML_SCALAR_NODE (str "inputs"),
        YAML_SEQUENCE_NODE [YAML_MAPPING_NODE
          [(YAML_SCALAR_NODE (str "uri"), YAML_SCALAR_NODE (str "ring:eth1")),
           (YAML_SCALAR_NODE (str "threads"), YAML_SCALAR_NODE (str "2"))]]),
       (YAML_SCALAR_NODE (str "networkelementid"), YAML_SCALAR_NODE (str "wand-ne-1"))]
      [(YAML_SCALAR_NODE (str "interceptpointid"), YAML_SCALAR_NODE (str "col01"))]
      (by simp) (by decide) ?_
    intro p hp g
    simp only [List.mem_cons, List.mem_singleton, List.mem_nil_iff, or_false] at hp
    rcases hp with rfl | rfl
    · refine global_parser_determined _ _ _ _ ?_
      intro items hi i hmem
      cases hi
      simp only [List.mem_singleton] at hmem
      exact ⟨_, hmem⟩
    · refine global_parser_determined _ _ _ _ ?_
      intro items hi
      cases hi

/-! ## SIP URIs are stripped of port and arguments -/

theorem find_sub_single_split (c : Nat) (l : List Nat) (k : Nat)
    (h : find_sub [c] l = some k) :
    l = l.take k ++ c :: l.drop (k + 1) ∧ ∀ x ∈ l.take k, x ≠ c := by
  induction l generalizing k with
  | nil => simp [find_sub] at h
  | cons a rest ih =>
    rw [find_sub_cons] at h
    by_cases ha : a = c
    · subst ha
      simp [List.isPrefixOf] at h
      subst h
      simp
    · have hp : List.isPrefixOf [c] (a :: rest) = false := by
        simp [List.isPrefixOf]
        exact fun e => ha e.symm
      rw [hp] at h
      simp only [Bool.false_eq_true, if_false, Option.map_eq_some'] at h
      obtain ⟨j, hj, rfl⟩ := h
      obtain ⟨e1, e2⟩ := ih j hj
      constructor
      · simp only [List.take_succ_cons, List.drop_succ_cons, List.cons_append]
        exact congrArg _ e1
      · intro x hx
        simp only [List.take_succ_cons, List.mem_cons] at hx
        rcases hx with rfl | hx
        · exact ha
        · exact e2 x hx

theorem find_sub_single_none_mem (c : Nat) (l : List Nat) (h : find_sub [c] l = none) :
    ∀ x ∈ l, x ≠ c := by
  induction l with
  | nil => simp
  | cons a rest ih =>
    rw [find_sub_cons] at h
    by_cases ha : a = c
    · subst ha
      simp [List.isPrefixOf] at h
    · have hp : List.isPrefixOf [c] (a :: rest) = false := by
        simp [List.isPrefixOf]
        exact fun e => ha e.symm
      rw [hp] at h
      simp only [Bool.false_eq_true, if_false, Option.map_eq_none'] at h
      intro x hx
      simp only [List.mem_cons] at hx
      rcases hx with rfl | hx
      · exact ha
      · exact ih h x hx

theorem cstr_no_nul (l : List Nat) : ∀ c ∈ cstr l, c ≠ 0 := by
  intro c hc
  have := List.mem_takeWhile_imp hc
  simpa using this

theorem chop_at_is_start (c : Nat) (l : List Nat) : chop_at c l <+: l := by
  unfold chop_at
  split
  · exact List.take_prefix _ _
  · exact List.prefix_refl _

theorem chop_at_not_mem (c : Nat) (l : List Nat) : ∀ x ∈ chop_at c l, x ≠ c := by
  unfold chop_at
  split
  · rename_i k hk
    exact (find_sub_single_split c l k hk).2
  · rename_i hk
    exact find_sub_single_none_mem c l hk

theorem chop_at_of_not_mem (c : Nat) (l : List Nat) (h : ∀ x ∈ l, x ≠ c) : chop_at c l = l := by
  unfold chop_at
  rw [find_sub_single_none c l h]

theorem chop_at_eq_takeWhile (c : Nat) (l : List Nat) :
    chop_at c l = l.takeWhile (fun x => x != c) := by
  unfold chop_at
  cases h : find_sub [c] l with
  | none =>
    simp only []
    symm
    rw [List.takeWhile_eq_self_iff]
    intro x hx
    simpa using find_sub_single_none_mem c l h x hx
  | some k =>
    simp only []
    obtain ⟨e1, e2⟩ := find_sub_single_split c l k h
    conv_rhs => rw [e1]
    rw [takeWhile_append_stop _ _ _ _ (fun x hx => by simpa using e2 x hx) (by simp)]

theorem take_behind_colon (scheme after : List Nat) (k : Nat) :
    (scheme ++ 58 :: after).take (scheme.length + 1 + k) = scheme ++ 58 :: after.take k := by
  have e : scheme ++ 58 :: after = (scheme ++ [58]) ++ after := by simp
  have e1 : scheme.length + 1 + k = (scheme ++ [58]).length + k := by simp
  rw [e, e1, List.take_append]
  simp

theorem drop_behind_colon (scheme after : List Nat) :
    (scheme ++ 58 :: after).drop (scheme.length + 1) = after := by
  have e : scheme ++ 58 :: after = (scheme ++ [58]) ++ after := by simp
  rw [e]
  exact List.drop_left' (by simp)

/-- The result of `strip_sip_uri` for a C string with the scheme colon behind
`scheme`: the string up to the second colon if there is one, and otherwise up
to the first ';' or '?' behind the scheme colon. -/
theorem strip_sip_uri_eq (uristr scheme after : List Nat)
    (h : cstr uristr = scheme ++ 58 :: after) (hs : ∀ x ∈ scheme, x ≠ 58) :
    strip_sip_uri uristr =
      if 58 ∈ after then some (scheme ++ 58 :: chop_at 58 after)
      else some (scheme ++ 58 :: chop_at 63 (chop_at 59 after)) := by
  have hfirst : find_sub [58] (scheme ++ 58 :: after) = some scheme.length :=
    find_sub_single 58 scheme after hs
  have hdrop : (scheme ++ 58 :: after).drop (scheme.length + 1) = after :=
    drop_behind_colon scheme after
  have htake : ∀ k, (scheme ++ 58 :: after).take (scheme.length + 1 + k) =
      scheme ++ 58 :: after.take k := take_behind_colon scheme after
  unfold strip_sip_uri
  simp only [h, hfirst, hdrop]
  cases h2 : find_sub [58] after with
  | some k =>
    have hmem : 58 ∈ after := by
      have := find_sub_single_at 58 after k h2
      exact List.getElem?_mem this
    simp only [hmem, if_true, htake, chop_at, h2]
  | none =>
    have hmem : 58 ∉ after := fun hm => find_sub_single_none_mem 58 after h2 58 hm rfl
    simp only [hmem, if_false]
    cases h3 : find_sub [59] after with
    | some k =>
      have hd2 : (scheme ++ 58 :: List.take k after).drop (scheme.length + 1) =
          List.take k after := drop_behind_colon scheme _
      have ht2 : ∀ j, (scheme ++ 58 :: List.take k after).take (scheme.length + 1 + j) =
          scheme ++ 58 :: (List.take k after).take j := take_behind_colon scheme _
      simp only [htake, hd2, chop_at, h3]
      cases h4 : find_sub [63] (List.take k after) with
      | some j => simp only [ht2]
      | none => rfl
    | none =>
      simp only [hdrop, chop_at, h3]
      cases h4 : find_sub [63] after with
      | some j => simp only [htake]
      | none => rfl

/-- Claim C28 is contradicted by the code: for the URI
`sip:alice@atlanta.com?subject=project:x`, whose only colon behind the scheme
colon lies in a header value, `strip_sip_uri` takes that colon for the one of
a port, cuts there and returns before it looks for ';' and '?'. The result
`sip:alice@atlanta.com?subject=project` still holds a '?' and the header that
follows it, against the comments of the function and of its caller (the
additional arguments are to be removed); applying the function to the result
gives `sip:alice@atlanta.com`, so the function is not idempotent either. -/
theorem strip_sip_uri_keeps_arguments :
    strip_sip_uri (str "sip:alice@atlanta.com?subject=project:x") =
      some (str "sip:alice@atlanta.com?subject=project") ∧
    63 ∈ str "sip:alice@atlanta.com?subject=project" ∧
    strip_sip_uri (str "sip:alice@atlanta.com?subject=project") =
      some (str "sip:alice@atlanta.com") := by
  refine ⟨?_, ?_, ?_⟩ <;> decide

/-- What `strip_sip_uri` does on every input: it returns NULL exactly when the
URI holds no ':'. Otherwise, `scheme` being the part before the first colon, the
result is the prefix `scheme ++ ":" ++ kept` of the URI, where `kept` holds
no further ':'; and when no ';' or '?' lies between the scheme colon and a
second ':' (or there is no second ':'), `kept` holds no ';' and no '?' and
the function maps its result to itself. The URIs
`sip:francisco@bestel.com:55060` and `sip:200.57.7.195:55061;user=phone` give
`sip:francisco@bestel.com` and `sip:200.57.7.195`. -/
theorem strip_sip_uri_strips (uristr : List Nat) :
    (strip_sip_uri uristr = none ↔ 58 ∉ cstr uristr) ∧
    (∀ scheme after, cstr uristr = scheme ++ 58 :: after → (∀ x ∈ scheme, x ≠ 58) →
      ∃ kept, strip_sip_uri uristr = some (scheme ++ 58 :: kept) ∧ kept <+: after ∧
        58 ∉ kept ∧
        ((58 ∉ after ∨ ∀ x ∈ after.takeWhile (fun x => x != 58), x ≠ 59 ∧ x ≠ 63) →
          59 ∉ kept ∧ 63 ∉ kept ∧
          strip_sip_uri (scheme ++ 58 :: kept) = some (scheme ++ 58 :: kept))) ∧
    strip_sip_uri (str "sip:francisco@bestel.com:55060") =
      some (str "sip:francisco@bestel.com") ∧
    strip_sip_uri (str "sip:200.57.7.195:55061;user=phone") = some (str "sip:200.57.7.195") := by
  refine ⟨?_, ?_, by decide, by decide⟩
  · constructor
    · intro hn hmem
      unfold strip_sip_uri at hn
      cases hf : find_sub [58] (cstr uristr) with
      | none => exact find_sub_single_none_mem 58 _ hf 58 hmem rfl
      | some k =>
        simp only [hf] at hn
        split at hn <;> cases hn
    · intro hmem
      have hf := find_sub_single_none 58 (cstr uristr) (fun c hc e => hmem (e ▸ hc))
      simp only [strip_sip_uri, hf]
  · intro scheme after h hs
    have hnul : ∀ c ∈ scheme ++ 58 :: after, c ≠ 0 := by
      rw [← h]
      exact cstr_no_nul uristr
    have idem : ∀ kept, kept <+: after → 58 ∉ kept → 59 ∉ kept → 63 ∉ kept →
        strip_sip_uri (scheme ++ 58 :: kept) = some (scheme ++ 58 :: kept) := by
      intro kept hk h58 h59 h63
      have hc : cstr (scheme ++ 58 :: kept) = scheme ++ 58 :: kept := by
        apply cstr_of_no_nul
        intro c hc
        apply hnul c
        rcases List.mem_append.mp hc with h1 | h1
        · exact List.mem_append_left _ h1
        · rcases List.mem_cons.mp h1 with h2 | h2
          · exact List.mem_append_right _ (h2 ▸ List.mem_cons_self _ _)
          · exact List.mem_append_right _ (List.mem_cons_of_mem _ (hk.subset h2))
      rw [strip_sip_uri_eq _ scheme kept hc hs, if_neg h58,
        chop_at_of_not_mem 59 kept (fun x hx e => h59 (e ▸ hx)),
        chop_at_of_not_mem 63 kept (fun x hx e => h63 (e ▸ hx))]
    rw [strip_sip_uri_eq uristr scheme after h hs]
    by_cases hmem : 58 ∈ after
    · rw [if_pos hmem]
      have h58 : 58 ∉ chop_at 58 after := fun hm => chop_at_not_mem 58 after 58 hm rfl
      refine ⟨chop_at 58 after, rfl, chop_at_is_start _ _, h58, ?_⟩
      intro hcond
      rcases hcond with hno | hno
      · exact absurd hmem hno
      · rw [← chop_at_eq_takeWhile] at hno
        have h59 : 59 ∉ chop_at 58 after := fun hm => (hno 59 hm).1 rfl
        have h63 : 63 ∉ chop_at 58 after := fun hm => (hno 63 hm).2 rfl
        exact ⟨h59, h63, idem _ (chop_at_is_start _ _) h58 h59 h63⟩
    · rw [if_neg hmem]
      have hp : chop_at 63 (chop_at 59 after) <+: after :=
        (chop_at_is_start _ _).trans (chop_at_is_start _ _)
      have h58 : 58 ∉ chop_at 63 (chop_at 59 after) := fun hm => hmem (hp.subset hm)
      have h59 : 59 ∉ chop_at 63 (chop_at 59 after) := fun hm =>
        chop_at_not_mem 59 after 59 ((chop_at_is_start 63 _).subset hm) rfl
      have h63 : 63 ∉ chop_at 63 (chop_at 59 after) := fun hm =>
        chop_at_not_mem 63 _ 63 hm rfl
      exact ⟨_, rfl, hp, h58, fun _ => ⟨h59, h63, idem _ hp h58 h59 h63⟩⟩

theorem strip_sip_uri_strips_witness :
    cstr (str "sip:200.57.7.195:55061;user=phone") =
      str "sip" ++ 58 :: str "200.57.7.195:55061;user=phone" ∧
    (∀ x ∈ str "sip", x ≠ 58) ∧
    ∃ kept, strip_sip_uri (str "sip:200.57.7.195:55061;user=phone") =
        some (str "sip" ++ 58 :: kept) ∧ kept <+: str "200.57.7.195:55061;user=phone" ∧
      58 ∉ kept ∧
      ((58 ∉ str "200.57.7.195:55061;user=phone" ∨
          ∀ x ∈ (str "200.57.7.195:55061;user=phone").takeWhile (fun x => x != 58),
            x ≠ 59 ∧ x ≠ 63) →
        59 ∉ kept ∧ 63 ∉ kept ∧
        strip_sip_uri (str "sip" ++ 58 :: kept) = some (str "sip" ++ 58 :: kept)) :=
  ⟨by decide, by decide,
    (strip_sip_uri_strips (str "sip:200.57.7.195:55061;user=phone")).2.1 (str "sip")
      (str "200.57.7.195:55061;user=phone") (by decide) (by decide)⟩

/-! ## The IMAP tracker: the parameters of an ID command -/

theorem getD_append_at (l rest : List Nat) : (l ++ rest).getD l.length 0 = rest.headD 0 := by
  rw [List.getD_eq_getElem?_getD, List.getElem?_append_right (le_refl _)]
  cases rest with
  | nil => simp
  | cons a r => simp

/-- The macro `ADVANCE_ID_PTR` with `ptr` at the end of `pre`, the next quote
being behind `gap`. -/
theorem advance_id_ptr_at (s pre gap rest : List Nat) (hs : s = pre ++ (gap ++ 34 :: rest))
    (hgap : ∀ c ∈ gap, c ≠ 34) (h13 : rest.headD 0 ≠ 13) (h0 : rest.headD 0 ≠ 0) :
    advance_id_ptr s pre.length = some (pre.length + gap.length + 1) := by
  have hd : s.drop pre.length = gap ++ 34 :: rest := by
    rw [hs]
    exact List.drop_left' rfl
  have hg : s.getD (pre.length + gap.length + 1) 0 = rest.headD 0 := by
    have e : s = (pre ++ (gap ++ [34])) ++ rest := by
      rw [hs]
      simp
    have e1 : pre.length + gap.length + 1 = (pre ++ (gap ++ [34])).length := by simp; omega
    rw [e, e1, getD_append_at]
  unfold advance_id_ptr
  rw [hd, find_sub_single 34 gap rest hgap]
  simp only [hg, h13, h0, or_self, if_false]

theorem headD_id_string (k : List Nat) (rest : List Nat) (hk : ∀ c ∈ k, c ≠ 34 ∧ c ≠ 13 ∧ c ≠ 0) :
    (k ++ 34 :: rest).headD 0 ≠ 13 ∧ (k ++ 34 :: rest).headD 0 ≠ 0 := by
  cases k with
  | nil => simp
  | cons a r =>
    have := hk a (List.mem_cons_self _ _)
    simp only [List.cons_append, List.headD_cons]
    exact ⟨this.2.1, this.2.2⟩

/-- One round of the loop of `parse_id_command` over a parameter `"k" "v"`
that follows `gap` behind the pointer: the pair is stored, and the pointer is
left behind the closing quote of the value. -/
theorem parse_id_loop_pair (s pre gap k v post : List Nat) (fuel : Nat) (f : id_fields)
    (hs : s = pre ++ (gap ++ (id_pair (k, v) ++ post)))
    (hgap : ∀ c ∈ gap, c ≠ 34 ∧ c ≠ 41 ∧ c ≠ 13 ∧ c ≠ 0)
    (hk : ∀ c ∈ k, c ≠ 34 ∧ c ≠ 13 ∧ c ≠ 0) (hv : ∀ c ∈ v, c ≠ 34 ∧ c ≠ 13 ∧ c ≠ 0)
    (hp13 : post.headD 0 ≠ 13) (hp0 : post.headD 0 ≠ 0) :
    parse_id_loop s (fuel + 1) pre.length f =
      parse_id_loop s fuel (pre ++ (gap ++ id_pair (k, v))).length (store_id_field f k v) := by
  -- the character under the pointer
  have hhead : s.getD pre.length 0 ≠ 41 ∧ s.getD pre.length 0 ≠ 13 ∧ s.getD pre.length 0 ≠ 0 := by
    rw [hs, getD_append_at]
    cases gap with
    | nil => simp [id_pair]
    | cons a r =>
      have := hgap a (List.mem_cons_self _ _)
      simp only [List.cons_append, List.headD_cons]
      exact ⟨this.2.1, this.2.2.1, this.2.2.2⟩
  -- the four positions
  have e1 : s = pre ++ (gap ++ 34 :: (k ++ 34 :: 32 :: 34 :: (v ++ 34 :: post))) := by
    rw [hs]
    simp [id_pair]
  have a1 := advance_id_ptr_at s pre gap _ e1 (fun c hc => (hgap c hc).1)
    (headD_id_string k _ hk).1 (headD_id_string k _ hk).2
  have e2 : s = (pre ++ (gap ++ [34])) ++ (k ++ 34 :: (32 :: 34 :: (v ++ 34 :: post))) := by
    rw [e1]
    simp
  have a2 := advance_id_ptr_at s (pre ++ (gap ++ [34])) k _ e2 (fun c hc => (hk c hc).1)
    (by simp) (by simp)
  have e3 : s = (pre ++ (gap ++ 34 :: (k ++ [34]))) ++ ([32] ++ 34 :: (v ++ 34 :: post)) := by
    rw [e1]
    simp
  have a3 := advance_id_ptr_at s (pre ++ (gap ++ 34 :: (k ++ [34]))) [32] _ e3
    (by simp) (headD_id_string v _ hv).1 (headD_id_string v _ hv).2
  have e4 : s = (pre ++ (gap ++ 34 :: (k ++ [34, 32, 34]))) ++ (v ++ 34 :: post) := by
    rw [e1]
    simp
  have a4 := advance_id_ptr_at s (pre ++ (gap ++ 34 :: (k ++ [34, 32, 34]))) v _ e4
    (fun c hc => (hv c hc).1) hp13 hp0
  -- the lengths
  have l1 : (pre ++ (gap ++ [34])).length = pre.length + gap.length + 1 := by simp; omega
  have l2 : (pre ++ (gap ++ 34 :: (k ++ [34]))).length =
      (pre ++ (gap ++ [34])).length + k.length + 1 := by simp; omega
  have l3 : (pre ++ (gap ++ 34 :: (k ++ [34, 32, 34]))).length =
      (pre ++ (gap ++ 34 :: (k ++ [34]))).length + [32].length + 1 := by simp; omega
  have l4 : (pre ++ (gap ++ id_pair (k, v))).length =
      (pre ++ (gap ++ 34 :: (k ++ [34, 32, 34]))).length + v.length + 1 := by
    simp [id_pair]
    omega
  rw [← l1] at a1
  rw [← l2] at a2
  rw [← l3] at a3
  rw [← l4] at a4
  -- the test for NIL
  have hnil : (s.drop (pre ++ (gap ++ 34 :: (k ++ [34]))).length).take 4 ≠ str " NIL" := by
    rw [e3, List.drop_left' rfl]
    cases v with
    | nil =>
      cases post with
      | nil => decide
      | cons x xs => simp [str]
    | cons x xs => simp [str]
  -- the strings copied
  have hfield : (s.drop (pre ++ (gap ++ [34])).length).take
      ((pre ++ (gap ++ 34 :: (k ++ [34]))).length - 1 - (pre ++ (gap ++ [34])).length) = k := by
    rw [e2, List.drop_left' rfl, l2]
    have : (pre ++ (gap ++ [34])).length + k.length + 1 - 1 - (pre ++ (gap ++ [34])).length =
        k.length := by omega
    rw [this, List.take_left]
  have hval : (s.drop (pre ++ (gap ++ 34 :: (k ++ [34, 32, 34]))).length).take
      ((pre ++ (gap ++ id_pair (k, v))).length - 1 -
        (pre ++ (gap ++ 34 :: (k ++ [34, 32, 34]))).length) = v := by
    rw [e4, List.drop_left' rfl, l4]
    have : (pre ++ (gap ++ 34 :: (k ++ [34, 32, 34]))).length + v.length + 1 - 1 -
        (pre ++ (gap ++ 34 :: (k ++ [34, 32, 34]))).length = v.length := by omega
    rw [this, List.take_left]
  rw [parse_id_loop]
  simp only [hhead.1, hhead.2.1, hhead.2.2, or_self, if_false, a1, a2, hnil, a3, a4, hfield, hval]

theorem headD_id_pairs_tail (ps : List (List Nat × List Nat)) (post : List Nat) :
    (id_pairs_tail ps ++ 41 :: post).headD 0 ≠ 13 ∧
    (id_pairs_tail ps ++ 41 :: post).headD 0 ≠ 0 := by
  cases ps with
  | nil => simp [id_pairs_tail]
  | cons p rest => simp [id_pairs_tail]

/-- The loop of `parse_id_command` over the parameters behind the first one,
up to the closing parenthesis. -/
theorem parse_id_loop_tail (s : List Nat) :
    ∀ (ps : List (List Nat × List Nat)) (pre post : List Nat) (fuel : Nat) (f : id_fields),
    s = pre ++ (id_pairs_tail ps ++ 41 :: post) →
    (∀ p ∈ ps, id_string_ok p.1 ∧ id_string_ok p.2) → ps.length < fuel →
    parse_id_loop s fuel pre.length f =
      (ps.foldl (fun f p => store_id_field f p.1 p.2) f, false) := by
  intro ps
  induction ps with
  | nil =>
    intro pre post fuel f hs _ hfuel
    obtain ⟨n, rfl⟩ : ∃ n, fuel = n + 1 := ⟨fuel - 1, by simp at hfuel; omega⟩
    have hg : s.getD pre.length 0 = 41 := by
      rw [hs, getD_append_at]
      rfl
    rw [parse_id_loop]
    simp only [hg, true_or, if_true, List.foldl_nil]
  | cons p rest ih =>
    intro pre post fuel f hs hok hfuel
    obtain ⟨n, rfl⟩ : ∃ n, fuel = n + 1 := ⟨fuel - 1, by simp at hfuel; omega⟩
    obtain ⟨k, v⟩ := p
    have hp := hok (k, v) (List.mem_cons_self _ _)
    have hs1 : s = pre ++ ([32] ++ (id_pair (k, v) ++ (id_pairs_tail rest ++ 41 :: post))) := by
      rw [hs]
      simp [id_pairs_tail]
    rw [parse_id_loop_pair s pre [32] k v (id_pairs_tail rest ++ 41 :: post) n f hs1
      (by simp) hp.1.1 hp.2.1 (headD_id_pairs_tail rest post).1
      (headD_id_pairs_tail rest post).2]
    have hs2 : s = (pre ++ ([32] ++ id_pair (k, v))) ++ (id_pairs_tail rest ++ 41 :: post) := by
      rw [hs1]
      simp
    rw [ih (pre ++ ([32] ++ id_pair (k, v))) post n _ hs2
      (fun q hq => hok q (List.mem_cons_of_mem _ hq)) (by simp at hfuel; omega)]
    rfl

/-- The loop of `parse_id_command` over a parameter list, from behind the
opening parenthesis up to the closing one: every parameter is stored, in the
order of the list. -/
theorem parse_id_loop_pairs (s : List Nat) (ps : List (List Nat × List Nat))
    (pre post : List Nat) (fuel : Nat) (f : id_fields)
    (hs : s = pre ++ (id_pairs ps ++ 41 :: post))
    (hok : ∀ p ∈ ps, id_string_ok p.1 ∧ id_string_ok p.2) (hfuel : ps.length < fuel) :
    parse_id_loop s fuel pre.length f =
      (ps.foldl (fun f p => store_id_field f p.1 p.2) f, false) := by
  cases ps with
  | nil =>
    exact parse_id_loop_tail s [] pre post fuel f (by rw [hs]; rfl) (by simp) hfuel
  | cons p rest =>
    obtain ⟨n, rfl⟩ : ∃ n, fuel = n + 1 := ⟨fuel - 1, by simp at hfuel; omega⟩
    obtain ⟨k, v⟩ := p
    have hp := hok (k, v) (List.mem_cons_self _ _)
    have hs1 : s = pre ++ ([] ++ (id_pair (k, v) ++ (id_pairs_tail rest ++ 41 :: post))) := by
      rw [hs]
      simp [id_pairs]
    rw [parse_id_loop_pair s pre [] k v (id_pairs_tail rest ++ 41 :: post) n f hs1
      (by simp) hp.1.1 hp.2.1 (headD_id_pairs_tail rest post).1
      (headD_id_pairs_tail rest post).2]
    have hs2 : s = (pre ++ ([] ++ id_pair (k, v))) ++ (id_pairs_tail rest ++ 41 :: post) := by
      rw [hs1]
      simp
    rw [parse_id_loop_tail s rest (pre ++ ([] ++ id_pair (k, v))) post n _ hs2
      (fun q hq => hok q (List.mem_cons_of_mem _ hq)) (by simp at hfuel; omega)]
    rfl

/-- The values that the loop of `parse_id_command` has collected after a
parameter list are those of the last parameter with each of the four keys. -/
theorem store_id_field_foldl (ps : List (List Nat × List Nat)) :
    ∀ (f : id_fields) (a1 a2 a3 a4 : Option (List Nat)),
    f.client_ip = a1 → f.client_port = a2 → f.server_ip = a3 → f.server_port = a4 →
    (ps.foldl (fun f p => store_id_field f p.1 p.2) f).client_ip =
      ps.foldl (fun acc p => if p.1 = str "x-originating-ip" then some p.2 else acc) a1 ∧
    (ps.foldl (fun f p => store_id_field f p.1 p.2) f).client_port =
      ps.foldl (fun acc p => if p.1 = str "x-originating-port" then some p.2 else acc) a2 ∧
    (ps.foldl (fun f p => store_id_field f p.1 p.2) f).server_ip =
      ps.foldl (fun acc p => if p.1 = str "x-connected-ip" then some p.2 else acc) a3 ∧
    (ps.foldl (fun f p => store_id_field f p.1 p.2) f).server_port =
      ps.foldl (fun acc p => if p.1 = str "x-connected-port" then some p.2 else acc) a4 := by
  have n12 : str "x-originating-ip" ≠ str "x-originating-port" := by decide
  have n13 : str "x-originating-ip" ≠ str "x-connected-ip" := by decide
  have n14 : str "x-originating-ip" ≠ str "x-connected-port" := by decide
  have n23 : str "x-originating-port" ≠ str "x-connected-ip" := by decide
  have n24 : str "x-originating-port" ≠ str "x-connected-port" := by decide
  have n34 : str "x-connected-ip" ≠ str "x-connected-port" := by decide
  induction ps with
  | nil =>
    intro f a1 a2 a3 a4 h1 h2 h3 h4
    exact ⟨h1, h2, h3, h4⟩
  | cons p rest ih =>
    intro f a1 a2 a3 a4 h1 h2 h3 h4
    simp only [List.foldl_cons]
    apply ih
    · unfold store_id_field
      by_cases c1 : p.1 = str "x-originating-ip"
      · simp only [c1, if_true]
      · by_cases c2 : p.1 = str "x-originating-port"
        · simp only [c2, n12.symm, if_false, if_true, h1]
        · by_cases c3 : p.1 = str "x-connected-ip"
          · simp only [c3, n13.symm, n23.symm, if_false, if_true, h1]
          · by_cases c4 : p.1 = str "x-connected-port"
            · simp only [c4, n14.symm, n24.symm, n34.symm, if_false, if_true, h1]
            · simp only [c1, c2, c3, c4, if_false, h1]
    · unfold store_id_field
      by_cases c1 : p.1 = str "x-originating-ip"
      · simp only [c1, n12, if_true, if_false, h2]
      · by_cases c2 : p.1 = str "x-originating-port"
        · simp only [c2, n12.symm, if_false, if_true]
        · by_cases c3 : p.1 = str "x-connected-ip"
          · simp only [c3, n13.symm, n23.symm, if_false, if_true, h2]
          · by_cases c4 : p.1 = str "x-connected-port"
            · simp only [c4, n14.symm, n24.symm, n34.symm, if_false, if_true, h2]
            · simp only [c1, c2, c3, c4, if_false, h2]
    · unfold store_id_field
      by_cases c1 : p.1 = str "x-originating-ip"
      · simp only [c1, n13, if_true, if_false, h3]
      · by_cases c2 : p.1 = str "x-originating-port"
        · simp only [c2, n12.symm, n23, if_false, if_true, h3]
        · by_cases c3 : p.1 = str "x-connected-ip"
          · simp only [c3, n13.symm, n23.symm, if_false, if_true]
          · by_cases c4 : p.1 = str "x-connected-port"
            · simp only [c4, n14.symm, n24.symm, n34.symm, if_false, if_true, h3]
            · simp only [c1, c2, c3, c4, if_false, h3]
    · unfold store_id_field
      by_cases c1 : p.1 = str "x-originating-ip"
      · simp only [c1, n14, if_true, if_false, h4]
      · by_cases c2 : p.1 = str "x-originating-port"
        · simp only [c2, n12.symm, n24, if_false, if_true, h4]
        · by_cases c3 : p.1 = str "x-connected-ip"
          · simp only [c3, n13.symm, n23.symm, n34, if_false, if_true, h4]
          · by_cases c4 : p.1 = str "x-connected-port"
            · simp only [c4, n14.symm, n24.symm, n34.symm, if_false, if_true]
            · simp only [c1, c2, c3, c4, if_false, h4]

theorem id_pairs_tail_length (ps : List (List Nat × List Nat)) :
    ps.length ≤ (id_pairs_tail ps).length := by
  induction ps with
  | nil => simp
  | cons p rest ih =>
    simp only [id_pairs_tail, List.length_cons, List.length_append]
    omega

theorem id_pairs_length (ps : List (List Nat × List Nat)) :
    ps.length ≤ (id_pairs ps).length := by
  cases ps with
  | nil => simp
  | cons p rest =>
    have := id_pairs_tail_length rest
    simp only [id_pairs, id_pair, List.length_cons, List.length_append]
    omega

theorem id_pair_bytes (p : List Nat × List Nat) (hp : id_string_ok p.1 ∧ id_string_ok p.2) :
    ∀ c ∈ id_pair p, c ≠ 13 ∧ c ≠ 0 := by
  intro c hc
  simp only [id_pair, List.mem_cons, List.mem_append, List.mem_nil_iff, or_false] at hc
  rcases hc with rfl | h | rfl | rfl | rfl | h | rfl
  · decide
  · exact (hp.1.1 c h).2
  · decide
  · decide
  · decide
  · exact (hp.2.1 c h).2
  · decide

theorem id_pairs_tail_bytes (ps : List (List Nat × List Nat))
    (hok : ∀ p ∈ ps, id_string_ok p.1 ∧ id_string_ok p.2) :
    ∀ c ∈ id_pairs_tail ps, c ≠ 13 ∧ c ≠ 0 := by
  induction ps with
  | nil => simp [id_pairs_tail]
  | cons p rest ih =>
    intro c hc
    simp only [id_pairs_tail, List.mem_cons, List.mem_append] at hc
    rcases hc with rfl | h | h
    · decide
    · exact id_pair_bytes p (hok p (List.mem_cons_self _ _)) c h
    · exact ih (fun q hq => hok q (List.mem_cons_of_mem _ hq)) c h

theorem id_pairs_bytes (ps : List (List Nat × List Nat))
    (hok : ∀ p ∈ ps, id_string_ok p.1 ∧ id_string_ok p.2) :
    ∀ c ∈ id_pairs ps, c ≠ 13 ∧ c ≠ 0 := by
  cases ps with
  | nil => simp [id_pairs]
  | cons p rest =>
    intro c hc
    simp only [id_pairs, List.mem_append] at hc
    rcases hc with h | h
    · exact id_pair_bytes p (hok p (List.mem_cons_self _ _)) c h
    · exact id_pairs_tail_bytes rest (fun q hq => hok q (List.mem_cons_of_mem _ hq)) c h

/-- The function `parse_id_command` on the command line of an ID command with
a list of quoted parameters: it returns 1, and each endpoint is replaced by
the values of its two keys when the list holds both. -/
theorem parse_id_command_pairs (sess : emailsession) (imapsess : imap_session)
    (tag rest : List Nat) (pairs : List (List Nat × List Nat))
    (hdrop : imapsess.contbuffer.drop imapsess.next_comm_start =
      id_command_line tag pairs ++ rest)
    (htag : ∀ c ∈ tag, c ≠ 40 ∧ c ≠ 0)
    (hok : ∀ p ∈ pairs, id_string_ok p.1 ∧ id_string_ok p.2) :
    parse_id_command sess imapsess =
      ({ sess with
         serveraddr := id_endpoint "x-connected-ip" "x-connected-port" pairs sess.serveraddr,
         clientaddr := id_endpoint "x-originating-ip" "x-originating-port" pairs
           sess.clientaddr }, 1) := by
  have hline : ∀ c ∈ id_command_line tag pairs, c ≠ 0 := by
    intro c hc
    simp only [id_command_line, List.mem_append] at hc
    rcases hc with h | h | h | h
    · exact (htag c h).2
    · revert c
      decide
    · exact (id_pairs_bytes pairs hok c h).2
    · revert c
      decide
  have hcstr : cstr (imapsess.contbuffer.drop imapsess.next_comm_start) =
      (tag ++ str " ID ") ++ 40 :: (id_pairs pairs ++ 41 :: (13 :: 10 :: cstr rest)) := by
    rw [hdrop, cstr_append_of_no_nul _ _ hline]
    simp [id_command_line, str]
  have hparen : ∀ c ∈ tag ++ str " ID ", c ≠ 40 := by
    intro c hc
    rcases List.mem_append.mp hc with h | h
    · exact (htag c h).1
    · exact (by decide : ∀ c ∈ str " ID ", c ≠ 40) c h
  have hfind := find_sub_single 40 (tag ++ str " ID ")
    (id_pairs pairs ++ 41 :: (13 :: 10 :: cstr rest)) hparen
  have hs : (tag ++ str " ID ") ++ 40 :: (id_pairs pairs ++ 41 :: (13 :: 10 :: cstr rest)) =
      (tag ++ str " ID (") ++ (id_pairs pairs ++ 41 :: (13 :: 10 :: cstr rest)) := by
    simp [str]
  have hlen : (tag ++ str " ID ").length + 1 = (tag ++ str " ID (").length := by
    simp [str]
  have hfuel : pairs.length <
      ((tag ++ str " ID ") ++ 40 :: (id_pairs pairs ++ 41 :: (13 :: 10 :: cstr rest))).length := by
    have := id_pairs_length pairs
    simp only [List.length_append, List.length_cons]
    omega
  have hloop := parse_id_loop_pairs _ pairs (tag ++ str " ID (") (13 :: 10 :: cstr rest)
    _ ⟨none, none, none, none⟩ hs hok hfuel
  have hf := store_id_field_foldl pairs ⟨none, none, none, none⟩ none none none none rfl rfl rfl rfl
  unfold parse_id_command
  simp only [hcstr, hfind, hlen, hloop, Bool.false_eq_true, if_false, hf.1, hf.2.1, hf.2.2.1,
    hf.2.2.2]
  unfold id_endpoint id_value
  cases pairs.foldl (fun acc p => if p.1 = str "x-connected-ip" then some p.2 else acc) none <;>
  cases pairs.foldl (fun acc p => if p.1 = str "x-connected-port" then some p.2 else acc) none <;>
  cases pairs.foldl (fun acc p => if p.1 = str "x-originating-ip" then some p.2 else acc) none <;>
  cases pairs.foldl (fun acc p => if p.1 = str "x-originating-port" then some p.2 else acc)
    none <;> rfl

theorem parse_id_command_congr (sess : emailsession) (im1 im2 : imap_session)
    (h1 : im1.contbuffer = im2.contbuffer) (h2 : im1.next_comm_start = im2.next_comm_start) :
    parse_id_command sess im1 = parse_id_command sess im2 := by
  unfold parse_id_command
  rw [h1, h2]

theorem save_imap_command_contbuffer (imapsess : imap_session) :
    (save_imap_command imapsess).1.contbuffer = imapsess.contbuffer := by
  unfold save_imap_command
  simp only []
  split <;> rfl

/-- The function `find_command_end` on a complete line of an ID command: the
session is the one that `parse_id_command` gives after the bytes of the line
have been counted, and the return value is 1. -/
theorem find_command_end_id_line (env : imap_env) (sess : emailsession)
    (imapsess : imap_session) (body rest : List Nat)
    (hdrop : imapsess.contbuffer.drop imapsess.next_comm_start = body ++ 13 :: 10 :: rest)
    (hbody : ∀ c ∈ body, c ≠ 13)
    (htype : imapsess.next_command_type = OPENLI_IMAP_COMMAND_ID) :
    (find_command_end env sess imapsess).1 =
      (parse_id_command
        { sess with client_octets := sess.client_octets + (body.length + 2) } imapsess).1 ∧
    (find_command_end env sess imapsess).2.2 = 1 := by
  obtain ⟨im1, him1⟩ : ∃ im1 : imap_session, im1 =
      { imapsess with contbufread := imapsess.next_comm_start + body.length + 2 } := ⟨_, rfl⟩
  have hcrlf : find_next_crlf imapsess imapsess.next_comm_start = (im1, 1) := by
    rw [him1]
    exact find_next_crlf_at imapsess imapsess.next_comm_start body rest hdrop hbody
  have g1 : im1.contbufread = imapsess.next_comm_start + body.length + 2 := by rw [him1]
  have g2 : im1.next_comm_start = imapsess.next_comm_start := by rw [him1]
  have g3 : im1.next_command_type = OPENLI_IMAP_COMMAND_ID := by rw [him1]; exact htype
  have g4 : im1.contbuffer = imapsess.contbuffer := by rw [him1]
  obtain ⟨f1, f2, f3, f4⟩ := save_imap_command_fields im1
  have hb := save_imap_command_contbuffer im1
  rw [g1] at f2
  rw [g2] at f3
  rw [g3] at f4
  rw [g4] at hb
  have h10 : ¬ ((1 : Int) = 0) := by decide
  have hsub : imapsess.next_comm_start + body.length + 2 - imapsess.next_comm_start =
      body.length + 2 := by omega
  have t1 : OPENLI_IMAP_COMMAND_ID ≠ OPENLI_IMAP_COMMAND_AUTH := by decide
  have t2 : OPENLI_IMAP_COMMAND_ID ≠ OPENLI_IMAP_COMMAND_LOGOUT := by decide
  have t3 : OPENLI_IMAP_COMMAND_ID ≠ OPENLI_IMAP_COMMAND_IDLE := by decide
  unfold find_command_end
  rw [hcrlf]
  simp only [h10, if_false]
  generalize save_imap_command im1 = s at f1 f2 f3 f4 hb ⊢
  obtain ⟨s1, ind⟩ := s
  have hi : ¬ (ind < 0) := by
    have : (0 : Int) ≤ ind := f1
    omega
  have hcongr := parse_id_command_congr
    { sess with client_octets := sess.client_octets + (body.length + 2) } s1 imapsess hb f3
  simp only at f2 f3 f4
  simp only [h10, if_false, hi, f2, f3, f4, t1, t2, t3, if_true, hsub, hcongr, and_self]

/-- With keys that are pairwise different, the value that a parameter list
gives for a key is the one paired with it, wherever the pair stands. -/
theorem id_value_eq_some_iff (key v : List Nat) (pairs : List (List Nat × List Nat))
    (hnodup : (pairs.map Prod.fst).Nodup) :
    id_value key pairs = some v ↔ (key, v) ∈ pairs := by
  induction pairs using List.reverseRecOn with
  | nil => simp [id_value]
  | append_singleton ps p ih =>
    rw [List.map_append, List.nodup_append] at hnodup
    obtain ⟨h1, _, h3⟩ := hnodup
    have hstep : id_value key (ps ++ [p]) =
        if p.1 = key then some p.2 else id_value key ps := by
      unfold id_value
      rw [List.foldl_append]
      rfl
    rw [hstep]
    by_cases hk : p.1 = key
    · rw [if_pos hk]
      constructor
      · intro h
        have hv : p.2 = v := Option.some.inj h
        exact List.mem_append_right _ (by rw [← hk, ← hv]; exact List.mem_singleton_self _)
      · intro h
        rcases List.mem_append.mp h with h | h
        · exfalso
          have hm : key ∈ ps.map Prod.fst := List.mem_map.mpr ⟨(key, v), h, rfl⟩
          exact h3 hm (by rw [← hk]; simp)
        · rw [List.mem_singleton] at h
          rw [← h]
    · rw [if_neg hk, ih h1]
      constructor
      · intro h
        exact List.mem_append_left _ h
      · intro h
        rcases List.mem_append.mp h with h | h
        · exact h
        · rw [List.mem_singleton] at h
          exact absurd (by rw [← h]) hk

/-- Claim C21: for the client command `<tag> ID ("k1" "v1" "k2" "v2" ...)`
whose keys and values hold no quote, CR or NUL and are shorter than 2048
bytes, `find_command_end` counts the bytes of the command and returns 1,
and replaces the client endpoint of the session by the values of
`x-originating-ip` and `x-originating-port` and the server endpoint by those
of `x-connected-ip` and `x-connected-port`. An endpoint is replaced only when
the list holds both of its keys; the value of a key is that of the last
parameter with the key, so that other keys have no effect, and with keys that
are pairwise different it is the value paired with the key wherever the pair
stands in the list. -/
theorem id_command_replaces_endpoints (env : imap_env) (sess : emailsession)
    (imapsess : imap_session) (tag rest : List Nat) (pairs : List (List Nat × List Nat))
    (htype : imapsess.next_command_type = OPENLI_IMAP_COMMAND_ID)
    (hdrop : imapsess.contbuffer.drop imapsess.next_comm_start =
      id_command_line tag pairs ++ rest)
    (htag : ∀ c ∈ tag, c ≠ 40 ∧ c ≠ 13 ∧ c ≠ 0)
    (hok : ∀ p ∈ pairs, id_string_ok p.1 ∧ id_string_ok p.2) :
    (find_command_end env sess imapsess).1 =
      { sess with
        client_octets := sess.client_octets + (id_command_line tag pairs).length,
        serveraddr := id_endpoint "x-connected-ip" "x-connected-port" pairs sess.serveraddr,
        clientaddr := id_endpoint "x-originating-ip" "x-originating-port" pairs
          sess.clientaddr } ∧
    (find_command_end env sess imapsess).2.2 = 1 ∧
    (∀ key v, (pairs.map Prod.fst).Nodup → (id_value key pairs = some v ↔ (key, v) ∈ pairs)) := by
  have hline : id_command_line tag pairs =
      (tag ++ (str " ID (" ++ (id_pairs pairs ++ [41]))) ++ [13, 10] := by
    simp [id_command_line, str]
  have hbody : ∀ c ∈ tag ++ (str " ID (" ++ (id_pairs pairs ++ [41])), c ≠ 13 := by
    intro c hc
    simp only [List.mem_append, List.mem_singleton] at hc
    rcases hc with h | h | h | rfl
    · exact (htag c h).2.1
    · exact (by decide : ∀ c ∈ str " ID (", c ≠ 13) c h
    · exact (id_pairs_bytes pairs hok c h).1
    · decide
  have hdrop1 : imapsess.contbuffer.drop imapsess.next_comm_start =
      (tag ++ (str " ID (" ++ (id_pairs pairs ++ [41]))) ++ 13 :: 10 :: rest := by
    rw [hdrop, hline]
    simp
  have hlen : (tag ++ (str " ID (" ++ (id_pairs pairs ++ [41]))).length + 2 =
      (id_command_line tag pairs).length := by
    rw [hline]
    simp
    omega
  obtain ⟨e1, e2⟩ := find_command_end_id_line env sess imapsess _ rest hdrop1 hbody htype
  refine ⟨?_, e2, fun key v h => id_value_eq_some_iff key v pairs h⟩
  rw [e1, parse_id_command_pairs _ imapsess tag rest pairs hdrop
    (fun c hc => ⟨(htag c hc).1, (htag c hc).2.2⟩) hok, hlen]

theorem id_command_replaces_endpoints_witness :
    id_params_pending.next_command_type = OPENLI_IMAP_COMMAND_ID ∧
    id_params_pending.contbuffer.drop id_params_pending.next_comm_start =
      id_command_line (str "a1") id_params_proxy ++ [] ∧
    (∀ p ∈ id_params_proxy, id_string_ok p.1 ∧ id_string_ok p.2) ∧
    (find_command_end env_libb64 session_pre_auth id_params_pending).1.clientaddr =
      some (str "198.51.100.7", str "4444") ∧
    (find_command_end env_libb64 session_pre_auth id_params_pending).1.serveraddr = none ∧
    (find_command_end env_libb64 session_pre_auth id_params_pending).2.2 = 1 := by
  have w := id_command_replaces_endpoints env_libb64 session_pre_auth id_params_pending
    (str "a1") [] id_params_proxy rfl (by decide) (by decide) (by decide)
  refine ⟨rfl, by decide, by decide, ?_, ?_, w.2.1⟩
  · rw [w.1]
    decide
  · rw [w.1]
    decide

/-! ## The IMAP tracker: untagged lines and the tagged line of a reply -/

theorem line_body_no_nul (tag word txt : List Nat) (htag : line_word_ok tag)
    (hword : line_word_ok word) (htxt : line_text_ok txt) :
    ∀ c ∈ line_body tag word txt, c ≠ 0 ∧ c ≠ 13 := by
  intro c hc
  simp only [line_body, List.mem_append, List.mem_cons] at hc
  rcases hc with h | rfl | h | h
  · exact ⟨(htag c h).1, (htag c h).2.2⟩
  · decide
  · exact ⟨(hword c h).1, (hword c h).2.2⟩
  · exact htxt.2 c h

/-- The two words that `find_next_imap_message` cuts from a complete line. -/
theorem imap_message_words_line (tag word txt more : List Nat) (htag : line_word_ok tag)
    (hword : line_word_ok word) (htxt : line_text_ok txt) :
    imap_message_words (cstr (line_body tag word txt ++ 13 :: 10 :: more)) =
      some (tag, word) := by
  have hnul : ∀ c ∈ line_body tag word txt ++ [13, 10], c ≠ 0 := by
    intro c hc
    rcases List.mem_append.mp hc with h | h
    · exact (line_body_no_nul tag word txt htag hword htxt c h).1
    · exact (by decide : ∀ c ∈ [13, 10], c ≠ 0) c h
  have e : line_body tag word txt ++ 13 :: 10 :: more =
      (line_body tag word txt ++ [13, 10]) ++ more := by simp
  rw [e, cstr_append_of_no_nul _ _ hnul]
  rcases htxt.1 with h | h
  · subst h
    have e1 : line_body tag word [] ++ [13, 10] ++ cstr more =
        tag ++ 32 :: (word ++ 13 :: 10 :: cstr more) := by
      simp [line_body]
    rw [e1]
    exact imap_message_words_crlf tag word _ (fun c hc => (htag c hc).2.1)
      (fun c hc => ⟨(hword c hc).2.1, (hword c hc).2.2⟩)
  · cases txt with
    | nil => simp at h
    | cons a t =>
      simp only [List.head?_cons, Option.some.injEq] at h
      subst h
      have e1 : line_body tag word (32 :: t) ++ [13, 10] ++ cstr more =
          tag ++ 32 :: (word ++ 32 :: (t ++ 13 :: 10 :: cstr more)) := by
        simp [line_body]
      rw [e1]
      exact imap_message_words_space tag word _ (fun c hc => (htag c hc).2.1)
        (fun c hc => ⟨(hword c hc).2.1, (hword c hc).2.2⟩)

theorem find_partial_reply_end_line (sess : emailsession) (imapsess : imap_session)
    (body rest : List Nat)
    (hdrop : imapsess.contbuffer.drop imapsess.next_comm_start = body ++ 13 :: 10 :: rest)
    (hbody : ∀ c ∈ body, c ≠ 13) :
    find_partial_reply_end sess imapsess =
      ({ sess with server_octets := sess.server_octets + (body.length + 2) },
       { imapsess with
         contbufread := imapsess.next_comm_start + body.length + 2,
         next_command_type := OPENLI_IMAP_COMMAND_NONE, next_comm_start := 0 }, 1) := by
  have hcrlf := find_next_crlf_at imapsess imapsess.next_comm_start body rest hdrop hbody
  have h10 : ¬ ((1 : Int) = 0) := by decide
  have hsub : imapsess.next_comm_start + body.length + 2 - imapsess.next_comm_start =
      body.length + 2 := by omega
  unfold find_partial_reply_end
  simp only [hcrlf, h10, if_false, hsub]

/-- The two calls of `process_next_imap_state` that consume an untagged line
of a reply: the start of the reply is noted unless it is noted already, and
the bytes of the line are counted. -/
theorem imap_ingestion_loop_untagged (env : imap_env) (sess : emailsession)
    (imapsess : imap_session) (l : List Nat × List Nat) (more : List Nat) (n : Nat)
    (h0 : sess.currstate ≠ OPENLI_IMAP_STATE_INIT)
    (h1 : sess.currstate ≠ OPENLI_IMAP_STATE_SERVER_READY)
    (h2 : sess.currstate ≠ OPENLI_IMAP_STATE_AUTHENTICATING)
    (h3 : sess.currstate ≠ OPENLI_IMAP_STATE_IDLING)
    (hnone : imapsess.next_command_type = OPENLI_IMAP_COMMAND_NONE)
    (hdrop : imapsess.contbuffer.drop imapsess.contbufread = untagged_line l ++ more)
    (hl : untagged_line_ok sess.currstate l) :
    imap_ingestion_loop env (n + 2) sess imapsess =
      imap_ingestion_loop env n
        { sess with server_octets := sess.server_octets + (untagged_line l).length }
        { imapsess with
          contbufread := imapsess.contbufread + (untagged_line l).length,
          reply_start := if imapsess.reply_start = 0 then imapsess.contbufread
                         else imapsess.reply_start,
          next_comm_tag := some (str "*"), next_command_name := none,
          next_command_type := OPENLI_IMAP_COMMAND_NONE, next_comm_start := 0 } := by
  obtain ⟨hw, htxt, hpre, hbye⟩ := hl
  have hstar : line_word_ok (str "*") := by decide
  have hdrop1 : imapsess.contbuffer.drop imapsess.contbufread =
      line_body (str "*") l.1 l.2 ++ 13 :: 10 :: more := by
    rw [hdrop]
    simp [untagged_line]
  have hwords : imap_message_words (cstr (imapsess.contbuffer.drop imapsess.contbufread)) =
      some (str "*", l.1) := by
    rw [hdrop1]
    exact imap_message_words_line (str "*") l.1 l.2 more hstar hw htxt
  have hnb : ¬ (strcasecmp_eq l.1 (str "BYE") = true ∧
      sess.currstate ≠ OPENLI_IMAP_STATE_LOGOUT) := fun h => h.2 (hbye h.1)
  have hstep1 : process_next_imap_state env sess imapsess =
      some (sess, { imapsess with
               next_command_type := OPENLI_IMAP_COMMAND_REPLY_ONGOING,
               reply_start := if imapsess.reply_start = 0 then imapsess.contbufread
                              else imapsess.reply_start,
               next_comm_tag := some (str "*"), next_command_name := none,
               next_comm_start := imapsess.contbufread }, 1) := by
    rw [process_next_imap_state_parsing env sess imapsess h0 h1, if_pos hnone,
      find_next_imap_message_words env sess imapsess h2 h3, hwords]
    simp only [classify_imap_message, if_true, hnb, if_false, hpre, Bool.false_eq_true]
  have hbody : ∀ c ∈ line_body (str "*") l.1 l.2, c ≠ 13 := fun c hc =>
    (line_body_no_nul _ _ _ hstar hw htxt c hc).2
  have hlen : (untagged_line l).length = (line_body (str "*") l.1 l.2).length + 2 := by
    simp [untagged_line]
  have t1 : OPENLI_IMAP_COMMAND_REPLY_ONGOING ≠ OPENLI_IMAP_COMMAND_NONE := by decide
  have t2 : OPENLI_IMAP_COMMAND_REPLY_ONGOING ≠ OPENLI_IMAP_COMMAND_REPLY := by decide
  have hstep2 : process_next_imap_state env sess
      { imapsess with
        next_command_type := OPENLI_IMAP_COMMAND_REPLY_ONGOING,
        reply_start := if imapsess.reply_start = 0 then imapsess.contbufread
                       else imapsess.reply_start,
        next_comm_tag := some (str "*"), next_command_name := none,
        next_comm_start := imapsess.contbufread } =
      some ({ sess with server_octets := sess.server_octets + (untagged_line l).length },
       { imapsess with
         contbufread := imapsess.contbufread + (untagged_line l).length,
         reply_start := if imapsess.reply_start = 0 then imapsess.contbufread
                        else imapsess.reply_start,
         next_comm_tag := some (str "*"), next_command_name := none,
         next_command_type := OPENLI_IMAP_COMMAND_NONE, next_comm_start := 0 }, 1) := by
    rw [process_next_imap_state_parsing env sess _ h0 h1]
    simp only [t1, t2, if_false, if_true]
    rw [find_partial_reply_end_line sess _ (line_body (str "*") l.1 l.2) more hdrop1 hbody,
      hlen]
    simp only [Nat.add_assoc]
  rw [imap_ingestion_loop_next env (n + 1) sess _ imapsess _ hstep1,
    imap_ingestion_loop_next env n sess _ _ _ hstep2]

/-- The function `find_reply_end` on a complete line whose tag is that of the
saved command in slot `j`. -/
theorem find_reply_end_matched (sess : emailsession) (imapsess : imap_session)
    (comm : imap_command) (j : Nat) (body rest rep name : List Nat)
    (hdrop : imapsess.contbuffer.drop imapsess.next_comm_start = body ++ 13 :: 10 :: rest)
    (hbody : ∀ c ∈ body, c ≠ 13)
    (hcopy : (imapsess.contbuffer.drop imapsess.reply_start).take
      (imapsess.next_comm_start + body.length + 2 - imapsess.reply_start) = rep)
    (hfind : find_command_by_tag imapsess.next_comm_tag imapsess.commands = some j)
    (hslot : imapsess.commands[j]? = some comm)
    (hname : comm.imap_command = some name) :
    find_reply_end sess imapsess =
      ({ sess with
         server_octets := sess.server_octets + (body.length + 2),
         currstate :=
           if strcasecmp_eq name (str "LOGOUT") then OPENLI_IMAP_STATE_SESSION_OVER
           else if strcasecmp_eq name (str "AUTHENTICATE") then OPENLI_IMAP_STATE_AUTHENTICATED
           else sess.currstate },
       { imapsess with
         contbufread := imapsess.next_comm_start + body.length + 2,
         commands := imapsess.commands.set j
                       ⟨comm.commbuffer ++ rep, comm.imap_command, comm.tag,
                        imapsess.next_command_name,
                        comm.ccs ++ [⟨comm.commbuffer.length, (comm.commbuffer ++ rep).length, 0⟩],
                        comm.reply_start, (comm.commbuffer ++ rep).length⟩,
         next_comm_tag := none, next_command_name := none,
         next_command_type := OPENLI_IMAP_COMMAND_NONE, next_comm_start := 0,
         reply_start := 0 },
       if strcasecmp_eq name (str "LOGOUT") then 0 else 1) := by
  have hcrlf := find_next_crlf_at imapsess imapsess.next_comm_start body rest hdrop hbody
  have h10 : ¬ ((1 : Int) = 0) := by decide
  have h1lt : ¬ ((1 : Int) < 0) := by decide
  have hsub : imapsess.next_comm_start + body.length + 2 - imapsess.next_comm_start =
      body.length + 2 := by omega
  unfold find_reply_end
  simp only [hcrlf, h10, if_false, save_imap_reply, hfind, hslot, hcopy, add_cc_to_imap_command,
    h1lt, hname, hsub]
  by_cases hl : strcasecmp_eq name (str "LOGOUT") = true
  · simp only [hl, if_true]
  · by_cases ha : strcasecmp_eq name (str "AUTHENTICATE") = true
    · simp only [hl, ha, if_true, if_false, Bool.false_eq_true]
    · simp only [hl, ha, if_false, Bool.false_eq_true]

/-- The function `find_reply_end` on a complete line whose tag is that of no
saved command: the line is counted and skipped, and the function returns 0. -/
theorem find_reply_end_unmatched (sess : emailsession) (imapsess : imap_session)
    (body rest : List Nat)
    (hdrop : imapsess.contbuffer.drop imapsess.next_comm_start = body ++ 13 :: 10 :: rest)
    (hbody : ∀ c ∈ body, c ≠ 13)
    (hfind : find_command_by_tag imapsess.next_comm_tag imapsess.commands = none) :
    find_reply_end sess imapsess =
      ({ sess with server_octets := sess.server_octets + (body.length + 2) },
       { imapsess with
         contbufread := imapsess.next_comm_start + body.length + 2,
         next_comm_tag := none, next_command_name := none,
         next_command_type := OPENLI_IMAP_COMMAND_NONE, next_comm_start := 0,
         reply_start := 0 }, 0) := by
  have hcrlf := find_next_crlf_at imapsess imapsess.next_comm_start body rest hdrop hbody
  have h10 : ¬ ((1 : Int) = 0) := by decide
  have h0lt : ¬ ((0 : Int) < 0) := by decide
  have hsub : imapsess.next_comm_start + body.length + 2 - imapsess.next_comm_start =
      body.length + 2 := by omega
  unfold find_reply_end
  simp only [hcrlf, h10, if_false, save_imap_reply, hfind, h0lt, hsub]

/-- The first call of `process_next_imap_state` on a tagged OK, NO or BAD
line: the line is classified as the end of a reply. -/
theorem process_next_imap_state_tagged (env : imap_env) (sess : emailsession)
    (imapsess : imap_session) (tag word txt more : List Nat)
    (h0 : sess.currstate ≠ OPENLI_IMAP_STATE_INIT)
    (h1 : sess.currstate ≠ OPENLI_IMAP_STATE_SERVER_READY)
    (h2 : sess.currstate ≠ OPENLI_IMAP_STATE_AUTHENTICATING)
    (h3 : sess.currstate ≠ OPENLI_IMAP_STATE_IDLING)
    (hnone : imapsess.next_command_type = OPENLI_IMAP_COMMAND_NONE)
    (hdrop : imapsess.contbuffer.drop imapsess.contbufread = tagged_line tag word txt ++ more)
    (htag : line_word_ok tag) (hstar : tag ≠ str "*") (hwok : line_word_ok word)
    (hword : strcasecmp_eq word (str "OK") = true ∨ strcasecmp_eq word (str "NO") = true ∨
      strcasecmp_eq word (str "BAD") = true)
    (htxt : line_text_ok txt) :
    process_next_imap_state env sess imapsess =
      some (sess, { imapsess with
               next_command_type := OPENLI_IMAP_COMMAND_REPLY,
               reply_start := if imapsess.reply_start = 0 then imapsess.contbufread
                              else imapsess.reply_start,
               next_comm_tag := some tag, next_command_name := some word,
               next_comm_start := imapsess.contbufread }, 1) := by
  have hdrop1 : imapsess.contbuffer.drop imapsess.contbufread =
      line_body tag word txt ++ 13 :: 10 :: more := by
    rw [hdrop]
    simp [tagged_line]
  have hwords : imap_message_words (cstr (imapsess.contbuffer.drop imapsess.contbufread)) =
      some (tag, word) := by
    rw [hdrop1]
    exact imap_message_words_line tag word txt more htag hwok htxt
  rw [process_next_imap_state_parsing env sess imapsess h0 h1, if_pos hnone,
    find_next_imap_message_words env sess imapsess h2 h3, hwords]
  simp only [classify_imap_message, hstar, if_false, hword, if_true]

theorem take_drop_reply (l : List Nat) (a b c : Nat) (h : a + b = c) :
    (l.drop a).take (c - a) = (l.drop a).take b := by
  have : c - a = b := by omega
  rw [this]

/-- The loop of `update_imap_session_by_ingestion` over the untagged lines
`ls` and the tagged line that follows them, for a reply that starts at
`start`: with a saved command of the tag in slot `j` the bytes from `start` to
the end of the tagged line are added to it with one CC record; without one
the lines are counted and skipped. -/
theorem imap_ingestion_loop_reply (env : imap_env) (tag word txt more : List Nat)
    (htag : line_word_ok tag) (hstar : tag ≠ str "*") (hwok : line_word_ok word)
    (hword : strcasecmp_eq word (str "OK") = true ∨ strcasecmp_eq word (str "NO") = true ∨
      strcasecmp_eq word (str "BAD") = true)
    (htxt : line_text_ok txt) (ls : List (List Nat × List Nat)) :
    ∀ (sess : emailsession) (imapsess : imap_session) (fuel start endpos octets : Nat),
    sess.currstate ≠ OPENLI_IMAP_STATE_INIT →
    sess.currstate ≠ OPENLI_IMAP_STATE_SERVER_READY →
    sess.currstate ≠ OPENLI_IMAP_STATE_AUTHENTICATING →
    sess.currstate ≠ OPENLI_IMAP_STATE_IDLING →
    imapsess.next_command_type = OPENLI_IMAP_COMMAND_NONE →
    start = (if imapsess.reply_start = 0 then imapsess.contbufread else imapsess.reply_start) →
    0 < start →
    imapsess.contbuffer.drop imapsess.contbufread =
      untagged_lines ls ++ (tagged_line tag word txt ++ more) →
    endpos = imapsess.contbufread + (untagged_lines ls ++ tagged_line tag word txt).length →
    octets = sess.server_octets + (untagged_lines ls ++ tagged_line tag word txt).length →
    (∀ l ∈ ls, untagged_line_ok sess.currstate l) →
    (∀ (j : Nat) (comm : imap_command) (name : List Nat),
      find_command_by_tag (some tag) imapsess.commands = some j →
      imapsess.commands[j]? = some comm → comm.imap_command = some name →
      imap_ingestion_loop env (fuel + (2 * ls.length + 2)) sess imapsess =
        if strcasecmp_eq name (str "LOGOUT") then
          some ({ sess with server_octets := octets,
                            currstate := OPENLI_IMAP_STATE_SESSION_OVER },
                { imapsess with
                  contbufread := endpos,
                  commands := imapsess.commands.set j
                    ⟨comm.commbuffer ++ (imapsess.contbuffer.drop start).take (endpos - start),
                     comm.imap_command, comm.tag, some word,
                     comm.ccs ++ [⟨comm.commbuffer.length,
                       (comm.commbuffer ++
                         (imapsess.contbuffer.drop start).take (endpos - start)).length, 0⟩],
                     comm.reply_start,
                     (comm.commbuffer ++
                       (imapsess.contbuffer.drop start).take (endpos - start)).length⟩,
                  next_comm_tag := none, next_command_name := none,
                  next_command_type := OPENLI_IMAP_COMMAND_NONE, next_comm_start := 0,
                  reply_start := 0 })
        else
          imap_ingestion_loop env fuel
            { sess with server_octets := octets,
                        currstate := if strcasecmp_eq name (str "AUTHENTICATE") then
                                       OPENLI_IMAP_STATE_AUTHENTICATED else sess.currstate }
            { imapsess with
              contbufread := endpos,
              commands := imapsess.commands.set j
                ⟨comm.commbuffer ++ (imapsess.contbuffer.drop start).take (endpos - start),
                 comm.imap_command, comm.tag, some word,
                 comm.ccs ++ [⟨comm.commbuffer.length,
                   (comm.commbuffer ++
                     (imapsess.contbuffer.drop start).take (endpos - start)).length, 0⟩],
                 comm.reply_start,
                 (comm.commbuffer ++
                   (imapsess.contbuffer.drop start).take (endpos - start)).length⟩,
              next_comm_tag := none, next_command_name := none,
              next_command_type := OPENLI_IMAP_COMMAND_NONE, next_comm_start := 0,
              reply_start := 0 }) ∧
    (find_command_by_tag (some tag) imapsess.commands = none →
      imap_ingestion_loop env (fuel + (2 * ls.length + 2)) sess imapsess =
        some ({ sess with server_octets := octets },
              { imapsess with
                contbufread := endpos,
                next_comm_tag := none, next_command_name := none,
                next_command_type := OPENLI_IMAP_COMMAND_NONE, next_comm_start := 0,
                reply_start := 0 })) := by
  induction ls with
  | nil =>
    intro sess imapsess fuel start endpos octets h0 h1 h2 h3 hnone hstart hpos hdrop hend hoct _
    have hdrop0 : imapsess.contbuffer.drop imapsess.contbufread =
        tagged_line tag word txt ++ more := by
      rw [hdrop]
      rfl
    have hstep1 := process_next_imap_state_tagged env sess imapsess tag word txt more h0 h1 h2 h3
      hnone hdrop0 htag hstar hwok hword htxt
    have hdrop1 : imapsess.contbuffer.drop imapsess.contbufread =
        line_body tag word txt ++ 13 :: 10 :: more := by
      rw [hdrop0]
      simp [tagged_line]
    have hbody : ∀ c ∈ line_body tag word txt, c ≠ 13 := fun c hc =>
      (line_body_no_nul _ _ _ htag hwok htxt c hc).2
    have hlen : (untagged_lines [] ++ tagged_line tag word txt).length =
        (line_body tag word txt).length + 2 := by
      simp [untagged_lines, tagged_line]
    have hend1 : endpos = imapsess.contbufread + (line_body tag word txt).length + 2 := by
      rw [hend, hlen]
      omega
    have hoct1 : octets = sess.server_octets + ((line_body tag word txt).length + 2) := by
      rw [hoct, hlen]
    have t1 : OPENLI_IMAP_COMMAND_REPLY ≠ OPENLI_IMAP_COMMAND_NONE := by decide
    have hdisp : ∀ im : imap_session, im.next_command_type = OPENLI_IMAP_COMMAND_REPLY →
        process_next_imap_state env sess im = some (find_reply_end sess im) := by
      intro im him
      rw [process_next_imap_state_parsing env sess im h0 h1, him]
      simp only [t1, if_false, if_true]
    constructor
    · intro j comm name hfind hslot hname
      have hfre := find_reply_end_matched sess
        { imapsess with
          next_command_type := OPENLI_IMAP_COMMAND_REPLY,
          reply_start := if imapsess.reply_start = 0 then imapsess.contbufread
                         else imapsess.reply_start,
          next_comm_tag := some tag, next_command_name := some word,
          next_comm_start := imapsess.contbufread }
        comm j (line_body tag word txt) more
        ((imapsess.contbuffer.drop start).take (endpos - start)) name hdrop1 hbody
        (by
          show (imapsess.contbuffer.drop (if imapsess.reply_start = 0 then imapsess.contbufread
            else imapsess.reply_start)).take (imapsess.contbufread +
              (line_body tag word txt).length + 2 - (if imapsess.reply_start = 0 then
                imapsess.contbufread else imapsess.reply_start)) = _
          rw [← hstart, ← hend1])
        hfind hslot hname
      rw [← hend1, ← hoct1] at hfre
      have e2 : fuel + (2 * ([] : List (List Nat × List Nat)).length + 2) = (fuel + 1) + 1 := by
        simp
      rw [e2, imap_ingestion_loop_next env (fuel + 1) sess _ imapsess _ hstep1]
      by_cases hl : strcasecmp_eq name (str "LOGOUT") = true
      · simp only [hl, if_true] at hfre ⊢
        rw [imap_ingestion_loop, hdisp _ rfl, hfre]
        simp only [show (0 : Int) ≤ 0 by decide, if_true]
      · simp only [hl, if_false, Bool.false_eq_true] at hfre ⊢
        rw [imap_ingestion_loop, hdisp _ rfl, hfre]
        simp only [show ¬ ((1 : Int) ≤ 0) by decide, if_false]
    · intro hfind
      have hfre := find_reply_end_unmatched sess
        { imapsess with
          next_command_type := OPENLI_IMAP_COMMAND_REPLY,
          reply_start := if imapsess.reply_start = 0 then imapsess.contbufread
                         else imapsess.reply_start,
          next_comm_tag := some tag, next_command_name := some word,
          next_comm_start := imapsess.contbufread }
        (line_body tag word txt) more hdrop1 hbody hfind
      rw [← hend1, ← hoct1] at hfre
      have e2 : fuel + (2 * ([] : List (List Nat × List Nat)).length + 2) = (fuel + 1) + 1 := by
        simp
      rw [e2, imap_ingestion_loop_next env (fuel + 1) sess _ imapsess _ hstep1,
        imap_ingestion_loop, hdisp _ rfl, hfre]
      simp only [show (0 : Int) ≤ 0 by decide, if_true]
  | cons l rest ih =>
    intro sess imapsess fuel start endpos octets h0 h1 h2 h3 hnone hstart hpos hdrop hend hoct
      hls
    have hdropl : imapsess.contbuffer.drop imapsess.contbufread =
        untagged_line l ++ (untagged_lines rest ++ (tagged_line tag word txt ++ more)) := by
      rw [hdrop]
      simp [untagged_lines]
    have hstepu := imap_ingestion_loop_untagged env sess imapsess l _
      (fuel + (2 * rest.length + 2)) h0 h1 h2 h3 hnone hdropl (hls l (List.mem_cons_self _ _))
    have e2 : fuel + (2 * (l :: rest).length + 2) = (fuel + (2 * rest.length + 2)) + 2 := by
      simp only [List.length_cons]
      omega
    have hlen : (untagged_lines (l :: rest) ++ tagged_line tag word txt).length =
        (untagged_line l).length + (untagged_lines rest ++ tagged_line tag word txt).length := by
      simp [untagged_lines]
    have hne : ¬ (start = 0) := by omega
    have hdrop2 : imapsess.contbuffer.drop (imapsess.contbufread + (untagged_line l).length) =
        untagged_lines rest ++ (tagged_line tag word txt ++ more) := by
      rw [← List.drop_drop, hdropl, List.drop_left' rfl]
    have key := ih
      { sess with server_octets := sess.server_octets + (untagged_line l).length }
      { imapsess with
        contbufread := imapsess.contbufread + (untagged_line l).length,
        reply_start := if imapsess.reply_start = 0 then imapsess.contbufread
                       else imapsess.reply_start,
        next_comm_tag := some (str "*"), next_command_name := none,
        next_command_type := OPENLI_IMAP_COMMAND_NONE, next_comm_start := 0 }
      fuel start endpos octets h0 h1 h2 h3 rfl
      (by
        show start = if (if imapsess.reply_start = 0 then imapsess.contbufread
          else imapsess.reply_start) = 0 then _ else
          (if imapsess.reply_start = 0 then imapsess.contbufread else imapsess.reply_start)
        rw [← hstart, if_neg hne])
      hpos hdrop2
      (by
        show endpos = imapsess.contbufread + (untagged_line l).length + _
        rw [hend, hlen]
        omega)
      (by
        show octets = sess.server_octets + (untagged_line l).length + _
        rw [hoct, hlen]
        omega)
      (fun q hq => hls q (List.mem_cons_of_mem _ hq))
    rw [e2, hstepu]
    exact key

/-- Claim C22 as stated fails for an untagged BYE line outside of the LOGOUT
state: after the saved command `a1 SELECT inbox` the server sends
`* BYE shutting down` and then `a1 OK done`. The BYE ends the session at once
(SESSION_OVER) and is never consumed, so the tagged line is not parsed, in
this ingestion or in a later one: the command keeps its single CC record and
has no reply, and no server octet is counted. -/
theorem untagged_bye_blocks_reply :
    bye_then_ok = str "* BYE shutting down\r\na1 OK done\r\n" ∧
    saved_command (some (session_select_sent, 0)) 0 =
      some ⟨str "a1 SELECT inbox\r\n", some (str "SELECT"), some (str "a1"), none, [⟨0, 17, 1⟩],
        17, 0⟩ ∧
    (update_imap_session_by_ingestion env_libb64 7 session_select_sent bye_then_ok).map
      (fun r => (r.1.currstate, r.1.server_octets, r.2)) =
      some (OPENLI_IMAP_STATE_SESSION_OVER, 17, 1) ∧
    saved_command (update_imap_session_by_ingestion env_libb64 7 session_select_sent
        bye_then_ok) 0 =
      some ⟨str "a1 SELECT inbox\r\n", some (str "SELECT"), some (str "a1"), none, [⟨0, 17, 1⟩],
        17, 0⟩ ∧
    (ingest_captures env_libb64 7 session_select_sent [bye_then_ok, str "a2 NOOP\r\n"]).map
      (fun s => (s.currstate, s.server_octets)) = some (OPENLI_IMAP_STATE_SESSION_OVER, 17) ∧
    saved_command
      ((ingest_captures env_libb64 7 session_select_sent [bye_then_ok, str "a2 NOOP\r\n"]).map
        (fun s => (s, 1))) 0 =
      some ⟨str "a1 SELECT inbox\r\n", some (str "SELECT"), some (str "a1"), none, [⟨0, 17, 1⟩],
        17, 0⟩ := by
  refine ⟨?_, ?_, ?_, ?_, ?_, ?_⟩ <;> decide

/-- Claim C22 (as amended): let the tracker, in a state in which it parses
messages, with no message pending and no reply begun, stand behind at least
one consumed byte, and let the unread bytes be `n ≥ 0` untagged lines (none of them a
PREAUTH line, and a BYE line only in the LOGOUT state) followed by a line
`<tag> <word> ...` with the word OK, NO or BAD. After `2n + 2` rounds of the
loop of `update_imap_session_by_ingestion` the lines are consumed and counted
as server octets and: if the tag is that of the saved command in slot `j`,
the bytes of all the lines are appended to the buffer of that command with
exactly one CC record of direction 0 that covers them, the word is recorded
as the command's reply, no other slot is changed, and the session state
changes only for the reply to LOGOUT (SESSION_OVER, which ends the loop) and
to AUTHENTICATE (AUTHENTICATED); if the tag is that of no saved command, the
loop ends with the saved commands and the session state as they were. -/
theorem tagged_reply_completes (env : imap_env) (sess : emailsession)
    (imapsess : imap_session) (ls : List (List Nat × List Nat))
    (tag word txt more : List Nat) (fuel : Nat)
    (h0 : sess.currstate ≠ OPENLI_IMAP_STATE_INIT)
    (h1 : sess.currstate ≠ OPENLI_IMAP_STATE_SERVER_READY)
    (h2 : sess.currstate ≠ OPENLI_IMAP_STATE_AUTHENTICATING)
    (h3 : sess.currstate ≠ OPENLI_IMAP_STATE_IDLING)
    (hnone : imapsess.next_command_type = OPENLI_IMAP_COMMAND_NONE)
    (hrs : imapsess.reply_start = 0) (hpos : 0 < imapsess.contbufread)
    (hdrop : imapsess.contbuffer.drop imapsess.contbufread =
      untagged_lines ls ++ (tagged_line tag word txt ++ more))
    (hls : ∀ l ∈ ls, untagged_line_ok sess.currstate l)
    (htag : line_word_ok tag) (hstar : tag ≠ str "*") (hwok : line_word_ok word)
    (hword : strcasecmp_eq word (str "OK") = true ∨ strcasecmp_eq word (str "NO") = true ∨
      strcasecmp_eq word (str "BAD") = true)
    (htxt : line_text_ok txt) :
    (∀ (j : Nat) (comm : imap_command) (name : List Nat),
      find_command_by_tag (some tag) imapsess.commands = some j →
      imapsess.commands[j]? = some comm → comm.imap_command = some name →
      imap_ingestion_loop env (fuel + (2 * ls.length + 2)) sess imapsess =
        if strcasecmp_eq name (str "LOGOUT") then
          some ({ sess with
                  server_octets := sess.server_octets +
                    (untagged_lines ls ++ tagged_line tag word txt).length,
                  currstate := OPENLI_IMAP_STATE_SESSION_OVER },
                { imapsess with
                  contbufread := imapsess.contbufread +
                    (untagged_lines ls ++ tagged_line tag word txt).length,
                  commands := imapsess.commands.set j
                    ⟨comm.commbuffer ++ (untagged_lines ls ++ tagged_line tag word txt),
                     comm.imap_command, comm.tag, some word,
                     comm.ccs ++ [⟨comm.commbuffer.length,
                       (comm.commbuffer ++
                         (untagged_lines ls ++ tagged_line tag word txt)).length, 0⟩],
                     comm.reply_start,
                     (comm.commbuffer ++
                       (untagged_lines ls ++ tagged_line tag word txt)).length⟩,
                  next_comm_tag := none, next_command_name := none,
                  next_command_type := OPENLI_IMAP_COMMAND_NONE, next_comm_start := 0,
                  reply_start := 0 })
        else
          imap_ingestion_loop env fuel
            { sess with
              server_octets := sess.server_octets +
                (untagged_lines ls ++ tagged_line tag word txt).length,
              currstate := if strcasecmp_eq name (str "AUTHENTICATE") then
                             OPENLI_IMAP_STATE_AUTHENTICATED else sess.currstate }
            { imapsess with
              contbufread := imapsess.contbufread +
                (untagged_lines ls ++ tagged_line tag word txt).length,
              commands := imapsess.commands.set j
                ⟨comm.commbuffer ++ (untagged_lines ls ++ tagged_line tag word txt),
                 comm.imap_command, comm.tag, some word,
                 comm.ccs ++ [⟨comm.commbuffer.length,
                   (comm.commbuffer ++
                     (untagged_lines ls ++ tagged_line tag word txt)).length, 0⟩],
                 comm.reply_start,
                 (comm.commbuffer ++
                   (untagged_lines ls ++ tagged_line tag word txt)).length⟩,
              next_comm_tag := none, next_command_name := none,
              next_command_type := OPENLI_IMAP_COMMAND_NONE, next_comm_start := 0,
              reply_start := 0 }) ∧
    (find_command_by_tag (some tag) imapsess.commands = none →
      imap_ingestion_loop env (fuel + (2 * ls.length + 2)) sess imapsess =
        some ({ sess with
                server_octets := sess.server_octets +
                  (untagged_lines ls ++ tagged_line tag word txt).length },
              { imapsess with
                contbufread := imapsess.contbufread +
                  (untagged_lines ls ++ tagged_line tag word txt).length,
                next_comm_tag := none, next_command_name := none,
                next_command_type := OPENLI_IMAP_COMMAND_NONE, next_comm_start := 0,
                reply_start := 0 })) := by
  have hstart : imapsess.contbufread =
      (if imapsess.reply_start = 0 then imapsess.contbufread else imapsess.reply_start) := by
    rw [hrs, if_pos rfl]
  have hrep : (imapsess.contbuffer.drop imapsess.contbufread).take
      (imapsess.contbufread + (untagged_lines ls ++ tagged_line tag word txt).length -
        imapsess.contbufread) = untagged_lines ls ++ tagged_line tag word txt := by
    have e : imapsess.contbufread + (untagged_lines ls ++ tagged_line tag word txt).length -
        imapsess.contbufread = (untagged_lines ls ++ tagged_line tag word txt).length := by
      omega
    rw [e, hdrop, ← List.append_assoc, List.take_left]
  have G := imap_ingestion_loop_reply env tag word txt more htag hstar hwok hword htxt ls sess
    imapsess fuel imapsess.contbufread
    (imapsess.contbufread + (untagged_lines ls ++ tagged_line tag word txt).length)
    (sess.server_octets + (untagged_lines ls ++ tagged_line tag word txt).length)
    h0 h1 h2 h3 hnone hstart hpos hdrop rfl rfl hls
  simp only [hrep] at G
  exact G

theorem tagged_reply_completes_witness :
    update_imap_session_by_ingestion env_libb64 6 session_pre_auth (str "a1 SELECT inbox\r\n") =
      some (session_select_sent, 0) ∧
    session_select_sent.currstate = OPENLI_IMAP_STATE_PRE_AUTH ∧
    0 < (append_content_to_imap_buffer select_sent select_reply).contbufread ∧
    (append_content_to_imap_buffer select_sent select_reply).contbuffer.drop
        (append_content_to_imap_buffer select_sent select_reply).contbufread =
      untagged_lines [(str "3", str " EXISTS"), (str "0", str " RECENT")] ++
        (tagged_line (str "a1") (str "OK") (str " SELECT completed") ++ []) ∧
    find_command_by_tag (some (str "a1"))
      (append_content_to_imap_buffer select_sent select_reply).commands = some 0 ∧
    (imap_ingestion_loop env_libb64 7 session_select_sent
        (append_content_to_imap_buffer select_sent select_reply)).map
      (fun r => (r.1.server_octets, r.2.commands[0]?.map (fun c => (c.ccs, c.imap_reply)))) =
      some (17 + 48, some ([⟨0, 17, 1⟩, ⟨17, 65, 0⟩], some (str "OK"))) := by
  have w := (tagged_reply_completes env_libb64 session_select_sent
    (append_content_to_imap_buffer select_sent select_reply)
    [(str "3", str " EXISTS"), (str "0", str " RECENT")] (str "a1") (str "OK")
    (str " SELECT completed") [] 1 (by decide) (by decide) (by decide) (by decide) rfl rfl
    (by decide) (by decide) (by decide) (by decide) (by decide) (by decide) (by decide)
    (by decide)).1 0 _ (str "SELECT") (by decide) rfl rfl
  refine ⟨by decide, rfl, by decide, by decide, by decide, ?_⟩
  rw [show (7 : Nat) = 1 + (2 * [(str "3", str " EXISTS"), (str "0", str " RECENT")].length + 2)
    from rfl, w]
  decide

end OpenLI

